import Mathlib

/-!
# SeaMAX for Linux: fieldbus protocol core

A shallow embedding of `seamaxlin.c` (request builder, response reader and the
public read/write entry points) together with the properties proved about it.

Conventions of the embedding.

* `unsigned char` and `unsigned short` values are natural numbers; every store
  into such a variable is truncated explicitly (`% 256`, `% 65536`).
* A C byte array reached through a pointer is a map from index to byte (`Buf`).
  A `NULL` pointer is `none`.
* The operating system behind `in->hDevice` is the record `World`: it logs the
  buffers handed to `write`/`send` and decides what each `read`/`recv` returns.
* A call that does not return (the busy-wait on `in->mutex` with nobody to
  clear the flag, a read through a `NULL` pointer) is `none`.
* Loops are recursive functions on the number of iterations left; the serial
  receive loop recurses on the schedule of its `read` calls.
-/

namespace SeaMax

/-! ## Byte buffers -/

/-- A byte array addressed through a pointer: index to byte. -/
abbrev Buf := Nat → Nat

/-- The store `b[i] = v`. -/
def Buf.set (b : Buf) (i v : Nat) : Buf := fun j => if j = i then v else b j

/-- The first `n` bytes of a buffer, `b[0..n)`. -/
def Buf.toList (b : Buf) (n : Nat) : List Nat := (List.range n).map b

/-- A buffer holding the bytes of `l` from index 0 and zero beyond them. -/
def Buf.ofList (l : List Nat) : Buf := fun j => l.getD j 0

/-! ## `calc_crc` (seamaxlin.c, lines 41-64) -/

/-- Lines 51-57: the loop `for (j = 0; j < 8; j++)`; the first argument is the
number of iterations still to run, `crc` is an `unsigned short`. -/
def crc_bits : Nat → Nat → Nat
  | 0, crc => crc
  | k + 1, crc =>
    let carry_flag := (crc &&& 0x0001) % 256
    let crc := (crc >>> 1) % 65536
    let crc := if carry_flag = 0x1 then (crc ^^^ 0xA001) % 65536 else crc
    crc_bits k crc

/-- Lines 47-58: the loop `for (i = 0; i < n; i++)`; the first argument is the
number of iterations still to run (`n - i`). -/
def crc_bytes (data : Buf) : Nat → Nat → Nat → Nat
  | 0, _, crc => crc
  | k + 1, i, crc =>
    let crc := (crc ^^^ data i) % 65536
    let crc := crc_bits 8 crc
    crc_bytes data k (i + 1) crc

/-- Lines 41-64: compute the CRC of `data[0..n)` and store it, low byte first,
in `data[n]` and `data[n+1]`. -/
def calc_crc (n : Nat) (data : Buf) : Buf :=
  let crc := crc_bytes data n 0 0xFFFF
  let data := data.set n ((crc &&& 0xFF) % 256)
  data.set (n + 1) (((crc >>> 8) &&& 0xFF) % 256)

/-! ## Reference CRC-16 (spec section 4.1)

"CRC is the standard fieldbus CRC-16 (polynomial 0xA001, init 0xFFFF,
reflected, no final xor)": written from these words as a fold over the
message, independently of the code above. -/

/-- One step of the reflected shift register: shift right, and xor the
polynomial in when the bit shifted out was set. -/
def crc16Shift (c : Nat) : Nat :=
  if c % 2 = 1 then (c / 2) ^^^ 0xA001 else c / 2

/-- Feed one message byte: xor it into the low byte and shift eight times. -/
def crc16Byte (c b : Nat) : Nat := crc16Shift^[8] (c ^^^ b)

/-- The reference CRC-16 of a message: initial value 0xFFFF, no final xor. -/
def crc16 (B : List Nat) : Nat := B.foldl crc16Byte 0xFFFF

/-! ## Types of `seamaxlin.h` -/

/-- The connection type `seaio_mode_t` (seamaxlin.h, lines 168-174). -/
inductive seaio_mode_t
  | NO_CONNECT
  | MODBUS_RTU
  | MODBUS_TCP
  | FTDI_DIRECT
  deriving DecidableEq, Repr

/-- The read/write selector `seaio_type_t` (seamaxlin.h, lines 217-225). -/
inductive seaio_type_t
  | COILS
  | D_INPUTS
  | HOLDINGREG
  | INPUTREG
  | SETUPREG
  | SEAMAXPIO
  deriving DecidableEq, Repr

/-- The integer value of a `seaio_type_t` enumerator. -/
def seaio_type_t.val : seaio_type_t → Nat
  | .COILS => 1
  | .D_INPUTS => 2
  | .HOLDINGREG => 3
  | .INPUTREG => 4
  | .SETUPREG => 5
  | seaio_type_t.SEAMAXPIO => 6

/-- The private record `seaMaxModule` (seamaxlin.h, lines 468-479). The three
pointer fields are kept as "is not NULL". -/
structure seaMaxModule where
  throttle : Int
  commMode : seaio_mode_t
  hDevice : Int
  mutex : Int
  initalConfig : Bool
  libftdi : Bool
  ftdic : Bool
  deviceType : Int
  deriving DecidableEq, Repr

/-! Error numbers of `<errno.h>` (Linux values). -/

def EPERM : Int := 1
def EBADF : Int := 9
def ENOMEM : Int := 12
def EFAULT : Int := 14
def ENODEV : Int := 19
def EINVAL : Int := 22

/-! ## The environment of a session -/

/-- Everything outside the session record that the protocol code reads or
changes.

* `tcp_transaction`: the file-scope counter of seamaxlin.c, line 36.
* `sent`: the buffers handed to `write`/`send` on `in->hDevice`, oldest first.
* `wres`: what the next calls of `write`/`send` return; once the list is
  used up every call reports the whole buffer as written.
* `rx`: the bytes the device delivers, in order.
* `sched`: for the next calls of `read`/`recv`, how many bytes are available
  at most at that moment; `0`, or a used-up list, is a call that returns
  without data (time-out or error).
* `stack`: the indeterminate initial contents of a local array. -/
structure World where
  tcp_transaction : Nat
  sent : List (List Nat)
  wres : List Int
  rx : List Nat
  sched : List Nat
  stack : Buf

/-- The calls `write(fd, buff, length)` and `send(fd, buff, length, 0)`: the
buffer is logged and the return value comes from `wres`. -/
def sys_write (w : World) (bytes : List Nat) : Int × World :=
  match w.wres with
  | [] => ((bytes.length : Int), { w with sent := w.sent ++ [bytes] })
  | r :: rest => (r, { w with sent := w.sent ++ [bytes], wres := rest })

/-- The call `recv(fd, buffer, count, 0)`: the bytes received (their number is
the return value) and the environment afterwards. -/
def sys_recv (w : World) (count : Nat) : List Nat × World :=
  match w.sched with
  | [] => ([], w)
  | c :: rest =>
    let incoming := min (min count c) w.rx.length
    (w.rx.take incoming, { w with rx := w.rx.drop incoming, sched := rest })

/-- Store the bytes of `l` at `b[off], b[off+1], ...`: what `read`/`recv` do
to the buffer they are given. -/
def Buf.blit (b : Buf) (off : Nat) (l : List Nat) : Buf :=
  fun j => if off ≤ j ∧ j < off + l.length then l.getD (j - off) 0 else b j

/-- Conversion of an `int` to `unsigned char`. -/
def u8 (x : Int) : Nat := (x % 256).toNat

/-- What a public call leaves behind: its return value, the session record,
the environment and the caller's buffer. -/
structure Result where
  ret : Int
  module : Option seaMaxModule
  world : World
  data : Option Buf

/-! ## `makeRequest` (seamaxlin.c, lines 159-267) -/

/-- The local variables of `makeRequest`. -/
structure Req where
  buff : Buf
  i : Nat
  length : Nat
  dataSize : Nat

/-- Lines 223-233: the loop `for (i = 0; i < dataSize; i++)` that copies the
payload; the first argument is the number of iterations still to run. `none`
is the `return -EINVAL` taken when `length` reaches 255. -/
def data_loop (data : Buf) : Nat → Nat → Buf → Nat → Option (Buf × Nat)
  | 0, _, buff, length => some (buff, length)
  | k + 1, i, buff, length =>
    let buff := buff.set length (data i)
    let length := length + 1
    if length = 255 then none
    else data_loop data k (i + 1) buff length

/-- Lines 169-221: header, slave, function code, start, quantity and byte
count are stored in `buff` and `dataSize` is chosen. `tcp` is the test
`in->commMode == MODBUS_TCP` and `temp` the transaction number taken at line
172. -/
def build_frame (tcp : Bool) (temp : Nat) (stack : Buf)
    (slaveId funct start quan : Nat) : Req :=
  let r : Req := { buff := stack, i := 0, length := 0, dataSize := 0 }
  -- lines 170-179
  let r : Req :=
    if tcp then
      let buff := r.buff.set 0 ((temp >>> 8) % 256)
      let buff := buff.set 1 ((temp &&& 0x00FF) % 256)
      let buff := buff.set 2 0
      let buff := buff.set 3 0
      { r with buff := buff, i := 6, length := r.length + 6 }
    else r
  -- lines 181-183
  let r : Req :=
    { r with buff := (r.buff.set r.i slaveId).set (r.i + 1) funct, length := r.length + 2 }
  -- lines 187-199
  let r : Req :=
    if funct > 0 ∧ funct < 0x40 then
      let buff := r.buff.set (r.i + 2) ((start >>> 8) % 256)
      let buff := buff.set (r.i + 3) ((start &&& 0x00FF) % 256)
      let r : Req := { r with buff := buff, length := r.length + 2 }
      if funct ≠ 0x06 then
        let buff := r.buff.set (r.i + 4) ((quan >>> 8) % 256)
        let buff := buff.set (r.i + 5) ((quan &&& 0x00FF) % 256)
        { r with buff := buff, length := r.length + 2 }
      else r
    else r
  -- lines 202-207
  let r : Req :=
    if funct = 0x0F then
      let buff := r.buff.set (r.i + 6) ((quan / 8) % 256)
      let buff :=
        if quan % 8 ≠ 0 then buff.set (r.i + 6) ((buff (r.i + 6) + 1) % 256) else buff
      { r with buff := buff, length := r.length + 1 }
    else r
  -- lines 210-214
  let r : Req :=
    if funct = 0x10 then
      { r with buff := r.buff.set (r.i + 6) ((quan * 2) % 256), length := r.length + 1 }
    else r
  -- lines 217-221
  let r : Req := { r with dataSize := if funct = 0x06 ∨ funct = 0x44 then 2 else r.dataSize }
  let r : Req :=
    { r with dataSize := if funct = 0x0F ∨ funct = 0x10 then r.buff (r.i + 6) else r.dataSize }
  let r : Req := { r with dataSize := if funct = 0x42 then 12 else r.dataSize }
  let r : Req := { r with dataSize := if funct = 0x46 ∨ funct = 0x47 then 3 else r.dataSize }
  let r : Req := { r with dataSize := if funct = 0x64 then 5 else r.dataSize }
  r

/-- Lines 159-267. `none`: the call does not return, because it waits on a
flag nobody clears (line 166) or reads payload bytes through a `NULL` pointer
(line 225). -/
def makeRequest (in_ : seaMaxModule) (w : World) (slaveId funct start quan : Nat)
    (data : Option Buf) : Option (Int × seaMaxModule × World) :=
  -- lines 166-167
  if in_.mutex ≠ 0 then none
  else
    let in_ := { in_ with mutex := 1 }
    -- lines 170-172: the transaction number is consumed on TCP only
    let tcp : Bool := decide (in_.commMode = seaio_mode_t.MODBUS_TCP)
    let temp := w.tcp_transaction
    let w := if tcp then { w with tcp_transaction := temp + 1 } else w
    let r := build_frame tcp temp w.stack slaveId funct start quan
    -- lines 223-233
    if r.dataSize > 0 ∧ data.isNone then none
    else
      match data_loop (data.getD (fun _ => 0)) r.dataSize 0 r.buff r.length with
      | none => some (-EINVAL, { in_ with mutex := 0 }, w)
      | some (buff, length) =>
        if in_.commMode = seaio_mode_t.MODBUS_RTU then
          -- lines 238-248
          let buff := calc_crc length buff
          let length := length + 2
          let (written, w) := sys_write w (buff.toList length)
          if written ≠ (length : Int) then some (-EBADF, { in_ with mutex := 0 }, w)
          else some ((length : Int), { in_ with mutex := 0 }, w)
        else
          -- lines 252-262
          let buff := buff.set 4 (u8 (((length : Int) - 6) >>> (8 : Nat)))
          let buff := buff.set 5 (u8 ((length : Int) - 6))
          let (written, w) := sys_write w (buff.toList length)
          if written ≠ (length : Int) then some (-EBADF, { in_ with mutex := 0 }, w)
          else some ((length : Int), { in_ with mutex := 0 }, w)

/-! ## `getResponse` (seamaxlin.c, lines 272-380) -/

/-- Lines 288-309: the loop `while (length < expected + 4)` of the serial
path, by recursion on the schedule of the `read` calls. The result is the
error returned from inside the loop, if any, then `buffer`, `length` and what
is left of the schedule and of the device's bytes. -/
def read_loop (expected : Nat) :
    List Nat → List Nat → Buf → Nat → Option Int × Buf × Nat × List Nat × List Nat
  | [], rx, buffer, length =>
    if length < expected + 4 then (some (-EFAULT), buffer, length, [], rx)
    else (none, buffer, length, [], rx)
  | c :: sched, rx, buffer, length =>
    if length < expected + 4 then
      let incoming := min (min (expected + 4 - length) c) rx.length
      let buffer := buffer.blit length (rx.take incoming)
      let rx := rx.drop incoming
      if incoming ≤ 0 then (some (-EFAULT), buffer, length, sched, rx)
      else
        let length := length + incoming
        if length ≥ 220 then (some (-ENOMEM), buffer, length, sched, rx)
        else read_loop expected sched rx buffer length
    else (none, buffer, length, c :: sched, rx)

/-- Lines 372-376: the loop `for (j = 0; j < length; j++)` that copies the
payload to the caller; the first argument is the number of iterations still
to run. -/
def copy_loop (buffer : Buf) : Nat → Nat → Nat → Buf → Buf
  | 0, _, _, data => data
  | k + 1, j, i, data => copy_loop buffer k (j + 1) (i + 1) (data.set j (buffer i))

/-- Lines 338-379: the part of `getResponse` common to both transports, run on
the received `buffer` with the offset `i` and the remaining `length`. -/
def decode_response (in_ : seaMaxModule) (funct : Nat) (data : Buf) (buffer : Buf)
    (i : Nat) (length : Int) : Int × seaMaxModule × Buf :=
  -- lines 339-345
  if buffer i ≠ funct then
    (-EFAULT, { in_ with mutex := 0 }, data.set 0 (buffer (i + 1)))
  -- lines 348-352
  else if funct = 0x06 ∨ funct = 0x10 ∨ funct = 0x0F ∨ funct = 0x42 ∨ funct = 0x64 then
    (0, { in_ with mutex := 0 }, data)
  else
    -- lines 355-369
    let (i, length) := if funct < 0x05 then (i + 2, length - 2) else (i, length)
    let (i, length) := if funct > 0x40 then (i + 1, length - 1) else (i, length)
    let (i, length) := if funct = 0x41 then (i + 3, length - 3) else (i, length)
    -- lines 372-379
    (length, { in_ with mutex := 0 }, copy_loop buffer length.toNat 0 i data)

/-- Lines 272-380. -/
def getResponse (in_ : seaMaxModule) (w : World) (funct : Nat) (data : Buf)
    (expected : Nat) : Int × seaMaxModule × World × Buf :=
  -- lines 279-283
  if expected > 256 then (-ENOMEM, in_, w, data)
  else if in_.commMode = seaio_mode_t.MODBUS_RTU then
    -- lines 288-309
    match read_loop expected w.sched w.rx w.stack 0 with
    | (some err, _, _, sched, rx) =>
      (err, { in_ with mutex := 0 }, { w with sched := sched, rx := rx }, data)
    | (none, buffer, length, sched, rx) =>
      let w := { w with sched := sched, rx := rx }
      -- lines 311-316
      if length < 1 then (-ENODEV, { in_ with mutex := 0 }, w, data)
      else
        -- lines 318-322
        let (ret, in_, data) := decode_response in_ funct data buffer 1 ((length : Int) - 1 - 2)
        (ret, in_, w, data)
  else
    -- lines 327-335
    let (bytes, w) := sys_recv w 255
    let buffer := w.stack.blit 0 bytes
    let length : Int := bytes.length
    if length < 1 then (-ENODEV, in_, w, data)
    else
      let (ret, in_, data) := decode_response in_ funct data buffer 7 (length - 7)
      (ret, in_, w, data)

/-! ## `SeaMaxLinRead` (lines 668-716) and `SeaMaxLinWrite` (lines 740-802) -/

/-- Line 677: the function codes of the read types. -/
def read_funct : List Nat := [0x01, 0x02, 0x03, 0x04, 0x45, 0x41]

/-- Line 748: the function codes of the write types, `0x00` for a type that
cannot be written. -/
def write_funct : List Nat := [0x0F, 0x00, 0x06, 0x00, 0x00, 0x42]

/-- Lines 692-712: the payload length `SeaMaxLinRead` waits for. -/
def read_expected (funct range : Nat) : Nat :=
  if funct = 0x01 ∨ funct = 0x02 then
    let expected := 1 + range / 8
    if range % 8 ≠ 0 then expected + 1 else expected
  else if funct = 0x03 ∨ funct = 0x04 then 1 + range * 2
  else if funct = 0x45 then 5
  else if funct = 0x41 then 15
  else 1

/-- Lines 773-796: the pair `(length, expected)` of `SeaMaxLinWrite`; the
`switch` is on `funct[type - 1]`. -/
def write_lengths (funct range : Nat) : Int × Nat :=
  if funct = 0x06 then (2, 4)
  else if funct = 0x10 then (2, 4)
  else if funct = 0x0F then
    let length : Int := range / 8
    (if range % 8 ≠ 0 then length + 1 else length, 4)
  else if funct = 0x42 then (12, 12)
  else (1, 1)

/-- Lines 668-716. -/
def SeaMaxLinRead (SeaMaxPointer : Option seaMaxModule) (w : World) (slaveId : Nat)
    (type : seaio_type_t) (starting_address range : Nat) (data : Option Buf) :
    Option Result :=
  match SeaMaxPointer with
  | none => some ⟨-EBADF, SeaMaxPointer, w, data⟩
  | some in_ =>
    match data with
    | none => some ⟨-EINVAL, SeaMaxPointer, w, data⟩
    | some d =>
      if in_.commMode = seaio_mode_t.NO_CONNECT then some ⟨-EBADF, SeaMaxPointer, w, data⟩
      else
        -- line 685, on an `unsigned short`
        let starting_address := (starting_address + 65535) % 65536
        let funct := read_funct.getD (type.val - 1) 0
        match makeRequest in_ w slaveId funct starting_address range none with
        | none => none
        | some (error, in_, w) =>
          if error < 0 then some ⟨error, some in_, w, data⟩
          else
            let expected := read_expected funct range
            let (ret, in_, w, d) := getResponse in_ w funct d expected
            some ⟨ret, some in_, w, some d⟩

/-- Lines 740-802. -/
def SeaMaxLinWrite (SeaMaxPointer : Option seaMaxModule) (w : World) (slaveId : Nat)
    (type : seaio_type_t) (starting_address range : Nat) (data : Option Buf) :
    Option Result :=
  let fcode := write_funct.getD (type.val - 1) 0
  if write_funct.getD (type.val - 1) 0 = 0x00 then some ⟨-EINVAL, SeaMaxPointer, w, data⟩
  else
    match SeaMaxPointer with
    | none => some ⟨-EBADF, SeaMaxPointer, w, data⟩
    | some in_ =>
      match data with
      | none => some ⟨-EINVAL, SeaMaxPointer, w, data⟩
      | some d =>
        if in_.commMode = seaio_mode_t.NO_CONNECT then some ⟨-EBADF, SeaMaxPointer, w, data⟩
        else
          -- line 758, on an `unsigned short`
          let starting_address := (starting_address + 65535) % 65536
          -- lines 761-764
          let fcode := if fcode = 0x06 ∧ range > 1 then 0x10 else fcode
          match makeRequest in_ w slaveId fcode starting_address range (some d) with
          | none => none
          | some (error, in_, w) =>
            if error < 0 then some ⟨error, some in_, w, data⟩
            else
              let (length, expected) := write_lengths (write_funct.getD (type.val - 1) 0) range
              let (error, in_, w, d) := getResponse in_ w fcode d expected
              if error < 0 then some ⟨error, some in_, w, some d⟩
              else some ⟨length, some in_, w, some d⟩

/-- The result record made of what `getResponse` returns. -/
def response_result (g : Int × seaMaxModule × World × Buf) : Result :=
  ⟨g.1, some g.2.1, g.2.2.1, some g.2.2.2⟩

/-! ## Sessions and devices of the scenarios -/

/-- An open serial session as `SeaMaxLinCreate` and `openRTU` leave it. -/
def rtuSession : seaMaxModule :=
  { throttle := 1, commMode := .MODBUS_RTU, hDevice := 3, mutex := 0, initalConfig := true,
    libftdi := false, ftdic := false, deviceType := 0 }

/-- An open TCP session as `SeaMaxLinCreate` and `openTCP` leave it. -/
def tcpSession : seaMaxModule :=
  { throttle := 1, commMode := .MODBUS_TCP, hDevice := 3, mutex := 0, initalConfig := false,
    libftdi := false, ftdic := false, deviceType := 0 }

/-- A fresh environment (first call, nothing sent yet, every write accepted)
whose device answers with the bytes `rx`, handed over by the `read`/`recv`
calls in chunks of at most `sched`. -/
def deviceSays (rx : List Nat) (sched : List Nat) : World :=
  { tcp_transaction := 0, sent := [], wres := [], rx := rx, sched := sched, stack := fun _ => 0 }

/-- The number of bytes `decode_response` skips after the function code
(lines 355-369). -/
def response_skip (funct : Nat) : Nat :=
  (if funct < 0x05 then 2 else 0) + (if funct > 0x40 then 1 else 0) +
    (if funct = 0x41 then 3 else 0)

/-! ## Closed forms of the request frames

The lists below spell out, byte by byte, what `makeRequest` is shown to store
in its frame buffer; they are used to state the frames that reach the
transport. -/

/-- The start, quantity and byte-count bytes that follow the function code. -/
def request_fields (funct start quan : Nat) : List Nat :=
  (if 0 < funct ∧ funct < 0x40 then
    [start / 256 % 256, start % 256] ++
      (if funct ≠ 0x06 then [quan / 256 % 256, quan % 256] else [])
   else []) ++
  (if funct = 0x0F then [(quan / 8 % 256 + (if quan % 8 ≠ 0 then 1 else 0)) % 256] else []) ++
  (if funct = 0x10 then [quan * 2 % 256] else [])

/-- The number of payload bytes copied from the caller's buffer. -/
def request_dataSize (funct quan : Nat) : Nat :=
  if funct = 0x64 then 5
  else if funct = 0x46 ∨ funct = 0x47 then 3
  else if funct = 0x42 then 12
  else if funct = 0x0F then (quan / 8 % 256 + (if quan % 8 ≠ 0 then 1 else 0)) % 256
  else if funct = 0x10 then quan * 2 % 256
  else if funct = 0x06 ∨ funct = 0x44 then 2
  else 0

/-- Slave, function code, fields and payload: the frame without transport
header and without CRC. -/
def request_pdu (slaveId funct start quan : Nat) (data : Option Buf) : List Nat :=
  [slaveId, funct] ++ request_fields funct start quan ++
    (data.getD (fun _ => 0)).toList (request_dataSize funct quan)

/-- The serial frame: the request followed by its CRC, low byte first. -/
def rtu_frame (slaveId funct start quan : Nat) (data : Option Buf) : List Nat :=
  request_pdu slaveId funct start quan data ++
    [crc16 (request_pdu slaveId funct start quan data) % 256,
     crc16 (request_pdu slaveId funct start quan data) / 256]

/-- The TCP frame: transaction number, two zero bytes, length, request. -/
def tcp_frame (temp slaveId funct start quan : Nat) (data : Option Buf) : List Nat :=
  [temp / 256 % 256, temp % 256, 0, 0,
   (request_pdu slaveId funct start quan data).length / 256 % 256,
   (request_pdu slaveId funct start quan data).length % 256] ++
    request_pdu slaveId funct start quan data

/-! ## Sequences of requests -/

/-- A request as `makeRequest` receives it. -/
structure Request where
  slaveId : Nat
  funct : Nat
  start : Nat
  quan : Nat
  data : Option Buf

/-- The calls of `makeRequest` for the requests of a list, one after the
other on the same session, each on the environment the one before left; the
return values are dropped. -/
def run_requests : seaMaxModule → World → List Request → Option World
  | _, w, [] => some w
  | in_, w, r :: rs =>
    match makeRequest in_ w r.slaveId r.funct r.start r.quan r.data with
    | none => none
    | some (_, in_, w) => run_requests in_ w rs

/-- The TCP frames of the requests of a list that fit their frame buffer, the
first request carrying the transaction number `c`, every request, sent or
not, taking the next number. -/
def tcp_frames : Nat → List Request → List (List Nat)
  | _, [] => []
  | c, r :: rs =>
    (if 6 + (request_pdu r.slaveId r.funct r.start r.quan r.data).length < 255
      then [tcp_frame c r.slaveId r.funct r.start r.quan r.data] else []) ++
    tcp_frames (c + 1) rs

/-! ## `SeaMaxLinIoctl` (seamaxlin.c, lines 822-960) and `GetExtendedADDAConfig` (lines 385-488) -/

/-- The selector `IOCTL_t` (seamaxlin.h, lines 234-245). -/
inductive IOCTL_t
  | IOCTL_READ_COMM_PARAM
  | IOCTL_SET_ADDRESS
  | IOCTL_SET_COMM_PARAM
  | IOCTL_GET_PIO
  | IOCTL_SET_PIO
  | IOCTL_GET_ADDA_CONFIG
  | IOCTL_SET_ADDA_CONFIG
  | IOCTL_GET_EXT_CONFIG
  | IOCTL_GET_ADDA_EXT_CONFIG
  deriving DecidableEq, Repr

/-- The integer value of an `IOCTL_t` enumerator. -/
def IOCTL_t.val : IOCTL_t → Nat
  | IOCTL_t.IOCTL_READ_COMM_PARAM => 1
  | IOCTL_t.IOCTL_SET_ADDRESS => 2
  | IOCTL_t.IOCTL_SET_COMM_PARAM => 3
  | IOCTL_t.IOCTL_GET_PIO => 4
  | IOCTL_t.IOCTL_SET_PIO => 5
  | IOCTL_t.IOCTL_GET_ADDA_CONFIG => 6
  | IOCTL_t.IOCTL_SET_ADDA_CONFIG => 7
  | IOCTL_t.IOCTL_GET_EXT_CONFIG => 8
  | IOCTL_t.IOCTL_GET_ADDA_EXT_CONFIG => 9

/-- The union `seaio_ioctl_s` (seamaxlin.h, lines 254-357). Its members are
kept as separate fields, except the leading `model` that the structures
`params`, `pio` and `config` share as their common first member; the other
overlaps depend on the memory layout and are not part of the record. -/
structure seaio_ioctl_s where
  /-- The field `u.address.new_address`. -/
  new_address : Nat
  /-- The field `u.comms.new_baud_rate`. -/
  new_baud_rate : Nat
  /-- The field `u.comms.new_parity`. -/
  new_parity : Nat
  /-- The fields `u.params.model`, `u.pio.model` and `u.config.model`. -/
  model : Nat
  /-- The field `u.params.bridge_type`. -/
  bridge_type : Nat
  /-- The field `u.params.baud_rate`. -/
  baud_rate : Nat
  /-- The field `u.params.parity`. -/
  parity : Nat
  /-- The field `u.params.magic_cookie`. -/
  magic_cookie : Nat
  /-- The field `u.pio.config_state.PIO96.channel1`. -/
  channel1 : Nat
  /-- The field `u.pio.config_state.PIO96.channel2`. -/
  channel2 : Nat
  deriving DecidableEq, Repr, Inhabited

/-- The structure `adda_config` (seamaxlin.h, lines 414-447): the two fields
of `device` and the sixteen of `channels`. -/
structure adda_config where
  reference_offset : Nat
  channel_mode : Nat
  ch_1 : Nat
  ch_2 : Nat
  ch_3 : Nat
  ch_4 : Nat
  ch_5 : Nat
  ch_6 : Nat
  ch_7 : Nat
  ch_8 : Nat
  ch_9 : Nat
  ch_10 : Nat
  ch_11 : Nat
  ch_12 : Nat
  ch_13 : Nat
  ch_14 : Nat
  ch_15 : Nat
  ch_16 : Nat
  deriving DecidableEq, Repr, Inhabited

/-- The structure `adda_ext_config` (seamaxlin.h, lines 454-460). -/
structure adda_ext_config where
  ad_multiplier_enabled : Nat
  da_channel_1_range : Nat
  da_channel_2_range : Nat
  deriving DecidableEq, Repr, Inhabited

/-- The object behind the `void *data` of `SeaMaxLinIoctl`, as seen through
the three casts of lines 827-829; a caller uses the view of its selector. -/
structure ioctl_data where
  ioctl : seaio_ioctl_s
  adda : adda_config
  ext : adda_ext_config
  deriving DecidableEq, Repr, Inhabited

/-- What `SeaMaxLinIoctl` leaves behind. -/
structure IoctlResult where
  ret : Int
  module : Option seaMaxModule
  world : World
  data : Option ioctl_data

/-- Line 832: the function codes of the selectors 1..8. -/
def ioctl_funct : List Nat := [0x45, 0x46, 0x47, 0x43, 0x44, 0x65, 0x64, 0x66]

/-- Lines 861-878: the five bytes of `IOCTL_SET_ADDA_CONFIG`. -/
def adda_pack (c : adda_config) (buffer : Buf) : Buf :=
  let buffer := buffer.set 0 ((c.reference_offset <<< 4) % 256)
  let buffer := buffer.set 0 ((buffer 0 ||| (c.channel_mode &&& 0x0F)) % 256)
  let buffer := buffer.set 1 (((c.ch_1 &&& 0x03) <<< 6) % 256)
  let buffer := buffer.set 1 ((buffer 1 ||| ((c.ch_2 &&& 0x03) <<< 4)) % 256)
  let buffer := buffer.set 1 ((buffer 1 ||| ((c.ch_3 &&& 0x03) <<< 2)) % 256)
  let buffer := buffer.set 1 ((buffer 1 ||| ((c.ch_4 &&& 0x03) <<< 0)) % 256)
  let buffer := buffer.set 2 (((c.ch_5 &&& 0x03) <<< 6) % 256)
  let buffer := buffer.set 2 ((buffer 2 ||| ((c.ch_6 &&& 0x03) <<< 4)) % 256)
  let buffer := buffer.set 2 ((buffer 2 ||| ((c.ch_7 &&& 0x03) <<< 2)) % 256)
  let buffer := buffer.set 2 ((buffer 2 ||| ((c.ch_8 &&& 0x03) <<< 0)) % 256)
  let buffer := buffer.set 3 (((c.ch_9 &&& 0x03) <<< 6) % 256)
  let buffer := buffer.set 3 ((buffer 3 ||| ((c.ch_10 &&& 0x03) <<< 4)) % 256)
  let buffer := buffer.set 3 ((buffer 3 ||| ((c.ch_11 &&& 0x03) <<< 2)) % 256)
  let buffer := buffer.set 3 ((buffer 3 ||| ((c.ch_12 &&& 0x03) <<< 0)) % 256)
  let buffer := buffer.set 4 (((c.ch_13 &&& 0x03) <<< 6) % 256)
  let buffer := buffer.set 4 ((buffer 4 ||| ((c.ch_14 &&& 0x03) <<< 4)) % 256)
  let buffer := buffer.set 4 ((buffer 4 ||| ((c.ch_15 &&& 0x03) <<< 2)) % 256)
  buffer.set 4 ((buffer 4 ||| ((c.ch_16 &&& 0x03) <<< 0)) % 256)

/-- Lines 933-950: the configuration read from the five bytes of
`IOCTL_GET_ADDA_CONFIG`. -/
def adda_unpack (buffer : Buf) : adda_config :=
  { reference_offset := (buffer 0 >>> 4)
    channel_mode := (buffer 0 &&& 0x0F)
    ch_1 := ((buffer 1 >>> 6) &&& 0x03)
    ch_2 := ((buffer 1 >>> 4) &&& 0x03)
    ch_3 := ((buffer 1 >>> 2) &&& 0x03)
    ch_4 := ((buffer 1 >>> 0) &&& 0x03)
    ch_5 := ((buffer 2 >>> 6) &&& 0x03)
    ch_6 := ((buffer 2 >>> 4) &&& 0x03)
    ch_7 := ((buffer 2 >>> 2) &&& 0x03)
    ch_8 := ((buffer 2 >>> 0) &&& 0x03)
    ch_9 := ((buffer 3 >>> 6) &&& 0x03)
    ch_10 := ((buffer 3 >>> 4) &&& 0x03)
    ch_11 := ((buffer 3 >>> 2) &&& 0x03)
    ch_12 := ((buffer 3 >>> 0) &&& 0x03)
    ch_13 := ((buffer 4 >>> 6) &&& 0x03)
    ch_14 := ((buffer 4 >>> 4) &&& 0x03)
    ch_15 := ((buffer 4 >>> 2) &&& 0x03)
    ch_16 := ((buffer 4 >>> 0) &&& 0x03) }

/-- Lines 844-882: the payload bytes stored in the local `buffer` before the
request. -/
def ioctl_pack (funct : Nat) (d : ioctl_data) (buffer : Buf) : Buf :=
  if funct = 0x46 then
    ((buffer.set 0 (d.ioctl.new_address % 256)).set 1 0x00).set 2 (d.ioctl.magic_cookie % 256)
  else if funct = 0x47 then
    ((buffer.set 0 (d.ioctl.new_baud_rate % 256)).set 1 (d.ioctl.new_parity % 256)).set 2
      (d.ioctl.magic_cookie % 256)
  else if funct = 0x44 then
    (buffer.set 0 (d.ioctl.channel2 % 256)).set 1 (d.ioctl.channel1 % 256)
  else if funct = 0x64 then adda_pack d.adda buffer
  else buffer

/-- Lines 889-908: the payload length `SeaMaxLinIoctl` waits for. -/
def ioctl_expected (funct : Nat) : Nat :=
  if funct = 0x45 ∨ funct = 0x65 then 5
  else if funct = 0x46 ∨ funct = 0x47 ∨ funct = 0x43 then 3
  else if funct = 0x66 then 16
  else 1

/-- Lines 914-957: the fields of the caller's object updated from the
response, member by member. The members of the union overlap in memory; the
fields of the other members, which such a store also changes in C, are left
as they were here: the record describes the member stored and no other. -/
def ioctl_update (funct : Nat) (buffer : Buf) (d : ioctl_data) : ioctl_data :=
  if funct = 0x45 then
    { d with ioctl := { d.ioctl with
        model := (256 + buffer 0) % 65536
        bridge_type := buffer 1
        baud_rate := buffer 2
        parity := buffer 3
        magic_cookie := buffer 4 } }
  else if funct = 0x47 then
    { d with ioctl := { d.ioctl with baud_rate := buffer 0, parity := buffer 1 } }
  else if funct = 0x43 then
    { d with ioctl := { d.ioctl with
        model := (256 + buffer 0) % 65536
        channel2 := buffer 1
        channel1 := buffer 2 } }
  else if funct = 0x65 then { d with adda := adda_unpack buffer }
  else if funct = 0x66 then
    { d with ioctl := { d.ioctl with model := (((buffer 0) <<< 8) ||| buffer 1) % 65536 } }
  else d

/-- Line 834: the number of elements of the local array
`unsigned char buffer[32]` of `SeaMaxLinIoctl`. -/
def ioctl_buffer_size : Nat := 32

/-- Lines 843-959: one request and its response, for the function code of a
selector other than `IOCTL_GET_ADDA_EXT_CONFIG`. The array `buffer` of line
834 is the destination `data` of `getResponse`, whose loop of lines 372-376
stores `data[0 .. length)` and returns `length`: a result above 32 is the
number of bytes stored from the start of an array of 32, a store past its
end, after which the call has no result. `none` is that case, or a
`makeRequest` that does not return. -/
def ioctl_request (in_ : seaMaxModule) (w : World) (slaveId funct : Nat) (d : ioctl_data) :
    Option (Int × seaMaxModule × World × ioctl_data) :=
  let buffer := ioctl_pack funct d w.stack
  match makeRequest in_ w slaveId funct 0 0 (some buffer) with
  | none => none
  | some (error, in_, w) =>
    if error < 0 then some (error, in_, w, d)
    else
      let expected := ioctl_expected funct
      let (error, in_, w, buffer) := getResponse in_ w funct buffer expected
      if error > (ioctl_buffer_size : Int) then none
      else if error < 0 then some (error, in_, w, d)
      else some (0, in_, w, ioctl_update funct buffer d)

/-- The call `SeaMaxLinIoctl(dev, slaveId, which, &object)` with a selector
other than `IOCTL_GET_ADDA_EXT_CONFIG` on a session and an object that are
not `NULL`: line 838, then lines 843-959. -/
def ioctl_call (in_ : seaMaxModule) (w : World) (slaveId : Nat) (which : IOCTL_t)
    (d : ioctl_data) : Option (Int × seaMaxModule × World × ioctl_data) :=
  if in_.commMode = seaio_mode_t.NO_CONNECT then some (-EBADF, in_, w, d)
  else ioctl_request in_ w slaveId (ioctl_funct.getD (which.val - 1) 0) d

/-- Lines 444-472: the band of the value read back, as the pair
`(ad_multiplier_enabled, range)`; `none` when the value is in no band. The
ranges are `ZERO_TO_TEN = 2` and `ZERO_TO_FIVE = 0`. -/
def classify_readback (value : Nat) : Option (Nat × Nat) :=
  if value > 0x171 ∧ value < 0x1C1 then some (0, 2)
  else if value > 0x0B8 ∧ value < 0x0E0 then some (0, 0)
  else if value > 0xE66 ∧ value ≤ 0xFFF then some (1, 2)
  else if value > 0x737 ∧ value < 0x8C7 then some (1, 0)
  else none

/-- The session record and the buffer a call of `SeaMaxLinRead` or
`SeaMaxLinWrite` leaves, for a caller that passed neither as `NULL`. -/
def after_call (r : Result) (dev : seaMaxModule) (data : Buf) :
    Int × seaMaxModule × World × Buf :=
  (r.ret, r.module.getD dev, r.world, r.data.getD data)

/-- Lines 417-480: the loop `for (; channel > 0; channel--)`; the first
argument is `channel`. The first component of the result is the value of the
`return -1` of line 471, if it is taken. -/
def probe_loop (slaveId : Nat) (original : adda_config) :
    Nat → seaMaxModule → World → Buf → adda_config → adda_ext_config →
      Option (Option Int × seaMaxModule × World × Buf × adda_ext_config)
  | 0, dev, w, data, _, ext => some (none, dev, w, data, ext)
  | channel + 1, dev, w, data, config, ext =>
    -- lines 420-422
    let data := (data.set 0 0x01).set 1 0x99
    match SeaMaxLinWrite (some dev) w slaveId seaio_type_t.HOLDINGREG (channel + 1) 1
        (some data) with
    | none => none
    | some r =>
      let (_, dev, w, data) := after_call r dev data
      -- lines 425-436
      let config := { config with channel_mode := 0, ch_1 := 2, ch_2 := 2 }
      let config :=
        if channel + 1 = 1 then { config with reference_offset := 4 }
        else if channel + 1 = 2 then { config with reference_offset := 8 }
        else config
      -- line 437
      match ioctl_call dev w slaveId IOCTL_t.IOCTL_SET_ADDA_CONFIG
          { ioctl := default, adda := config, ext := default } with
      | none => none
      | some (_, dev, w, _) =>
        -- lines 440-441
        match SeaMaxLinRead (some dev) w slaveId seaio_type_t.INPUTREG (channel + 1) 1
            (some data) with
        | none => none
        | some r =>
          let (_, dev, w, data) := after_call r dev data
          let value := ((data 0) <<< 8) + data 1
          -- lines 444-472
          match classify_readback value with
          | none =>
            match ioctl_call dev w slaveId IOCTL_t.IOCTL_SET_ADDA_CONFIG
                { ioctl := default, adda := original, ext := default } with
            | none => none
            | some (_, dev, w, _) => some (some (-1), dev, w, data, ext)
          | some (enabled, range) =>
            let ext := { ext with ad_multiplier_enabled := enabled }
            -- lines 475-479
            let ext :=
              if channel + 1 = 1 then { ext with da_channel_1_range := range }
              else if channel + 1 = 2 then { ext with da_channel_2_range := range }
              else ext
            probe_loop slaveId original channel dev w data config ext

/-- The indeterminate initial contents of the local `original` of
`GetExtendedADDAConfig`. -/
def stack_adda (b : Buf) : adda_config :=
  { reference_offset := b 0, channel_mode := b 1, ch_1 := b 2, ch_2 := b 3, ch_3 := b 4,
    ch_4 := b 5, ch_5 := b 6, ch_6 := b 7, ch_7 := b 8, ch_8 := b 9, ch_9 := b 10,
    ch_10 := b 11, ch_11 := b 12, ch_12 := b 13, ch_13 := b 14, ch_14 := b 15,
    ch_15 := b 16, ch_16 := b 17 }

/-- The indeterminate initial contents of the local `ioctl` of
`GetExtendedADDAConfig`. -/
def stack_ioctl (b : Buf) : seaio_ioctl_s :=
  { new_address := b 18, new_baud_rate := b 19, new_parity := b 20, model := b 21,
    bridge_type := b 22, baud_rate := b 23, parity := b 24, magic_cookie := b 25,
    channel1 := b 26, channel2 := b 27 }

/-- Lines 385-488; `dev` is the session `SeaMaxLinIoctl` has checked. The
local `data` starts with indeterminate contents too. -/
def GetExtendedADDAConfig (dev : seaMaxModule) (w : World) (slaveId : Nat)
    (ext : adda_ext_config) : Option (Int × seaMaxModule × World × adda_ext_config) :=
  let data : Buf := fun j => w.stack (28 + j)
  -- line 395
  match ioctl_call dev w slaveId IOCTL_t.IOCTL_GET_ADDA_CONFIG
      { ioctl := default, adda := stack_adda w.stack, ext := default } with
  | none => none
  | some (_, dev, w, d) =>
    let original := d.adda
    -- line 398
    let config := original
    -- line 401
    match ioctl_call dev w slaveId IOCTL_t.IOCTL_READ_COMM_PARAM
        { ioctl := stack_ioctl w.stack, adda := default, ext := default } with
    | none => none
    | some (_, dev, w, d) =>
      -- lines 404-407
      match (if d.ioctl.model = 256
          then ioctl_call dev w slaveId IOCTL_t.IOCTL_GET_EXT_CONFIG d
          else some (0, dev, w, d)) with
      | none => none
      | some (_, dev, w, d) =>
        -- lines 409-414
        let channel := if d.ioctl.model = 470 ∨ d.ioctl.model = 8227 then 2 else 0
        -- lines 417-480
        match probe_loop slaveId original channel dev w data config ext with
        | none => none
        | some (some ret, dev, w, _, ext) => some (ret, dev, w, ext)
        | some (none, dev, w, data, ext) =>
          -- lines 483-486
          let data := (data.set 0 0x00).set 1 0x00
          match SeaMaxLinWrite (some dev) w slaveId seaio_type_t.HOLDINGREG 1 1 (some data) with
          | none => none
          | some r =>
            let (_, dev, w, data) := after_call r dev data
            match SeaMaxLinWrite (some dev) w slaveId seaio_type_t.HOLDINGREG 2 1
                (some data) with
            | none => none
            | some r =>
              let (_, dev, w, _) := after_call r dev data
              -- line 487
              match ioctl_call dev w slaveId IOCTL_t.IOCTL_SET_ADDA_CONFIG
                  { ioctl := default, adda := original, ext := default } with
              | none => none
              | some (ret, dev, w, _) => some (ret, dev, w, ext)

/-- Lines 822-960. -/
def SeaMaxLinIoctl (SeaMaxPointer : Option seaMaxModule) (w : World) (slaveId : Nat)
    (which : IOCTL_t) (data : Option ioctl_data) : Option IoctlResult :=
  match SeaMaxPointer with
  | none => some ⟨-EBADF, SeaMaxPointer, w, data⟩
  | some in_ =>
    if in_.commMode = seaio_mode_t.NO_CONNECT then some ⟨-EBADF, SeaMaxPointer, w, data⟩
    else
      match data with
      | none => some ⟨-EINVAL, SeaMaxPointer, w, data⟩
      | some d =>
        if which = IOCTL_t.IOCTL_GET_ADDA_EXT_CONFIG then
          -- lines 840-841
          match GetExtendedADDAConfig in_ w slaveId d.ext with
          | none => none
          | some (ret, in_, w, ext) => some ⟨ret, some in_, w, some { d with ext := ext }⟩
        else
          match ioctl_request in_ w slaveId (ioctl_funct.getD (which.val - 1) 0) d with
          | none => none
          | some (ret, in_, w, d) => some ⟨ret, some in_, w, some d⟩

/-! ## Expected lengths of the specification (section 4.1, "Decoding") -/

/-- A C string as the list of its character codes, the final NUL left out. -/
def cstr (s : String) : List Nat := s.toList.map Char.toNat

/-! More error numbers of `<errno.h>` (Linux values). -/

def EIO : Int := 5
def EAGAIN : Int := 11
def EBUSY : Int := 16
def EEXIST : Int := 17
def EXDEV : Int := 18
def ERANGE : Int := 34
def ENAMETOOLONG : Int := 36

/-- The entry points of `libftdi` that the library looks up with `dlsym`
(ftdi.h, lines 41-72). -/
inductive ftdi_symbol
  | ftdi_new
  | ftdi_free
  | ftdi_init
  | ftdi_deinit
  | ftdi_usb_open
  | ftdi_usb_close
  | ftdi_usb_purge_buffers
  | ftdi_read_data
  | ftdi_write_data
  | ftdi_enable_bitbang
  | ftdi_disable_bitbang
  | ftdi_set_bitmode
  | ftdi_read_pins
  | ftdi_get_error_string
  deriving DecidableEq, Repr

/-- A call that acts on something outside the process memory, with the
arguments that matter: `restore` tells the `tcsetattr` of `SeaMaxLinClose`
(the saved configuration) from the one of `openRTU`; the arguments of an FTDI
call are the bytes or numbers handed over after the context. Look-ups
(`malloc`, `tcgetattr`, `gethostbyname`, `dlsym`) and the messages printed on
`stderr` are not recorded. -/
inductive Call
  | os_open (path : List Nat)
  | os_tcflush (fd : Int)
  | os_tcsetattr (fd : Int) (restore : Bool)
  | os_socket
  | os_connect (fd : Int) (host : List Nat) (port : Nat)
  | os_close (fd : Int)
  | os_free
  | os_dlopen
  | os_sleep (seconds : Nat)
  | ftdi (f : ftdi_symbol) (args : List Nat)
  deriving DecidableEq, Repr

/-- Everything outside the session record that opening, closing and the USB
bridge read or change.

* `fd`: what `open` and `socket` return.
* `malloc_ok`: whether `malloc` returns a pointer that is not `NULL`.
* `tcgetattr`, `tcsetattr`, `connect`, `ftdi_init`, `ftdi_usb_open`: what
  these calls return.
* `host_known`: whether `gethostbyname` finds the host.
* `dlopen_ok`: whether `dlopen("libftdi.so")` returns a handle.
* `dlsym`: whether `dlsym` finds a symbol, given whether the handle it is
  called with is not `NULL`.
* `ftdi_new_ok`: whether `ftdi_new` returns a context.
* `replies`: the bytes the next calls of `ftdi_read_data` have available.
* `write_ret`: what `ftdi_write_data` returns, `none` for the size it is
  given.
* `read_pins`, `pins`: what `ftdi_read_pins` returns and the byte it stores.
* `i2cMPSSEValue` ... `variableCallbacks`: the file-scope variables of
  seadaclite.c, lines 63-71; a callback is the index of a byte in the memory
  of the caller, `none` for `NULL`.
* `trace`: the calls made so far, oldest first. -/
structure Machine where
  fd : Int
  malloc_ok : Bool
  tcgetattr : Int
  tcsetattr : Int
  host_known : Bool
  connect : Int
  dlopen_ok : Bool
  dlsym : Bool → ftdi_symbol → Bool
  ftdi_new_ok : Bool
  ftdi_init : Int
  ftdi_usb_open : Int
  replies : List (List Nat)
  write_ret : Option Int
  read_pins : Int
  pins : Nat
  i2cMPSSEValue : Nat
  i2cMPSSEDirection : Nat
  MPSSECommand : Buf
  byteIndex : Nat
  bytesToRead : Nat
  responseCount : Nat
  responseOffsets : Nat → Nat
  variableCallbacks : Nat → Option Nat
  trace : List Call

/-- Record a call. -/
def Machine.log (m : Machine) (c : Call) : Machine := { m with trace := m.trace ++ [c] }

/-- The call `ftdi_write_data(in->ftdic, buf, size)`. -/
def ftdi_write_data (m : Machine) (bytes : List Nat) : Machine :=
  m.log (Call.ftdi ftdi_symbol.ftdi_write_data bytes)

/-- The call `ftdi_read_data(in->ftdic, buf, size)`: the bytes stored in
`buf` and the host afterwards. -/
def ftdi_read_data (m : Machine) (size : Nat) : List Nat × Machine :=
  match m.replies with
  | [] => ([], m.log (Call.ftdi ftdi_symbol.ftdi_read_data [size]))
  | r :: rest =>
    (r.take size, { m with replies := rest }.log (Call.ftdi ftdi_symbol.ftdi_read_data [size]))

/-! ## The I2C emulation of seadaclite.c (lines 56-61 and 77-412) -/

def SCL : Nat := 0x01
def SDA : Nat := 0x02
def GPIO_0 : Nat := 0x01
def GPIO_1 : Nat := 0x02
def GPIO_2 : Nat := 0x04
def GPIO_3 : Nat := 0x08

/-- Lines 77-90. -/
def SDL_IsSupported (pid : Int) : Nat :=
  if pid = 0x8111 ∨ pid = 0x8112 ∨ pid = 0x8113 ∨ pid = 0x8114 ∨ pid = 0x8115 ∨ pid = 0x8126
  then 1 else 0

/-- Lines 96-149, for a session that is not `NULL`. -/
def I2C_InitializeI2C (in_ : seaMaxModule) (m : Machine) : Int × Machine :=
  if ¬ m.dlsym in_.libftdi ftdi_symbol.ftdi_write_data ∨
      ¬ m.dlsym in_.libftdi ftdi_symbol.ftdi_read_data then (- EIO, m)
  else
    -- lines 113-115
    let m := ftdi_write_data m [0x81]
    let (bytes, m) := ftdi_read_data m 1
    let m := { m with i2cMPSSEValue := bytes.getD 0 m.i2cMPSSEValue }
    -- lines 121-123
    let m := { m with i2cMPSSEValue := m.i2cMPSSEValue &&& 0xF0 }
    let m := { m with i2cMPSSEValue := m.i2cMPSSEValue ||| (SCL ||| SDA) }
    let m := { m with i2cMPSSEDirection := 0xF3 }
    -- lines 127-130
    let m := ftdi_write_data m [0x80, m.i2cMPSSEValue, m.i2cMPSSEDirection]
    -- lines 133-136
    let m := ftdi_write_data m [0x86, 0x0D, 0x00]
    -- lines 139-140
    let m := ftdi_write_data m [0x85]
    (0, m)

/-- The statement `MPSSECommand[byteIndex++] = b`. -/
def put (m : Machine) (b : Nat) : Machine :=
  { m with MPSSECommand := m.MPSSECommand.set m.byteIndex (b % 256), byteIndex := m.byteIndex + 1 }

/-- The three statements that queue `0x80`, `i2cMPSSEValue` and
`i2cMPSSEDirection`. -/
def put_pins (m : Machine) : Machine :=
  put (put (put m 0x80) m.i2cMPSSEValue) m.i2cMPSSEDirection

/-- Lines 151-176. -/
def I2C_Start (m : Machine) : Machine :=
  let m := { m with i2cMPSSEDirection := m.i2cMPSSEDirection ||| (SDA ||| SCL) }
  let m := { m with i2cMPSSEValue := m.i2cMPSSEValue ||| SDA }
  let m := put_pins m
  let m := { m with i2cMPSSEValue := m.i2cMPSSEValue ||| (SCL ||| SDA) }
  let m := put_pins m
  let m := { m with i2cMPSSEValue := m.i2cMPSSEValue &&& (0xFF - SDA) }
  let m := put_pins m
  let m := { m with i2cMPSSEValue := m.i2cMPSSEValue &&& (0xFF - (SCL ||| SDA)) }
  put_pins m

/-- Lines 182-208. -/
def I2C_Stop (m : Machine) : Machine :=
  let m := { m with i2cMPSSEDirection := m.i2cMPSSEDirection ||| (SCL ||| SDA) }
  let m := { m with i2cMPSSEValue := m.i2cMPSSEValue &&& (0xFF - SDA) }
  let m := put_pins m
  let m := { m with i2cMPSSEValue := m.i2cMPSSEValue ||| SCL }
  let m := { m with i2cMPSSEValue := m.i2cMPSSEValue &&& (0xFF - SDA) }
  let m := put_pins m
  let m := { m with i2cMPSSEValue := m.i2cMPSSEValue ||| (SCL ||| SDA) }
  let m := put_pins m
  let m := { m with i2cMPSSEDirection := m.i2cMPSSEDirection &&& (0xFF - (SCL ||| SDA)) }
  put_pins m

/-- Lines 235-247: the acknowledgement bit is read with the data line as an
input, then both lines are outputs and low again. -/
def read_ack (m : Machine) (bits : Nat) : Machine :=
  let m := { m with i2cMPSSEDirection := m.i2cMPSSEDirection ||| SCL }
  let m := { m with i2cMPSSEDirection := m.i2cMPSSEDirection &&& (0xFF - SDA) }
  let m := put_pins m
  let m := put (put m 0x26) bits
  let m := { m with i2cMPSSEDirection := m.i2cMPSSEDirection ||| (SCL ||| SDA) }
  let m := { m with i2cMPSSEValue := m.i2cMPSSEValue &&& (0xFF - (SCL ||| SDA)) }
  put_pins m

/-- Lines 220-248. -/
def I2C_WriteAddress (m : Machine) (address rw : Nat) : Machine :=
  let m := put (put (put m 0x13) 7) ((address &&& 0xFE) ||| (rw &&& 0x01))
  read_ack m 0

/-- Lines 251-282. -/
def I2C_WriteByte (m : Machine) (byte : Nat) : Machine :=
  let m := { m with i2cMPSSEDirection := m.i2cMPSSEDirection ||| (SCL ||| SDA) }
  let m := put_pins m
  let m := put (put (put m 0x13) 7) byte
  read_ack m 0

/-- Lines 288-313. -/
def I2C_ReadByte (m : Machine) : Machine :=
  let m := read_ack m 7
  put (put (put m 0x13) 1) 0x80

/-- Lines 319-333; `data` is the index of the destination byte. -/
def I2C_ReadRegister (m : Machine) (address reg data : Nat) : Machine :=
  let m := I2C_Start m
  let m := I2C_WriteAddress m address 0
  let m := I2C_WriteByte m reg
  let m := I2C_Start m
  let m := I2C_WriteAddress m address 1
  let m := I2C_ReadByte m
  let m := I2C_Stop m
  let m := { m with bytesToRead := m.bytesToRead + 4 }
  let m := { m with responseOffsets :=
    fun j => if j = m.responseCount then m.bytesToRead - 1 else m.responseOffsets j }
  { m with
    variableCallbacks := fun j => if j = m.responseCount then some data else m.variableCallbacks j
    responseCount := m.responseCount + 1 }

/-- Lines 339-349. -/
def I2C_WriteRegister (m : Machine) (address reg data : Nat) : Machine :=
  let m := I2C_Start m
  let m := I2C_WriteAddress m address 0
  let m := I2C_WriteByte m reg
  let m := I2C_WriteByte m data
  let m := I2C_Stop m
  { m with bytesToRead := m.bytesToRead + 3 }

/-- Lines 355-367. -/
def I2C_InitializeQueue (in_ : seaMaxModule) (m : Machine) : Machine :=
  let m := { m with byteIndex := 0, bytesToRead := 0, responseCount := 0 }
  let m := { m with responseOffsets := fun _ => 0, variableCallbacks := fun _ => none }
  if m.dlsym in_.libftdi ftdi_symbol.ftdi_usb_purge_buffers
  then m.log (Call.ftdi ftdi_symbol.ftdi_usb_purge_buffers []) else m

/-- Lines 382-385: the loop `for (int i = 0; i < responseCount; i++)` on the
memory `mem` of the caller; the first argument is the number of iterations
still to run. A `NULL` callback is a store through a null pointer. -/
def dispatch_loop (m : Machine) : Nat → Nat → Buf → Option Buf
  | 0, _, mem => some mem
  | k + 1, i, mem =>
    match m.variableCallbacks i with
    | none => none
    | some a => dispatch_loop m k (i + 1) (mem.set a (m.MPSSECommand (m.responseOffsets i)))

/-- Lines 373-386, on the memory `mem` the callbacks point into. -/
def I2C_ExecuteQueue (in_ : seaMaxModule) (m : Machine) (mem : Buf) : Option (Machine × Buf) :=
  let m :=
    if m.dlsym in_.libftdi ftdi_symbol.ftdi_write_data
    then ftdi_write_data m (m.MPSSECommand.toList m.byteIndex) else m
  let m := { m with MPSSECommand := fun _ => 0 }
  let m :=
    if m.dlsym in_.libftdi ftdi_symbol.ftdi_read_data then
      let (bytes, m) := ftdi_read_data m m.bytesToRead
      { m with MPSSECommand := m.MPSSECommand.blit 0 bytes }
    else m
  match dispatch_loop m m.responseCount 0 mem with
  | none => none
  | some mem => some (m, mem)

/-- Lines 396-412. -/
def I2C_SetGPIO (m : Machine) (direction state : Nat) : Machine :=
  let m := { m with i2cMPSSEValue := m.i2cMPSSEValue &&& 0x0F }
  let m := { m with i2cMPSSEDirection := m.i2cMPSSEDirection &&& 0x0F }
  let m := { m with i2cMPSSEValue := (m.i2cMPSSEValue ||| (state <<< 4)) % 256 }
  let m := { m with i2cMPSSEDirection := (m.i2cMPSSEDirection ||| (direction <<< 4)) % 256 }
  let m := put_pins m
  put (put (put m 0x82) (state >>> 4)) (direction >>> 4)

/-- The function `SeaDacSetPIODirection` (lines 683-716) for a session and an
array `data` that are not `NULL`. -/
def SeaDacSetPIODirection (in_ : seaMaxModule) (m : Machine) (data : Buf) :
    Option (Int × Machine) :=
  if in_.commMode = seaio_mode_t.FTDI_DIRECT then
    if in_.deviceType = 0x8126 then
      let m := I2C_InitializeQueue in_ m
      let m := I2C_WriteRegister m 0xE8 6 (if data 0 = 0 then 0x00 else 0xFF)
      let m := I2C_WriteRegister m 0xE8 7 (if data 1 = 0 then 0x00 else 0xFF)
      let m := I2C_WriteRegister m 0xEA 6 (if data 2 = 0 then 0x00 else 0xFF)
      let m := I2C_WriteRegister m 0xEA 7 (if data 3 = 0 then 0x00 else 0xFF)
      let enable := 0x00
      let enable := if data 0 = 0 then enable ||| GPIO_0 else enable
      let enable := if data 1 = 0 then enable ||| GPIO_1 else enable
      let enable := if data 2 = 0 then enable ||| GPIO_2 else enable
      let enable := if data 3 = 0 then enable ||| GPIO_3 else enable
      let m := I2C_SetGPIO m 0xFF (0xFF - enable)
      match I2C_ExecuteQueue in_ m data with
      | none => none
      | some (m, _) => some (0, m)
    else some (-1, m)
  else some (-2, m)

/-- The function `SeaDacGetPIODirection` (lines 733-758) for a session and an
array `data` that are not `NULL`; the destination `&data[k]` is the index
`k`. -/
def SeaDacGetPIODirection (in_ : seaMaxModule) (m : Machine) (data : Buf) :
    Option (Int × Machine × Buf) :=
  if in_.commMode = seaio_mode_t.FTDI_DIRECT then
    if in_.deviceType = 0x8126 then
      let m := I2C_InitializeQueue in_ m
      let m := I2C_ReadRegister m 0xE8 6 0
      let m := I2C_ReadRegister m 0xE8 7 1
      let m := I2C_ReadRegister m 0xEA 6 2
      let m := I2C_ReadRegister m 0xEA 7 3
      match I2C_ExecuteQueue in_ m data with
      | none => none
      | some (m, data) => some (0, m, data)
    else some (-1, m, data)
  else some (-2, m, data)

/-- Lines 611-615 of `SeaDacGetPIO`: the loop `for (; index < 4; index++)`;
the first argument is the number of iterations still to run. The arrays
`direction`, `inputState` and `outputState` are the bytes 0..3, 4..7 and
8..11 of `locals`. -/
def merge_loop (locals : Buf) : Nat → Nat → Buf → Buf
  | 0, _, data => data
  | k + 1, index, data =>
    let data := data.set index (locals (4 + index) &&& locals index)
    let data := data.set index (data index ||| (locals (8 + index) &&& (0xFF - locals index)))
    merge_loop locals k (index + 1) data

/-- The function `SeaDacGetPIO` (lines 578-623) for a session and an array
`data` that are not `NULL`. The destinations `&direction[k]`,
`&inputState[k]` and `&outputState[k]` are the indices `k`, `4 + k` and
`8 + k`; every byte of the three arrays is stored by `I2C_ExecuteQueue`
before it is read, so their indeterminate initial contents do not matter. -/
def SeaDacGetPIO (in_ : seaMaxModule) (m : Machine) (data : Buf) :
    Option (Int × Machine × Buf) :=
  if in_.commMode = seaio_mode_t.FTDI_DIRECT then
    if in_.deviceType = 0x8126 then
      let m := I2C_InitializeQueue in_ m
      -- lines 592-595
      let m := I2C_ReadRegister m 0xE8 6 0
      let m := I2C_ReadRegister m 0xE8 7 1
      let m := I2C_ReadRegister m 0xEA 6 2
      let m := I2C_ReadRegister m 0xEA 7 3
      -- lines 598-601
      let m := I2C_ReadRegister m 0xE8 0 4
      let m := I2C_ReadRegister m 0xE8 1 5
      let m := I2C_ReadRegister m 0xEA 0 6
      let m := I2C_ReadRegister m 0xEA 1 7
      -- lines 604-607
      let m := I2C_ReadRegister m 0xE8 2 8
      let m := I2C_ReadRegister m 0xE8 3 9
      let m := I2C_ReadRegister m 0xEA 2 10
      let m := I2C_ReadRegister m 0xEA 3 11
      match I2C_ExecuteQueue in_ m (fun _ => 0) with
      | none => none
      | some (m, locals) => some (4, m, merge_loop locals 4 0 data)
    else some (-1, m, data)
  else some (-2, m, data)

/-- The function `SeaDacSetPIO` (lines 642-667) for a session and an array
`data` that are not `NULL`. -/
def SeaDacSetPIO (in_ : seaMaxModule) (m : Machine) (data : Buf) : Option (Int × Machine) :=
  if in_.commMode = seaio_mode_t.FTDI_DIRECT then
    if in_.deviceType = 0x8126 then
      let m := I2C_InitializeQueue in_ m
      let m := I2C_WriteRegister m 0xE8 2 (data 0)
      let m := I2C_WriteRegister m 0xE8 3 (data 1)
      let m := I2C_WriteRegister m 0xEA 2 (data 2)
      let m := I2C_WriteRegister m 0xEA 3 (data 3)
      match I2C_ExecuteQueue in_ m data with
      | none => none
      | some (m, _) => some (0, m)
    else some (-1, m)
  else some (-2, m)

/-- The function `SeaDacLinRead` (lines 776-803) for a session and a buffer
that are not `NULL`; `ftdi_read_pins` stores its byte when it succeeds. -/
def SeaDacLinRead (in_ : seaMaxModule) (m : Machine) (data : Buf) (numBytes : Int) :
    Int × Machine × Buf :=
  -- lines 784-785
  if numBytes > 2 then (-ERANGE, m, data)
  -- lines 787-791
  else if m.dlsym in_.libftdi ftdi_symbol.ftdi_read_pins = false then (- EIO, m, data)
  -- lines 794-800
  else if m.read_pins < 0 then
    (- EIO,
      if m.dlsym in_.libftdi ftdi_symbol.ftdi_get_error_string
      then (m.log (Call.ftdi ftdi_symbol.ftdi_read_pins [])).log
        (Call.ftdi ftdi_symbol.ftdi_get_error_string [])
      else m.log (Call.ftdi ftdi_symbol.ftdi_read_pins []),
      data)
  else (m.read_pins, m.log (Call.ftdi ftdi_symbol.ftdi_read_pins []), data.set 0 m.pins)

/-- Line 825 of `SeaDacLinWrite`: the size of the local array
`unsigned char buf[1]`. -/
def buf_size : Nat := 1

/-- What `SeaDacLinWrite` leaves behind: its return value, the host, and the
number of bytes that `memcpy` has stored in the local array `buf` from
`buf[0]` on. -/
structure LiteWrite where
  ret : Int
  machine : Machine
  copied : Nat

/-- The call `memcpy(dst, src, n)`. -/
def memcpy (dst src : Buf) (n : Nat) : Buf := dst.blit 0 (src.toList n)

/-- The function `SeaDacLinWrite` (lines 822-853) for a session and a buffer
that are not `NULL`. A negative `numBytes` is an enormous `size_t` for
`memcpy`, and the call does not return. The bytes handed to the bridge are
read from `buf[0]` on, as `ftdi_write_data` does; the bytes of `buf` that
are read have all been stored by `memcpy`, so its indeterminate initial
contents do not matter. -/
def SeaDacLinWrite (in_ : seaMaxModule) (m : Machine) (data : Buf) (numBytes : Int) :
    Option LiteWrite :=
  -- lines 832-833
  if numBytes > 2 then some ⟨-ERANGE, m, 0⟩
  -- line 835
  else if numBytes < 0 then none
  else
    let buf := memcpy (fun _ => 0) data numBytes.toNat
    -- lines 837-841
    if m.dlsym in_.libftdi ftdi_symbol.ftdi_write_data = false then
      some ⟨- EIO, m, numBytes.toNat⟩
    -- lines 844-850
    else if m.write_ret.getD numBytes < 0 then
      some ⟨- EIO,
        if m.dlsym in_.libftdi ftdi_symbol.ftdi_get_error_string
        then (ftdi_write_data m (buf.toList numBytes.toNat)).log
          (Call.ftdi ftdi_symbol.ftdi_get_error_string [])
        else ftdi_write_data m (buf.toList numBytes.toNat),
        numBytes.toNat⟩
    else some ⟨m.write_ret.getD numBytes, ftdi_write_data m (buf.toList numBytes.toNat),
      numBytes.toNat⟩

/-! ## Opening and closing a session

`openRTU` and `openTCP` (seamaxlin.c, lines 69-154), `openD2X` and `closeD2X`
(seadaclite.c, lines 418-556), `SeaMaxLinCreate`, `SeaMaxLinOpen`,
`SeaMaxLinClose` (seamaxlin.c, lines 502-644) and `SeaMaxLinSetIMDelay`
(lines 977-987). A result `none` is a call that does not return. -/

/-- The function `isspace` in the C locale. -/
def isspace (c : Nat) : Bool := c = 32 ∨ (9 ≤ c ∧ c ≤ 13)

/-- The value of a character as a digit of the base, if it is one. -/
def digit_value (base c : Nat) : Option Nat :=
  let v :=
    if 48 ≤ c ∧ c ≤ 57 then c - 48
    else if 97 ≤ c ∧ c ≤ 122 then c - 97 + 10
    else if 65 ≤ c ∧ c ≤ 90 then c - 65 + 10
    else base
  if v < base then some v else none

/-- The digits at the front of a string: their value after `acc` and the
rest of the string. -/
def digits (base : Nat) : List Nat → Nat → Nat × List Nat
  | [], acc => (acc, [])
  | c :: rest, acc =>
    match digit_value base c with
    | none => (acc, c :: rest)
    | some v => digits base rest (acc * base + v)

/-- The conversion of a `long` to `int` (LP64). -/
def to_int (x : Int) : Int := (x + 2 ^ 31) % 2 ^ 32 - 2 ^ 31

/-- The call `strtol(s, &ptr, base)` of the C library for base 10 or 16, on
LP64: the value and the rest `ptr` points to. White space and a sign are
skipped, `0x` is skipped in base 16 when a digit follows, a value out of
range is `LONG_MAX` or `LONG_MIN`, and without any digit the value is 0 and
`ptr` is `s`. -/
def strtol (s : List Nat) (base : Nat) : Int × List Nat :=
  let t := s.dropWhile isspace
  let (neg, t) :=
    match t with
    | 45 :: r => (true, r)
    | 43 :: r => (false, r)
    | _ => (false, t)
  let t :=
    match t with
    | 48 :: x :: d :: r =>
      if base = 16 ∧ (x = 120 ∨ x = 88) ∧ (digit_value 16 d).isSome then d :: r else t
    | _ => t
  match t with
  | [] => (0, s)
  | c :: _ =>
    if (digit_value base c).isNone then (0, s)
    else
      let (v, rest) := digits base t 0
      (if neg then -(min v (2 ^ 63) : Nat) else (min v (2 ^ 63 - 1) : Nat), rest)

/-- Lines 69-111, for a session that is not `NULL`. -/
def openRTU (in_ : seaMaxModule) (m : Machine) (devName : List Nat) :
    Int × seaMaxModule × Machine :=
  if in_.hDevice > 0 then (-EBUSY, in_, m)
  else
    -- lines 78-79
    let in_ := { in_ with hDevice := m.fd }
    let m := m.log (Call.os_open devName)
    if in_.hDevice < 0 then (-EBADF, in_, m)
    else
      -- lines 82-84
      let in_ := { in_ with initalConfig := m.malloc_ok }
      if in_.initalConfig = false then (-ENOMEM, in_, m)
      else if m.tcgetattr < 0 then (-EPERM, in_, m)
      else
        -- lines 103-104
        let m := m.log (Call.os_tcflush in_.hDevice)
        let m := m.log (Call.os_tcsetattr in_.hDevice false)
        if m.tcsetattr < 0 then (-EXDEV, in_, m)
        else
          -- line 107
          (0, { in_ with commMode := seaio_mode_t.MODBUS_RTU }, m)

/-- Lines 116-154, for a session that is not `NULL`. The `:` that line 132
overwrites in the caller's string is not modelled. -/
def openTCP (in_ : seaMaxModule) (m : Machine) (devName : List Nat) :
    Int × seaMaxModule × Machine :=
  if in_.hDevice > 0 then (-EBUSY, in_, m)
  else
    -- lines 128-129
    let in_ := { in_ with hDevice := m.fd }
    let m := m.log Call.os_socket
    if in_.hDevice < 0 then (-EBUSY, in_, m)
    else
      -- lines 132-136: the text after the first ':' replaces "502"
      let host := devName.takeWhile (fun c => c ≠ 58)
      let passed := devName.dropWhile (fun c => c ≠ 58)
      let port := if passed = [] then cstr "502" else (passed.drop 1).take 5
      -- line 139
      if m.host_known = false then (-EBADF, in_, m)
      else
        -- lines 142-148
        let m := m.log (Call.os_connect in_.hDevice host (((strtol port 10).1 % 65536).toNat))
        if m.connect < 0 then (-1, in_, m)
        else
          -- line 151
          (0, { in_ with commMode := seaio_mode_t.MODBUS_TCP }, m)

/-- Lines 441-444 of `openD2X`: the library is loaded unless the session has
a handle already. -/
def load_libftdi (in_ : seaMaxModule) (m : Machine) : seaMaxModule × Machine :=
  if in_.libftdi = false then ({ in_ with libftdi := m.dlopen_ok }, m.log Call.os_dlopen)
  else (in_, m)

/-- Lines 503-527 of `openD2X`: the `switch` on the device type; the array
`direction` starts as four zero bytes. -/
def set_chip_mode (in_ : seaMaxModule) (m : Machine) : Option Machine :=
  if in_.deviceType = 0x8126 then
    let m := m.log (Call.ftdi ftdi_symbol.ftdi_set_bitmode [0xf0, 0x02])
    let m := (I2C_InitializeI2C in_ m).2
    let direction : Buf := fun _ => 0
    match SeaDacGetPIODirection in_ m direction with
    | none => none
    | some (_, m, direction) =>
      match SeaDacSetPIODirection in_ m direction with
      | none => none
      | some (_, m) => some m
  else if in_.deviceType = 0x8111 ∨ in_.deviceType = 0x8112 then
    some (m.log (Call.ftdi ftdi_symbol.ftdi_enable_bitbang [0xF0]))
  else if in_.deviceType = 0x8113 then
    some (m.log (Call.ftdi ftdi_symbol.ftdi_enable_bitbang [0x00]))
  else if in_.deviceType = 0x8114 ∨ in_.deviceType = 0x8115 then
    some (m.log (Call.ftdi ftdi_symbol.ftdi_enable_bitbang [0xFF]))
  else some m

/-- Lines 446-535 of `openD2X`, for the product id `pid` of the device
string; the answers of the host are read from `m`, the calls are recorded
in the order they are made. -/
def open_bridge (in_ : seaMaxModule) (m : Machine) (pid : Int) :
    Option (Int × seaMaxModule × Machine) :=
  -- lines 446-450
  if in_.libftdi = false then some (-EAGAIN, in_, m)
  -- lines 453-458
  else if m.dlsym in_.libftdi ftdi_symbol.ftdi_new = false then some (-EAGAIN, in_, m)
  else if m.ftdi_new_ok = false then
    some (-EAGAIN, { in_ with ftdic := m.ftdi_new_ok }, m.log (Call.ftdi ftdi_symbol.ftdi_new []))
  -- lines 461-466
  else if m.dlsym in_.libftdi ftdi_symbol.ftdi_init = false then
    some (-EAGAIN, { in_ with ftdic := m.ftdi_new_ok }, m.log (Call.ftdi ftdi_symbol.ftdi_new []))
  else if m.ftdi_init < 0 then
    some (-EAGAIN, { in_ with ftdic := m.ftdi_new_ok },
      (m.log (Call.ftdi ftdi_symbol.ftdi_new [])).log (Call.ftdi ftdi_symbol.ftdi_init []))
  -- lines 469-474
  else if m.dlsym in_.libftdi ftdi_symbol.ftdi_usb_open = false then
    some (-EAGAIN, { in_ with ftdic := m.ftdi_new_ok },
      (m.log (Call.ftdi ftdi_symbol.ftdi_new [])).log (Call.ftdi ftdi_symbol.ftdi_init []))
  -- lines 476-484
  else if m.ftdi_usb_open < 0 ∧ m.ftdi_usb_open ≠ -5 then
    some (-EEXIST, { in_ with ftdic := m.ftdi_new_ok },
      if m.dlsym in_.libftdi ftdi_symbol.ftdi_get_error_string
      then (((m.log (Call.ftdi ftdi_symbol.ftdi_new [])).log
        (Call.ftdi ftdi_symbol.ftdi_init [])).log
        (Call.ftdi ftdi_symbol.ftdi_usb_open [0x0C52, pid.toNat])).log
        (Call.ftdi ftdi_symbol.ftdi_get_error_string [])
      else ((m.log (Call.ftdi ftdi_symbol.ftdi_new [])).log
        (Call.ftdi ftdi_symbol.ftdi_init [])).log
        (Call.ftdi ftdi_symbol.ftdi_usb_open [0x0C52, pid.toNat]))
  -- lines 487-498
  else if m.dlsym in_.libftdi ftdi_symbol.ftdi_set_bitmode = false ∨
      m.dlsym in_.libftdi ftdi_symbol.ftdi_enable_bitbang = false then
    some (-EAGAIN, { in_ with ftdic := m.ftdi_new_ok },
      ((m.log (Call.ftdi ftdi_symbol.ftdi_new [])).log
        (Call.ftdi ftdi_symbol.ftdi_init [])).log
        (Call.ftdi ftdi_symbol.ftdi_usb_open [0x0C52, pid.toNat]))
  else
    -- lines 501-527
    match set_chip_mode { in_ with ftdic := m.ftdi_new_ok, deviceType := pid }
        (((m.log (Call.ftdi ftdi_symbol.ftdi_new [])).log
          (Call.ftdi ftdi_symbol.ftdi_init [])).log
          (Call.ftdi ftdi_symbol.ftdi_usb_open [0x0C52, pid.toNat])) with
    | none => none
    | some m1 =>
      -- lines 530-535
      some (0, { in_ with ftdic := m.ftdi_new_ok, deviceType := pid,
                          commMode := seaio_mode_t.FTDI_DIRECT },
        m1.log (Call.os_sleep 1))

/-- Lines 418-536, for a session that is not `NULL`. -/
def openD2X (in_ : seaMaxModule) (m : Machine) (devName : List Nat) :
    Option (Int × seaMaxModule × Machine) :=
  if in_.hDevice > 0 then some (-EBUSY, in_, m)
  -- lines 428-438
  else if SDL_IsSupported (to_int (strtol devName 16).1) = 0 then some (-ERANGE, in_, m)
  else if (strtol devName 16).2 ≠ [] then some (-EINVAL, in_, m)
  else
    open_bridge (load_libftdi in_ m).1 (load_libftdi in_ m).2 (to_int (strtol devName 16).1)

/-- The function `closeD2X` (seadaclite.c, lines 542-556) for a session that
is not `NULL`. -/
def closeD2X (in_ : seaMaxModule) (m : Machine) : Machine :=
  let m :=
    if m.dlsym in_.libftdi ftdi_symbol.ftdi_disable_bitbang
    then m.log (Call.ftdi ftdi_symbol.ftdi_disable_bitbang []) else m
  let m :=
    if m.dlsym in_.libftdi ftdi_symbol.ftdi_usb_close
    then m.log (Call.ftdi ftdi_symbol.ftdi_usb_close []) else m
  let m :=
    if m.dlsym in_.libftdi ftdi_symbol.ftdi_deinit
    then m.log (Call.ftdi ftdi_symbol.ftdi_deinit []) else m
  if m.dlsym in_.libftdi ftdi_symbol.ftdi_free
  then m.log (Call.ftdi ftdi_symbol.ftdi_free []) else m

/-- The function `SeaMaxLinCreate` (seamaxlin.c, lines 502-521); `none` is the
`NULL` it returns when `malloc` fails. -/
def SeaMaxLinCreate (m : Machine) : Option seaMaxModule :=
  if m.malloc_ok = false then none
  else
    some { throttle := 1, mutex := 0, deviceType := 0, commMode := seaio_mode_t.NO_CONNECT,
           hDevice := -1, initalConfig := false, libftdi := false, ftdic := false }

/-- The function `SeaMaxLinClose` (seamaxlin.c, lines 613-644). -/
def SeaMaxLinClose (SeaMaxPointer : Option seaMaxModule) (m : Machine) :
    Int × Option seaMaxModule × Machine :=
  match SeaMaxPointer with
  | none => (0, none, m)
  | some in_ =>
    if in_.hDevice > 0 then
      -- lines 622-623
      let m :=
        if in_.commMode = seaio_mode_t.MODBUS_RTU
        then m.log (Call.os_tcsetattr in_.hDevice true) else m
      -- lines 626-629
      let m := if in_.commMode = seaio_mode_t.FTDI_DIRECT then closeD2X in_ m else m
      -- line 632
      let m := m.log (Call.os_close in_.hDevice)
      -- lines 635-640
      let in_ := { in_ with throttle := 1, mutex := 0, commMode := seaio_mode_t.NO_CONNECT,
                            hDevice := -1 }
      let m := m.log Call.os_free
      (0, some { in_ with initalConfig := false }, m)
    else (0, some in_, m)

/-- Line 584 of `SeaMaxLinOpen`: a session that is connected is closed
first. -/
def close_before_open (in_ : seaMaxModule) (m : Machine) : seaMaxModule × Machine :=
  if in_.commMode ≠ seaio_mode_t.NO_CONNECT then
    ((SeaMaxLinClose (some in_) m).2.1.getD in_, (SeaMaxLinClose (some in_) m).2.2)
  else (in_, m)

/-- Lines 587-597 of `SeaMaxLinOpen`: the open function of the prefix gets
the rest of the string. -/
def open_by_prefix (in_ : seaMaxModule) (m : Machine) (filename : List Nat) :
    Option (Int × Option seaMaxModule × Machine) :=
  if filename.take 15 = cstr "sealevel_rtu://" then
    some ((openRTU in_ m (filename.drop 14)).1, some (openRTU in_ m (filename.drop 14)).2.1,
      (openRTU in_ m (filename.drop 14)).2.2)
  else if filename.take 15 = cstr "sealevel_tcp://" then
    some ((openTCP in_ m (filename.drop 15)).1, some (openTCP in_ m (filename.drop 15)).2.1,
      (openTCP in_ m (filename.drop 15)).2.2)
  else if filename.take 15 = cstr "sealevel_d2x://" then
    match openD2X in_ m (filename.drop 15) with
    | none => none
    | some (ret, in_, m) => some (ret, some in_, m)
  else some (-EINVAL, some in_, m)

/-- The function `SeaMaxLinOpen` (seamaxlin.c, lines 575-598); `filename` is
`none` for `NULL`, which `strlen` dereferences. -/
def SeaMaxLinOpen (SeaMaxPointer : Option seaMaxModule) (m : Machine)
    (filename : Option (List Nat)) : Option (Int × Option seaMaxModule × Machine) :=
  match filename with
  | none => none
  | some filename =>
    if filename.length > 256 then some (-ENAMETOOLONG, SeaMaxPointer, m)
    else
      match SeaMaxPointer with
      | none => some (-EINVAL, none, m)
      | some in_ =>
        open_by_prefix (close_before_open in_ m).1 (close_before_open in_ m).2 filename

/-- The function `SeaMaxLinSetIMDelay` (seamaxlin.c, lines 977-987). -/
def SeaMaxLinSetIMDelay (SeaMaxPointer : Option seaMaxModule) (delay : Int) :
    Int × Option seaMaxModule :=
  match SeaMaxPointer with
  | none => (-EBADF, none)
  | some in_ =>
    if in_.hDevice < 0 then (-ENODEV, some in_)
    else if delay < 1 then (-EPERM, some in_)
    else (0, some { in_ with throttle := delay })

/-- The session records a program can hold after calls of `SeaMaxLinCreate`,
`SeaMaxLinOpen`, `SeaMaxLinClose` and `SeaMaxLinSetIMDelay`, whatever the
host answers. -/
inductive Reachable : seaMaxModule → Prop
  | create (m : Machine) (s : seaMaxModule) : SeaMaxLinCreate m = some s → Reachable s
  | open_ (s : seaMaxModule) (m : Machine) (filename : List Nat) (ret : Int)
      (s1 : seaMaxModule) (m1 : Machine) :
      Reachable s → SeaMaxLinOpen (some s) m (some filename) = some (ret, some s1, m1) →
      Reachable s1
  | close (s : seaMaxModule) (m : Machine) (s1 : seaMaxModule) :
      Reachable s → (SeaMaxLinClose (some s) m).2.1 = some s1 → Reachable s1
  | delay (s : seaMaxModule) (ms : Int) (s1 : seaMaxModule) :
      Reachable s → (SeaMaxLinSetIMDelay (some s) ms).2 = some s1 → Reachable s1

/-- A host on which every call succeeds: descriptor 3, every symbol of
`libftdi` present, nothing queued and nothing recorded yet. -/
def goodHost : Machine :=
  { fd := 3, malloc_ok := true, tcgetattr := 0, tcsetattr := 0, host_known := true,
    connect := 0, dlopen_ok := true, dlsym := fun handle _ => handle, ftdi_new_ok := true,
    ftdi_init := 0, ftdi_usb_open := 0, replies := [], write_ret := none, read_pins := 0,
    pins := 0, i2cMPSSEValue := 0,
    i2cMPSSEDirection := 0, MPSSECommand := fun _ => 0, byteIndex := 0, bytesToRead := 0,
    responseCount := 0, responseOffsets := fun _ => 0, variableCallbacks := fun _ => none,
    trace := [] }

/-- The session record `SeaMaxLinCreate` and `openD2X` leave for the device
string `8111`. -/
def usbSession : seaMaxModule :=
  { throttle := 1, commMode := seaio_mode_t.FTDI_DIRECT, hDevice := -1, mutex := 0,
    initalConfig := false, libftdi := true, ftdic := true, deviceType := 0x8111 }

/-- The host `goodHost` after the calls `openD2X` makes for the device string
`8111`. -/
def usbHost : Machine :=
  { goodHost with trace :=
      [Call.os_dlopen, Call.ftdi ftdi_symbol.ftdi_new [], Call.ftdi ftdi_symbol.ftdi_init [],
       Call.ftdi ftdi_symbol.ftdi_usb_open [0x0C52, 0x8111],
       Call.ftdi ftdi_symbol.ftdi_enable_bitbang [0xF0], Call.os_sleep 1] }

/-- The calls that give a transport back: the `tcsetattr` that restores the
line, `close`, `free` and the four FTDI calls of `closeD2X`. None of them is
`open`, `socket`, `connect`, `dlopen` or a call that sets up the bridge. -/
def closing_call (c : Call) : Bool :=
  match c with
  | Call.os_tcsetattr _ true => true
  | Call.os_close _ => true
  | Call.os_free => true
  | Call.ftdi ftdi_symbol.ftdi_disable_bitbang _ => true
  | Call.ftdi ftdi_symbol.ftdi_usb_close _ => true
  | Call.ftdi ftdi_symbol.ftdi_deinit _ => true
  | Call.ftdi ftdi_symbol.ftdi_free _ => true
  | _ => false

/-- The number of payload bytes of an Ioctl request as the specification lists
it: 3 for `0x46` and `0x47`, 2 for `0x44`, 5 for `0x64`, none otherwise. -/
def ioctl_payload_len (f : Nat) : Nat :=
  if f = 0x46 ∨ f = 0x47 then 3 else if f = 0x44 then 2 else if f = 0x64 then 5 else 0

/-- The enumerators `ZERO_TO_FIVE` and `ZERO_TO_TEN` of `channel_range_type`
(seamaxlin.h, lines 370-376). -/
def ZERO_TO_FIVE : Nat := 0
def ZERO_TO_TEN : Nat := 2

/-- Lines 475-479 of `GetExtendedADDAConfig`: the range found is stored for
the channel probed. -/
def store_range (channel : Nat) (ext : adda_ext_config) (range : Nat) : adda_ext_config :=
  if channel = 1 then { ext with da_channel_1_range := range }
  else if channel = 2 then { ext with da_channel_2_range := range }
  else ext

/-- Lines 425-436 of `GetExtendedADDAConfig`: the configuration that patches
the D/A channel probed back into the A/D. -/
def patch_config (channel : Nat) (config : adda_config) : adda_config :=
  if channel = 1 then { config with channel_mode := 0, ch_1 := 2, ch_2 := 2, reference_offset := 4 }
  else if channel = 2 then
    { config with channel_mode := 0, ch_1 := 2, ch_2 := 2, reference_offset := 8 }
  else { config with channel_mode := 0, ch_1 := 2, ch_2 := 2 }

/-- A serial device that answers the requests of the extended A/D probe on
slave 1: A/D configuration `41 C2 00 00 01`, model 470 (two D/A channels),
then for channel 2 the echo of the register write, the acknowledgement of the
configuration and the read-back value `v2`; `tail` and `sched` are the
responses that follow. The CRC bytes, which are not looked at, are zero. -/
def probeDevice (v2 : Nat) (tail : List Nat) (sched : List Nat) : World :=
  deviceSays
    ([1, 0x65, 0x41, 0xC2, 0, 0, 1, 0, 0] ++ [1, 0x45, 0xD6, 0, 0, 0, 0, 0, 0] ++
      [1, 0x06, 0, 1, 1, 0x99, 0, 0] ++ [1, 0x64, 0, 0, 0] ++
      [1, 0x04, 2, v2 / 256, v2 % 256, 0, 0] ++ tail)
    ([9, 9, 8, 5, 7] ++ sched)

/-- The command buffer: the bytes `MPSSECommand[0 .. byteIndex)`. -/
def queue (m : Machine) : List Nat := m.MPSSECommand.toList m.byteIndex

/-- The host with the bytes `bs` appended to the command buffer. -/
def push (m : Machine) (bs : List Nat) : Machine :=
  { m with MPSSECommand := m.MPSSECommand.blit m.byteIndex bs,
           byteIndex := m.byteIndex + bs.length }

/-- The host with the chip state `(v, d)`. -/
def chip (m : Machine) (v d : Nat) : Machine :=
  { m with i2cMPSSEValue := v, i2cMPSSEDirection := d }

/-- The three bytes that latch value and direction of the first bank. -/
def pins (v d : Nat) : List Nat := [0x80, v % 256, d % 256]

/-- The bytes of the command buffer of `m1` that lie beyond the command
buffer of `m`: what a step from `m` to `m1` has appended. -/
def appended (m m1 : Machine) : List Nat := (queue m1).drop m.byteIndex

/-- The statement `bytesToRead += k`. -/
def expect (m : Machine) (k : Nat) : Machine := { m with bytesToRead := m.bytesToRead + k }

/-- Lines 331-332 of `I2C_ReadRegister`: the reply slot for the destination
`data`. -/
def record_slot (m : Machine) (data : Nat) : Machine :=
  let m := { m with responseOffsets :=
    fun j => if j = m.responseCount then m.bytesToRead - 1 else m.responseOffsets j }
  { m with
    variableCallbacks := fun j => if j = m.responseCount then some data else m.variableCallbacks j
    responseCount := m.responseCount + 1 }

/-- A call that queues a transfer: `I2C_ReadRegister(address, reg, &mem[dest])`
or `I2C_WriteRegister(address, reg, data)`. -/
inductive Op where
  | read (address reg dest : Nat)
  | write (address reg data : Nat)

/-- The call `op` made on the host `m`. -/
def apply_op (m : Machine) (op : Op) : Machine :=
  match op with
  | Op.read a g dest => I2C_ReadRegister m a g dest
  | Op.write a g b => I2C_WriteRegister m a g b

/-- The calls `ops` made one after the other on the host `m`. -/
def run_ops (m : Machine) (ops : List Op) : Machine := ops.foldl apply_op m

/-- The reply bytes a call expects: 4 for a read, 3 for a write. -/
def reply_bytes (op : Op) : Nat :=
  match op with
  | Op.read _ _ _ => 4
  | Op.write _ _ _ => 3

/-- The bytes a call appends to the command buffer. -/
def command_bytes (op : Op) : Nat :=
  match op with
  | Op.read _ _ _ => 83
  | Op.write _ _ _ => 63

/-- The reply bytes a batch of calls expects. -/
def expected_replies (ops : List Op) : Nat := (ops.map reply_bytes).sum

/-- The destinations of the reads of a batch, in the order of the calls. -/
def destinations (ops : List Op) : List Nat :=
  ops.filterMap (fun op => match op with
    | Op.read _ _ dest => some dest
    | Op.write _ _ _ => none)

/-- The reply slots `(offset, destination)` of a batch queued when `base`
reply bytes are expected already. -/
def slots (base : Nat) : List Op → List (Nat × Nat)
  | [] => []
  | Op.read _ _ dest :: t => (base + 3, dest) :: slots (base + 4) t
  | Op.write _ _ _ :: t => slots (base + 3) t

/-- The bytes `I2C_ExecuteQueue` finds in `MPSSECommand` after the read: what
`ftdi_read_data` stores when the symbol is there, nothing otherwise. -/
def received (in_ : seaMaxModule) (m : Machine) : List Nat :=
  if m.dlsym in_.libftdi ftdi_symbol.ftdi_read_data then (ftdi_read_data m m.bytesToRead).1
  else []

/-- Lines 378-380 of `I2C_ExecuteQueue`: the host after the command buffer is
written, cleared and filled with the reply. -/
def execute_transfer (in_ : seaMaxModule) (m : Machine) : Machine :=
  let m :=
    if m.dlsym in_.libftdi ftdi_symbol.ftdi_write_data
    then ftdi_write_data m (m.MPSSECommand.toList m.byteIndex) else m
  let m := { m with MPSSECommand := fun _ => 0 }
  if m.dlsym in_.libftdi ftdi_symbol.ftdi_read_data then
    let (bytes, m) := ftdi_read_data m m.bytesToRead
    { m with MPSSECommand := m.MPSSECommand.blit 0 bytes }
  else m

/-- The session record an open SeaDAC Lite 8126 has: opened by `openD2X`, with
the library and the context in place. -/
def pioSession : seaMaxModule :=
  { throttle := 1, commMode := seaio_mode_t.FTDI_DIRECT, hDevice := -1, mutex := 0,
    initalConfig := false, libftdi := true, ftdic := true, deviceType := 0x8126 }

/-- A host with every symbol of `libftdi` present, the chip state of lines
121-123 of `I2C_InitializeI2C`, and the given replies waiting in the bridge. -/
def pioHost (replies : List (List Nat)) : Machine :=
  { goodHost with replies := replies, i2cMPSSEValue := 0x03, i2cMPSSEDirection := 0xF3 }

/-- The bytes the bridge hands to the next `ftdi_read_data`, however many are
asked for: none when the symbol is missing or nothing is waiting. -/
def bridge_reply (in_ : seaMaxModule) (m : Machine) : List Nat :=
  if m.dlsym in_.libftdi ftdi_symbol.ftdi_read_data then m.replies.headD [] else []

/-- Lines 592-607 of `SeaDacGetPIO`: the twelve calls of `I2C_ReadRegister`,
with `direction`, `inputState` and `outputState` at the indices 0..3, 4..7 and
8..11. -/
def getpio_ops : List Op :=
  [Op.read 0xE8 6 0, Op.read 0xE8 7 1, Op.read 0xEA 6 2, Op.read 0xEA 7 3,
   Op.read 0xE8 0 4, Op.read 0xE8 1 5, Op.read 0xEA 0 6, Op.read 0xEA 1 7,
   Op.read 0xE8 2 8, Op.read 0xE8 3 9, Op.read 0xEA 2 10, Op.read 0xEA 3 11]

/-- Lines 745-748 of `SeaDacGetPIODirection`: the four calls of
`I2C_ReadRegister`. -/
def getdir_ops : List Op :=
  [Op.read 0xE8 6 0, Op.read 0xE8 7 1, Op.read 0xEA 6 2, Op.read 0xEA 7 3]

/-- A reply of 48 bytes to the twelve reads of `SeaDacGetPIO`: each direction
register reads `0x0F`, each input register `0xAA`, each output register
`0x55`; the three bytes before each of them are zero. -/
def pioReply : List Nat :=
  [0, 0, 0, 0x0F,
   0, 0, 0, 0x0F,
   0, 0, 0, 0x0F,
   0, 0, 0, 0x0F,
   0, 0, 0, 0xAA,
   0, 0, 0, 0xAA,
   0, 0, 0, 0xAA,
   0, 0, 0, 0xAA,
   0, 0, 0, 0x55,
   0, 0, 0, 0x55,
   0, 0, 0, 0x55,
   0, 0, 0, 0x55]

/-- Lines 861-862: the byte stored in `buffer[0]`. -/
def pack_head (reference_offset channel_mode : Nat) : Nat :=
  (((reference_offset <<< 4) % 256) ||| (channel_mode &&& 0x0F)) % 256

/-- Lines 863-866 (and 867-878 for the other three bytes): the byte stored
for four consecutive channels. -/
def pack_quad (a b c d : Nat) : Nat :=
  ((((((((a &&& 0x03) <<< 6) % 256) ||| ((b &&& 0x03) <<< 4)) % 256) |||
    ((c &&& 0x03) <<< 2)) % 256) ||| ((d &&& 0x03) <<< 0)) % 256

/-- The condition of the specification on a configuration: the reference
offset and the mode fit a nibble, every channel code fits two bits. -/
def adda_in_range (c : adda_config) : Prop :=
  c.reference_offset ≤ 15 ∧ c.channel_mode ≤ 15 ∧
  c.ch_1 ≤ 3 ∧ c.ch_2 ≤ 3 ∧ c.ch_3 ≤ 3 ∧ c.ch_4 ≤ 3 ∧
  c.ch_5 ≤ 3 ∧ c.ch_6 ≤ 3 ∧ c.ch_7 ≤ 3 ∧ c.ch_8 ≤ 3 ∧
  c.ch_9 ≤ 3 ∧ c.ch_10 ≤ 3 ∧ c.ch_11 ≤ 3 ∧ c.ch_12 ≤ 3 ∧
  c.ch_13 ≤ 3 ∧ c.ch_14 ≤ 3 ∧ c.ch_15 ≤ 3 ∧ c.ch_16 ≤ 3

/-- Lines 170-214 of `makeRequest`: the indices at which header, slave,
function code, start, quantity and byte count are stored in `buff`, in
program order; `tcp` is the test `in->commMode == MODBUS_TCP`. -/
def build_frame_writes (tcp : Bool) (funct quan : Nat) : List Nat :=
  let i := if tcp then 6 else 0
  (if tcp then [0, 1, 2, 3] else []) ++ [i, i + 1] ++
  (if funct > 0 ∧ funct < 0x40 then
    [i + 2, i + 3] ++ (if funct ≠ 0x06 then [i + 4, i + 5] else [])
   else []) ++
  (if funct = 0x0F then [i + 6] ++ (if quan % 8 ≠ 0 then [i + 6] else []) else []) ++
  (if funct = 0x10 then [i + 6] else [])

/-- Lines 223-233: the indices `length` at which the loop stores
`buff[length] = data[i]`, the last one before a `return -EINVAL` included; the
first argument is the number of iterations still to run. -/
def data_loop_writes : Nat → Nat → List Nat
  | 0, _ => []
  | k + 1, length =>
    length :: (if length + 1 = 255 then [] else data_loop_writes k (length + 1))

/-- Every index at which `makeRequest` stores into its local array
`buff[256]`, in program order: lines 170-214, the loop of lines 223-233, and
then either the two stores of `calc_crc` (lines 61-62) or those of the length
bytes (lines 253-254). -/
def makeRequest_writes (in_ : seaMaxModule) (w : World) (slaveId funct start quan : Nat)
    (data : Option Buf) : List Nat :=
  let tcp : Bool := decide (in_.commMode = seaio_mode_t.MODBUS_TCP)
  let r := build_frame tcp w.tcp_transaction w.stack slaveId funct start quan
  build_frame_writes tcp funct quan ++ data_loop_writes r.dataSize r.length ++
    (match data_loop (data.getD (fun _ => 0)) r.dataSize 0 r.buff r.length with
     | none => []
     | some (_, length) =>
       if in_.commMode = seaio_mode_t.MODBUS_RTU then [length, length + 1] else [4, 5])

/-- Lines 288-309 of `getResponse`: the calls
`read(in->hDevice, &buffer[length], expected + 4 - length)` the loop makes, as
pairs of the offset `length` and the number of bytes asked for, by recursion
on the schedule exactly as `read_loop`. -/
def read_requests (expected : Nat) : List Nat → List Nat → Nat → List (Nat × Nat)
  | [], _, length =>
    if length < expected + 4 then [(length, expected + 4 - length)] else []
  | c :: sched, rx, length =>
    if length < expected + 4 then
      let incoming := min (min (expected + 4 - length) c) rx.length
      (length, expected + 4 - length) ::
        (if incoming ≤ 0 then []
         else if length + incoming ≥ 220 then []
         else read_requests expected sched (rx.drop incoming) (length + incoming))
    else []

/-- The bytes the device of the failing run delivers: 257 bytes `0xAB`. -/
def longReply : List Nat := List.replicate 257 0xAB

/-- The numbers of bytes handed to `ftdi_write_data`, call by call. -/
def written_lengths (t : List Call) : List Nat :=
  t.filterMap (fun c => match c with
    | Call.ftdi ftdi_symbol.ftdi_write_data b => some b.length
    | _ => none)

/-- The numbers of bytes asked of `ftdi_read_data`, call by call. -/
def reads_asked (t : List Call) : List Nat :=
  t.filterMap (fun c => match c with
    | Call.ftdi ftdi_symbol.ftdi_read_data b => some (b.headD 0)
    | _ => none)

/-- A host on which every call succeeds and the bridge has four replies
waiting: one byte for each of two runs of `I2C_InitializeI2C`, sixteen bytes
for a run of `SeaDacGetPIODirection` and nothing for `SeaDacSetPIODirection`. -/
def reopenHost : Machine :=
  { goodHost with replies :=
      [[0x00], [0x00], [0, 0, 0, 0xFF, 0, 0, 0, 0xFF, 0, 0, 0, 0, 0, 0, 0, 0], []] }

/-- The host `reopenHost` after `SeaMaxLinOpen` with `sealevel_d2x://8126` on
a fresh session. -/
def pioOpened : Machine :=
  { reopenHost with
    replies := [[0x00], [0, 0, 0, 0xFF, 0, 0, 0, 0xFF, 0, 0, 0, 0, 0, 0, 0, 0], []]
    i2cMPSSEValue := 0x03
    i2cMPSSEDirection := 0xF3
    trace :=
      [Call.os_dlopen, Call.ftdi ftdi_symbol.ftdi_new [], Call.ftdi ftdi_symbol.ftdi_init [],
       Call.ftdi ftdi_symbol.ftdi_usb_open [0x0C52, 0x8126],
       Call.ftdi ftdi_symbol.ftdi_set_bitmode [0xf0, 0x02],
       Call.ftdi ftdi_symbol.ftdi_write_data [0x81],
       Call.ftdi ftdi_symbol.ftdi_read_data [1],
       Call.ftdi ftdi_symbol.ftdi_write_data [0x80, 0x03, 0xF3],
       Call.ftdi ftdi_symbol.ftdi_write_data [0x86, 0x0D, 0x00],
       Call.ftdi ftdi_symbol.ftdi_write_data [0x85],
       Call.os_sleep 1] }

/-- Decoding of a command buffer as an opcode stream, with `skip` operand
bytes of the last opcode still to pass over: `0x80`, `0x82` and `0x13` are
followed by two operand bytes, `0x26` by one. The result is the number of
`0x26` opcodes found; `none` when a byte that is none of the four opcodes
stands where an opcode is due, or when operands are missing at the end. -/
def decode_skip : Nat → List Nat → Option Nat
  | 0, [] => some 0
  | _ + 1, [] => none
  | skip + 1, _ :: rest => decode_skip skip rest
  | 0, op :: rest =>
    if op = 0x26 then (decode_skip 1 rest).map (· + 1)
    else if op = 0x80 ∨ op = 0x82 ∨ op = 0x13 then decode_skip 2 rest
    else none

/-- Decoding of a command buffer from its start. -/
def decode_opcodes (l : List Nat) : Option Nat := decode_skip 0 l

/-- A call that adds to the queue: `I2C_ReadRegister(address, reg, &mem[dest])`,
`I2C_WriteRegister(address, reg, data)` or `I2C_SetGPIO(direction, state)`. -/
inductive Queued where
  | read (address reg dest : Nat)
  | write (address reg data : Nat)
  | gpio (direction state : Nat)

/-- The call `c` made on the host `m`. -/
def apply_queued (m : Machine) (c : Queued) : Machine :=
  match c with
  | Queued.read a g dest => I2C_ReadRegister m a g dest
  | Queued.write a g b => I2C_WriteRegister m a g b
  | Queued.gpio d s => I2C_SetGPIO m d s

/-- The calls `cs` made one after the other on the host `m`. -/
def run_queued (m : Machine) (cs : List Queued) : Machine := cs.foldl apply_queued m

/-- The bytes a call appends to the command buffer. -/
def queued_bytes (c : Queued) : Nat :=
  match c with
  | Queued.read _ _ _ => 83
  | Queued.write _ _ _ => 63
  | Queued.gpio _ _ => 6

/-- The reply bytes a call adds to `bytesToRead`. -/
def queued_replies (c : Queued) : Nat :=
  match c with
  | Queued.read _ _ _ => 4
  | Queued.write _ _ _ => 3
  | Queued.gpio _ _ => 0

/-- The reply slots a call records. -/
def queued_slots (c : Queued) : Nat :=
  match c with
  | Queued.read _ _ _ => 1
  | Queued.write _ _ _ => 0
  | Queued.gpio _ _ => 0

/-- The step from `m` to `x` appends `n` bytes that decode to `k` opcodes
`0x26`, and changes nothing but the command buffer and the chip state. -/
def Appends (m x : Machine) (n k : Nat) : Prop :=
  ∃ v d bs, x = push (chip m v d) bs ∧ bs.length = n ∧ decode_opcodes bs = some k

/-- Line 35: `#define MAXIMUM_COMMANDS 255`, the length of the slot tables
`responseOffsets` and `variableCallbacks` (lines 70-71). -/
def MAXIMUM_COMMANDS : Nat := 255

/-- Line 36: `#define MAXIMUM_COMMAND_BYTES 4096`, the length of
`MPSSECommand` (line 66). -/
def MAXIMUM_COMMAND_BYTES : Nat := 4096

/-- Every index the queue of `x` holds is inside its array: the command
buffer has at most `MAXIMUM_COMMAND_BYTES` bytes, the slot tables at most
`MAXIMUM_COMMANDS` entries, the reply that `I2C_ExecuteQueue` reads into
`MPSSECommand` at most `MAXIMUM_COMMAND_BYTES` bytes, and every recorded
offset lies inside that reply. -/
def queue_in_range (x : Machine) : Prop :=
  x.byteIndex ≤ MAXIMUM_COMMAND_BYTES ∧ x.responseCount ≤ MAXIMUM_COMMANDS ∧
  x.bytesToRead ≤ MAXIMUM_COMMAND_BYTES ∧
  ∀ i, i < x.responseCount → x.responseOffsets i < x.bytesToRead

/-- Lines 592-607 of `SeaDacGetPIO`: the twelve calls made between
`I2C_InitializeQueue` and `I2C_ExecuteQueue`. -/
def getpio_calls : List Queued :=
  [Queued.read 0xE8 6 0, Queued.read 0xE8 7 1, Queued.read 0xEA 6 2, Queued.read 0xEA 7 3,
   Queued.read 0xE8 0 4, Queued.read 0xE8 1 5, Queued.read 0xEA 0 6, Queued.read 0xEA 1 7,
   Queued.read 0xE8 2 8, Queued.read 0xE8 3 9, Queued.read 0xEA 2 10, Queued.read 0xEA 3 11]

/-- Lines 745-748 of `SeaDacGetPIODirection`. -/
def getdir_calls : List Queued :=
  [Queued.read 0xE8 6 0, Queued.read 0xE8 7 1, Queued.read 0xEA 6 2, Queued.read 0xEA 7 3]

/-- Lines 655-658 of `SeaDacSetPIO`. -/
def setpio_calls (data : Buf) : List Queued :=
  [Queued.write 0xE8 2 (data 0), Queued.write 0xE8 3 (data 1),
   Queued.write 0xEA 2 (data 2), Queued.write 0xEA 3 (data 3)]

/-- Lines 703-706 of `SeaDacSetPIODirection`: the mask `enable`. -/
def direction_enable (data : Buf) : Nat :=
  let enable := 0x00
  let enable := if data 0 = 0 then enable ||| GPIO_0 else enable
  let enable := if data 1 = 0 then enable ||| GPIO_1 else enable
  let enable := if data 2 = 0 then enable ||| GPIO_2 else enable
  if data 3 = 0 then enable ||| GPIO_3 else enable

/-- Lines 697-708 of `SeaDacSetPIODirection`. -/
def setdir_calls (data : Buf) : List Queued :=
  [Queued.write 0xE8 6 (if data 0 = 0 then 0x00 else 0xFF),
   Queued.write 0xE8 7 (if data 1 = 0 then 0x00 else 0xFF),
   Queued.write 0xEA 6 (if data 2 = 0 then 0x00 else 0xFF),
   Queued.write 0xEA 7 (if data 3 = 0 then 0x00 else 0xFF),
   Queued.gpio 0xFF (0xFF - direction_enable data)]

/-- The reply of the failing run of `SeaMaxLinIoctl`: 255 bytes, a TCP header,
slave 1, the function code `0x45` and 247 bytes `0xAB`. -/
def longIoctlReply : List Nat := [0, 0, 0, 0, 0, 0xF9, 1, 0x45] ++ List.replicate 247 0xAB

/-- The number of data bytes a request carries by the frame layouts of the
specification, before any truncation: `ceil(qty / 8)` for `0x0F`, `qty * 2`
for `0x10`, the fixed payloads of 2 bytes for `0x06` and `0x44`, 12 for
`0x42`, 3 for `0x46`/`0x47` and 5 for `0x64`, none otherwise. -/
def payload_len (funct quan : Nat) : Nat :=
  if funct = 0x64 then 5
  else if funct = 0x46 ∨ funct = 0x47 then 3
  else if funct = 0x42 then 12
  else if funct = 0x0F then (quan + 7) / 8
  else if funct = 0x10 then quan * 2
  else if funct = 0x06 ∨ funct = 0x44 then 2
  else 0

/-! ## Lemmas on buffers -/

theorem Buf.toList_length (b : Buf) (n : Nat) : (b.toList n).length = n := by
  simp [Buf.toList]

theorem Buf.toList_succ (b : Buf) (n : Nat) : b.toList (n + 1) = b.toList n ++ [b n] := by
  simp [Buf.toList, List.range_succ]

theorem Buf.toList_congr (b c : Buf) (n : Nat) (h : ∀ j, j < n → b j = c j) :
    b.toList n = c.toList n := by
  unfold Buf.toList
  apply List.map_congr_left
  intro j hj
  exact h j (List.mem_range.mp hj)

theorem Buf.set_same (b : Buf) (i v : Nat) : b.set i v i = v := by
  simp [Buf.set]

theorem Buf.set_other (b : Buf) (i v j : Nat) (h : j ≠ i) : b.set i v j = b j := by
  simp [Buf.set, h]

theorem Buf.toList_set_ge (b : Buf) (i v n : Nat) (h : n ≤ i) :
    (b.set i v).toList n = b.toList n := by
  apply Buf.toList_congr
  intro j hj
  exact Buf.set_other b i v j (by omega)

/-! ## Lemmas on the CRC -/

theorem crc16Shift_lt (c : Nat) (h : c < 65536) : crc16Shift c < 65536 := by
  unfold crc16Shift
  split
  · exact Nat.xor_lt_two_pow (n := 16) (by omega) (by norm_num)
  · omega

theorem crc_bits_eq (k c : Nat) (h : c < 65536) :
    crc_bits k c = crc16Shift^[k] c ∧ crc_bits k c < 65536 := by
  induction k generalizing c with
  | zero => simpa [crc_bits] using h
  | succ k ih =>
    have hs : crc16Shift c < 65536 := crc16Shift_lt c h
    have h1 : (c &&& 0x0001) % 256 = c % 2 := by
      rw [Nat.and_one_is_mod]; omega
    have h2 : (c >>> 1) % 65536 = c / 2 := by
      rw [Nat.shiftRight_eq_div_pow]; omega
    have hx : (c / 2) ^^^ 0xA001 < 65536 :=
      Nat.xor_lt_two_pow (n := 16) (by omega) (by norm_num)
    have step : (if (c &&& 0x0001) % 256 = 0x1 then ((c >>> 1) % 65536 ^^^ 0xA001) % 65536
        else (c >>> 1) % 65536) = crc16Shift c := by
      rw [h1, h2]
      unfold crc16Shift
      split
      · exact Nat.mod_eq_of_lt hx
      · rfl
    simp only [crc_bits, Function.iterate_succ, Function.comp_apply]
    rw [step]
    exact ih (crc16Shift c) hs

theorem crc16Byte_lt (c b : Nat) (hc : c < 65536) (hb : b < 256) : crc16Byte c b < 65536 := by
  have hx : c ^^^ b < 65536 := Nat.xor_lt_two_pow (n := 16) hc (by omega)
  have := crc_bits_eq 8 (c ^^^ b) hx
  unfold crc16Byte
  rw [← this.1]
  exact this.2

theorem crc_bytes_eq (data : Buf) (k i c : Nat) (hc : c < 65536)
    (hd : ∀ j, i ≤ j → j < i + k → data j < 256) :
    crc_bytes data k i c = ((List.range k).map (fun j => data (i + j))).foldl crc16Byte c := by
  induction k generalizing i c with
  | zero => simp [crc_bytes]
  | succ k ih =>
    have hb : data i < 256 := hd i (le_refl i) (by omega)
    have hx : c ^^^ data i < 65536 := Nat.xor_lt_two_pow (n := 16) hc (by omega)
    have hbits := crc_bits_eq 8 (c ^^^ data i) hx
    simp only [crc_bytes]
    rw [Nat.mod_eq_of_lt hx, hbits.1]
    rw [ih (i + 1) _ (hbits.1 ▸ hbits.2) (fun j h1 h2 => hd j (by omega) (by omega))]
    rw [List.range_succ_eq_map]
    simp only [List.map_cons, List.map_map, List.foldl_cons, crc16Byte]
    congr 2
    funext j
    simp only [Function.comp_apply]
    congr 1
    omega

theorem crc16_lt (B : List Nat) (hB : ∀ b ∈ B, b < 256) : crc16 B < 65536 := by
  unfold crc16
  have key : ∀ (l : List Nat) (c : Nat), c < 65536 → (∀ b ∈ l, b < 256) →
      l.foldl crc16Byte c < 65536 := by
    intro l
    induction l with
    | nil => intro c hc _; simpa using hc
    | cons x xs ih =>
      intro c hc hl
      simp only [List.foldl_cons]
      exact ih _ (crc16Byte_lt c x hc (hl x (by simp))) (fun b hb => hl b (by simp [hb]))
  exact key B 0xFFFF (by norm_num) hB

/-- The CRC loop of `calc_crc` computes the reference CRC-16 of `data[0..n)`. -/
theorem crc_bytes_reference (data : Buf) (n : Nat) (hd : ∀ j, j < n → data j < 256) :
    crc_bytes data n 0 0xFFFF = crc16 (data.toList n) := by
  rw [crc_bytes_eq data n 0 0xFFFF (by norm_num) (fun j _ h => hd j (by omega))]
  unfold crc16 Buf.toList
  congr 2
  funext j
  simp

/-- What `calc_crc` stores: the buffer with the two CRC bytes of its first `n`
bytes at `n` and `n+1`. -/
theorem calc_crc_eq (n : Nat) (data : Buf) (hd : ∀ j, j < n → data j < 256) :
    calc_crc n data =
      (data.set n (crc16 (data.toList n) % 256)).set (n + 1) (crc16 (data.toList n) / 256) := by
  have hlt : crc16 (data.toList n) < 65536 := by
    apply crc16_lt
    intro b hb
    simp only [Buf.toList, List.mem_map, List.mem_range] at hb
    obtain ⟨j, hj, rfl⟩ := hb
    exact hd j hj
  unfold calc_crc
  simp only []
  rw [crc_bytes_reference data n hd]
  have e1 : (crc16 (data.toList n) &&& 0xFF) % 256 = crc16 (data.toList n) % 256 := by
    have : (255 : Nat) = 2 ^ 8 - 1 := by norm_num
    rw [this, Nat.and_pow_two_sub_one_eq_mod]
    omega
  have e2 : ((crc16 (data.toList n) >>> 8) &&& 0xFF) % 256 = crc16 (data.toList n) / 256 := by
    have : (255 : Nat) = 2 ^ 8 - 1 := by norm_num
    rw [this, Nat.and_pow_two_sub_one_eq_mod, Nat.shiftRight_eq_div_pow]
    omega
  rw [e1, e2]


/-! ## Lemmas on `makeRequest` -/

theorem shr8 (x : Nat) : (x >>> 8) % 256 = x / 256 % 256 := by
  rw [Nat.shiftRight_eq_div_pow]

theorem and255 (x : Nat) : (x &&& 0x00FF) % 256 = x % 256 := by
  have : (255 : Nat) = 2 ^ 8 - 1 := by norm_num
  rw [this, Nat.and_pow_two_sub_one_eq_mod]; omega

theorem Buf.toList_add (b : Buf) (m n : Nat) :
    b.toList (m + n) = b.toList m ++ (List.range n).map (fun j => b (m + j)) := by
  simp [Buf.toList, List.range_add, List.map_map, Function.comp_def]

theorem Buf.toList_set_lt (b : Buf) (i v n : Nat) :
    (b.set i v).toList n = (b.toList n).set i v := by
  apply List.ext_getElem
  · simp [Buf.toList]
  · intro j h1 h2
    simp only [Buf.toList, List.length_map, List.length_range] at h1
    simp only [Buf.toList, List.getElem_map, List.getElem_range, List.getElem_set, List.length_map,
      List.length_range, Buf.set]
    by_cases hji : j = i
    · subst hji; simp
    · simp [hji, Ne.symm hji]

theorem build_frame_serial (temp : Nat) (stack : Buf) (s f st q : Nat) :
    (build_frame false temp stack s f st q).i = 0 ∧
    (build_frame false temp stack s f st q).length = 2 + (request_fields f st q).length ∧
    (build_frame false temp stack s f st q).buff.toList
      (build_frame false temp stack s f st q).length = [s, f] ++ request_fields f st q ∧
    (build_frame false temp stack s f st q).dataSize = request_dataSize f q := by
  by_cases h6 : f = 6
  · subst h6
    simp [build_frame, request_fields, request_dataSize, Buf.toList, List.range_succ, Buf.set,
      shr8, and255]
  by_cases h15 : f = 15
  · subst h15
    by_cases hq : q % 8 = 0 <;>
    simp [build_frame, request_fields, request_dataSize, Buf.toList, List.range_succ, Buf.set,
      shr8, and255, hq]
  by_cases h16 : f = 16
  · subst h16
    simp [build_frame, request_fields, request_dataSize, Buf.toList, List.range_succ, Buf.set,
      shr8, and255]
  by_cases hr : 0 < f ∧ f < 64 <;>
  simp [build_frame, request_fields, request_dataSize, Buf.toList, List.range_succ, Buf.set,
    shr8, and255, h6, h15, h16, hr]

theorem build_frame_tcp (temp : Nat) (stack : Buf) (s f st q : Nat) :
    (build_frame true temp stack s f st q).i = 6 ∧
    (build_frame true temp stack s f st q).length = 8 + (request_fields f st q).length ∧
    (build_frame true temp stack s f st q).buff.toList
      (build_frame true temp stack s f st q).length =
        [temp / 256 % 256, temp % 256, 0, 0, stack 4, stack 5, s, f] ++ request_fields f st q ∧
    (build_frame true temp stack s f st q).dataSize = request_dataSize f q := by
  by_cases h6 : f = 6
  · subst h6
    simp [build_frame, request_fields, request_dataSize, Buf.toList, List.range_succ, Buf.set,
      shr8, and255]
  by_cases h15 : f = 15
  · subst h15
    by_cases hq : q % 8 = 0 <;>
    simp [build_frame, request_fields, request_dataSize, Buf.toList, List.range_succ, Buf.set,
      shr8, and255, hq]
  by_cases h16 : f = 16
  · subst h16
    simp [build_frame, request_fields, request_dataSize, Buf.toList, List.range_succ, Buf.set,
      shr8, and255]
  by_cases hr : 0 < f ∧ f < 64 <;>
  simp [build_frame, request_fields, request_dataSize, Buf.toList, List.range_succ, Buf.set,
    shr8, and255, h6, h15, h16, hr]

theorem request_fields_length_le (f st q : Nat) : (request_fields f st q).length ≤ 5 := by
  unfold request_fields
  split_ifs <;> simp <;> omega

theorem data_loop_some (data : Buf) (k i : Nat) (buff : Buf) (length : Nat)
    (h : k = 0 ∨ length + k < 255) :
    data_loop data k i buff length =
      some (fun j => if length ≤ j ∧ j < length + k then data (i + (j - length)) else buff j,
        length + k) := by
  induction k generalizing i buff length with
  | zero =>
    simp only [data_loop, Option.some.injEq, Prod.mk.injEq, add_zero, and_true]
    funext j
    have : ¬ (length ≤ j ∧ j < length) := by omega
    simp [this]
  | succ k ih =>
    have hlt : length + (k + 1) < 255 := by omega
    have hne : ¬ (length + 1 = 255) := by omega
    simp only [data_loop, hne, if_false]
    rw [ih (i + 1) _ (length + 1) (Or.inr (by omega))]
    simp only [Option.some.injEq, Prod.mk.injEq]
    constructor
    · funext j
      by_cases h1 : j = length
      · subst h1
        have : ¬ (j + 1 ≤ j ∧ j < j + 1 + k) := by omega
        simp [this, Buf.set]
      · by_cases h2 : length + 1 ≤ j ∧ j < length + 1 + k
        · have h3 : length ≤ j ∧ j < length + (k + 1) := by omega
          have h4 : i + 1 + (j - (length + 1)) = i + (j - length) := by omega
          simp [h2, h3, h4]
        · have h3 : ¬ (length ≤ j ∧ j < length + (k + 1)) := by omega
          simp [h2, h3, Buf.set, h1]
    · omega

theorem data_loop_none (data : Buf) (k i : Nat) (buff : Buf) (length : Nat)
    (hk : 0 < k) (hl : length < 255) (h : 255 ≤ length + k) :
    data_loop data k i buff length = none := by
  induction k generalizing i buff length with
  | zero => omega
  | succ k ih =>
    simp only [data_loop]
    by_cases h1 : length + 1 = 255
    · simp [h1]
    · simp only [h1, if_false]
      exact ih (i + 1) _ (length + 1) (by omega) (by omega) (by omega)


/-- The frame buffer after the payload loop holds the request. -/
theorem payload_toList (buff D : Buf) (L k : Nat) :
    Buf.toList (fun j => if L ≤ j ∧ j < L + k then D (0 + (j - L)) else buff j) (L + k) =
      buff.toList L ++ D.toList k := by
  rw [Buf.toList_add]
  congr 1
  · apply Buf.toList_congr
    intro j hj
    have : ¬ (L ≤ j ∧ j < L + k) := by omega
    simp [this]
  · unfold Buf.toList
    apply List.map_congr_left
    intro j hj
    have hj2 := List.mem_range.mp hj
    have : L ≤ L + j ∧ L + j < L + k := by omega
    simp [this]

theorem request_pdu_length (s f st q : Nat) (data : Option Buf) :
    (request_pdu s f st q data).length =
      2 + (request_fields f st q).length + request_dataSize f q := by
  simp [request_pdu, Buf.toList_length]
  omega

theorem request_fields_lt (f st q : Nat) : ∀ b ∈ request_fields f st q, b < 256 := by
  intro b hb
  unfold request_fields at hb
  simp only [List.mem_append] at hb
  rcases hb with (hb | hb) | hb
  all_goals (split_ifs at hb <;> simp at hb <;> omega)

theorem request_pdu_lt (s f st q : Nat) (data : Option Buf) (hs : s < 256) (hf : f < 256)
    (hd : ∀ j, j < request_dataSize f q → (data.getD (fun _ => 0)) j < 256) :
    ∀ b ∈ request_pdu s f st q data, b < 256 := by
  intro b hb
  unfold request_pdu at hb
  simp only [List.mem_append, List.mem_cons, List.mem_singleton, List.not_mem_nil, or_false] at hb
  rcases hb with ((rfl | rfl) | hb) | hb
  · exact hs
  · exact hf
  · exact request_fields_lt f st q b hb
  · simp only [Buf.toList, List.mem_map, List.mem_range] at hb
    obtain ⟨j, hj, rfl⟩ := hb
    exact hd j hj

theorem calc_crc_toList (buff : Buf) (n : Nat) (hd : ∀ b ∈ buff.toList n, b < 256) :
    (calc_crc n buff).toList (n + 2) =
      buff.toList n ++ [crc16 (buff.toList n) % 256, crc16 (buff.toList n) / 256] := by
  have hd2 : ∀ j, j < n → buff j < 256 := by
    intro j hj
    apply hd
    simp only [Buf.toList, List.mem_map, List.mem_range]
    exact ⟨j, hj, rfl⟩
  rw [calc_crc_eq n buff hd2, Buf.toList_succ, Buf.toList_succ,
    Buf.toList_set_ge _ _ _ _ (by omega), Buf.toList_set_ge _ _ _ _ (le_refl _),
    Buf.set_other _ _ _ _ (by omega), Buf.set_same, Buf.set_same]
  simp

theorem makeRequest_rtu (in_ : seaMaxModule) (w : World) (s f st q : Nat) (data : Option Buf)
    (hm : in_.mutex = 0) (hc : in_.commMode = seaio_mode_t.MODBUS_RTU)
    (hs : s < 256) (hf : f < 256)
    (hd : ∀ j, j < request_dataSize f q → (data.getD (fun _ => 0)) j < 256)
    (hnull : request_dataSize f q = 0 ∨ data.isSome)
    (hfit : request_dataSize f q = 0 ∨ (request_pdu s f st q data).length < 255) :
    makeRequest in_ w s f st q data =
      some (if (sys_write w (rtu_frame s f st q data)).1 ≠ ((rtu_frame s f st q data).length : Int)
              then -EBADF else ((rtu_frame s f st q data).length : Int),
            in_, (sys_write w (rtu_frame s f st q data)).2) := by
  obtain ⟨hi, hl, hbuf, hds⟩ := build_frame_serial w.tcp_transaction w.stack s f st q
  have hplen := request_pdu_length s f st q data
  have hin : ({ in_ with mutex := 0 } : seaMaxModule) = in_ := by
    cases in_; simp_all
  have hnn : ¬ (request_dataSize f q > 0 ∧ data.isNone = true) := by
    rcases hnull with h | h
    · omega
    · simp [Option.isNone_iff_eq_none, Option.isSome_iff_exists] at h ⊢
      intro _ hn
      obtain ⟨a, ha⟩ := h
      simp [ha] at hn
  have hloop := data_loop_some (data.getD (fun _ => 0)) (request_dataSize f q) 0
    (build_frame false w.tcp_transaction w.stack s f st q).buff
    (build_frame false w.tcp_transaction w.stack s f st q).length (by omega)
  have hpdu := payload_toList (build_frame false w.tcp_transaction w.stack s f st q).buff
    (data.getD (fun _ => 0)) (build_frame false w.tcp_transaction w.stack s f st q).length
    (request_dataSize f q)
  rw [hbuf] at hpdu
  have hpdu2 : Buf.toList (fun j =>
      if (build_frame false w.tcp_transaction w.stack s f st q).length ≤ j ∧
          j < (build_frame false w.tcp_transaction w.stack s f st q).length + request_dataSize f q
      then (data.getD (fun _ => 0)) (0 + (j - (build_frame false w.tcp_transaction w.stack s f st q).length))
      else (build_frame false w.tcp_transaction w.stack s f st q).buff j)
      ((build_frame false w.tcp_transaction w.stack s f st q).length + request_dataSize f q)
      = request_pdu s f st q data := hpdu
  have hcrc := calc_crc_toList _ _ (hpdu2 ▸ request_pdu_lt s f st q data hs hf hd)
  rw [hpdu2] at hcrc
  have hlen : (rtu_frame s f st q data).length =
      (build_frame false w.tcp_transaction w.stack s f st q).length + request_dataSize f q + 2 := by
    simp [rtu_frame, hplen, hl]
  unfold makeRequest
  simp only [hm, hc, ne_eq, not_true_eq_false, if_false, reduceCtorEq, decide_False,
    Bool.false_eq_true, hds, hnn, hloop, if_true, hin]
  rw [hcrc]
  simp only [rtu_frame] at hlen ⊢
  rw [hlen]
  simp only [Nat.cast_add, Nat.cast_ofNat]
  split <;> simp_all


theorem u8_len_hi (L : Nat) (h : 6 ≤ L) :
    u8 (((L : Int) - 6) >>> (8 : Nat)) = (L - 6) / 256 % 256 := by
  unfold u8
  rw [Int.shiftRight_eq_div_pow]
  omega

theorem u8_len_lo (L : Nat) (h : 6 ≤ L) : u8 ((L : Int) - 6) = (L - 6) % 256 := by
  unfold u8
  omega

theorem tcp_length_toList (buff : Buf) (L a b c d x y : Nat) (rest : List Nat)
    (h : buff.toList L = [a, b, c, d, x, y] ++ rest) :
    ((buff.set 4 (u8 (((L : Int) - 6) >>> (8 : Nat)))).set 5 (u8 ((L : Int) - 6))).toList L =
      [a, b, c, d, (L - 6) / 256 % 256, (L - 6) % 256] ++ rest := by
  have hL : 6 ≤ L := by
    have := congrArg List.length h
    simp [Buf.toList_length] at this
    omega
  rw [Buf.toList_set_lt, Buf.toList_set_lt, h, u8_len_hi _ hL, u8_len_lo _ hL]
  simp

theorem makeRequest_tcp (in_ : seaMaxModule) (w : World) (s f st q : Nat) (data : Option Buf)
    (hm : in_.mutex = 0) (hc : in_.commMode = seaio_mode_t.MODBUS_TCP)
    (hnull : request_dataSize f q = 0 ∨ data.isSome)
    (hfit : request_dataSize f q = 0 ∨ 6 + (request_pdu s f st q data).length < 255) :
    makeRequest in_ w s f st q data =
      some (if (sys_write { w with tcp_transaction := w.tcp_transaction + 1 }
                (tcp_frame w.tcp_transaction s f st q data)).1 ≠
                ((tcp_frame w.tcp_transaction s f st q data).length : Int)
              then -EBADF else ((tcp_frame w.tcp_transaction s f st q data).length : Int),
            in_,
            (sys_write { w with tcp_transaction := w.tcp_transaction + 1 }
              (tcp_frame w.tcp_transaction s f st q data)).2) := by
  obtain ⟨hi, hl, hbuf, hds⟩ := build_frame_tcp w.tcp_transaction w.stack s f st q
  have hplen := request_pdu_length s f st q data
  have hin : ({ in_ with mutex := 0 } : seaMaxModule) = in_ := by
    cases in_; simp_all
  have hnn : ¬ (request_dataSize f q > 0 ∧ data.isNone = true) := by
    rcases hnull with h | h
    · omega
    · simp [Option.isNone_iff_eq_none, Option.isSome_iff_exists] at h ⊢
      intro _ hn
      obtain ⟨a, ha⟩ := h
      simp [ha] at hn
  have hloop := data_loop_some (data.getD (fun _ => 0)) (request_dataSize f q) 0
    (build_frame true w.tcp_transaction w.stack s f st q).buff
    (build_frame true w.tcp_transaction w.stack s f st q).length (by omega)
  have hpdu := payload_toList (build_frame true w.tcp_transaction w.stack s f st q).buff
    (data.getD (fun _ => 0)) (build_frame true w.tcp_transaction w.stack s f st q).length
    (request_dataSize f q)
  rw [hbuf, List.append_assoc] at hpdu
  have hfin := tcp_length_toList _ _ _ _ _ _ _ _ _ hpdu
  have hL : (build_frame true w.tcp_transaction w.stack s f st q).length + request_dataSize f q
      - 6 = (request_pdu s f st q data).length := by omega
  have hlen : (tcp_frame w.tcp_transaction s f st q data).length =
      (build_frame true w.tcp_transaction w.stack s f st q).length + request_dataSize f q := by
    simp [tcp_frame, hplen, hl]; omega
  have hfin2 := hfin.trans (show _ = tcp_frame w.tcp_transaction s f st q data from by
    rw [hL]
    simp [tcp_frame, request_pdu])
  unfold makeRequest
  simp only [hm, hc, ne_eq, not_true_eq_false, if_false, reduceCtorEq, decide_True,
    hds, hnn, hloop, if_true, hin]
  rw [hfin2, hlen]
  split <;> simp_all

theorem makeRequest_rtu_overflow (in_ : seaMaxModule) (w : World) (s f st q : Nat)
    (data : Option Buf) (hm : in_.mutex = 0) (hc : in_.commMode = seaio_mode_t.MODBUS_RTU)
    (hnull : data.isSome) (hpos : 0 < request_dataSize f q)
    (hbig : 255 ≤ (request_pdu s f st q data).length) :
    makeRequest in_ w s f st q data = some (-EINVAL, in_, w) := by
  obtain ⟨hi, hl, hbuf, hds⟩ := build_frame_serial w.tcp_transaction w.stack s f st q
  have hplen := request_pdu_length s f st q data
  have hfl := request_fields_length_le f st q
  have hnn : ¬ (request_dataSize f q > 0 ∧ data.isNone = true) := by
    simp [Option.isNone_iff_eq_none, Option.isSome_iff_exists] at hnull ⊢
    intro _ hn
    obtain ⟨a, ha⟩ := hnull
    simp [ha] at hn
  have hloop := data_loop_none (data.getD (fun _ => 0)) (request_dataSize f q) 0
    (build_frame false w.tcp_transaction w.stack s f st q).buff
    (build_frame false w.tcp_transaction w.stack s f st q).length hpos (by omega) (by omega)
  unfold makeRequest
  simp only [hm, hc, ne_eq, not_true_eq_false, if_false, reduceCtorEq, decide_False,
    Bool.false_eq_true, hds, hnn, hloop]
  cases in_
  simp_all

theorem makeRequest_tcp_overflow (in_ : seaMaxModule) (w : World) (s f st q : Nat)
    (data : Option Buf) (hm : in_.mutex = 0) (hc : in_.commMode = seaio_mode_t.MODBUS_TCP)
    (hnull : data.isSome) (hpos : 0 < request_dataSize f q)
    (hbig : 255 ≤ 6 + (request_pdu s f st q data).length) :
    makeRequest in_ w s f st q data =
      some (-EINVAL, in_, { w with tcp_transaction := w.tcp_transaction + 1 }) := by
  obtain ⟨hi, hl, hbuf, hds⟩ := build_frame_tcp w.tcp_transaction w.stack s f st q
  have hplen := request_pdu_length s f st q data
  have hfl := request_fields_length_le f st q
  have hnn : ¬ (request_dataSize f q > 0 ∧ data.isNone = true) := by
    simp [Option.isNone_iff_eq_none, Option.isSome_iff_exists] at hnull ⊢
    intro _ hn
    obtain ⟨a, ha⟩ := hnull
    simp [ha] at hn
  have hloop := data_loop_none (data.getD (fun _ => 0)) (request_dataSize f q) 0
    (build_frame true w.tcp_transaction w.stack s f st q).buff
    (build_frame true w.tcp_transaction w.stack s f st q).length hpos (by omega) (by omega)
  unfold makeRequest
  simp only [hm, hc, ne_eq, not_true_eq_false, if_false, reduceCtorEq, decide_True,
    hds, hnn, hloop, if_true]
  cases in_
  simp_all

/-! ## Lemmas on `getResponse` -/

theorem Buf.blit_nil (b : Buf) (off : Nat) : b.blit off [] = b := by
  funext j
  simp [Buf.blit]

theorem Buf.blit_apply_lt (b : Buf) (off : Nat) (l : List Nat) (j : Nat) (h : j < off) :
    b.blit off l j = b j := by
  have : ¬ (off ≤ j ∧ j < off + l.length) := by omega
  simp [Buf.blit, this]

theorem Buf.blit_apply_ge (b : Buf) (off : Nat) (l : List Nat) (j : Nat) (h : off + l.length ≤ j) :
    b.blit off l j = b j := by
  have : ¬ (off ≤ j ∧ j < off + l.length) := by omega
  simp [Buf.blit, this]

theorem Buf.blit_apply_mid (b : Buf) (off : Nat) (l : List Nat) (j : Nat) (h : j < l.length) :
    b.blit off l (off + j) = l.getD j 0 := by
  have : off ≤ off + j ∧ off + j < off + l.length := by omega
  simp [Buf.blit, this]

/-- Two consecutive reads fill the buffer like one read of both chunks. -/
theorem Buf.blit_blit (b : Buf) (off : Nat) (rx : List Nat) (k m : Nat) (hk : k ≤ rx.length) :
    (b.blit off (rx.take k)).blit (off + k) ((rx.drop k).take m) = b.blit off (rx.take (k + m)) := by
  funext j
  simp only [Buf.blit, List.length_take, List.length_drop]
  by_cases h1 : j < off
  · have a1 : ¬ (off + k ≤ j ∧ j < off + k + min m (rx.length - k)) := by omega
    have a2 : ¬ (off ≤ j ∧ j < off + min k rx.length) := by omega
    have a3 : ¬ (off ≤ j ∧ j < off + min (k + m) rx.length) := by omega
    simp [a1, a2, a3]
  · by_cases h2 : j < off + k
    · have a1 : ¬ (off + k ≤ j ∧ j < off + k + min m (rx.length - k)) := by omega
      have a2 : off ≤ j ∧ j < off + min k rx.length := by omega
      have a3 : off ≤ j ∧ j < off + min (k + m) rx.length := by omega
      have a4 : j - off < k := by omega
      have a5 : j - off < k + m := by omega
      simp [a1, a2, a3, List.getD_eq_getElem?_getD, List.getElem?_take, a4, a5]
    · by_cases h3 : j < off + k + min m (rx.length - k)
      · have a1 : off + k ≤ j ∧ j < off + k + min m (rx.length - k) := by omega
        have a3 : off ≤ j ∧ j < off + min (k + m) rx.length := by omega
        have a4 : j - (off + k) < m := by omega
        have a5 : j - off < k + m := by omega
        have a6 : k + (j - (off + k)) = j - off := by omega
        simp [a1, a3, List.getD_eq_getElem?_getD, List.getElem?_take, a4, a5, List.getElem?_drop, a6]
      · have a1 : ¬ (off + k ≤ j ∧ j < off + k + min m (rx.length - k)) := by omega
        have a2 : ¬ (off ≤ j ∧ j < off + min k rx.length) := by omega
        have a3 : ¬ (off ≤ j ∧ j < off + min (k + m) rx.length) := by omega
        simp [a1, a2, a3]

/-- When every `read` call brings at least one byte and the device delivers
enough of them, the serial loop ends with the first `expected + 4` bytes of
the response in `buffer`. -/
theorem read_loop_ok (expected : Nat) (sched rx : List Nat) (buffer : Buf) (length : Nat)
    (hpos : ∀ c ∈ sched, 0 < c) (hsum : expected + 4 - length ≤ sched.sum)
    (hrx : expected + 4 - length ≤ rx.length) (hcap : expected + 4 < 220)
    (hlen : length ≤ expected + 4) :
    ∃ sched', read_loop expected sched rx buffer length =
      (none, buffer.blit length (rx.take (expected + 4 - length)), expected + 4, sched',
        rx.drop (expected + 4 - length)) := by
  induction sched generalizing rx buffer length with
  | nil =>
    have h0 : expected + 4 - length = 0 := by simpa using hsum
    have h1 : ¬ (length < expected + 4) := by omega
    have h2 : length = expected + 4 := by omega
    refine ⟨[], ?_⟩
    simp [read_loop, h1, h0, Buf.blit_nil, h2]
  | cons c sched ih =>
    by_cases h1 : length < expected + 4
    · have hc : 0 < c := hpos c (by simp)
      have hinc : min (min (expected + 4 - length) c) rx.length = min (expected + 4 - length) c := by
        omega
      have hne : ¬ (min (expected + 4 - length) c ≤ 0) := by omega
      have hcap2 : ¬ (length + min (expected + 4 - length) c ≥ 220) := by omega
      simp only [List.sum_cons] at hsum
      obtain ⟨sched', hs⟩ := ih (rx.drop (min (expected + 4 - length) c))
        (buffer.blit length (rx.take (min (expected + 4 - length) c)))
        (length + min (expected + 4 - length) c)
        (fun x hx => hpos x (by simp [hx])) (by omega) (by simp; omega) (by omega)
      refine ⟨sched', ?_⟩
      simp only [read_loop, h1, if_true, hinc, hne, hcap2, if_false]
      rw [hs, Buf.blit_blit _ _ _ _ _ (by omega), List.drop_drop]
      have e1 : min (expected + 4 - length) c +
          (expected + 4 - (length + min (expected + 4 - length) c)) = expected + 4 - length := by
        omega
      rw [e1]
    · have h0 : expected + 4 - length = 0 := by omega
      have h2 : length = expected + 4 := by omega
      refine ⟨c :: sched, ?_⟩
      simp [read_loop, h1, h0, Buf.blit_nil, h2]

theorem copy_loop_eq (buffer : Buf) (k j i : Nat) (data : Buf) :
    copy_loop buffer k j i data =
      fun x => if j ≤ x ∧ x < j + k then buffer (i + (x - j)) else data x := by
  induction k generalizing j i data with
  | zero =>
    funext x
    have : ¬ (j ≤ x ∧ x < j) := by omega
    simp [copy_loop, this]
  | succ k ih =>
    simp only [copy_loop]
    rw [ih]
    funext x
    by_cases h1 : x = j
    · subst h1
      have a1 : ¬ (x + 1 ≤ x ∧ x < x + 1 + k) := by omega
      have a2 : x ≤ x ∧ x < x + (k + 1) := by omega
      simp [a1, a2, Buf.set]
    · by_cases h2 : j + 1 ≤ x ∧ x < j + 1 + k
      · have a2 : j ≤ x ∧ x < j + (k + 1) := by omega
        have a3 : i + 1 + (x - (j + 1)) = i + (x - j) := by omega
        simp [h2, a2, a3]
      · have a2 : ¬ (j ≤ x ∧ x < j + (k + 1)) := by omega
        simp [h2, a2, Buf.set, h1]

/-- The serial path of `getResponse` on a response delivered completely. -/
theorem getResponse_rtu_ok (in_ : seaMaxModule) (w : World) (funct : Nat) (data : Buf)
    (expected : Nat) (hc : in_.commMode = seaio_mode_t.MODBUS_RTU)
    (hpos : ∀ c ∈ w.sched, 0 < c) (hsum : expected + 4 ≤ w.sched.sum)
    (hrx : expected + 4 ≤ w.rx.length) (hcap : expected + 4 < 220) :
    ∃ sched', getResponse in_ w funct data expected =
      ((decode_response in_ funct data (w.stack.blit 0 (w.rx.take (expected + 4))) 1
          ((expected : Int) + 1)).1,
       (decode_response in_ funct data (w.stack.blit 0 (w.rx.take (expected + 4))) 1
          ((expected : Int) + 1)).2.1,
       { w with sched := sched', rx := w.rx.drop (expected + 4) },
       (decode_response in_ funct data (w.stack.blit 0 (w.rx.take (expected + 4))) 1
          ((expected : Int) + 1)).2.2) := by
  obtain ⟨sched', hs⟩ := read_loop_ok expected w.sched w.rx w.stack 0 hpos (by omega) (by omega)
    hcap (by omega)
  refine ⟨sched', ?_⟩
  have h1 : ¬ (expected > 256) := by omega
  have h2 : ¬ (expected + 4 < 1) := by omega
  have e : ((expected + 4 : Nat) : Int) - 1 - 2 = (expected : Int) + 1 := by omega
  simp only [getResponse, h1, if_false, hc, if_true, hs, Nat.sub_zero, h2, e]

/-! ## Lemmas on the public calls -/


theorem sys_write_sent (w : World) (bytes : List Nat) :
    (sys_write w bytes).2.sent = w.sent ++ [bytes] := by
  unfold sys_write
  split <;> rfl

theorem sys_write_rx (w : World) (bytes : List Nat) :
    (sys_write w bytes).2.rx = w.rx ∧ (sys_write w bytes).2.sched = w.sched ∧
    (sys_write w bytes).2.stack = w.stack ∧
    (sys_write w bytes).2.tcp_transaction = w.tcp_transaction := by
  unfold sys_write
  split <;> simp

theorem sys_write_ok (w : World) (bytes : List Nat) (h : w.wres = []) :
    (sys_write w bytes).1 = (bytes.length : Int) := by
  unfold sys_write
  rw [h]

/-- The function `getResponse` only consumes device bytes: the log of sent frames and the
transaction counter are those of before. -/
theorem getResponse_sent (in_ : seaMaxModule) (w : World) (funct : Nat) (data : Buf)
    (expected : Nat) :
    (getResponse in_ w funct data expected).2.2.1.sent = w.sent ∧
    (getResponse in_ w funct data expected).2.2.1.tcp_transaction = w.tcp_transaction := by
  unfold getResponse
  by_cases h1 : expected > 256
  · simp [h1]
  by_cases h2 : in_.commMode = seaio_mode_t.MODBUS_RTU
  · simp only [h1, if_false, h2, if_true]
    rcases hrl : read_loop expected w.sched w.rx w.stack 0 with ⟨err, buffer, length, sched, rx⟩
    cases err with
    | some e => simp
    | none =>
      simp only []
      split_ifs <;> simp
  · simp only [h1, if_false, h2]
    have hw : (sys_recv w 255).2.sent = w.sent ∧
        (sys_recv w 255).2.tcp_transaction = w.tcp_transaction := by
      unfold sys_recv
      split <;> simp
    split_ifs <;> simp [hw]

theorem read_funct_dataSize (t : seaio_type_t) (q : Nat) :
    request_dataSize (read_funct.getD (t.val - 1) 0) q = 0 := by
  cases t <;> simp [read_funct, seaio_type_t.val, request_dataSize]

theorem read_funct_lt (t : seaio_type_t) : read_funct.getD (t.val - 1) 0 < 256 := by
  cases t <;> simp [read_funct, seaio_type_t.val]

/-- The function `SeaMaxLinRead` on a serial session. -/
theorem SeaMaxLinRead_rtu (in_ : seaMaxModule) (w : World) (s : Nat) (t : seaio_type_t)
    (a q : Nat) (out : Buf) (F : List Nat) (hm : in_.mutex = 0)
    (hc : in_.commMode = seaio_mode_t.MODBUS_RTU) (hs : s < 256)
    (hF : F = rtu_frame s (read_funct.getD (t.val - 1) 0) ((a + 65535) % 65536) q none) :
    SeaMaxLinRead (some in_) w s t a q (some out) =
      if (sys_write w F).1 ≠ (F.length : Int)
      then some ⟨-EBADF, some in_, (sys_write w F).2, some out⟩
      else some (response_result (getResponse in_ (sys_write w F).2
        (read_funct.getD (t.val - 1) 0) out (read_expected (read_funct.getD (t.val - 1) 0) q))) := by
  have hds := read_funct_dataSize t q
  have hmr := makeRequest_rtu in_ w s (read_funct.getD (t.val - 1) 0) ((a + 65535) % 65536) q none
    hm hc hs (read_funct_lt t) (by intro j hj; omega) (Or.inl hds) (Or.inl hds)
  have hc2 : ¬ (in_.commMode = seaio_mode_t.NO_CONNECT) := by rw [hc]; decide
  unfold SeaMaxLinRead
  simp only [hc2, if_false, hmr]
  rw [← hF]
  by_cases hw : (sys_write w F).1 = (F.length : Int)
  · have hnn : ¬ ((F.length : Int) < 0) := by omega
    simp [hw, hnn, response_result]
  · simp [hw, EBADF]

/-- The function `SeaMaxLinRead` on a TCP session. -/
theorem SeaMaxLinRead_tcp (in_ : seaMaxModule) (w : World) (s : Nat) (t : seaio_type_t)
    (a q : Nat) (out : Buf) (F : List Nat) (w1 : World) (hm : in_.mutex = 0)
    (hc : in_.commMode = seaio_mode_t.MODBUS_TCP)
    (hF : F = tcp_frame w.tcp_transaction s (read_funct.getD (t.val - 1) 0)
      ((a + 65535) % 65536) q none)
    (hw1 : w1 = { w with tcp_transaction := w.tcp_transaction + 1 }) :
    SeaMaxLinRead (some in_) w s t a q (some out) =
      if (sys_write w1 F).1 ≠ (F.length : Int)
      then some ⟨-EBADF, some in_, (sys_write w1 F).2, some out⟩
      else some (response_result (getResponse in_ (sys_write w1 F).2
        (read_funct.getD (t.val - 1) 0) out (read_expected (read_funct.getD (t.val - 1) 0) q))) := by
  have hds := read_funct_dataSize t q
  have hmr := makeRequest_tcp in_ w s (read_funct.getD (t.val - 1) 0) ((a + 65535) % 65536) q none
    hm hc (Or.inl hds) (Or.inl hds)
  have hc2 : ¬ (in_.commMode = seaio_mode_t.NO_CONNECT) := by rw [hc]; decide
  unfold SeaMaxLinRead
  simp only [hc2, if_false, hmr]
  rw [← hF, ← hw1]
  by_cases hw : (sys_write w1 F).1 = (F.length : Int)
  · have hnn : ¬ ((F.length : Int) < 0) := by omega
    simp [hw, hnn, response_result]
  · simp [hw, EBADF]

/-- The function code `SeaMaxLinWrite` sends (lines 749 and 761-764). -/
theorem write_fcode_ne_zero (t : seaio_type_t)
    (ht : t = .COILS ∨ t = .HOLDINGREG ∨ t = seaio_type_t.SEAMAXPIO) :
    ¬ (write_funct.getD (t.val - 1) 0 = 0x00) := by
  rcases ht with rfl | rfl | rfl <;> simp [write_funct, seaio_type_t.val]

/-- The function `SeaMaxLinWrite` on a serial session when the payload fits the frame. -/
theorem SeaMaxLinWrite_rtu (in_ : seaMaxModule) (w : World) (s : Nat) (t : seaio_type_t)
    (a q : Nat) (d : Buf) (fcode : Nat) (F : List Nat) (hm : in_.mutex = 0)
    (hc : in_.commMode = seaio_mode_t.MODBUS_RTU) (hs : s < 256)
    (ht : t = .COILS ∨ t = .HOLDINGREG ∨ t = seaio_type_t.SEAMAXPIO)
    (hfc : fcode = if write_funct.getD (t.val - 1) 0 = 0x06 ∧ q > 1 then 0x10
      else write_funct.getD (t.val - 1) 0)
    (hd : ∀ j, j < request_dataSize fcode q → d j < 256)
    (hfit : (request_pdu s fcode ((a + 65535) % 65536) q (some d)).length < 255)
    (hF : F = rtu_frame s fcode ((a + 65535) % 65536) q (some d)) :
    SeaMaxLinWrite (some in_) w s t a q (some d) =
      if (sys_write w F).1 ≠ (F.length : Int)
      then some ⟨-EBADF, some in_, (sys_write w F).2, some d⟩
      else some { response_result (getResponse in_ (sys_write w F).2 fcode d
          (write_lengths (write_funct.getD (t.val - 1) 0) q).2) with
        ret := if (getResponse in_ (sys_write w F).2 fcode d
            (write_lengths (write_funct.getD (t.val - 1) 0) q).2).1 < 0
          then (getResponse in_ (sys_write w F).2 fcode d
            (write_lengths (write_funct.getD (t.val - 1) 0) q).2).1
          else (write_lengths (write_funct.getD (t.val - 1) 0) q).1 } := by
  have hf : fcode < 256 := by
    rw [hfc]
    rcases ht with rfl | rfl | rfl <;> simp [write_funct, seaio_type_t.val]
    split_ifs <;> omega
  have hmr := makeRequest_rtu in_ w s fcode ((a + 65535) % 65536) q (some d)
    hm hc hs hf hd (Or.inr rfl) (Or.inr hfit)
  have hc2 : ¬ (in_.commMode = seaio_mode_t.NO_CONNECT) := by rw [hc]; decide
  unfold SeaMaxLinWrite
  simp only [write_fcode_ne_zero t ht, hc2, if_false, ← hfc, hmr]
  rw [← hF]
  by_cases hw : (sys_write w F).1 = (F.length : Int)
  · have hnn : ¬ ((F.length : Int) < 0) := by omega
    simp only [hw, hnn, response_result, ne_eq, not_true_eq_false, if_false]
    split_ifs <;> rfl
  · simp [hw, EBADF]

/-- The function `SeaMaxLinWrite` on a TCP session when the payload fits the frame. -/
theorem SeaMaxLinWrite_tcp (in_ : seaMaxModule) (w : World) (s : Nat) (t : seaio_type_t)
    (a q : Nat) (d : Buf) (fcode : Nat) (F : List Nat) (w1 : World) (hm : in_.mutex = 0)
    (hc : in_.commMode = seaio_mode_t.MODBUS_TCP)
    (ht : t = .COILS ∨ t = .HOLDINGREG ∨ t = seaio_type_t.SEAMAXPIO)
    (hfc : fcode = if write_funct.getD (t.val - 1) 0 = 0x06 ∧ q > 1 then 0x10
      else write_funct.getD (t.val - 1) 0)
    (hfit : 6 + (request_pdu s fcode ((a + 65535) % 65536) q (some d)).length < 255)
    (hF : F = tcp_frame w.tcp_transaction s fcode ((a + 65535) % 65536) q (some d))
    (hw1 : w1 = { w with tcp_transaction := w.tcp_transaction + 1 }) :
    SeaMaxLinWrite (some in_) w s t a q (some d) =
      if (sys_write w1 F).1 ≠ (F.length : Int)
      then some ⟨-EBADF, some in_, (sys_write w1 F).2, some d⟩
      else some { response_result (getResponse in_ (sys_write w1 F).2 fcode d
          (write_lengths (write_funct.getD (t.val - 1) 0) q).2) with
        ret := if (getResponse in_ (sys_write w1 F).2 fcode d
            (write_lengths (write_funct.getD (t.val - 1) 0) q).2).1 < 0
          then (getResponse in_ (sys_write w1 F).2 fcode d
            (write_lengths (write_funct.getD (t.val - 1) 0) q).2).1
          else (write_lengths (write_funct.getD (t.val - 1) 0) q).1 } := by
  have hmr := makeRequest_tcp in_ w s fcode ((a + 65535) % 65536) q (some d)
    hm hc (Or.inr rfl) (Or.inr hfit)
  have hc2 : ¬ (in_.commMode = seaio_mode_t.NO_CONNECT) := by rw [hc]; decide
  unfold SeaMaxLinWrite
  simp only [write_fcode_ne_zero t ht, hc2, if_false, ← hfc, hmr]
  rw [← hF, ← hw1]
  by_cases hw : (sys_write w1 F).1 = (F.length : Int)
  · have hnn : ¬ ((F.length : Int) < 0) := by omega
    simp only [hw, hnn, response_result, ne_eq, not_true_eq_false, if_false]
    split_ifs <;> rfl
  · simp [hw, EBADF]

theorem write_dataSize_pos (s a q : Nat) (d : Buf) (fcode off : Nat) (hoff : off ≤ 6)
    (hbig : 255 ≤ off + (request_pdu s fcode a q (some d)).length) :
    0 < request_dataSize fcode q := by
  have hl := request_pdu_length s fcode a q (some d)
  have hfl := request_fields_length_le fcode a q
  omega

/-- The function `SeaMaxLinWrite` on a serial session when the payload does not fit. -/
theorem SeaMaxLinWrite_rtu_overflow (in_ : seaMaxModule) (w : World) (s : Nat)
    (t : seaio_type_t) (a q : Nat) (d : Buf) (fcode : Nat) (hm : in_.mutex = 0)
    (hc : in_.commMode = seaio_mode_t.MODBUS_RTU)
    (ht : t = .COILS ∨ t = .HOLDINGREG ∨ t = seaio_type_t.SEAMAXPIO)
    (hfc : fcode = if write_funct.getD (t.val - 1) 0 = 0x06 ∧ q > 1 then 0x10
      else write_funct.getD (t.val - 1) 0)
    (hbig : 255 ≤ (request_pdu s fcode ((a + 65535) % 65536) q (some d)).length) :
    SeaMaxLinWrite (some in_) w s t a q (some d) = some ⟨-EINVAL, some in_, w, some d⟩ := by
  have hpos := write_dataSize_pos s ((a + 65535) % 65536) q d fcode 0 (by omega)
    (by omega)
  have hmr := makeRequest_rtu_overflow in_ w s fcode ((a + 65535) % 65536) q (some d)
    hm hc rfl hpos hbig
  have hc2 : ¬ (in_.commMode = seaio_mode_t.NO_CONNECT) := by rw [hc]; decide
  unfold SeaMaxLinWrite
  simp only [write_fcode_ne_zero t ht, hc2, if_false, ← hfc, hmr]
  simp [EINVAL]

/-- The function `SeaMaxLinWrite` on a TCP session when the payload does not fit. -/
theorem SeaMaxLinWrite_tcp_overflow (in_ : seaMaxModule) (w : World) (s : Nat)
    (t : seaio_type_t) (a q : Nat) (d : Buf) (fcode : Nat) (hm : in_.mutex = 0)
    (hc : in_.commMode = seaio_mode_t.MODBUS_TCP)
    (ht : t = .COILS ∨ t = .HOLDINGREG ∨ t = seaio_type_t.SEAMAXPIO)
    (hfc : fcode = if write_funct.getD (t.val - 1) 0 = 0x06 ∧ q > 1 then 0x10
      else write_funct.getD (t.val - 1) 0)
    (hbig : 255 ≤ 6 + (request_pdu s fcode ((a + 65535) % 65536) q (some d)).length) :
    SeaMaxLinWrite (some in_) w s t a q (some d) =
      some ⟨-EINVAL, some in_, { w with tcp_transaction := w.tcp_transaction + 1 }, some d⟩ := by
  have hpos := write_dataSize_pos s ((a + 65535) % 65536) q d fcode 6 (by omega)
    (by omega)
  have hmr := makeRequest_tcp_overflow in_ w s fcode ((a + 65535) % 65536) q (some d)
    hm hc rfl hpos hbig
  have hc2 : ¬ (in_.commMode = seaio_mode_t.NO_CONNECT) := by rw [hc]; decide
  unfold SeaMaxLinWrite
  simp only [write_fcode_ne_zero t ht, hc2, if_false, ← hfc, hmr]
  simp [EINVAL]

/-- What `SeaMaxLinRead` hands to the transport on a serial session. -/
theorem SeaMaxLinRead_rtu_sent (in_ : seaMaxModule) (w : World) (s : Nat) (t : seaio_type_t)
    (a q : Nat) (out : Buf) (hm : in_.mutex = 0)
    (hc : in_.commMode = seaio_mode_t.MODBUS_RTU) (hs : s < 256) :
    ∃ r, SeaMaxLinRead (some in_) w s t a q (some out) = some r ∧
      r.world.sent = w.sent ++
        [rtu_frame s (read_funct.getD (t.val - 1) 0) ((a + 65535) % 65536) q none] := by
  rw [SeaMaxLinRead_rtu in_ w s t a q out _ hm hc hs rfl]
  split_ifs
  · exact ⟨_, rfl, sys_write_sent _ _⟩
  · refine ⟨_, rfl, ?_⟩
    simp only [response_result]
    rw [(getResponse_sent _ _ _ _ _).1, sys_write_sent]

/-- What `SeaMaxLinRead` hands to the transport on a TCP session. -/
theorem SeaMaxLinRead_tcp_sent (in_ : seaMaxModule) (w : World) (s : Nat) (t : seaio_type_t)
    (a q : Nat) (out : Buf) (hm : in_.mutex = 0)
    (hc : in_.commMode = seaio_mode_t.MODBUS_TCP) :
    ∃ r, SeaMaxLinRead (some in_) w s t a q (some out) = some r ∧
      r.world.sent = w.sent ++
        [tcp_frame w.tcp_transaction s (read_funct.getD (t.val - 1) 0) ((a + 65535) % 65536) q
          none] := by
  rw [SeaMaxLinRead_tcp in_ w s t a q out _ _ hm hc rfl rfl]
  split_ifs
  · exact ⟨_, rfl, sys_write_sent _ _⟩
  · refine ⟨_, rfl, ?_⟩
    simp only [response_result]
    rw [(getResponse_sent _ _ _ _ _).1, sys_write_sent]

/-- What `SeaMaxLinWrite` hands to the transport on a serial session. -/
theorem SeaMaxLinWrite_rtu_sent (in_ : seaMaxModule) (w : World) (s : Nat) (t : seaio_type_t)
    (a q : Nat) (d : Buf) (fcode : Nat) (hm : in_.mutex = 0)
    (hc : in_.commMode = seaio_mode_t.MODBUS_RTU) (hs : s < 256)
    (ht : t = .COILS ∨ t = .HOLDINGREG ∨ t = seaio_type_t.SEAMAXPIO)
    (hfc : fcode = if write_funct.getD (t.val - 1) 0 = 0x06 ∧ q > 1 then 0x10
      else write_funct.getD (t.val - 1) 0)
    (hd : ∀ j, d j < 256) :
    ∃ r, SeaMaxLinWrite (some in_) w s t a q (some d) = some r ∧
      if (request_pdu s fcode ((a + 65535) % 65536) q (some d)).length < 255
      then r.world.sent = w.sent ++ [rtu_frame s fcode ((a + 65535) % 65536) q (some d)]
      else r.world.sent = w.sent ∧ r.ret = -EINVAL := by
  by_cases hfit : (request_pdu s fcode ((a + 65535) % 65536) q (some d)).length < 255
  · rw [SeaMaxLinWrite_rtu in_ w s t a q d fcode _ hm hc hs ht hfc (fun j _ => hd j) hfit rfl]
    simp only [hfit, if_true]
    split_ifs
    · exact ⟨_, rfl, sys_write_sent _ _⟩
    · refine ⟨_, rfl, ?_⟩
      simp only [response_result]
      rw [(getResponse_sent _ _ _ _ _).1, sys_write_sent]
    · refine ⟨_, rfl, ?_⟩
      simp only [response_result]
      rw [(getResponse_sent _ _ _ _ _).1, sys_write_sent]
  · rw [SeaMaxLinWrite_rtu_overflow in_ w s t a q d fcode hm hc ht hfc (by omega)]
    simp only [hfit, if_false]
    exact ⟨_, rfl, rfl, rfl⟩

/-- What `SeaMaxLinWrite` hands to the transport on a TCP session. -/
theorem SeaMaxLinWrite_tcp_sent (in_ : seaMaxModule) (w : World) (s : Nat) (t : seaio_type_t)
    (a q : Nat) (d : Buf) (fcode : Nat) (hm : in_.mutex = 0)
    (hc : in_.commMode = seaio_mode_t.MODBUS_TCP)
    (ht : t = .COILS ∨ t = .HOLDINGREG ∨ t = seaio_type_t.SEAMAXPIO)
    (hfc : fcode = if write_funct.getD (t.val - 1) 0 = 0x06 ∧ q > 1 then 0x10
      else write_funct.getD (t.val - 1) 0) :
    ∃ r, SeaMaxLinWrite (some in_) w s t a q (some d) = some r ∧
      if 6 + (request_pdu s fcode ((a + 65535) % 65536) q (some d)).length < 255
      then r.world.sent = w.sent ++
        [tcp_frame w.tcp_transaction s fcode ((a + 65535) % 65536) q (some d)]
      else r.world.sent = w.sent ∧ r.ret = -EINVAL := by
  by_cases hfit : 6 + (request_pdu s fcode ((a + 65535) % 65536) q (some d)).length < 255
  · rw [SeaMaxLinWrite_tcp in_ w s t a q d fcode _ _ hm hc ht hfc hfit rfl rfl]
    simp only [hfit, if_true]
    split_ifs
    · exact ⟨_, rfl, sys_write_sent _ _⟩
    · refine ⟨_, rfl, ?_⟩
      simp only [response_result]
      rw [(getResponse_sent _ _ _ _ _).1, sys_write_sent]
    · refine ⟨_, rfl, ?_⟩
      simp only [response_result]
      rw [(getResponse_sent _ _ _ _ _).1, sys_write_sent]
  · rw [SeaMaxLinWrite_tcp_overflow in_ w s t a q d fcode hm hc ht hfc (by omega)]
    simp only [hfit, if_false]
    exact ⟨_, rfl, rfl, rfl⟩

theorem start_minus_one (a : Nat) (h1 : 1 ≤ a) (h2 : a < 65536) :
    (a + 65535) % 65536 = a - 1 := by omega

theorem rtu_frame_fcode (s f st q : Nat) (d : Option Buf) : (rtu_frame s f st q d).getD 1 0 = f := by
  simp [rtu_frame, request_pdu]

theorem tcp_frame_fcode (tid s f st q : Nat) (d : Option Buf) :
    (tcp_frame tid s f st q d).getD 7 0 = f := by
  simp [tcp_frame, request_pdu]

theorem rtu_frame_start (s f st q : Nat) (d : Option Buf) (hf : 0 < f ∧ f < 0x40) :
    (rtu_frame s f st q d).getD 2 0 = st / 256 % 256 ∧
    (rtu_frame s f st q d).getD 3 0 = st % 256 := by
  simp [rtu_frame, request_pdu, request_fields, hf]

theorem tcp_frame_start (tid s f st q : Nat) (d : Option Buf) (hf : 0 < f ∧ f < 0x40) :
    (tcp_frame tid s f st q d).getD 8 0 = st / 256 % 256 ∧
    (tcp_frame tid s f st q d).getD 9 0 = st % 256 := by
  simp [tcp_frame, request_pdu, request_fields, hf]

/-- The function `decode_response` on the reply to a read with function code 1..4. -/
theorem decode_response_read (in_ : seaMaxModule) (funct : Nat) (data buffer : Buf) (i : Nat)
    (length : Int) (hf : 1 ≤ funct ∧ funct ≤ 4) (hb : buffer i = funct) :
    decode_response in_ funct data buffer i length =
      (length - 2, { in_ with mutex := 0 },
        fun x => if x < (length - 2).toNat then buffer (i + 2 + x) else data x) := by
  have h1 : ¬ (buffer i ≠ funct) := by simp [hb]
  have h2 : ¬ (funct = 0x06 ∨ funct = 0x10 ∨ funct = 0x0F ∨ funct = 0x42 ∨ funct = 0x64) := by
    omega
  have h3 : funct < 0x05 := by omega
  have h4 : ¬ (funct > 0x40) := by omega
  have h5 : ¬ (funct = 0x41) := by omega
  simp only [decode_response, h1, h2, h3, h4, h5, if_false, if_true, copy_loop_eq]
  congr 2
  funext x
  simp


/-- When the serial loop ends without error it has read exactly
`expected + 4` bytes. -/
theorem read_loop_length (expected : Nat) (sched rx : List Nat) (b : Buf) (length : Nat)
    (hl : length ≤ expected + 4)
    (hn : (read_loop expected sched rx b length).1 = none) :
    (read_loop expected sched rx b length).2.2.1 = expected + 4 := by
  induction sched generalizing rx b length with
  | nil =>
    by_cases h1 : length < expected + 4
    · simp [read_loop, h1] at hn
    · simp only [read_loop, h1, if_false]
      omega
  | cons c sched ih =>
    by_cases h1 : length < expected + 4
    · simp only [read_loop, h1, if_true] at hn ⊢
      by_cases h2 : min (min (expected + 4 - length) c) rx.length ≤ 0
      · rw [if_pos h2] at hn
        exact absurd hn (by simp)
      · rw [if_neg h2] at hn ⊢
        by_cases h3 : length + min (min (expected + 4 - length) c) rx.length ≥ 220
        · rw [if_pos h3] at hn
          exact absurd hn (by simp)
        · rw [if_neg h3] at hn ⊢
          exact ih _ _ _ (by omega) hn
    · simp only [read_loop, h1, if_false]
      omega

/-- The function `decode_response` in closed form. -/
theorem decode_response_eq (in_ : seaMaxModule) (funct : Nat) (data buffer : Buf) (i : Nat)
    (length : Int) :
    decode_response in_ funct data buffer i length =
      if buffer i ≠ funct then (-EFAULT, { in_ with mutex := 0 }, data.set 0 (buffer (i + 1)))
      else if funct = 0x06 ∨ funct = 0x10 ∨ funct = 0x0F ∨ funct = 0x42 ∨ funct = 0x64 then
        (0, { in_ with mutex := 0 }, data)
      else (length - response_skip funct, { in_ with mutex := 0 },
        fun x => if x < (length - response_skip funct).toNat
          then buffer (i + response_skip funct + x) else data x) := by
  unfold decode_response
  by_cases h1 : buffer i ≠ funct
  · rw [if_pos h1, if_pos h1]
  · rw [if_neg h1, if_neg h1]
    by_cases h2 : funct = 0x06 ∨ funct = 0x10 ∨ funct = 0x0F ∨ funct = 0x42 ∨ funct = 0x64
    · rw [if_pos h2, if_pos h2]
    · rw [if_neg h2, if_neg h2]
      by_cases h5 : funct = 0x41
      · subst h5
        simp [response_skip, copy_loop_eq]
        constructor
        · omega
        · funext x
          have e1 : length - 1 - 3 = length - 4 := by omega
          have e2 : i + 1 + 3 + x = i + 4 + x := by omega
          rw [e1, e2]
      · by_cases h3 : funct < 0x05
        · have h4 : ¬ (funct > 0x40) := by omega
          simp [response_skip, copy_loop_eq, h3, h4, h5]
        · by_cases h4 : funct > 0x40
          · simp [response_skip, copy_loop_eq, h3, h4, h5]
          · simp [response_skip, copy_loop_eq, h3, h4, h5]

theorem sys_write_fst (w : World) (bytes : List Nat) :
    (sys_write w bytes).1 = w.wres.headD (bytes.length : Int) := by
  unfold sys_write
  split <;> simp_all

theorem rtu_frame_length (s f st q : Nat) (d : Option Buf) :
    (rtu_frame s f st q d).length = (request_pdu s f st q d).length + 2 := by
  simp [rtu_frame]

theorem tcp_frame_length (c s f st q : Nat) (d : Option Buf) :
    (tcp_frame c s f st q d).length = 6 + (request_pdu s f st q d).length := by
  simp [tcp_frame]
  omega

/-- The byte-count field and the payload of a write-multiple request whose
byte count fits one byte. -/
theorem write_multiple_in_range (s f st q : Nat) (d : Buf)
    (hf : (f = 0x0F ∧ (q + 7) / 8 ≤ 255) ∨ (f = 0x10 ∧ q * 2 ≤ 255)) :
    request_pdu s f st q (some d) =
      [s, f, st / 256 % 256, st % 256, q / 256 % 256, q % 256,
        (if f = 0x0F then (q + 7) / 8 else q * 2)] ++
      d.toList (if f = 0x0F then (q + 7) / 8 else q * 2) := by
  rcases hf with ⟨rfl, h⟩ | ⟨rfl, h⟩
  · have e' : (q / 8 + if q % 8 = 0 then 0 else 1) % 256 = (q + 7) / 8 := by
      split_ifs <;> omega
    simp only [request_pdu, request_fields, request_dataSize]
    simp [e']
  · have e : q * 2 % 256 = q * 2 := by omega
    simp only [request_pdu, request_fields, request_dataSize]
    simp [e]

/-- The transaction number of a TCP frame is in its first two bytes. -/
theorem tcp_frame_id (c s f st q : Nat) (d : Option Buf) :
    (tcp_frame c s f st q d).take 2 = [c % 65536 / 256, c % 65536 % 256] := by
  have e1 : c / 256 % 256 = c % 65536 / 256 := by omega
  have e2 : c % 256 = c % 65536 % 256 := by omega
  simp [tcp_frame, e1]
  exact e2

/-- On a TCP session every request takes a transaction number, sent or not. -/
theorem run_requests_tcp (in_ : seaMaxModule) (w : World) (reqs : List Request)
    (hm : in_.mutex = 0) (hc : in_.commMode = seaio_mode_t.MODBUS_TCP)
    (hd : ∀ r ∈ reqs, request_dataSize r.funct r.quan = 0 ∨ r.data.isSome) :
    ∃ w', run_requests in_ w reqs = some w' ∧
      w'.tcp_transaction = w.tcp_transaction + reqs.length ∧
      w'.sent = w.sent ++ tcp_frames w.tcp_transaction reqs := by
  induction reqs generalizing w with
  | nil => exact ⟨w, rfl, rfl, by simp [tcp_frames]⟩
  | cons r rs ih =>
    have hr := hd r (by simp)
    have hrs : ∀ x ∈ rs, request_dataSize x.funct x.quan = 0 ∨ x.data.isSome :=
      fun x hx => hd x (by simp [hx])
    have hl := request_pdu_length r.slaveId r.funct r.start r.quan r.data
    have hfl := request_fields_length_le r.funct r.start r.quan
    by_cases hfit : 6 + (request_pdu r.slaveId r.funct r.start r.quan r.data).length < 255
    · have hmr := makeRequest_tcp in_ w r.slaveId r.funct r.start r.quan r.data hm hc hr
        (Or.inr hfit)
      obtain ⟨w', h1, h2, h3⟩ := ih (sys_write { w with tcp_transaction := w.tcp_transaction + 1 }
        (tcp_frame w.tcp_transaction r.slaveId r.funct r.start r.quan r.data)).2 hrs
      refine ⟨w', ?_, ?_, ?_⟩
      · simp only [run_requests, hmr]
        exact h1
      · rw [h2, (sys_write_rx _ _).2.2.2]
        simp only [List.length_cons]
        omega
      · rw [h3, sys_write_sent, (sys_write_rx _ _).2.2.2]
        simp [tcp_frames, hfit]
    · have hpos : 0 < request_dataSize r.funct r.quan := by omega
      have hsome : r.data.isSome := by
        rcases hr with h | h
        · omega
        · exact h
      have hmr := makeRequest_tcp_overflow in_ w r.slaveId r.funct r.start r.quan r.data hm hc
        hsome hpos (by omega)
      obtain ⟨w', h1, h2, h3⟩ := ih { w with tcp_transaction := w.tcp_transaction + 1 } hrs
      refine ⟨w', ?_, ?_, ?_⟩
      · simp only [run_requests, hmr]
        exact h1
      · rw [h2]
        simp only [List.length_cons]
        omega
      · rw [h3]
        simp [tcp_frames, hfit]

/-- Every return of `makeRequest` leaves the flag clear. -/
theorem makeRequest_returns_flag_clear (in_ : seaMaxModule) (w : World) (s f st q : Nat)
    (data : Option Buf) (ret : Int) (m : seaMaxModule) (w' : World)
    (h : makeRequest in_ w s f st q data = some (ret, m, w')) : m.mutex = 0 := by
  unfold makeRequest at h
  by_cases hmx : in_.mutex ≠ 0
  · simp [hmx] at h
  · simp only [hmx, if_false] at h
    split_ifs at h <;> split at h <;> (try split_ifs at h) <;>
      simp only [Option.some.injEq, Prod.mk.injEq] at h <;> rw [← h.2.1]

/-- An error from inside the serial read loop is a negative number. -/
theorem read_loop_error (expected : Nat) (sched rx : List Nat) (b : Buf) (length : Nat)
    (err : Int) (h : (read_loop expected sched rx b length).1 = some err) : err < 0 := by
  induction sched generalizing rx b length with
  | nil =>
    simp only [read_loop] at h
    split_ifs at h
    simp only [Option.some.injEq] at h
    simp only [← h, EFAULT]
    omega
  | cons c sched ih =>
    simp only [read_loop] at h
    split_ifs at h
    · simp only [Option.some.injEq] at h
      simp only [← h, EFAULT]
      omega
    · simp only [Option.some.injEq] at h
      simp only [← h, ENOMEM]
      omega
    · exact ih _ _ _ h

/-- The function codes of the selectors 1..8. -/
theorem ioctl_funct_cases (which : IOCTL_t) (h : which ≠ IOCTL_t.IOCTL_GET_ADDA_EXT_CONFIG) :
    ioctl_funct.getD (which.val - 1) 0 ∈ ioctl_funct := by
  cases which <;> simp [ioctl_funct, IOCTL_t.val] at h ⊢

/-- The payload bytes `SeaMaxLinIoctl` stores are bytes. -/
theorem ioctl_pack_lt (f : Nat) (d : ioctl_data) (stack : Buf) (h : f ∈ ioctl_funct) :
    ∀ j, j < request_dataSize f 0 → ioctl_pack f d stack j < 256 := by
  simp only [ioctl_funct, List.mem_cons, List.mem_singleton, List.not_mem_nil, or_false] at h
  intro j hj
  rcases h with rfl | rfl | rfl | rfl | rfl | rfl | rfl | rfl <;>
    simp only [request_dataSize] at hj <;> norm_num at hj
  · interval_cases j <;> simp [ioctl_pack, Buf.set] <;> omega
  · interval_cases j <;> simp [ioctl_pack, Buf.set] <;> omega
  · interval_cases j <;> simp [ioctl_pack, Buf.set] <;> omega
  · interval_cases j <;> simp [ioctl_pack, adda_pack, Buf.set] <;> omega

/-- The function `SeaMaxLinClose` does nothing to a session whose descriptor
is not positive. -/
theorem SeaMaxLinClose_closed (s : seaMaxModule) (m : Machine) (h : s.hDevice ≤ 0) :
    SeaMaxLinClose (some s) m = (0, some s, m) := by
  have h2 : ¬ (s.hDevice > 0) := by omega
  simp [SeaMaxLinClose, h2]

/-- The session `SeaMaxLinClose` leaves has no positive descriptor. -/
theorem SeaMaxLinClose_hDevice (s : seaMaxModule) (m : Machine) (s1 : seaMaxModule)
    (h : (SeaMaxLinClose (some s) m).2.1 = some s1) : s1.hDevice ≤ 0 := by
  unfold SeaMaxLinClose at h
  by_cases hd : s.hDevice > 0
  · simp only [hd, if_true, Option.some.injEq] at h
    rw [← h]
    simp
  · simp only [hd, if_false, Option.some.injEq] at h
    rw [← h]
    omega

/-- The function `SeaMaxLinClose` leaves the caller a session record. -/
theorem SeaMaxLinClose_some (s : seaMaxModule) (m : Machine) :
    (SeaMaxLinClose (some s) m).2.1 = some ((SeaMaxLinClose (some s) m).2.1.getD s) := by
  unfold SeaMaxLinClose
  by_cases hd : s.hDevice > 0
  · simp only [hd, if_true, Option.getD_some]
  · simp only [hd, if_false, Option.getD_some]

/-- The function `SeaMaxLinClose` sets the throttle to 1 or leaves it. -/
theorem SeaMaxLinClose_throttle (s : seaMaxModule) (m : Machine) (s1 : seaMaxModule)
    (h : (SeaMaxLinClose (some s) m).2.1 = some s1) :
    s1.throttle = 1 ∨ s1.throttle = s.throttle := by
  unfold SeaMaxLinClose at h
  by_cases hd : s.hDevice > 0
  · simp only [hd, if_true, Option.some.injEq] at h
    rw [← h]
    exact Or.inl rfl
  · simp only [hd, if_false, Option.some.injEq] at h
    rw [← h]
    exact Or.inr rfl

/-- The function `openRTU` leaves the throttle alone. -/
theorem openRTU_throttle (in_ : seaMaxModule) (m : Machine) (d : List Nat) :
    (openRTU in_ m d).2.1.throttle = in_.throttle := by
  simp only [openRTU]
  split_ifs <;> rfl

/-- The function `openTCP` leaves the throttle alone. -/
theorem openTCP_throttle (in_ : seaMaxModule) (m : Machine) (d : List Nat) :
    (openTCP in_ m d).2.1.throttle = in_.throttle := by
  simp only [openTCP]
  split_ifs <;> rfl

/-- The function `openD2X` leaves the throttle and the descriptor alone. -/
theorem openD2X_fields (in_ : seaMaxModule) (m : Machine) (d : List Nat) (ret : Int)
    (s1 : seaMaxModule) (m1 : Machine) (h : openD2X in_ m d = some (ret, s1, m1)) :
    s1.throttle = in_.throttle ∧ s1.hDevice = in_.hDevice := by
  have hl : (load_libftdi in_ m).1.throttle = in_.throttle ∧
      (load_libftdi in_ m).1.hDevice = in_.hDevice := by
    unfold load_libftdi
    split_ifs <;> exact ⟨rfl, rfl⟩
  have hb : ∀ (a : seaMaxModule) (k : Machine) (pid : Int),
      open_bridge a k pid = some (ret, s1, m1) →
      s1.throttle = a.throttle ∧ s1.hDevice = a.hDevice := by
    intro a k pid hk
    unfold open_bridge at hk
    split_ifs at hk
    all_goals first
      | (simp only [Option.some.injEq, Prod.mk.injEq] at hk
         obtain ⟨-, hs, -⟩ := hk
         subst hs
         exact ⟨rfl, rfl⟩)
      | (split at hk
         · exact absurd hk (by simp)
         · simp only [Option.some.injEq, Prod.mk.injEq] at hk
           obtain ⟨-, hs, -⟩ := hk
           subst hs
           exact ⟨rfl, rfl⟩)
  unfold openD2X at h
  split_ifs at h
  · simp only [Option.some.injEq, Prod.mk.injEq] at h
    obtain ⟨-, hs, -⟩ := h
    subst hs
    exact ⟨rfl, rfl⟩
  · simp only [Option.some.injEq, Prod.mk.injEq] at h
    obtain ⟨-, hs, -⟩ := h
    subst hs
    exact ⟨rfl, rfl⟩
  · simp only [Option.some.injEq, Prod.mk.injEq] at h
    obtain ⟨-, hs, -⟩ := h
    subst hs
    exact ⟨rfl, rfl⟩
  · have := hb _ _ _ h
    exact ⟨this.1.trans hl.1, this.2.trans hl.2⟩

/-- The function `SeaMaxLinOpen` sets the throttle to 1 or leaves it. -/
theorem SeaMaxLinOpen_throttle (s : seaMaxModule) (m : Machine) (filename : List Nat)
    (ret : Int) (s1 : seaMaxModule) (m1 : Machine)
    (h : SeaMaxLinOpen (some s) m (some filename) = some (ret, some s1, m1)) :
    s1.throttle = 1 ∨ s1.throttle = s.throttle := by
  have hc : (close_before_open s m).1.throttle = 1 ∨
      (close_before_open s m).1.throttle = s.throttle := by
    unfold close_before_open
    split_ifs
    · exact SeaMaxLinClose_throttle s m _ (SeaMaxLinClose_some s m)
    · exact Or.inr rfl
  have hp : ∀ (a : seaMaxModule) (k : Machine),
      open_by_prefix a k filename = some (ret, some s1, m1) → s1.throttle = a.throttle := by
    intro a k hk
    unfold open_by_prefix at hk
    split_ifs at hk
    · simp only [Option.some.injEq, Prod.mk.injEq] at hk
      obtain ⟨-, hs, -⟩ := hk
      rw [← hs, openRTU_throttle]
    · simp only [Option.some.injEq, Prod.mk.injEq] at hk
      obtain ⟨-, hs, -⟩ := hk
      rw [← hs, openTCP_throttle]
    · split at hk
      · exact absurd hk (by simp)
      · rename_i r a1 k1 hk1
        simp only [Option.some.injEq, Prod.mk.injEq] at hk
        obtain ⟨-, hs, -⟩ := hk
        rw [← hs]
        exact (openD2X_fields _ _ _ _ _ _ hk1).1
    · simp only [Option.some.injEq, Prod.mk.injEq] at hk
      obtain ⟨-, hs, -⟩ := hk
      rw [← hs]
  unfold SeaMaxLinOpen at h
  simp only at h
  split_ifs at h
  · simp only [Option.some.injEq, Prod.mk.injEq] at h
    obtain ⟨-, hs, -⟩ := h
    rw [← hs]
    exact Or.inr rfl
  · rw [hp _ _ h]
    exact hc

/-- The throttle of a session is at least 1 in every state reached through
`SeaMaxLinCreate`, `SeaMaxLinOpen`, `SeaMaxLinClose` and
`SeaMaxLinSetIMDelay`. -/
theorem throttle_invariant (s : seaMaxModule) (h : Reachable s) : 1 ≤ s.throttle := by
  induction h with
  | create m s hs =>
    unfold SeaMaxLinCreate at hs
    split_ifs at hs
    simp only [Option.some.injEq] at hs
    rw [← hs]
  | open_ s m filename ret s1 m1 _ ho ih =>
    rcases SeaMaxLinOpen_throttle s m filename ret s1 m1 ho with h1 | h1 <;> omega
  | close s m s1 _ hc ih =>
    rcases SeaMaxLinClose_throttle s m s1 hc with h1 | h1 <;> omega
  | delay s ms s1 _ hd ih =>
    unfold SeaMaxLinSetIMDelay at hd
    by_cases h1 : s.hDevice < 0
    · simp only [h1, if_true, Option.some.injEq] at hd
      rw [← hd]
      exact ih
    · by_cases h2 : ms < 1
      · simp only [h1, h2, if_true, if_false, Option.some.injEq] at hd
        rw [← hd]
        exact ih
      · simp only [h1, h2, if_false, Option.some.injEq] at hd
        rw [← hd]
        simp only
        omega

theorem cond_log_trace (b : Bool) (m : Machine) (c : Call) (hc : closing_call c = true) :
    ∃ added, (if b = true then m.log c else m).trace = m.trace ++ added ∧
      ∀ x ∈ added, closing_call x = true := by
  cases b
  · exact ⟨[], by simp, by simp⟩
  · exact ⟨[c], by simp [Machine.log], by simpa using hc⟩

theorem closeD2X_trace (in_ : seaMaxModule) (m : Machine) :
    ∃ added, (closeD2X in_ m).trace = m.trace ++ added ∧ ∀ c ∈ added, closing_call c = true := by
  simp only [closeD2X, Machine.log]
  split_ifs <;>
  first
    | exact ⟨[], (List.append_nil _).symm, by simp⟩
    | exact ⟨_, rfl, by simp [closing_call]⟩
    | exact ⟨_, by simp only [List.append_assoc]; rfl, by simp [closing_call]⟩

theorem SeaMaxLinClose_trace (p : Option seaMaxModule) (m : Machine) :
    ∃ added, (SeaMaxLinClose p m).2.2.trace = m.trace ++ added ∧
      ∀ c ∈ added, closing_call c = true := by
  cases p with
  | none => exact ⟨[], by simp [SeaMaxLinClose], by simp⟩
  | some s =>
    unfold SeaMaxLinClose
    by_cases hd : s.hDevice > 0
    · simp only [hd, if_true]
      obtain ⟨a1, h1, g1⟩ := cond_log_trace (decide (s.commMode = seaio_mode_t.MODBUS_RTU)) m
        (Call.os_tcsetattr s.hDevice true) rfl
      simp only [decide_eq_true_eq] at h1
      generalize (if s.commMode = seaio_mode_t.MODBUS_RTU
        then m.log (Call.os_tcsetattr s.hDevice true) else m) = m1 at h1 ⊢
      have h2 : ∃ added, (if s.commMode = seaio_mode_t.FTDI_DIRECT then closeD2X s m1
          else m1).trace = m1.trace ++ added ∧ ∀ c ∈ added, closing_call c = true := by
        split_ifs
        · exact closeD2X_trace s m1
        · exact ⟨[], by simp, by simp⟩
      obtain ⟨a2, h2, g2⟩ := h2
      generalize (if s.commMode = seaio_mode_t.FTDI_DIRECT then closeD2X s m1 else m1) = m2
        at h2 ⊢
      refine ⟨a1 ++ a2 ++ [Call.os_close s.hDevice, Call.os_free], ?_, ?_⟩
      · simp only [Machine.log]
        rw [h2, h1]
        simp
      · intro c hc
        simp only [List.mem_append, List.mem_cons, List.mem_singleton, List.not_mem_nil,
          or_false] at hc
        rcases hc with (hc | hc) | rfl | rfl
        · exact g1 c hc
        · exact g2 c hc
        · rfl
        · rfl
    · simp only [hd, if_false]
      exact ⟨[], by simp, by simp⟩

theorem close_before_open_trace (in_ : seaMaxModule) (m : Machine) :
    ∃ added, (close_before_open in_ m).2.trace = m.trace ++ added ∧
      ∀ c ∈ added, closing_call c = true := by
  unfold close_before_open
  split_ifs
  · exact SeaMaxLinClose_trace (some in_) m
  · exact ⟨[], by simp, by simp⟩

theorem SeaMaxLinOpen_eq (in_ : seaMaxModule) (m : Machine) (filename : List Nat)
    (hlen : filename.length ≤ 256) :
    SeaMaxLinOpen (some in_) m (some filename) =
      open_by_prefix (close_before_open in_ m).1 (close_before_open in_ m).2 filename := by
  have h : ¬ (filename.length > 256) := by omega
  simp [SeaMaxLinOpen, h]

/-- The three prefixes differ. -/
theorem SeaMaxLinOpen_rtu (in_ : seaMaxModule) (m : Machine) (filename : List Nat)
    (hlen : filename.length ≤ 256) (h : filename.take 15 = cstr "sealevel_rtu://") :
    SeaMaxLinOpen (some in_) m (some filename) =
      some ((openRTU (close_before_open in_ m).1 (close_before_open in_ m).2
              (filename.drop 14)).1,
        some (openRTU (close_before_open in_ m).1 (close_before_open in_ m).2
              (filename.drop 14)).2.1,
        (openRTU (close_before_open in_ m).1 (close_before_open in_ m).2
              (filename.drop 14)).2.2) := by
  rw [SeaMaxLinOpen_eq in_ m filename hlen, open_by_prefix, if_pos h]

theorem prefixes_differ :
    cstr "sealevel_rtu://" ≠ cstr "sealevel_tcp://" ∧
    cstr "sealevel_rtu://" ≠ cstr "sealevel_d2x://" ∧
    cstr "sealevel_tcp://" ≠ cstr "sealevel_d2x://" := by
  decide

/-- The function `SeaMaxLinIoctl` for a selector that sends one request: the
checks of lines 837-841 pass. -/
theorem SeaMaxLinIoctl_request (in_ : seaMaxModule) (w : World) (s : Nat) (which : IOCTL_t)
    (d : ioctl_data) (hc : in_.commMode ≠ seaio_mode_t.NO_CONNECT)
    (hw : which ≠ IOCTL_t.IOCTL_GET_ADDA_EXT_CONFIG) :
    SeaMaxLinIoctl (some in_) w s which (some d) =
      (ioctl_request in_ w s (ioctl_funct.getD (which.val - 1) 0) d).map
        (fun r => ⟨r.1, some r.2.1, r.2.2.1, some r.2.2.2⟩) := by
  unfold SeaMaxLinIoctl
  simp only [hc, if_false, hw]
  cases ioctl_request in_ w s (ioctl_funct.getD (which.val - 1) 0) d <;> rfl

/-- The payload length of an Ioctl request is the one the specification
lists, and the request has no start and quantity fields. -/
theorem ioctl_frame_shape (f : Nat) (h : f ∈ ioctl_funct) :
    request_dataSize f 0 = ioctl_payload_len f ∧ request_fields f 0 0 = [] := by
  simp only [ioctl_funct, List.mem_cons, List.mem_singleton, List.not_mem_nil, or_false] at h
  rcases h with rfl | rfl | rfl | rfl | rfl | rfl | rfl | rfl <;>
    simp [request_dataSize, ioctl_payload_len, request_fields]

/-- The value `decode_response` returns for an Ioctl function code found in
the response is not negative when the length is at least 1. -/
theorem decode_response_ioctl (in_ : seaMaxModule) (f : Nat) (data buffer : Buf) (i : Nat)
    (length : Int) (h : f ∈ ioctl_funct) (hb : buffer i = f) (hl : 1 ≤ length) :
    0 ≤ (decode_response in_ f data buffer i length).1 := by
  rw [decode_response_eq]
  have hs : response_skip f = 1 := by
    simp only [ioctl_funct, List.mem_cons, List.mem_singleton, List.not_mem_nil, or_false] at h
    rcases h with rfl | rfl | rfl | rfl | rfl | rfl | rfl | rfl <;> simp [response_skip]
  have hn : ¬ (buffer i ≠ f) := by simp [hb]
  rw [if_neg hn]
  split_ifs
  · simp
  · simp only [hs]
    omega

/-- A byte of a prefix is the byte of the list. -/
theorem take_getD (l : List Nat) (n j : Nat) (h : j < n) :
    (l.take n).getD j 0 = l.getD j 0 := by
  simp [List.getD_eq_getElem?_getD, List.getElem?_take, h]

/-- The function `getResponse` on a TCP session whose `recv` delivers at least
one byte. -/
theorem getResponse_tcp_ok (in_ : seaMaxModule) (w : World) (funct : Nat) (data : Buf)
    (expected c : Nat) (rest : List Nat) (hc : in_.commMode = seaio_mode_t.MODBUS_TCP)
    (he : expected ≤ 256) (hsched : w.sched = c :: rest)
    (hn : 1 ≤ min (min 255 c) w.rx.length) :
    getResponse in_ w funct data expected =
      ((decode_response in_ funct data
          (w.stack.blit 0 (w.rx.take (min (min 255 c) w.rx.length))) 7
          (((min (min 255 c) w.rx.length : Nat) : Int) - 7)).1,
       (decode_response in_ funct data
          (w.stack.blit 0 (w.rx.take (min (min 255 c) w.rx.length))) 7
          (((min (min 255 c) w.rx.length : Nat) : Int) - 7)).2.1,
       { w with rx := w.rx.drop (min (min 255 c) w.rx.length), sched := rest },
       (decode_response in_ funct data
          (w.stack.blit 0 (w.rx.take (min (min 255 c) w.rx.length))) 7
          (((min (min 255 c) w.rx.length : Nat) : Int) - 7)).2.2) := by
  have h1 : ¬ (expected > 256) := by omega
  have h2 : ¬ (in_.commMode = seaio_mode_t.MODBUS_RTU) := by rw [hc]; decide
  have hl : (w.rx.take (min (min 255 c) w.rx.length)).length = min (min 255 c) w.rx.length := by
    simp
  have h3 : ¬ (((w.rx.take (min (min 255 c) w.rx.length)).length : Int) < 1) := by
    rw [hl]; omega
  have h4 : ¬ (((min (min 255 c) w.rx.length : Nat) : Int) < 1) := by omega
  unfold getResponse
  simp only [h1, if_false, h2, sys_recv, hsched, hl]
  rw [if_neg h4]

/-- The bands of `classify_readback`. -/
theorem classify_readback_eq (v : Nat) :
    classify_readback v =
      if 0x171 < v ∧ v < 0x1C1 then some (0, ZERO_TO_TEN)
      else if 0xB8 < v ∧ v < 0xE0 then some (0, ZERO_TO_FIVE)
      else if 0xE66 < v ∧ v ≤ 0xFFF then some (1, ZERO_TO_TEN)
      else if 0x737 < v ∧ v < 0x8C7 then some (1, ZERO_TO_FIVE)
      else none := by
  rfl

theorem Buf.blit_snoc (b : Buf) (off : Nat) (l : List Nat) (x : Nat) :
    b.blit off (l ++ [x]) = (b.blit off l).set (off + l.length) x := by
  funext j
  simp only [Buf.blit, Buf.set, List.length_append, List.length_singleton]
  by_cases h1 : j = off + l.length
  · subst h1
    simp [List.getD_eq_getElem?_getD]
  · by_cases h2 : off ≤ j ∧ j < off + l.length
    · have h3 : off ≤ j ∧ j < off + (l.length + 1) := by omega
      have h4 : j - off < l.length := by omega
      simp [h1, h2, h3, List.getD_eq_getElem?_getD, List.getElem?_append_left h4]
    · have h3 : ¬ (off ≤ j ∧ j < off + (l.length + 1)) := by omega
      simp [h1, h2, h3]

theorem put_push (m : Machine) (bs : List Nat) (b : Nat) :
    put (push m bs) b = push m (bs ++ [b % 256]) := by
  simp only [put, push, Buf.blit_snoc, List.length_append, List.length_singleton, Nat.add_assoc]

theorem push_nil (m : Machine) : push m [] = m := by
  cases m
  simp [push, Buf.blit_nil]

theorem put_eq_push (m : Machine) (b : Nat) : put m b = push m [b % 256] := by
  have := put_push m [] b
  rwa [push_nil] at this

theorem Buf.blit_append (b : Buf) (off : Nat) (a c : List Nat) :
    b.blit off (a ++ c) = (b.blit off a).blit (off + a.length) c := by
  induction c using List.reverseRecOn generalizing a with
  | nil => simp [Buf.blit_nil]
  | append_singleton l x ih =>
    rw [← List.append_assoc, Buf.blit_snoc, ih, Buf.blit_snoc]
    simp [Nat.add_assoc]

theorem push_push (m : Machine) (a b : List Nat) : push (push m a) b = push m (a ++ b) := by
  simp only [push, Buf.blit_append, List.length_append, Nat.add_assoc]

theorem chip_push (m : Machine) (a : List Nat) (v d : Nat) :
    chip (push m a) v d = push (chip m v d) a := rfl

theorem chip_chip (m : Machine) (v d v1 d1 : Nat) : chip (chip m v d) v1 d1 = chip m v1 d1 := rfl

theorem push_value (m : Machine) (a : List Nat) :
    (push m a).i2cMPSSEValue = m.i2cMPSSEValue := rfl

theorem push_direction (m : Machine) (a : List Nat) :
    (push m a).i2cMPSSEDirection = m.i2cMPSSEDirection := rfl

theorem chip_value (m : Machine) (v d : Nat) : (chip m v d).i2cMPSSEValue = v := rfl

theorem chip_direction (m : Machine) (v d : Nat) : (chip m v d).i2cMPSSEDirection = d := rfl

theorem put_pins_eq (m : Machine) :
    put_pins m = push m (pins m.i2cMPSSEValue m.i2cMPSSEDirection) := by
  unfold put_pins
  rw [put_eq_push m, put_push, put_push]
  rfl

theorem I2C_Start_eq (m : Machine) :
    I2C_Start m =
      push (chip m (((m.i2cMPSSEValue ||| SDA) ||| (SCL ||| SDA)) &&& (0xFF - SDA) &&&
          (0xFF - (SCL ||| SDA))) (m.i2cMPSSEDirection ||| (SDA ||| SCL)))
        (pins (m.i2cMPSSEValue ||| SDA) (m.i2cMPSSEDirection ||| (SDA ||| SCL)) ++
         pins ((m.i2cMPSSEValue ||| SDA) ||| (SCL ||| SDA)) (m.i2cMPSSEDirection ||| (SDA ||| SCL)) ++
         pins (((m.i2cMPSSEValue ||| SDA) ||| (SCL ||| SDA)) &&& (0xFF - SDA))
           (m.i2cMPSSEDirection ||| (SDA ||| SCL)) ++
         pins (((m.i2cMPSSEValue ||| SDA) ||| (SCL ||| SDA)) &&& (0xFF - SDA) &&&
           (0xFF - (SCL ||| SDA))) (m.i2cMPSSEDirection ||| (SDA ||| SCL))) := by
  have h : I2C_Start m =
      put_pins (chip (put_pins (chip (put_pins (chip (put_pins
        (chip m (m.i2cMPSSEValue ||| SDA) (m.i2cMPSSEDirection ||| (SDA ||| SCL))))
        ((m.i2cMPSSEValue ||| SDA) ||| (SCL ||| SDA)) (m.i2cMPSSEDirection ||| (SDA ||| SCL))))
        (((m.i2cMPSSEValue ||| SDA) ||| (SCL ||| SDA)) &&& (0xFF - SDA))
        (m.i2cMPSSEDirection ||| (SDA ||| SCL))))
        (((m.i2cMPSSEValue ||| SDA) ||| (SCL ||| SDA)) &&& (0xFF - SDA) &&&
          (0xFF - (SCL ||| SDA))) (m.i2cMPSSEDirection ||| (SDA ||| SCL))) := rfl
  rw [h]
  simp only [put_pins_eq, chip_push, chip_chip, push_push, push_value, push_direction,
    chip_value, chip_direction, List.append_assoc]

theorem I2C_Stop_eq (m : Machine) :
    I2C_Stop m =
      push (chip m (((m.i2cMPSSEValue &&& (0xFF - SDA)) ||| SCL) &&& (0xFF - SDA) ||| (SCL ||| SDA))
          ((m.i2cMPSSEDirection ||| (SCL ||| SDA)) &&& (0xFF - (SCL ||| SDA))))
        (pins (m.i2cMPSSEValue &&& (0xFF - SDA)) (m.i2cMPSSEDirection ||| (SCL ||| SDA)) ++
         pins (((m.i2cMPSSEValue &&& (0xFF - SDA)) ||| SCL) &&& (0xFF - SDA))
           (m.i2cMPSSEDirection ||| (SCL ||| SDA)) ++
         pins (((m.i2cMPSSEValue &&& (0xFF - SDA)) ||| SCL) &&& (0xFF - SDA) ||| (SCL ||| SDA))
           (m.i2cMPSSEDirection ||| (SCL ||| SDA)) ++
         pins (((m.i2cMPSSEValue &&& (0xFF - SDA)) ||| SCL) &&& (0xFF - SDA) ||| (SCL ||| SDA))
           ((m.i2cMPSSEDirection ||| (SCL ||| SDA)) &&& (0xFF - (SCL ||| SDA)))) := by
  have h : I2C_Stop m =
      (let a := chip m (m.i2cMPSSEValue &&& (0xFF - SDA)) (m.i2cMPSSEDirection ||| (SCL ||| SDA))
       let b := put_pins a
       let c := chip b ((b.i2cMPSSEValue ||| SCL) &&& (0xFF - SDA)) b.i2cMPSSEDirection
       let e := put_pins c
       let f := chip e (e.i2cMPSSEValue ||| (SCL ||| SDA)) e.i2cMPSSEDirection
       let g := put_pins f
       let k := chip g g.i2cMPSSEValue (g.i2cMPSSEDirection &&& (0xFF - (SCL ||| SDA)))
       put_pins k) := rfl
  rw [h]
  simp only [put_pins_eq, chip_push, chip_chip, push_push, push_value, push_direction,
    chip_value, chip_direction, List.append_assoc]

theorem read_ack_eq (m : Machine) (bits : Nat) :
    read_ack m bits =
      push (chip m (m.i2cMPSSEValue &&& (0xFF - (SCL ||| SDA)))
          (((m.i2cMPSSEDirection ||| SCL) &&& (0xFF - SDA)) ||| (SCL ||| SDA)))
        (pins m.i2cMPSSEValue ((m.i2cMPSSEDirection ||| SCL) &&& (0xFF - SDA)) ++
         [0x26, bits % 256] ++
         pins (m.i2cMPSSEValue &&& (0xFF - (SCL ||| SDA)))
           (((m.i2cMPSSEDirection ||| SCL) &&& (0xFF - SDA)) ||| (SCL ||| SDA))) := by
  have h : read_ack m bits =
      (let a := chip m m.i2cMPSSEValue ((m.i2cMPSSEDirection ||| SCL) &&& (0xFF - SDA))
       let b := put_pins a
       let c := put (put b 0x26) bits
       let e := chip c (c.i2cMPSSEValue &&& (0xFF - (SCL ||| SDA)))
         (c.i2cMPSSEDirection ||| (SCL ||| SDA))
       put_pins e) := rfl
  rw [h]
  simp only [put_pins_eq, put_eq_push, chip_push, chip_chip, push_push, push_value,
    push_direction, chip_value, chip_direction, List.append_assoc]
  rfl

theorem I2C_WriteAddress_eq (m : Machine) (address rw : Nat) :
    I2C_WriteAddress m address rw =
      push (chip m (m.i2cMPSSEValue &&& (0xFF - (SCL ||| SDA)))
          (((m.i2cMPSSEDirection ||| SCL) &&& (0xFF - SDA)) ||| (SCL ||| SDA)))
        ([0x13, 7, ((address &&& 0xFE) ||| (rw &&& 0x01)) % 256] ++
         (pins m.i2cMPSSEValue ((m.i2cMPSSEDirection ||| SCL) &&& (0xFF - SDA)) ++
         [0x26, 0] ++
         pins (m.i2cMPSSEValue &&& (0xFF - (SCL ||| SDA)))
           (((m.i2cMPSSEDirection ||| SCL) &&& (0xFF - SDA)) ||| (SCL ||| SDA)))) := by
  have h : I2C_WriteAddress m address rw =
      read_ack (put (put (put m 0x13) 7) ((address &&& 0xFE) ||| (rw &&& 0x01))) 0 := rfl
  rw [h, read_ack_eq]
  simp only [put_eq_push, chip_push, chip_chip, push_push, push_value,
    push_direction, chip_value, chip_direction, List.append_assoc]
  rfl

theorem I2C_WriteByte_eq (m : Machine) (byte : Nat) :
    I2C_WriteByte m byte =
      push (chip m (m.i2cMPSSEValue &&& (0xFF - (SCL ||| SDA)))
          ((((m.i2cMPSSEDirection ||| (SCL ||| SDA)) ||| SCL) &&& (0xFF - SDA)) ||| (SCL ||| SDA)))
        (pins m.i2cMPSSEValue (m.i2cMPSSEDirection ||| (SCL ||| SDA)) ++
         ([0x13, 7, byte % 256] ++
         (pins m.i2cMPSSEValue (((m.i2cMPSSEDirection ||| (SCL ||| SDA)) ||| SCL) &&& (0xFF - SDA)) ++
         [0x26, 0] ++
         pins (m.i2cMPSSEValue &&& (0xFF - (SCL ||| SDA)))
           ((((m.i2cMPSSEDirection ||| (SCL ||| SDA)) ||| SCL) &&& (0xFF - SDA)) |||
             (SCL ||| SDA))))) := by
  have h : I2C_WriteByte m byte =
      read_ack (put (put (put (put_pins
        (chip m m.i2cMPSSEValue (m.i2cMPSSEDirection ||| (SCL ||| SDA)))) 0x13) 7) byte) 0 := rfl
  rw [h, read_ack_eq]
  simp only [put_pins_eq, put_eq_push, chip_push, chip_chip, push_push, push_value,
    push_direction, chip_value, chip_direction, List.append_assoc]
  rfl

theorem I2C_ReadByte_eq (m : Machine) :
    I2C_ReadByte m =
      push (chip m (m.i2cMPSSEValue &&& (0xFF - (SCL ||| SDA)))
          (((m.i2cMPSSEDirection ||| SCL) &&& (0xFF - SDA)) ||| (SCL ||| SDA)))
        (pins m.i2cMPSSEValue ((m.i2cMPSSEDirection ||| SCL) &&& (0xFF - SDA)) ++
         [0x26, 7] ++
         pins (m.i2cMPSSEValue &&& (0xFF - (SCL ||| SDA)))
           (((m.i2cMPSSEDirection ||| SCL) &&& (0xFF - SDA)) ||| (SCL ||| SDA)) ++
         [0x13, 1, 0x80]) := by
  have h : I2C_ReadByte m = put (put (put (read_ack m 7) 0x13) 1) 0x80 := rfl
  rw [h, read_ack_eq]
  simp only [put_eq_push, push_push, List.append_assoc]
  rfl


theorem Buf.blit_toList (b : Buf) (off : Nat) (l : List Nat) :
    (b.blit off l).toList (off + l.length) = b.toList off ++ l := by
  rw [Buf.toList_add]
  congr 1
  · exact Buf.toList_congr _ _ _ (fun j hj => Buf.blit_apply_lt b off l j hj)
  · apply List.ext_getElem
    · simp
    · intro i h1 h2
      simp only [List.getElem_map, List.getElem_range]
      rw [Buf.blit_apply_mid b off l i h2]
      simp [List.getD_eq_getElem?_getD, List.getElem?_eq_getElem h2]

theorem queue_push (m : Machine) (bs : List Nat) : queue (push m bs) = queue m ++ bs :=
  Buf.blit_toList m.MPSSECommand m.byteIndex bs

theorem queue_length (m : Machine) : (queue m).length = m.byteIndex :=
  Buf.toList_length _ _

theorem appended_eq (m m1 : Machine) (v d : Nat) (bs : List Nat)
    (h : m1 = push (chip m v d) bs) : appended m m1 = bs := by
  unfold appended
  rw [h, queue_push]
  have : queue (chip m v d) = queue m := rfl
  rw [this, ← queue_length m, List.drop_left]

theorem chip_self (m : Machine) : chip m m.i2cMPSSEValue m.i2cMPSSEDirection = m := rfl

theorem step_ext (m x y : Machine) (v d : Nat) (bs : List Nat)
    (hx : x = push (chip m v d) bs)
    (hy : ∃ v1 d1 bs1, y = push (chip x v1 d1) bs1) :
    ∃ v2 d2, y = push (chip m v2 d2) (bs ++ appended x y) := by
  obtain ⟨v1, d1, bs1, h⟩ := hy
  refine ⟨v1, d1, ?_⟩
  rw [appended_eq x y v1 d1 bs1 h, h, hx, chip_push, chip_chip, push_push]

theorem read_steps (m : Machine) (a g : Nat) :
    ∃ v d, I2C_Stop (I2C_ReadByte (I2C_WriteAddress (I2C_Start (I2C_WriteByte
        (I2C_WriteAddress (I2C_Start m) a 0) g)) a 1)) =
      push (chip m v d)
        ([] ++ appended m (I2C_Start m) ++
         appended (I2C_Start m) (I2C_WriteAddress (I2C_Start m) a 0) ++
         appended (I2C_WriteAddress (I2C_Start m) a 0)
           (I2C_WriteByte (I2C_WriteAddress (I2C_Start m) a 0) g) ++
         appended (I2C_WriteByte (I2C_WriteAddress (I2C_Start m) a 0) g)
           (I2C_Start (I2C_WriteByte (I2C_WriteAddress (I2C_Start m) a 0) g)) ++
         appended (I2C_Start (I2C_WriteByte (I2C_WriteAddress (I2C_Start m) a 0) g))
           (I2C_WriteAddress (I2C_Start (I2C_WriteByte (I2C_WriteAddress (I2C_Start m) a 0) g))
             a 1) ++
         appended
           (I2C_WriteAddress (I2C_Start (I2C_WriteByte (I2C_WriteAddress (I2C_Start m) a 0) g))
             a 1)
           (I2C_ReadByte (I2C_WriteAddress (I2C_Start (I2C_WriteByte
             (I2C_WriteAddress (I2C_Start m) a 0) g)) a 1)) ++
         appended
           (I2C_ReadByte (I2C_WriteAddress (I2C_Start (I2C_WriteByte
             (I2C_WriteAddress (I2C_Start m) a 0) g)) a 1))
           (I2C_Stop (I2C_ReadByte (I2C_WriteAddress (I2C_Start (I2C_WriteByte
             (I2C_WriteAddress (I2C_Start m) a 0) g)) a 1)))) := by
  have h0 : m = push (chip m m.i2cMPSSEValue m.i2cMPSSEDirection) [] := by
    rw [chip_self, push_nil]
  obtain ⟨v1, d1, h1⟩ := step_ext m m _ _ _ _ h0 ⟨_, _, _, I2C_Start_eq m⟩
  obtain ⟨v2, d2, h2⟩ := step_ext m _ _ _ _ _ h1 ⟨_, _, _, I2C_WriteAddress_eq _ a 0⟩
  obtain ⟨v3, d3, h3⟩ := step_ext m _ _ _ _ _ h2 ⟨_, _, _, I2C_WriteByte_eq _ g⟩
  obtain ⟨v4, d4, h4⟩ := step_ext m _ _ _ _ _ h3 ⟨_, _, _, I2C_Start_eq _⟩
  obtain ⟨v5, d5, h5⟩ := step_ext m _ _ _ _ _ h4 ⟨_, _, _, I2C_WriteAddress_eq _ a 1⟩
  obtain ⟨v6, d6, h6⟩ := step_ext m _ _ _ _ _ h5 ⟨_, _, _, I2C_ReadByte_eq _⟩
  obtain ⟨v7, d7, h7⟩ := step_ext m _ _ _ _ _ h6 ⟨_, _, _, I2C_Stop_eq _⟩
  exact ⟨v7, d7, h7⟩

theorem step_len (m x y : Machine) (n k : Nat)
    (hx : ∃ v d bs, x = push (chip m v d) bs ∧ bs.length = n)
    (hy : ∃ v1 d1 bs1, y = push (chip x v1 d1) bs1 ∧ bs1.length = k) :
    ∃ v2 d2 bs2, y = push (chip m v2 d2) bs2 ∧ bs2.length = n + k := by
  obtain ⟨v, d, bs, hx, hn⟩ := hx
  obtain ⟨v1, d1, bs1, h, hk⟩ := hy
  refine ⟨v1, d1, bs ++ bs1, ?_, by simp [hn, hk]⟩
  rw [h, hx, chip_push, chip_chip, push_push]

theorem Start_len (m : Machine) :
    ∃ v d bs, I2C_Start m = push (chip m v d) bs ∧ bs.length = 12 :=
  ⟨_, _, _, I2C_Start_eq m, by simp [pins]⟩

theorem Stop_len (m : Machine) :
    ∃ v d bs, I2C_Stop m = push (chip m v d) bs ∧ bs.length = 12 :=
  ⟨_, _, _, I2C_Stop_eq m, by simp [pins]⟩

theorem WriteAddress_len (m : Machine) (a rw : Nat) :
    ∃ v d bs, I2C_WriteAddress m a rw = push (chip m v d) bs ∧ bs.length = 11 :=
  ⟨_, _, _, I2C_WriteAddress_eq m a rw, by simp [pins]⟩

theorem WriteByte_len (m : Machine) (b : Nat) :
    ∃ v d bs, I2C_WriteByte m b = push (chip m v d) bs ∧ bs.length = 14 :=
  ⟨_, _, _, I2C_WriteByte_eq m b, by simp [pins]⟩

theorem ReadByte_len (m : Machine) :
    ∃ v d bs, I2C_ReadByte m = push (chip m v d) bs ∧ bs.length = 11 :=
  ⟨_, _, _, I2C_ReadByte_eq m, by simp [pins]⟩

theorem write_steps (m : Machine) (a g b : Nat) :
    ∃ v d bs, I2C_Stop (I2C_WriteByte (I2C_WriteByte
        (I2C_WriteAddress (I2C_Start m) a 0) g) b) = push (chip m v d) bs ∧ bs.length = 63 :=
  step_len m _ _ _ _ (step_len m _ _ _ _ (step_len m _ _ _ _ (step_len m _ _ _ _
    (Start_len m) (WriteAddress_len _ a 0)) (WriteByte_len _ g)) (WriteByte_len _ b))
    (Stop_len _)

theorem read_steps_len (m : Machine) (a g : Nat) :
    ∃ v d bs, I2C_Stop (I2C_ReadByte (I2C_WriteAddress (I2C_Start (I2C_WriteByte
        (I2C_WriteAddress (I2C_Start m) a 0) g)) a 1)) = push (chip m v d) bs ∧
      bs.length = 83 :=
  step_len m _ _ _ _ (step_len m _ _ _ _ (step_len m _ _ _ _ (step_len m _ _ _ _
    (step_len m _ _ _ _ (step_len m _ _ _ _
    (Start_len m) (WriteAddress_len _ a 0)) (WriteByte_len _ g)) (Start_len _))
    (WriteAddress_len _ a 1)) (ReadByte_len _)) (Stop_len _)

theorem appended_Start (m : Machine) : (appended m (I2C_Start m)).length = 12 := by
  rw [appended_eq m _ _ _ _ (I2C_Start_eq m)]
  simp [pins]

theorem appended_Stop (m : Machine) : (appended m (I2C_Stop m)).length = 12 := by
  rw [appended_eq m _ _ _ _ (I2C_Stop_eq m)]
  simp [pins]

theorem appended_WriteAddress (m : Machine) (a rw : Nat) :
    appended m (I2C_WriteAddress m a rw) =
      [0x13, 7, ((a &&& 0xFE) ||| (rw &&& 0x01)) % 256] ++
        (pins m.i2cMPSSEValue ((m.i2cMPSSEDirection ||| SCL) &&& (0xFF - SDA)) ++ [0x26, 0] ++
         pins (m.i2cMPSSEValue &&& (0xFF - (SCL ||| SDA)))
           (((m.i2cMPSSEDirection ||| SCL) &&& (0xFF - SDA)) ||| (SCL ||| SDA))) :=
  appended_eq m _ _ _ _ (I2C_WriteAddress_eq m a rw)

theorem appended_WriteByte (m : Machine) (b : Nat) :
    appended m (I2C_WriteByte m b) =
      pins m.i2cMPSSEValue (m.i2cMPSSEDirection ||| (SCL ||| SDA)) ++
         ([0x13, 7, b % 256] ++
         (pins m.i2cMPSSEValue (((m.i2cMPSSEDirection ||| (SCL ||| SDA)) ||| SCL) &&& (0xFF - SDA)) ++
         [0x26, 0] ++
         pins (m.i2cMPSSEValue &&& (0xFF - (SCL ||| SDA)))
           ((((m.i2cMPSSEDirection ||| (SCL ||| SDA)) ||| SCL) &&& (0xFF - SDA)) |||
             (SCL ||| SDA)))) :=
  appended_eq m _ _ _ _ (I2C_WriteByte_eq m b)

theorem appended_ReadByte (m : Machine) : (appended m (I2C_ReadByte m)).length = 11 := by
  rw [appended_eq m _ _ _ _ (I2C_ReadByte_eq m)]
  simp [pins]

theorem address_byte (a rw : Nat) (h : rw ≤ 1) :
    ((a &&& 0xFE) ||| (rw &&& 0x01)) % 256 = (a &&& 0xFE) ||| rw := by
  have h1 : rw &&& 0x01 = rw := by interval_cases rw <;> rfl
  have h2 : a &&& 0xFE < 2 ^ 8 := lt_of_le_of_lt Nat.and_le_right (by norm_num)
  have h3 : rw < 2 ^ 8 := by omega
  rw [h1]
  exact Nat.mod_eq_of_lt (Nat.or_lt_two_pow h2 h3)

theorem I2C_ReadRegister_eq (m : Machine) (a g dest : Nat) :
    I2C_ReadRegister m a g dest =
      record_slot (expect (I2C_Stop (I2C_ReadByte (I2C_WriteAddress (I2C_Start (I2C_WriteByte
        (I2C_WriteAddress (I2C_Start m) a 0) g)) a 1))) 4) dest := rfl

theorem I2C_WriteRegister_eq (m : Machine) (a g b : Nat) :
    I2C_WriteRegister m a g b =
      expect (I2C_Stop (I2C_WriteByte (I2C_WriteByte
        (I2C_WriteAddress (I2C_Start m) a 0) g) b)) 3 := rfl


theorem push_MPSSECommand_lt (m : Machine) (bs : List Nat) (j : Nat) (h : j < m.byteIndex) :
    (push m bs).MPSSECommand j = m.MPSSECommand j :=
  Buf.blit_apply_lt m.MPSSECommand m.byteIndex bs j h

theorem slot_push (m x : Machine) (v c : Nat) (bs : List Nat) (dest : Nat)
    (hx : x = push (chip m v c) bs) :
    queue (record_slot (expect x 4) dest) = queue m ++ bs ∧
    (record_slot (expect x 4) dest).byteIndex = m.byteIndex + bs.length ∧
    (record_slot (expect x 4) dest).bytesToRead = m.bytesToRead + 4 ∧
    (record_slot (expect x 4) dest).responseCount = m.responseCount + 1 ∧
    (record_slot (expect x 4) dest).responseOffsets =
      (fun j => if j = m.responseCount then m.bytesToRead + 4 - 1 else m.responseOffsets j) ∧
    (record_slot (expect x 4) dest).variableCallbacks =
      (fun j => if j = m.responseCount then some dest else m.variableCallbacks j) ∧
    (∀ j, j < m.byteIndex → (record_slot (expect x 4) dest).MPSSECommand j = m.MPSSECommand j) ∧
    (record_slot (expect x 4) dest).dlsym = m.dlsym ∧
    (record_slot (expect x 4) dest).replies = m.replies ∧
    (record_slot (expect x 4) dest).trace = m.trace := by
  subst hx
  exact ⟨queue_push _ bs, rfl, rfl, rfl, rfl, rfl,
    fun j hj => push_MPSSECommand_lt (chip m v c) bs j hj, rfl, rfl, rfl⟩

theorem expect_push (m x : Machine) (v c : Nat) (bs : List Nat) (k : Nat)
    (hx : x = push (chip m v c) bs) :
    queue (expect x k) = queue m ++ bs ∧
    (expect x k).byteIndex = m.byteIndex + bs.length ∧
    (expect x k).bytesToRead = m.bytesToRead + k ∧
    (expect x k).responseCount = m.responseCount ∧
    (expect x k).responseOffsets = m.responseOffsets ∧
    (expect x k).variableCallbacks = m.variableCallbacks ∧
    (∀ j, j < m.byteIndex → (expect x k).MPSSECommand j = m.MPSSECommand j) ∧
    (expect x k).dlsym = m.dlsym ∧
    (expect x k).replies = m.replies ∧
    (expect x k).trace = m.trace := by
  subst hx
  exact ⟨queue_push _ bs, rfl, rfl, rfl, rfl, rfl,
    fun j hj => push_MPSSECommand_lt (chip m v c) bs j hj, rfl, rfl, rfl⟩

theorem take3 (a b c : Nat) (l : List Nat) : ([a, b, c] ++ l).take 3 = [a, b, c] := rfl

theorem drop3_take3 (x y z a b c : Nat) (l : List Nat) :
    (([x, y, z] ++ ([a, b, c] ++ l)).drop 3).take 3 = [a, b, c] := rfl

theorem apply_op_fields (m : Machine) (op : Op) :
    (apply_op m op).bytesToRead = m.bytesToRead + reply_bytes op ∧
    (apply_op m op).responseCount = m.responseCount + (slots m.bytesToRead [op]).length ∧
    (apply_op m op).byteIndex = m.byteIndex + command_bytes op ∧
    (apply_op m op).dlsym = m.dlsym ∧
    (apply_op m op).replies = m.replies ∧
    (apply_op m op).trace = m.trace ∧
    (∀ j, j < m.responseCount →
      (apply_op m op).responseOffsets j = m.responseOffsets j ∧
      (apply_op m op).variableCallbacks j = m.variableCallbacks j) ∧
    (∀ o d, (slots m.bytesToRead [op])[0]? = some (o, d) →
      (apply_op m op).responseOffsets m.responseCount = o ∧
      (apply_op m op).variableCallbacks m.responseCount = some d) := by
  cases op with
  | read a g dest =>
    obtain ⟨v, c, bs, h, hl⟩ := read_steps_len m a g
    have G := slot_push m _ v c bs dest h
    rw [← I2C_ReadRegister_eq] at G
    show (I2C_ReadRegister m a g dest).bytesToRead = _ ∧ (I2C_ReadRegister m a g dest).responseCount = _ ∧
      (I2C_ReadRegister m a g dest).byteIndex = _ ∧ (I2C_ReadRegister m a g dest).dlsym = _ ∧
      (I2C_ReadRegister m a g dest).replies = _ ∧ (I2C_ReadRegister m a g dest).trace = _ ∧
      (∀ j, j < m.responseCount →
        (I2C_ReadRegister m a g dest).responseOffsets j = m.responseOffsets j ∧
        (I2C_ReadRegister m a g dest).variableCallbacks j = m.variableCallbacks j) ∧
      (∀ o d, (slots m.bytesToRead [Op.read a g dest])[0]? = some (o, d) →
        (I2C_ReadRegister m a g dest).responseOffsets m.responseCount = o ∧
        (I2C_ReadRegister m a g dest).variableCallbacks m.responseCount = some d)
    generalize I2C_ReadRegister m a g dest = y at G
    obtain ⟨-, g2, g3, g4, g5, g6, -, g8, g9, g10⟩ := G
    refine ⟨g3, g4, by rw [g2, hl]; rfl, g8, g9, g10, ?_, ?_⟩
    · intro j hj
      have hne : j ≠ m.responseCount := by omega
      rw [g5, g6]
      exact ⟨if_neg hne, if_neg hne⟩
    · intro o d hod
      simp only [slots, List.getElem?_cons_zero, Option.some.injEq, Prod.mk.injEq] at hod
      rw [g5, g6, ← hod.1, ← hod.2]
      exact ⟨if_pos rfl, if_pos rfl⟩
  | write a g b =>
    obtain ⟨v, c, bs, h, hl⟩ := write_steps m a g b
    have G := expect_push m _ v c bs 3 h
    rw [← I2C_WriteRegister_eq] at G
    show (I2C_WriteRegister m a g b).bytesToRead = _ ∧ (I2C_WriteRegister m a g b).responseCount = _ ∧
      (I2C_WriteRegister m a g b).byteIndex = _ ∧ (I2C_WriteRegister m a g b).dlsym = _ ∧
      (I2C_WriteRegister m a g b).replies = _ ∧ (I2C_WriteRegister m a g b).trace = _ ∧
      (∀ j, j < m.responseCount →
        (I2C_WriteRegister m a g b).responseOffsets j = m.responseOffsets j ∧
        (I2C_WriteRegister m a g b).variableCallbacks j = m.variableCallbacks j) ∧
      (∀ o d, (slots m.bytesToRead [Op.write a g b])[0]? = some (o, d) →
        (I2C_WriteRegister m a g b).responseOffsets m.responseCount = o ∧
        (I2C_WriteRegister m a g b).variableCallbacks m.responseCount = some d)
    generalize I2C_WriteRegister m a g b = y at G
    obtain ⟨-, g2, g3, g4, g5, g6, -, g8, g9, g10⟩ := G
    refine ⟨g3, g4, by rw [g2, hl]; rfl, g8, g9, g10, ?_, ?_⟩
    · intro j _
      rw [g5, g6]
      exact ⟨rfl, rfl⟩
    · intro o d hod
      simp [slots] at hod


theorem slots_length_cons (b : Nat) (op : Op) (t : List Op) :
    (slots b (op :: t)).length = (slots b [op]).length + (slots (b + reply_bytes op) t).length := by
  cases op <;> simp [slots, reply_bytes, Nat.add_comm]

theorem slots_getElem?_cons (b : Nat) (op : Op) (t : List Op) (i : Nat) :
    (slots b (op :: t))[i]? =
      if i < (slots b [op]).length then (slots b [op])[i]?
      else (slots (b + reply_bytes op) t)[i - (slots b [op]).length]? := by
  cases op with
  | read a g dest =>
    cases i with
    | zero => simp [slots]
    | succ i => simp [slots, reply_bytes]
  | write a g v => simp [slots, reply_bytes]

theorem run_ops_fields (ops : List Op) : ∀ m : Machine,
    (run_ops m ops).bytesToRead = m.bytesToRead + expected_replies ops ∧
    (run_ops m ops).responseCount = m.responseCount + (slots m.bytesToRead ops).length ∧
    (run_ops m ops).byteIndex = m.byteIndex + (ops.map command_bytes).sum ∧
    (run_ops m ops).dlsym = m.dlsym ∧
    (run_ops m ops).replies = m.replies ∧
    (run_ops m ops).trace = m.trace ∧
    (∀ j, j < m.responseCount →
      (run_ops m ops).responseOffsets j = m.responseOffsets j ∧
      (run_ops m ops).variableCallbacks j = m.variableCallbacks j) ∧
    (∀ i o d, (slots m.bytesToRead ops)[i]? = some (o, d) →
      (run_ops m ops).responseOffsets (m.responseCount + i) = o ∧
      (run_ops m ops).variableCallbacks (m.responseCount + i) = some d) := by
  induction ops with
  | nil =>
    intro m
    refine ⟨rfl, rfl, rfl, rfl, rfl, rfl, fun j _ => ⟨rfl, rfl⟩, ?_⟩
    intro i o d h
    simp [slots] at h
  | cons op t ih =>
    intro m
    obtain ⟨a1, a2, a3, a4, a5, a6, a7, a8⟩ := apply_op_fields m op
    obtain ⟨b1, b2, b3, b4, b5, b6, b7, b8⟩ := ih (apply_op m op)
    have e : run_ops m (op :: t) = run_ops (apply_op m op) t := rfl
    rw [e]
    refine ⟨?_, ?_, ?_, b4.trans a4, b5.trans a5, b6.trans a6, ?_, ?_⟩
    · rw [b1, a1]
      simp [expected_replies, Nat.add_assoc]
    · rw [b2, a2, a1]
      have := slots_length_cons m.bytesToRead op t
      omega
    · rw [b3, a3]
      simp [Nat.add_assoc]
    · intro j hj
      have hj2 : j < (apply_op m op).responseCount := by rw [a2]; omega
      exact ⟨(b7 j hj2).1.trans (a7 j hj).1, (b7 j hj2).2.trans (a7 j hj).2⟩
    · intro i o d h
      rw [slots_getElem?_cons] at h
      by_cases hi : i < (slots m.bytesToRead [op]).length
      · rw [if_pos hi] at h
        have hlen : (slots m.bytesToRead [op]).length ≤ 1 := by
          cases op <;> simp [slots]
        have hi0 : i = 0 := by omega
        subst hi0
        have hj2 : m.responseCount < (apply_op m op).responseCount := by rw [a2]; omega
        rw [Nat.add_zero, (b7 _ hj2).1, (b7 _ hj2).2]
        exact a8 o d h
      · rw [if_neg hi, ← a1] at h
        have := b8 _ o d h
        rw [a2] at this
        have e2 : m.responseCount + (slots m.bytesToRead [op]).length +
            (i - (slots m.bytesToRead [op]).length) = m.responseCount + i := by omega
        rwa [e2] at this

theorem slots_append (pre : List Op) : ∀ (b : Nat) (a g dest : Nat) (post : List Op),
    slots b (pre ++ Op.read a g dest :: post) =
      slots b pre ++ (b + expected_replies pre + 3, dest) ::
        slots (b + expected_replies pre + 4) post := by
  induction pre with
  | nil =>
    intro b a g dest post
    simp [slots, expected_replies]
  | cons op t ih =>
    intro b a g dest post
    cases op with
    | read a1 g1 d1 =>
      have e1 : expected_replies (Op.read a1 g1 d1 :: t) = 4 + expected_replies t := by
        simp [expected_replies, reply_bytes]
      have e2 : slots b (Op.read a1 g1 d1 :: (t ++ Op.read a g dest :: post)) =
          (b + 3, d1) :: slots (b + 4) (t ++ Op.read a g dest :: post) := rfl
      have e3 : slots b (Op.read a1 g1 d1 :: t) = (b + 3, d1) :: slots (b + 4) t := rfl
      rw [List.cons_append, e2, e3, ih, e1, List.cons_append, Nat.add_assoc b 4]
    | write a1 g1 v1 =>
      have e1 : expected_replies (Op.write a1 g1 v1 :: t) = 3 + expected_replies t := by
        simp [expected_replies, reply_bytes]
      have e2 : slots b (Op.write a1 g1 v1 :: (t ++ Op.read a g dest :: post)) =
          slots (b + 3) (t ++ Op.read a g dest :: post) := rfl
      have e3 : slots b (Op.write a1 g1 v1 :: t) = slots (b + 3) t := rfl
      rw [List.cons_append, e2, e3, ih, e1, Nat.add_assoc b 3]

theorem slots_destinations (ops : List Op) : ∀ b : Nat,
    (slots b ops).map Prod.snd = destinations ops := by
  induction ops with
  | nil => intro b; rfl
  | cons op t ih =>
    intro b
    cases op with
    | read a g d => simp [slots, destinations, ih, List.filterMap_cons] at *
    | write a g v => simp [slots, destinations, ih, List.filterMap_cons] at *

theorem dispatch_loop_slots (m : Machine) (sl : List (Nat × Nat)) :
    ∀ (i0 : Nat) (mem : Buf),
      (∀ i o d, sl[i]? = some (o, d) →
        m.responseOffsets (i0 + i) = o ∧ m.variableCallbacks (i0 + i) = some d) →
      dispatch_loop m sl.length i0 mem =
        some (sl.foldl (fun mem s => mem.set s.2 (m.MPSSECommand s.1)) mem) := by
  induction sl with
  | nil => intro i0 mem _; rfl
  | cons s t ih =>
    intro i0 mem h
    obtain ⟨o, d⟩ := s
    have h0 := h 0 o d (by simp)
    rw [Nat.add_zero] at h0
    have e : dispatch_loop m ((o, d) :: t).length i0 mem =
        match m.variableCallbacks i0 with
        | none => none
        | some a => dispatch_loop m t.length (i0 + 1)
            (mem.set a (m.MPSSECommand (m.responseOffsets i0))) := rfl
    rw [e, h0.2, h0.1]
    show dispatch_loop m t.length (i0 + 1) (mem.set d (m.MPSSECommand o)) = _
    rw [ih (i0 + 1) _ (fun i o1 d1 hi => by
      have := h (i + 1) o1 d1 (by simpa using hi)
      rwa [show i0 + (i + 1) = i0 + 1 + i by omega] at this)]
    rfl

theorem fold_slots (f : Nat → Nat) (sl : List (Nat × Nat)) :
    ∀ mem : Buf, (sl.map Prod.snd).Nodup →
      (∀ o d, (o, d) ∈ sl → sl.foldl (fun mem s => mem.set s.2 (f s.1)) mem d = f o) ∧
      (∀ j, j ∉ sl.map Prod.snd → sl.foldl (fun mem s => mem.set s.2 (f s.1)) mem j = mem j) := by
  induction sl with
  | nil =>
    intro mem _
    exact ⟨fun o d h => by simp at h, fun j _ => rfl⟩
  | cons s t ih =>
    intro mem hn
    obtain ⟨o, d⟩ := s
    simp only [List.map_cons, List.nodup_cons] at hn
    obtain ⟨i1, i2⟩ := ih (mem.set d (f o)) hn.2
    constructor
    · intro o1 d1 h1
      simp only [List.mem_cons, Prod.mk.injEq] at h1
      rcases h1 with ⟨rfl, rfl⟩ | h1
      · show t.foldl _ (mem.set d1 (f o1)) d1 = _
        rw [i2 d1 hn.1]
        exact Buf.set_same _ _ _
      · exact i1 o1 d1 h1
    · intro j hj
      simp only [List.map_cons, List.mem_cons, not_or] at hj
      show t.foldl _ (mem.set d (f o)) j = _
      rw [i2 j hj.2]
      exact Buf.set_other _ _ _ _ hj.1


theorem InitializeQueue_fields (in_ : seaMaxModule) (m : Machine) :
    (I2C_InitializeQueue in_ m).bytesToRead = 0 ∧
    (I2C_InitializeQueue in_ m).responseCount = 0 ∧
    (I2C_InitializeQueue in_ m).byteIndex = 0 ∧
    (I2C_InitializeQueue in_ m).dlsym = m.dlsym ∧
    (I2C_InitializeQueue in_ m).replies = m.replies ∧
    (I2C_InitializeQueue in_ m).trace = m.trace ++
      (if m.dlsym in_.libftdi ftdi_symbol.ftdi_usb_purge_buffers
       then [Call.ftdi ftdi_symbol.ftdi_usb_purge_buffers []] else []) := by
  simp only [I2C_InitializeQueue]
  split_ifs with h
  · exact ⟨rfl, rfl, rfl, rfl, rfl, rfl⟩
  · exact ⟨rfl, rfl, rfl, rfl, rfl, (List.append_nil _).symm⟩

theorem blit_zero_apply (l : List Nat) (j : Nat) :
    Buf.blit (fun _ => 0) 0 l j = l.getD j 0 := by
  by_cases h : j < l.length
  · have := Buf.blit_apply_mid (fun _ => 0) 0 l j h
    rwa [Nat.zero_add] at this
  · rw [Buf.blit_apply_ge _ _ _ _ (by omega)]
    simp [List.getD_eq_getElem?_getD, List.getElem?_eq_none (Nat.le_of_not_lt h)]

theorem ExecuteQueue_transfer (in_ : seaMaxModule) (M : Machine) (mem : Buf) :
    I2C_ExecuteQueue in_ M mem =
      (dispatch_loop (execute_transfer in_ M) (execute_transfer in_ M).responseCount 0 mem).map
        (fun x => (execute_transfer in_ M, x)) := by
  have e : I2C_ExecuteQueue in_ M mem =
      match dispatch_loop (execute_transfer in_ M) (execute_transfer in_ M).responseCount 0 mem with
      | none => none
      | some mem => some (execute_transfer in_ M, mem) := rfl
  rw [e]
  cases dispatch_loop (execute_transfer in_ M) (execute_transfer in_ M).responseCount 0 mem <;> rfl

theorem execute_transfer_fields (in_ : seaMaxModule) (M : Machine) :
    (execute_transfer in_ M).responseCount = M.responseCount ∧
    (execute_transfer in_ M).responseOffsets = M.responseOffsets ∧
    (execute_transfer in_ M).variableCallbacks = M.variableCallbacks ∧
    (execute_transfer in_ M).MPSSECommand = Buf.blit (fun _ => 0) 0 (received in_ M) ∧
    (execute_transfer in_ M).trace = M.trace ++
        (if M.dlsym in_.libftdi ftdi_symbol.ftdi_write_data
         then [Call.ftdi ftdi_symbol.ftdi_write_data (queue M)] else []) ++
        (if M.dlsym in_.libftdi ftdi_symbol.ftdi_read_data
         then [Call.ftdi ftdi_symbol.ftdi_read_data [M.bytesToRead]] else []) := by
  by_cases hw : M.dlsym in_.libftdi ftdi_symbol.ftdi_write_data = true <;>
  by_cases hr : M.dlsym in_.libftdi ftdi_symbol.ftdi_read_data = true <;>
  rcases hrep : M.replies with _ | ⟨r, rest⟩ <;>
  simp [execute_transfer, received, queue, ftdi_write_data, ftdi_read_data, Machine.log, hw, hr,
    hrep, Buf.blit_nil]


theorem execute_batch (in_ : seaMaxModule) (m : Machine) (ops : List Op) (mem : Buf)
    (hn : (destinations ops).Nodup) :
    ∃ out : Buf,
      I2C_ExecuteQueue in_ (run_ops (I2C_InitializeQueue in_ m) ops) mem =
        some (execute_transfer in_ (run_ops (I2C_InitializeQueue in_ m) ops), out) ∧
      (∀ pre a g dest post, ops = pre ++ Op.read a g dest :: post →
        out dest = (received in_ (run_ops (I2C_InitializeQueue in_ m) ops)).getD
          (3 + expected_replies pre) 0) ∧
      (∀ j, j ∉ destinations ops → out j = mem j) := by
  obtain ⟨i1, i2, -, -, -, -⟩ := InitializeQueue_fields in_ m
  obtain ⟨-, f2, -, -, -, -, -, f8⟩ := run_ops_fields ops (I2C_InitializeQueue in_ m)
  obtain ⟨t1, t2, t3, t4, -⟩ :=
    execute_transfer_fields in_ (run_ops (I2C_InitializeQueue in_ m) ops)
  rw [i1, i2] at f8
  rw [i1, i2, Nat.zero_add] at f2
  generalize run_ops (I2C_InitializeQueue in_ m) ops = M at *
  rw [ExecuteQueue_transfer, t1, f2]
  generalize execute_transfer in_ M = T at *
  have hd := dispatch_loop_slots T (slots 0 ops) 0 mem (fun i o d h => by
    rw [t2, t3]
    exact f8 i o d h)
  rw [hd]
  have hn2 : ((slots 0 ops).map Prod.snd).Nodup := by rwa [slots_destinations]
  obtain ⟨g1, g2⟩ := fold_slots T.MPSSECommand (slots 0 ops) mem hn2
  refine ⟨_, rfl, ?_, ?_⟩
  · intro pre a g dest post hops
    have hmem : (0 + expected_replies pre + 3, dest) ∈ slots 0 ops := by
      rw [hops, slots_append]
      simp
    rw [g1 _ _ hmem, t4, blit_zero_apply]
    congr 1
    omega
  · intro j hj
    rw [← slots_destinations ops 0] at hj
    exact g2 j hj

theorem received_batch (in_ : seaMaxModule) (m : Machine) (ops : List Op) :
    received in_ (run_ops (I2C_InitializeQueue in_ m) ops) =
      if m.dlsym in_.libftdi ftdi_symbol.ftdi_read_data
      then (m.replies.headD []).take (expected_replies ops) else [] := by
  obtain ⟨i1, -, -, i4, i5, -⟩ := InitializeQueue_fields in_ m
  obtain ⟨f1, -, -, f4, f5, -, -, -⟩ := run_ops_fields ops (I2C_InitializeQueue in_ m)
  rw [i1, Nat.zero_add] at f1
  rw [i4] at f4
  rw [i5] at f5
  generalize run_ops (I2C_InitializeQueue in_ m) ops = M at *
  unfold received ftdi_read_data
  rw [f1, f4, f5]
  rcases m.replies with _ | ⟨r, rest⟩ <;> simp

theorem trace_batch (in_ : seaMaxModule) (m : Machine) (ops : List Op) :
    (execute_transfer in_ (run_ops (I2C_InitializeQueue in_ m) ops)).trace =
      m.trace ++
        (if m.dlsym in_.libftdi ftdi_symbol.ftdi_usb_purge_buffers
         then [Call.ftdi ftdi_symbol.ftdi_usb_purge_buffers []] else []) ++
        (if m.dlsym in_.libftdi ftdi_symbol.ftdi_write_data
         then [Call.ftdi ftdi_symbol.ftdi_write_data
           (queue (run_ops (I2C_InitializeQueue in_ m) ops))] else []) ++
        (if m.dlsym in_.libftdi ftdi_symbol.ftdi_read_data
         then [Call.ftdi ftdi_symbol.ftdi_read_data [expected_replies ops]] else []) := by
  obtain ⟨i1, -, -, i4, -, i6⟩ := InitializeQueue_fields in_ m
  obtain ⟨f1, -, -, f4, -, f6, -, -⟩ := run_ops_fields ops (I2C_InitializeQueue in_ m)
  obtain ⟨-, -, -, -, t5⟩ :=
    execute_transfer_fields in_ (run_ops (I2C_InitializeQueue in_ m) ops)
  rw [t5, f6, i6, f4, i4, f1, i1, Nat.zero_add]

theorem queue_batch_length (in_ : seaMaxModule) (m : Machine) (ops : List Op) :
    (queue (run_ops (I2C_InitializeQueue in_ m) ops)).length = (ops.map command_bytes).sum := by
  obtain ⟨-, -, i3, -, -, -⟩ := InitializeQueue_fields in_ m
  obtain ⟨-, -, f3, -, -, -, -, -⟩ := run_ops_fields ops (I2C_InitializeQueue in_ m)
  rw [queue_length, f3, i3, Nat.zero_add]

theorem received_getD (in_ : seaMaxModule) (m : Machine) (ops : List Op) (j : Nat)
    (hj : j < expected_replies ops) :
    (received in_ (run_ops (I2C_InitializeQueue in_ m) ops)).getD j 0 =
      (bridge_reply in_ m).getD j 0 := by
  rw [received_batch, bridge_reply]
  split_ifs
  · exact take_getD _ _ _ hj
  · rfl

theorem perm_destinations (ops ops2 : List Op) (h : ops2.Perm ops) :
    (destinations ops2).Perm (destinations ops) :=
  List.Perm.filterMap _ h

theorem perm_expected (ops ops2 : List Op) (h : ops2.Perm ops) :
    expected_replies ops2 = expected_replies ops :=
  (List.Perm.map reply_bytes h).sum_eq

theorem expected_append (pre post : List Op) (op : Op) :
    expected_replies (pre ++ op :: post) =
      expected_replies pre + reply_bytes op + expected_replies post := by
  simp [expected_replies, Nat.add_assoc]

theorem batch_sizes (in_ : seaMaxModule) (m : Machine) (ops : List Op) :
    (run_ops (I2C_InitializeQueue in_ m) ops).byteIndex = (ops.map command_bytes).sum ∧
    (run_ops (I2C_InitializeQueue in_ m) ops).responseCount = (destinations ops).length ∧
    (run_ops (I2C_InitializeQueue in_ m) ops).bytesToRead = expected_replies ops := by
  obtain ⟨i1, i2, i3, -, -, -⟩ := InitializeQueue_fields in_ m
  obtain ⟨f1, f2, f3, -, -, -, -, -⟩ := run_ops_fields ops (I2C_InitializeQueue in_ m)
  rw [f1, f2, f3, i1, i2, i3, Nat.zero_add, Nat.zero_add, Nat.zero_add,
    ← slots_destinations ops 0, List.length_map]
  exact ⟨rfl, rfl, rfl⟩

theorem merge_loop_four (locals data : Buf) :
    (∀ k, k < 4 → merge_loop locals 4 0 data k =
      (locals (4 + k) &&& locals k) ||| (locals (8 + k) &&& (0xFF - locals k))) ∧
    (∀ j, 4 ≤ j → merge_loop locals 4 0 data j = data j) := by
  constructor
  · intro k hk
    interval_cases k <;> simp [merge_loop, Buf.set]
  · intro j hj
    have h0 : j ≠ 0 := by omega
    have h1 : j ≠ 1 := by omega
    have h2 : j ≠ 2 := by omega
    have h3 : j ≠ 3 := by omega
    simp [merge_loop, Buf.set, h0, h1, h2, h3]

theorem getpio_ops_split (j : Nat) (hj : j < 12) :
    ∃ pre a g post, getpio_ops = pre ++ Op.read a g j :: post ∧ expected_replies pre = 4 * j := by
  interval_cases j
  · exact ⟨getpio_ops.take 0, _, _, _, rfl, rfl⟩
  · exact ⟨getpio_ops.take 1, _, _, _, rfl, rfl⟩
  · exact ⟨getpio_ops.take 2, _, _, _, rfl, rfl⟩
  · exact ⟨getpio_ops.take 3, _, _, _, rfl, rfl⟩
  · exact ⟨getpio_ops.take 4, _, _, _, rfl, rfl⟩
  · exact ⟨getpio_ops.take 5, _, _, _, rfl, rfl⟩
  · exact ⟨getpio_ops.take 6, _, _, _, rfl, rfl⟩
  · exact ⟨getpio_ops.take 7, _, _, _, rfl, rfl⟩
  · exact ⟨getpio_ops.take 8, _, _, _, rfl, rfl⟩
  · exact ⟨getpio_ops.take 9, _, _, _, rfl, rfl⟩
  · exact ⟨getpio_ops.take 10, _, _, _, rfl, rfl⟩
  · exact ⟨getpio_ops.take 11, _, _, _, rfl, rfl⟩

theorem getdir_ops_split (j : Nat) (hj : j < 4) :
    ∃ pre a g post, getdir_ops = pre ++ Op.read a g j :: post ∧ expected_replies pre = 4 * j := by
  interval_cases j
  · exact ⟨getdir_ops.take 0, _, _, _, rfl, rfl⟩
  · exact ⟨getdir_ops.take 1, _, _, _, rfl, rfl⟩
  · exact ⟨getdir_ops.take 2, _, _, _, rfl, rfl⟩
  · exact ⟨getdir_ops.take 3, _, _, _, rfl, rfl⟩

theorem getPIO_eq (in_ : seaMaxModule) (m : Machine) (data : Buf)
    (hmode : in_.commMode = seaio_mode_t.FTDI_DIRECT) (htype : in_.deviceType = 0x8126) :
    ∃ out : Buf,
      SeaDacGetPIO in_ m data =
        some (4, execute_transfer in_ (run_ops (I2C_InitializeQueue in_ m) getpio_ops), out) ∧
      (∀ k, k < 4 → out k =
        ((bridge_reply in_ m).getD (19 + 4 * k) 0 &&& (bridge_reply in_ m).getD (3 + 4 * k) 0) |||
        ((bridge_reply in_ m).getD (35 + 4 * k) 0 &&&
          (0xFF - (bridge_reply in_ m).getD (3 + 4 * k) 0))) ∧
      (∀ j, 4 ≤ j → out j = data j) := by
  obtain ⟨locals, h1, h2, -⟩ := execute_batch in_ m getpio_ops (fun _ => 0) (by decide)
  have hloc : ∀ j, j < 12 → locals j = (bridge_reply in_ m).getD (3 + 4 * j) 0 := by
    intro j hj
    obtain ⟨pre, a, g, post, hs, he⟩ := getpio_ops_split j hj
    rw [h2 pre a g j post hs, he]
    exact received_getD in_ m getpio_ops _ (by
      show 3 + 4 * j < 48
      omega)
  have e : SeaDacGetPIO in_ m data =
      match I2C_ExecuteQueue in_ (run_ops (I2C_InitializeQueue in_ m) getpio_ops) (fun _ => 0) with
      | none => none
      | some (m, locals) => some (4, m, merge_loop locals 4 0 data) := by
    unfold SeaDacGetPIO
    rw [if_pos hmode, if_pos htype]
    simp only [run_ops, getpio_ops, List.foldl, apply_op]
  rw [e, h1]
  obtain ⟨g1, g2⟩ := merge_loop_four locals data
  refine ⟨_, rfl, ?_, g2⟩
  intro k hk
  rw [g1 k hk, hloc k (by omega), hloc (4 + k) (by omega), hloc (8 + k) (by omega)]
  rw [show 3 + 4 * (4 + k) = 19 + 4 * k by omega, show 3 + 4 * (8 + k) = 35 + 4 * k by omega]

theorem getPIODirection_eq (in_ : seaMaxModule) (m : Machine) (data : Buf)
    (hmode : in_.commMode = seaio_mode_t.FTDI_DIRECT) (htype : in_.deviceType = 0x8126) :
    ∃ out : Buf,
      SeaDacGetPIODirection in_ m data =
        some (0, execute_transfer in_ (run_ops (I2C_InitializeQueue in_ m) getdir_ops), out) ∧
      (∀ k, k < 4 → out k = (bridge_reply in_ m).getD (3 + 4 * k) 0) ∧
      (∀ j, 4 ≤ j → out j = data j) := by
  obtain ⟨out, h1, h2, h3⟩ := execute_batch in_ m getdir_ops data (by decide)
  have e : SeaDacGetPIODirection in_ m data =
      match I2C_ExecuteQueue in_ (run_ops (I2C_InitializeQueue in_ m) getdir_ops) data with
      | none => none
      | some (m, data) => some (0, m, data) := by
    unfold SeaDacGetPIODirection
    rw [if_pos hmode, if_pos htype]
    simp only [run_ops, getdir_ops, List.foldl, apply_op]
  rw [e, h1]
  refine ⟨_, rfl, ?_, ?_⟩
  · intro k hk
    obtain ⟨pre, a, g, post, hs, he⟩ := getdir_ops_split k hk
    rw [h2 pre a g k post hs, he]
    exact received_getD in_ m getdir_ops _ (by
      show 3 + 4 * k < 16
      omega)
  · intro j hj
    apply h3
    show j ∉ [0, 1, 2, 3]
    simp
    omega

theorem SetGPIO_responseCount (m : Machine) (direction state : Nat) :
    ( I2C_SetGPIO m direction state).responseCount = m.responseCount := by
  have h : I2C_SetGPIO m direction state =
      (let a := chip m (((m.i2cMPSSEValue &&& 0x0F) ||| (state <<< 4)) % 256)
         (((m.i2cMPSSEDirection &&& 0x0F) ||| (direction <<< 4)) % 256)
       put (put (put (put_pins a) 0x82) (state >>> 4)) (direction >>> 4)) := rfl
  rw [h]
  simp only [put_pins_eq, put_eq_push, push_push]
  rfl

theorem WriteRegister_responseCount (m : Machine) (a g b : Nat) :
    (I2C_WriteRegister m a g b).responseCount = m.responseCount :=
  (apply_op_fields m (Op.write a g b)).2.1

theorem ExecuteQueue_no_slots (in_ : seaMaxModule) (X : Machine) (mem : Buf)
    (h : X.responseCount = 0) :
    I2C_ExecuteQueue in_ X mem = some (execute_transfer in_ X, mem) := by
  rw [ExecuteQueue_transfer, (execute_transfer_fields in_ X).1, h]
  rfl

theorem setPIO_eq (in_ : seaMaxModule) (m : Machine) (data : Buf)
    (hmode : in_.commMode = seaio_mode_t.FTDI_DIRECT) (htype : in_.deviceType = 0x8126) :
    ∃ m1, SeaDacSetPIO in_ m data = some (0, m1) := by
  unfold SeaDacSetPIO
  rw [if_pos hmode, if_pos htype]
  dsimp only
  rw [ExecuteQueue_no_slots]
  · exact ⟨_, rfl⟩
  · rw [WriteRegister_responseCount, WriteRegister_responseCount, WriteRegister_responseCount,
      WriteRegister_responseCount]
    exact (InitializeQueue_fields in_ m).2.1

theorem setPIODirection_eq (in_ : seaMaxModule) (m : Machine) (data : Buf)
    (hmode : in_.commMode = seaio_mode_t.FTDI_DIRECT) (htype : in_.deviceType = 0x8126) :
    ∃ m1, SeaDacSetPIODirection in_ m data = some (0, m1) := by
  unfold SeaDacSetPIODirection
  rw [if_pos hmode, if_pos htype]
  dsimp only
  rw [ExecuteQueue_no_slots]
  · exact ⟨_, rfl⟩
  · rw [SetGPIO_responseCount, WriteRegister_responseCount, WriteRegister_responseCount,
      WriteRegister_responseCount, WriteRegister_responseCount]
    exact (InitializeQueue_fields in_ m).2.1

theorem I2C_SetGPIO_eq (m : Machine) (direction state : Nat) :
    I2C_SetGPIO m direction state =
      push (chip m (((m.i2cMPSSEValue &&& 0x0F) ||| (state <<< 4)) % 256)
          (((m.i2cMPSSEDirection &&& 0x0F) ||| (direction <<< 4)) % 256))
        (pins (((m.i2cMPSSEValue &&& 0x0F) ||| (state <<< 4)) % 256)
            (((m.i2cMPSSEDirection &&& 0x0F) ||| (direction <<< 4)) % 256) ++
          [0x82, (state >>> 4) % 256, (direction >>> 4) % 256]) := by
  have h : I2C_SetGPIO m direction state =
      (let a := chip m (((m.i2cMPSSEValue &&& 0x0F) ||| (state <<< 4)) % 256)
         (((m.i2cMPSSEDirection &&& 0x0F) ||| (direction <<< 4)) % 256)
       put (put (put (put_pins a) 0x82) (state >>> 4)) (direction >>> 4)) := rfl
  rw [h]
  simp only [put_pins_eq, put_eq_push, push_push, chip_value, chip_direction, List.append_assoc]
  rfl

theorem nibble_merge (v s : Nat) :
    ((v &&& 0x0F) ||| (s <<< 4)) % 256 = (v &&& 0x0F) ||| ((s <<< 4) &&& 0xF0) := by
  have e1 : (256 : Nat) = 2 ^ 8 := by norm_num
  have h1 : (v &&& 0x0F) % 2 ^ 8 = v &&& 0x0F :=
    Nat.mod_eq_of_lt (lt_of_le_of_lt Nat.and_le_right (by norm_num))
  have h2 : (s <<< 4) % 2 ^ 8 = (s <<< 4) &&& 0xF0 := by
    have a1 : (s <<< 4) % 2 ^ 8 = (s <<< 4) &&& (2 ^ 8 - 1) :=
      (Nat.and_pow_two_sub_one_eq_mod _ 8).symm
    have a2 : (2 ^ 8 - 1 : Nat) = 0xF0 ||| (2 ^ 4 - 1) := by decide
    have a3 : (s <<< 4) &&& (2 ^ 4 - 1) = 0 := by
      rw [Nat.and_pow_two_sub_one_eq_mod, Nat.shiftLeft_eq]
      exact Nat.mul_mod_left _ _
    rw [a1, a2, Nat.and_or_distrib_left, a3, Nat.or_zero]
  rw [e1, ← Nat.and_pow_two_sub_one_eq_mod, Nat.and_distrib_right,
    Nat.and_pow_two_sub_one_eq_mod, Nat.and_pow_two_sub_one_eq_mod, h1, h2]

theorem nibble_low (v x : Nat) : ((v &&& 0x0F) ||| (x &&& 0xF0)) &&& 0x0F = v &&& 0x0F := by
  rw [Nat.and_distrib_right, Nat.and_assoc, Nat.and_assoc]
  have a1 : (0x0F : Nat) &&& 0x0F = 0x0F := by decide
  have a2 : (0xF0 : Nat) &&& 0x0F = 0 := by decide
  rw [a1, a2, Nat.and_zero, Nat.or_zero]

theorem nibble_lt (v x : Nat) : (v &&& 0x0F) ||| (x &&& 0xF0) < 256 := by
  have h1 : v &&& 0x0F < 2 ^ 8 := lt_of_le_of_lt Nat.and_le_right (by norm_num)
  have h2 : x &&& 0xF0 < 2 ^ 8 := lt_of_le_of_lt Nat.and_le_right (by norm_num)
  exact Nat.or_lt_two_pow h1 h2


set_option maxRecDepth 100000 in
theorem start_value_bits : ∀ v, v < 256 →
    (((v ||| SDA) ||| (SCL ||| SDA)) &&& (0xFF - SDA) &&& (0xFF - (SCL ||| SDA))) &&& 0xFC =
      v &&& 0xFC ∧
    ((v ||| SDA) ||| (SCL ||| SDA)) &&& (0xFF - SDA) &&& (0xFF - (SCL ||| SDA)) < 256 := by
  decide

set_option maxRecDepth 100000 in
theorem start_direction_bits : ∀ d, d < 256 →
    (d ||| (SDA ||| SCL)) &&& 0xFC = d &&& 0xFC ∧ d ||| (SDA ||| SCL) < 256 := by
  decide

set_option maxRecDepth 100000 in
theorem stop_value_bits : ∀ v, v < 256 →
    (((v &&& (0xFF - SDA)) ||| SCL) &&& (0xFF - SDA) ||| (SCL ||| SDA)) &&& 0xFC = v &&& 0xFC ∧
    ((v &&& (0xFF - SDA)) ||| SCL) &&& (0xFF - SDA) ||| (SCL ||| SDA) < 256 ∧
    (((v &&& (0xFF - SDA)) ||| SCL) &&& (0xFF - SDA) ||| (SCL ||| SDA)) &&& 0x03 = 0x03 := by
  decide

set_option maxRecDepth 100000 in
theorem stop_direction_bits : ∀ d, d < 256 →
    ((d ||| (SCL ||| SDA)) &&& (0xFF - (SCL ||| SDA))) &&& 0xFC = d &&& 0xFC ∧
    (d ||| (SCL ||| SDA)) &&& (0xFF - (SCL ||| SDA)) < 256 ∧
    ((d ||| (SCL ||| SDA)) &&& (0xFF - (SCL ||| SDA))) &&& 0x03 = 0 := by
  decide

set_option maxRecDepth 100000 in
theorem ack_value_bits : ∀ v, v < 256 →
    (v &&& (0xFF - (SCL ||| SDA))) &&& 0xFC = v &&& 0xFC ∧
    v &&& (0xFF - (SCL ||| SDA)) < 256 := by
  decide

set_option maxRecDepth 100000 in
theorem ack_direction_bits : ∀ d, d < 256 →
    ((((d ||| SCL) &&& (0xFF - SDA)) ||| (SCL ||| SDA)) &&& 0xFC = d &&& 0xFC ∧
      ((d ||| SCL) &&& (0xFF - SDA)) ||| (SCL ||| SDA) < 256) ∧
    (((((d ||| (SCL ||| SDA)) ||| SCL) &&& (0xFF - SDA)) ||| (SCL ||| SDA)) &&& 0xFC =
        d &&& 0xFC ∧
      (((d ||| (SCL ||| SDA)) ||| SCL) &&& (0xFF - SDA)) ||| (SCL ||| SDA) < 256) := by
  decide

theorem xor_low_byte (c : Nat) : c ^^^ (c % 256) = (c / 256) * 256 := by
  have e1 : (256 : Nat) = 2 ^ 8 := by norm_num
  rw [e1, ← Nat.shiftRight_eq_div_pow, ← Nat.shiftLeft_eq]
  apply Nat.eq_of_testBit_eq
  intro i
  simp only [Nat.testBit_xor, Nat.testBit_mod_two_pow, Nat.testBit_shiftLeft,
    Nat.testBit_shiftRight]
  by_cases h : i < 8
  · have h2 : ¬ (i ≥ 8) := by omega
    simp [h, h2]
  · have h2 : i ≥ 8 := by omega
    have h3 : 8 + (i - 8) = i := by omega
    simp [h, h2, h3]

theorem crc16Shift_even (x : Nat) : crc16Shift (2 * x) = x := by
  unfold crc16Shift
  have h : ¬ (2 * x % 2 = 1) := by omega
  rw [if_neg h]
  omega

theorem crc16Shift_iterate (j k : Nat) : crc16Shift^[j] (k * 2 ^ j) = k := by
  induction j with
  | zero => simp
  | succ j ih =>
    rw [Function.iterate_succ_apply]
    have : k * 2 ^ (j + 1) = 2 * (k * 2 ^ j) := by ring
    rw [this, crc16Shift_even, ih]

theorem crc16Byte_low (c : Nat) : crc16Byte c (c % 256) = c / 256 := by
  unfold crc16Byte
  rw [xor_low_byte]
  exact crc16Shift_iterate 8 (c / 256)

theorem crc16Byte_self (h : Nat) : crc16Byte h h = 0 := by
  unfold crc16Byte
  rw [Nat.xor_self]
  decide

theorem crc16_residue (B : List Nat) :
    crc16 (B ++ [crc16 B % 256, crc16 B / 256]) = 0 := by
  unfold crc16
  rw [List.foldl_append]
  simp only [List.foldl_cons, List.foldl_nil]
  rw [crc16Byte_low, crc16Byte_self]

theorem adda_pack_bytes (c : adda_config) (buffer : Buf) :
    adda_pack c buffer 0 = pack_head c.reference_offset c.channel_mode ∧
    adda_pack c buffer 1 = pack_quad c.ch_1 c.ch_2 c.ch_3 c.ch_4 ∧
    adda_pack c buffer 2 = pack_quad c.ch_5 c.ch_6 c.ch_7 c.ch_8 ∧
    adda_pack c buffer 3 = pack_quad c.ch_9 c.ch_10 c.ch_11 c.ch_12 ∧
    adda_pack c buffer 4 = pack_quad c.ch_13 c.ch_14 c.ch_15 c.ch_16 ∧
    (∀ j, 5 ≤ j → adda_pack c buffer j = buffer j) := by
  refine ⟨rfl, rfl, rfl, rfl, rfl, ?_⟩
  intro j hj
  have h0 : j ≠ 0 := by omega
  have h1 : j ≠ 1 := by omega
  have h2 : j ≠ 2 := by omega
  have h3 : j ≠ 3 := by omega
  have h4 : j ≠ 4 := by omega
  simp only [adda_pack, Buf.set, if_neg h0, if_neg h1, if_neg h2, if_neg h3, if_neg h4]

set_option maxRecDepth 100000 in
theorem pack_head_unpack : ∀ r, r < 16 → ∀ m, m < 16 →
    pack_head r m >>> 4 = r ∧ pack_head r m &&& 0x0F = m ∧ pack_head r m = r * 16 + m := by
  decide

set_option maxRecDepth 100000 in
theorem pack_quad_cases : ∀ n, n < 256 →
    (pack_quad (n / 64) (n / 16 % 4) (n / 4 % 4) (n % 4) >>> 6) &&& 0x03 = n / 64 ∧
    (pack_quad (n / 64) (n / 16 % 4) (n / 4 % 4) (n % 4) >>> 4) &&& 0x03 = n / 16 % 4 ∧
    (pack_quad (n / 64) (n / 16 % 4) (n / 4 % 4) (n % 4) >>> 2) &&& 0x03 = n / 4 % 4 ∧
    (pack_quad (n / 64) (n / 16 % 4) (n / 4 % 4) (n % 4) >>> 0) &&& 0x03 = n % 4 ∧
    pack_quad (n / 64) (n / 16 % 4) (n / 4 % 4) (n % 4) = n := by
  decide

theorem pack_quad_unpack (a b c d : Nat) (ha : a < 4) (hb : b < 4) (hc : c < 4) (hd : d < 4) :
    (pack_quad a b c d >>> 6) &&& 0x03 = a ∧ (pack_quad a b c d >>> 4) &&& 0x03 = b ∧
    (pack_quad a b c d >>> 2) &&& 0x03 = c ∧ (pack_quad a b c d >>> 0) &&& 0x03 = d ∧
    pack_quad a b c d = a * 64 + b * 16 + c * 4 + d := by
  have h := pack_quad_cases (a * 64 + b * 16 + c * 4 + d) (by omega)
  have e1 : (a * 64 + b * 16 + c * 4 + d) / 64 = a := by omega
  have e2 : (a * 64 + b * 16 + c * 4 + d) / 16 % 4 = b := by omega
  have e3 : (a * 64 + b * 16 + c * 4 + d) / 4 % 4 = c := by omega
  have e4 : (a * 64 + b * 16 + c * 4 + d) % 4 = d := by omega
  rw [e1, e2, e3, e4] at h
  exact h

set_option maxRecDepth 100000 in
theorem unpack_pack_head : ∀ x, x < 256 → pack_head (x >>> 4) (x &&& 0x0F) = x := by
  decide

set_option maxRecDepth 100000 in
theorem unpack_pack_quad : ∀ x, x < 256 →
    pack_quad ((x >>> 6) &&& 0x03) ((x >>> 4) &&& 0x03) ((x >>> 2) &&& 0x03)
      ((x >>> 0) &&& 0x03) = x := by
  decide

theorem build_frame_writes_lt (tcp : Bool) (funct quan : Nat) :
    ∀ idx ∈ build_frame_writes tcp funct quan, idx < 13 := by
  intro idx h
  unfold build_frame_writes at h
  cases tcp <;> simp only [Bool.false_eq_true, if_false, if_true] at h <;>
    split_ifs at h <;> simp at h <;> omega

theorem build_frame_length_le (tcp : Bool) (temp : Nat) (stack : Buf) (s f st q : Nat) :
    (build_frame tcp temp stack s f st q).length ≤ 13 := by
  have := request_fields_length_le f st q
  cases tcp
  · rw [(build_frame_serial temp stack s f st q).2.1]; omega
  · rw [(build_frame_tcp temp stack s f st q).2.1]; omega

theorem data_loop_writes_lt (k : Nat) : ∀ length, length < 255 →
    ∀ idx ∈ data_loop_writes k length, length ≤ idx ∧ idx < 255 := by
  induction k with
  | zero => intro length _ idx h; simp [data_loop_writes] at h
  | succ k ih =>
    intro length hl idx h
    simp only [data_loop_writes, List.mem_cons] at h
    rcases h with h | h
    · omega
    · split_ifs at h with h1
      · simp at h
      · have := ih (length + 1) (by omega) idx h
        omega

theorem data_loop_length_lt (data : Buf) (k : Nat) : ∀ i buff length b L, length < 255 →
    data_loop data k i buff length = some (b, L) → L < 255 := by
  induction k with
  | zero =>
    intro i buff length b L hl h
    simp only [data_loop, Option.some.injEq, Prod.mk.injEq] at h
    omega
  | succ k ih =>
    intro i buff length b L hl h
    simp only [data_loop] at h
    split_ifs at h with h1
    exact ih _ _ (length + 1) b L (by omega) h

theorem data_loop_frame (data : Buf) (k : Nat) : ∀ i buff length b L,
    data_loop data k i buff length = some (b, L) →
    ∀ j, j ∉ data_loop_writes k length → b j = buff j := by
  induction k with
  | zero =>
    intro i buff length b L h j _
    simp only [data_loop, Option.some.injEq, Prod.mk.injEq] at h
    rw [← h.1]
  | succ k ih =>
    intro i buff length b L h j hj
    simp only [data_loop] at h
    split_ifs at h with h1
    simp only [data_loop_writes, if_neg h1, List.mem_cons, not_or] at hj
    rw [ih _ _ _ b L h j hj.2]
    exact Buf.set_other _ _ _ _ hj.1

theorem build_frame_frame (tcp : Bool) (temp : Nat) (stack : Buf) (s f st q : Nat) :
    ∀ j, j ∉ build_frame_writes tcp f q →
      (build_frame tcp temp stack s f st q).buff j = stack j := by
  intro j hj
  unfold build_frame_writes at hj
  cases tcp <;> simp only [Bool.false_eq_true, if_false, if_true] at hj <;>
    split_ifs at hj <;> simp at hj <;>
    first
      | (exfalso; omega)
      | simp [build_frame, Buf.set, *]


theorem calc_crc_frame (n : Nat) (buf : Buf) (j : Nat) (h1 : j ≠ n) (h2 : j ≠ n + 1) :
    calc_crc n buf j = buf j := by
  simp [calc_crc, Buf.set, h1, h2]

theorem read_requests_sum (expected : Nat) (sched : List Nat) :
    ∀ (rx : List Nat) (length : Nat), ∀ q ∈ read_requests expected sched rx length,
      q.1 + q.2 = expected + 4 ∧ length ≤ q.1 := by
  induction sched with
  | nil =>
    intro rx length q h
    simp only [read_requests] at h
    split_ifs at h with h1
    · simp only [List.mem_singleton] at h
      subst h
      exact ⟨by simp only; omega, le_refl _⟩
    · simp at h
  | cons c sched ih =>
    intro rx length q h
    simp only [read_requests] at h
    split_ifs at h with h1 h2 h3
    · simp only [List.mem_singleton] at h
      subst h
      exact ⟨by simp only; omega, le_refl _⟩
    · simp only [List.mem_singleton] at h
      subst h
      exact ⟨by simp only; omega, le_refl _⟩
    · simp only [List.mem_cons] at h
      rcases h with h | h
      · subst h
        exact ⟨by simp only; omega, le_refl _⟩
      · have := ih _ _ q h
        exact ⟨this.1, by omega⟩
    · simp at h

theorem select_bits (a b d i : Nat) (hd : d < 256) (hi : i < 8) :
    ((a &&& d) ||| (b &&& (0xFF - d))).testBit i =
      if d.testBit i then a.testBit i else b.testBit i := by
  have e : (0xFF : Nat) - d = 2 ^ 8 - (d + 1) := by omega
  rw [Nat.testBit_or, Nat.testBit_and, Nat.testBit_and, e,
    Nat.testBit_two_pow_sub_succ (by simpa using hd)]
  simp only [hi, decide_True, Bool.true_and]
  cases d.testBit i <;> simp

theorem decode_skip_append (a : List Nat) : ∀ (skip : Nat) (b : List Nat) (n : Nat),
    decode_skip skip a = some n →
    decode_skip skip (a ++ b) = (decode_skip 0 b).map (· + n) := by
  induction a with
  | nil =>
    intro skip b n h
    cases skip with
    | zero =>
      simp only [decode_skip, Option.some.injEq] at h
      subst h
      simp
    | succ k => simp [decode_skip] at h
  | cons op rest ih =>
    intro skip b n h
    cases skip with
    | succ k =>
      simp only [decode_skip, List.cons_append] at h ⊢
      exact ih k b n h
    | zero =>
      simp only [decode_skip, List.cons_append] at h ⊢
      simp only [List.append_eq] at h ⊢
      split_ifs at h ⊢ with h1 h2
      · simp only [Option.map_eq_some'] at h
        obtain ⟨k, hk, rfl⟩ := h
        rw [ih 1 b k hk]
        cases decode_skip 0 b <;> simp [Nat.add_assoc]
      · exact ih 2 b n h

theorem decode_append (a b : List Nat) (n k : Nat) (ha : decode_opcodes a = some n)
    (hb : decode_opcodes b = some k) : decode_opcodes (a ++ b) = some (n + k) := by
  unfold decode_opcodes at *
  rw [decode_skip_append a 0 b n ha, hb]
  simp [Nat.add_comm]

theorem Appends.trans {m x y : Machine} {n k n1 k1 : Nat} (h1 : Appends m x n k)
    (h2 : Appends x y n1 k1) : Appends m y (n + n1) (k + k1) := by
  obtain ⟨v, d, bs, hx, hn, hk⟩ := h1
  obtain ⟨v1, d1, bs1, hy, hn1, hk1⟩ := h2
  refine ⟨v1, d1, bs ++ bs1, ?_, by simp [hn, hn1], decode_append bs bs1 k k1 hk hk1⟩
  rw [hy, hx, chip_push, chip_chip, push_push]

theorem Appends_Start (m : Machine) : Appends m (I2C_Start m) 12 0 :=
  ⟨_, _, _, I2C_Start_eq m, by simp [pins], rfl⟩

theorem Appends_Stop (m : Machine) : Appends m (I2C_Stop m) 12 0 :=
  ⟨_, _, _, I2C_Stop_eq m, by simp [pins], rfl⟩

theorem Appends_WriteAddress (m : Machine) (a rw : Nat) :
    Appends m (I2C_WriteAddress m a rw) 11 1 :=
  ⟨_, _, _, I2C_WriteAddress_eq m a rw, by simp [pins], rfl⟩

theorem Appends_WriteByte (m : Machine) (b : Nat) : Appends m (I2C_WriteByte m b) 14 1 :=
  ⟨_, _, _, I2C_WriteByte_eq m b, by simp [pins], rfl⟩

theorem Appends_ReadByte (m : Machine) : Appends m (I2C_ReadByte m) 11 1 :=
  ⟨_, _, _, I2C_ReadByte_eq m, by simp [pins], rfl⟩

theorem Appends_SetGPIO (m : Machine) (d s : Nat) : Appends m ( I2C_SetGPIO m d s) 6 0 :=
  ⟨_, _, _, I2C_SetGPIO_eq m d s, by simp [pins], rfl⟩

theorem Appends_read_steps (m : Machine) (a g : Nat) :
    Appends m (I2C_Stop (I2C_ReadByte (I2C_WriteAddress (I2C_Start (I2C_WriteByte
        (I2C_WriteAddress (I2C_Start m) a 0) g)) a 1))) 83 4 :=
  ((((((Appends_Start m).trans (Appends_WriteAddress _ a 0)).trans
    (Appends_WriteByte _ g)).trans (Appends_Start _)).trans
    (Appends_WriteAddress _ a 1)).trans (Appends_ReadByte _)).trans (Appends_Stop _)

theorem Appends_write_steps (m : Machine) (a g b : Nat) :
    Appends m (I2C_Stop (I2C_WriteByte (I2C_WriteByte
        (I2C_WriteAddress (I2C_Start m) a 0) g) b)) 63 3 :=
  ((((Appends_Start m).trans (Appends_WriteAddress _ a 0)).trans
    (Appends_WriteByte _ g)).trans (Appends_WriteByte _ b)).trans (Appends_Stop _)

theorem apply_queued_fields (m : Machine) (c : Queued) :
    ∃ bs : List Nat, bs.length = queued_bytes c ∧
      decode_opcodes bs = some (queued_replies c) ∧
      (apply_queued m c).MPSSECommand = m.MPSSECommand.blit m.byteIndex bs ∧
      (apply_queued m c).byteIndex = m.byteIndex + queued_bytes c ∧
      (apply_queued m c).bytesToRead = m.bytesToRead + queued_replies c ∧
      (apply_queued m c).responseCount = m.responseCount + queued_slots c ∧
      (∀ j, j < m.responseCount ∨ m.responseCount + queued_slots c ≤ j →
        (apply_queued m c).responseOffsets j = m.responseOffsets j ∧
        (apply_queued m c).variableCallbacks j = m.variableCallbacks j) ∧
      (∀ j, m.responseCount ≤ j → j < m.responseCount + queued_slots c →
        m.bytesToRead ≤ (apply_queued m c).responseOffsets j ∧
        (apply_queued m c).responseOffsets j < (apply_queued m c).bytesToRead) := by
  cases c with
  | read a g dest =>
    obtain ⟨v, d, bs, hx, hn, hk⟩ := Appends_read_steps m a g
    have e : apply_queued m (Queued.read a g dest) =
        record_slot (expect (push (chip m v d) bs) 4) dest := by
      rw [← hx]
      exact I2C_ReadRegister_eq m a g dest
    obtain ⟨-, -, g3, -, g5, -, -, -, -, -⟩ := slot_push m _ v d bs dest rfl
    rw [e]
    refine ⟨bs, hn, hk, rfl, congrArg (m.byteIndex + ·) hn, rfl, rfl, ?_, ?_⟩
    · intro j hj
      have hne : j ≠ m.responseCount := by
        simp only [queued_slots] at hj
        omega
      exact ⟨if_neg hne, if_neg hne⟩
    · intro j h1 h2
      have hj : j = m.responseCount := by
        simp only [queued_slots] at h2
        omega
      rw [g5, g3]
      simp only [if_pos hj]
      omega
  | write a g b =>
    obtain ⟨v, d, bs, hx, hn, hk⟩ := Appends_write_steps m a g b
    have e : apply_queued m (Queued.write a g b) = expect (push (chip m v d) bs) 3 := by
      rw [← hx]
      exact I2C_WriteRegister_eq m a g b
    rw [e]
    refine ⟨bs, hn, hk, rfl, congrArg (m.byteIndex + ·) hn, rfl, rfl, fun j _ => ⟨rfl, rfl⟩, ?_⟩
    intro j h1 h2
    simp only [queued_slots] at h2
    omega
  | gpio dir st =>
    obtain ⟨v, d, bs, hx, hn, hk⟩ := Appends_SetGPIO m dir st
    have e : apply_queued m (Queued.gpio dir st) = push (chip m v d) bs := hx
    rw [e]
    refine ⟨bs, hn, hk, rfl, congrArg (m.byteIndex + ·) hn, rfl, rfl, fun j _ => ⟨rfl, rfl⟩, ?_⟩
    intro j h1 h2
    simp only [queued_slots] at h2
    omega

theorem run_queued_fields (cs : List Queued) : ∀ m : Machine,
    ∃ bs : List Nat, bs.length = (cs.map queued_bytes).sum ∧
      decode_opcodes bs = some (cs.map queued_replies).sum ∧
      (run_queued m cs).MPSSECommand = m.MPSSECommand.blit m.byteIndex bs ∧
      (run_queued m cs).byteIndex = m.byteIndex + (cs.map queued_bytes).sum ∧
      (run_queued m cs).bytesToRead = m.bytesToRead + (cs.map queued_replies).sum ∧
      (run_queued m cs).responseCount = m.responseCount + (cs.map queued_slots).sum ∧
      (∀ j, j < m.responseCount ∨ m.responseCount + (cs.map queued_slots).sum ≤ j →
        (run_queued m cs).responseOffsets j = m.responseOffsets j ∧
        (run_queued m cs).variableCallbacks j = m.variableCallbacks j) ∧
      (∀ j, m.responseCount ≤ j → j < m.responseCount + (cs.map queued_slots).sum →
        m.bytesToRead ≤ (run_queued m cs).responseOffsets j ∧
        (run_queued m cs).responseOffsets j < (run_queued m cs).bytesToRead) := by
  induction cs with
  | nil =>
    intro m
    refine ⟨[], rfl, rfl, (Buf.blit_nil _ _).symm, rfl, rfl, rfl, fun j _ => ⟨rfl, rfl⟩, ?_⟩
    intro j h1 h2
    simp only [List.map_nil, List.sum_nil, Nat.add_zero] at h2
    omega
  | cons c t ih =>
    intro m
    obtain ⟨bs, a1, a2, a3, a4, a5, a6, a7, a8⟩ := apply_queued_fields m c
    obtain ⟨bs1, b1, b2, b3, b4, b5, b6, b7, b8⟩ := ih (apply_queued m c)
    have e : run_queued m (c :: t) = run_queued (apply_queued m c) t := rfl
    rw [e]
    simp only [List.map_cons, List.sum_cons]
    refine ⟨bs ++ bs1, by rw [List.length_append, a1, b1], decode_append bs bs1 _ _ a2 b2,
      ?_, by rw [b4, a4, Nat.add_assoc], by rw [b5, a5, Nat.add_assoc],
      by rw [b6, a6, Nat.add_assoc], ?_, ?_⟩
    · rw [b3, a3, a4, ← a1, Buf.blit_append]
    · intro j hj
      obtain ⟨c1, c2⟩ := b7 j (by rw [a6]; omega)
      obtain ⟨c3, c4⟩ := a7 j (by omega)
      exact ⟨c1.trans c3, c2.trans c4⟩
    · intro j h1 h2
      by_cases hj : j < m.responseCount + queued_slots c
      · obtain ⟨c1, -⟩ := b7 j (Or.inl (by rw [a6]; exact hj))
        obtain ⟨c3, c4⟩ := a8 j h1 hj
        rw [c1, b5]
        exact ⟨c3, by omega⟩
      · obtain ⟨c3, c4⟩ := b8 j (by rw [a6]; omega) (by rw [a6]; omega)
        rw [a5] at c3
        exact ⟨by omega, c4⟩

theorem queue_run_queued (in_ : seaMaxModule) (m : Machine) (cs : List Queued) :
    decode_opcodes (queue (run_queued (I2C_InitializeQueue in_ m) cs)) =
      some (cs.map queued_replies).sum ∧
    (run_queued (I2C_InitializeQueue in_ m) cs).byteIndex = (cs.map queued_bytes).sum ∧
    (run_queued (I2C_InitializeQueue in_ m) cs).bytesToRead = (cs.map queued_replies).sum ∧
    (run_queued (I2C_InitializeQueue in_ m) cs).responseCount = (cs.map queued_slots).sum ∧
    (∀ j, (cs.map queued_bytes).sum ≤ j →
      (run_queued (I2C_InitializeQueue in_ m) cs).MPSSECommand j =
        (I2C_InitializeQueue in_ m).MPSSECommand j) ∧
    (∀ j, j < (cs.map queued_slots).sum →
      (run_queued (I2C_InitializeQueue in_ m) cs).responseOffsets j <
        (cs.map queued_replies).sum) ∧
    (∀ j, (cs.map queued_slots).sum ≤ j →
      (run_queued (I2C_InitializeQueue in_ m) cs).responseOffsets j = 0 ∧
      (run_queued (I2C_InitializeQueue in_ m) cs).variableCallbacks j = none) := by
  obtain ⟨i1, i2, i3, -, -, -⟩ := InitializeQueue_fields in_ m
  obtain ⟨bs, f1, f2, f3, f4, f5, f6, f7, f8⟩ := run_queued_fields cs (I2C_InitializeQueue in_ m)
  rw [i3, Nat.zero_add] at f4
  rw [i1, Nat.zero_add] at f5
  rw [i2, Nat.zero_add] at f6
  rw [i2, Nat.zero_add] at f7
  rw [i2, Nat.zero_add, f5] at f8
  rw [i3] at f3
  have hq : queue (run_queued (I2C_InitializeQueue in_ m) cs) = bs := by
    unfold queue
    rw [f3, f4, ← f1]
    have := Buf.blit_toList (I2C_InitializeQueue in_ m).MPSSECommand 0 bs
    rw [Nat.zero_add] at this
    rw [this]
    rfl
  refine ⟨by rw [hq, f2], f4, f5, f6, ?_, fun j hj => (f8 j (Nat.zero_le _) hj).2, ?_⟩
  · intro j hj
    rw [f3]
    exact Buf.blit_apply_ge _ 0 bs j (by rw [f1]; omega)
  · intro j hj
    obtain ⟨c1, c2⟩ := f7 j (Or.inr hj)
    rw [c1, c2]
    simp only [I2C_InitializeQueue]
    split_ifs <;> exact ⟨rfl, rfl⟩

theorem sum_take_le (f : Queued → Nat) (cs : List Queued) (k : Nat) :
    ((cs.take k).map f).sum ≤ (cs.map f).sum := by
  induction cs generalizing k with
  | nil => simp
  | cons c t ih =>
    cases k with
    | zero => simp
    | succ k =>
      simp only [List.take_succ_cons, List.map_cons, List.sum_cons]
      exact Nat.add_le_add_left (ih k) _

theorem prefix_in_range (in_ : seaMaxModule) (m : Machine) (cs : List Queued) (k : Nat)
    (hb : (cs.map queued_bytes).sum ≤ 4096) (hs : (cs.map queued_slots).sum ≤ 255)
    (hr : (cs.map queued_replies).sum ≤ 4096) :
    queue_in_range (run_queued (I2C_InitializeQueue in_ m) (cs.take k)) := by
  obtain ⟨-, q2, q3, q4, -, q6, -⟩ := queue_run_queued in_ m (cs.take k)
  have h1 := sum_take_le queued_bytes cs k
  have h2 := sum_take_le queued_slots cs k
  have h3 := sum_take_le queued_replies cs k
  refine ⟨?_, ?_, ?_, ?_⟩
  · rw [q2]
    exact le_trans h1 hb
  · rw [q4]
    exact le_trans h2 hs
  · rw [q3]
    exact le_trans h3 hr
  · intro i hi
    rw [q4] at hi
    rw [q3]
    exact q6 i hi

theorem run_queued_append (m : Machine) (a b : List Queued) :
    run_queued m (a ++ b) = run_queued (run_queued m a) b :=
  List.foldl_append _ _ _ _

theorem run_queued_take_succ (m : Machine) (cs : List Queued) (k : Nat) (c : Queued)
    (h : cs[k]? = some c) :
    run_queued m (cs.take (k + 1)) = apply_queued (run_queued m (cs.take k)) c := by
  rw [List.take_succ, h, run_queued_append]
  rfl

theorem slots_le_bytes (cs : List Queued) :
    83 * (cs.map queued_slots).sum ≤ (cs.map queued_bytes).sum := by
  induction cs with
  | nil => simp
  | cons c t ih =>
    simp only [List.map_cons, List.sum_cons]
    cases c <;> simp only [queued_slots, queued_bytes] <;> omega

theorem replies_le_bytes (cs : List Queued) :
    (cs.map queued_replies).sum ≤ (cs.map queued_bytes).sum := by
  induction cs with
  | nil => simp
  | cons c t ih =>
    simp only [List.map_cons, List.sum_cons]
    cases c <;> simp only [queued_replies, queued_bytes] <;> omega

theorem InitializeQueue_MPSSECommand (in_ : seaMaxModule) (m : Machine) :
    (I2C_InitializeQueue in_ m).MPSSECommand = m.MPSSECommand := by
  simp only [I2C_InitializeQueue]
  split_ifs <;> rfl

theorem getPIO_queued (in_ : seaMaxModule) (m : Machine) (data : Buf)
    (hmode : in_.commMode = seaio_mode_t.FTDI_DIRECT) (htype : in_.deviceType = 0x8126) :
    SeaDacGetPIO in_ m data =
      (I2C_ExecuteQueue in_ (run_queued (I2C_InitializeQueue in_ m) getpio_calls)
        (fun _ => 0)).map (fun r => (4, r.1, merge_loop r.2 4 0 data)) := by
  unfold SeaDacGetPIO
  rw [if_pos hmode, if_pos htype]
  simp only [run_queued, getpio_calls, List.foldl, apply_queued]
  generalize I2C_ExecuteQueue in_ _ _ = r
  rcases r with _ | ⟨m1, l⟩ <;> rfl

theorem getPIODirection_queued (in_ : seaMaxModule) (m : Machine) (data : Buf)
    (hmode : in_.commMode = seaio_mode_t.FTDI_DIRECT) (htype : in_.deviceType = 0x8126) :
    SeaDacGetPIODirection in_ m data =
      (I2C_ExecuteQueue in_ (run_queued (I2C_InitializeQueue in_ m) getdir_calls) data).map
        (fun r => (0, r.1, r.2)) := by
  unfold SeaDacGetPIODirection
  rw [if_pos hmode, if_pos htype]
  simp only [run_queued, getdir_calls, List.foldl, apply_queued]
  generalize I2C_ExecuteQueue in_ _ _ = r
  rcases r with _ | ⟨m1, l⟩ <;> rfl

theorem setPIO_queued (in_ : seaMaxModule) (m : Machine) (data : Buf)
    (hmode : in_.commMode = seaio_mode_t.FTDI_DIRECT) (htype : in_.deviceType = 0x8126) :
    SeaDacSetPIO in_ m data =
      (I2C_ExecuteQueue in_ (run_queued (I2C_InitializeQueue in_ m) (setpio_calls data))
        data).map (fun r => (0, r.1)) := by
  unfold SeaDacSetPIO
  rw [if_pos hmode, if_pos htype]
  simp only [run_queued, setpio_calls, List.foldl, apply_queued]
  generalize I2C_ExecuteQueue in_ _ _ = r
  rcases r with _ | ⟨m1, l⟩ <;> rfl

theorem setPIODirection_queued (in_ : seaMaxModule) (m : Machine) (data : Buf)
    (hmode : in_.commMode = seaio_mode_t.FTDI_DIRECT) (htype : in_.deviceType = 0x8126) :
    SeaDacSetPIODirection in_ m data =
      (I2C_ExecuteQueue in_ (run_queued (I2C_InitializeQueue in_ m) (setdir_calls data))
        data).map (fun r => (0, r.1)) := by
  unfold SeaDacSetPIODirection
  rw [if_pos hmode, if_pos htype]
  simp only [run_queued, setdir_calls, direction_enable, List.foldl, apply_queued]
  generalize I2C_ExecuteQueue in_ _ _ = r
  rcases r with _ | ⟨m1, l⟩ <;> rfl

theorem call_in_range (in_ : seaMaxModule) (m : Machine) (cs : List Queued) (k : Nat)
    (c : Queued) (hb : (cs.map queued_bytes).sum ≤ 4096) (hs : (cs.map queued_slots).sum ≤ 255)
    (hr : (cs.map queued_replies).sum ≤ 4096) (hc : cs[k]? = some c) :
    (∀ j, (apply_queued (run_queued (I2C_InitializeQueue in_ m) (cs.take k)) c).MPSSECommand j ≠
        (run_queued (I2C_InitializeQueue in_ m) (cs.take k)).MPSSECommand j →
      (run_queued (I2C_InitializeQueue in_ m) (cs.take k)).byteIndex ≤ j ∧
      j < (apply_queued (run_queued (I2C_InitializeQueue in_ m) (cs.take k)) c).byteIndex ∧
      j < MAXIMUM_COMMAND_BYTES) ∧
    (∀ j, (apply_queued (run_queued (I2C_InitializeQueue in_ m) (cs.take k)) c).responseOffsets j ≠
          (run_queued (I2C_InitializeQueue in_ m) (cs.take k)).responseOffsets j ∨
        (apply_queued (run_queued (I2C_InitializeQueue in_ m) (cs.take k)) c).variableCallbacks j ≠
          (run_queued (I2C_InitializeQueue in_ m) (cs.take k)).variableCallbacks j →
      j = (run_queued (I2C_InitializeQueue in_ m) (cs.take k)).responseCount ∧
      j < MAXIMUM_COMMANDS) := by
  obtain ⟨n1, n2, -, -⟩ := prefix_in_range in_ m cs (k + 1) hb hs hr
  rw [run_queued_take_succ _ cs k c hc] at n1 n2
  generalize run_queued (I2C_InitializeQueue in_ m) (cs.take k) = X at n1 n2 ⊢
  obtain ⟨bs, a1, -, a3, a4, -, a6, a7, -⟩ := apply_queued_fields X c
  constructor
  · intro j hj
    have h1 : X.byteIndex ≤ j := by
      by_contra hlt
      exact hj (by rw [a3]; exact Buf.blit_apply_lt _ _ bs j (by omega))
    have h2 : j < (apply_queued X c).byteIndex := by
      by_contra hge
      exact hj (by rw [a3]; exact Buf.blit_apply_ge _ _ bs j (by rw [a1]; omega))
    exact ⟨h1, h2, lt_of_lt_of_le h2 n1⟩
  · intro j hj
    have h1 : ¬ (j < X.responseCount ∨ X.responseCount + queued_slots c ≤ j) := by
      intro h
      obtain ⟨c1, c2⟩ := a7 j h
      rcases hj with hj | hj
      · exact hj c1
      · exact hj c2
    have h2 : j < X.responseCount + queued_slots c := by omega
    have h3 : queued_slots c ≤ 1 := by cases c <;> simp [queued_slots]
    rw [a6] at n2
    have h4 : X.responseCount + queued_slots c ≤ 255 := n2
    show j = X.responseCount ∧ j < 255
    omega

/-- The value `decode_response` returns is at most the length it is given. -/
theorem decode_response_le (in_ : seaMaxModule) (funct : Nat) (data buffer : Buf) (i : Nat)
    (length : Int) (h : 0 ≤ length) :
    (decode_response in_ funct data buffer i length).1 ≤ length := by
  rw [decode_response_eq]
  split_ifs
  · simp only [EFAULT]
    omega
  · exact h
  · simp only
    omega

/-- On a serial session `getResponse` returns at most `expected + 1`: the
bytes it stores for the caller are bounded by the length the caller asked
for. -/
theorem getResponse_rtu_le (in_ : seaMaxModule) (w : World) (funct : Nat) (data : Buf)
    (expected : Nat) (hc : in_.commMode = seaio_mode_t.MODBUS_RTU) :
    (getResponse in_ w funct data expected).1 ≤ (expected : Int) + 1 := by
  by_cases h0 : expected > 256
  · simp only [getResponse, h0, if_true, ENOMEM]
    omega
  · have hlen := read_loop_length expected w.sched w.rx w.stack 0 (by omega)
    have hneg := read_loop_error expected w.sched w.rx w.stack 0
    simp only [getResponse, h0, if_false, hc, if_true]
    generalize read_loop expected w.sched w.rx w.stack 0 = r at hlen hneg
    obtain ⟨e, bf, len, sc, rx⟩ := r
    cases e with
    | some err =>
      have := hneg err rfl
      simp only
      omega
    | none =>
      have hl := hlen rfl
      simp only at hl
      subst hl
      simp only
      split_ifs with h1
      · simp only [ENODEV]
        omega
      · have := decode_response_le in_ funct data bf 1 (((expected + 4 : Nat) : Int) - 1 - 2)
          (by omega)
        simp only
        omega

/-- The request and response of `SeaMaxLinIoctl` on a serial session: the
response never outgrows the 32 bytes of `buffer`. -/
theorem ioctl_request_rtu (in_ : seaMaxModule) (w : World) (s f : Nat) (d : ioctl_data)
    (F : List Nat) (hm : in_.mutex = 0) (hc : in_.commMode = seaio_mode_t.MODBUS_RTU)
    (hs : s < 256) (hf : f ∈ ioctl_funct)
    (hF : F = rtu_frame s f 0 0 (some (ioctl_pack f d w.stack))) :
    ioctl_request in_ w s f d =
      if (sys_write w F).1 ≠ (F.length : Int) then some (-EBADF, in_, (sys_write w F).2, d)
      else some
        (if (getResponse in_ (sys_write w F).2 f (ioctl_pack f d w.stack)
              (ioctl_expected f)).1 < 0
          then (getResponse in_ (sys_write w F).2 f (ioctl_pack f d w.stack)
              (ioctl_expected f)).1 else 0,
         (getResponse in_ (sys_write w F).2 f (ioctl_pack f d w.stack) (ioctl_expected f)).2.1,
         (getResponse in_ (sys_write w F).2 f (ioctl_pack f d w.stack)
            (ioctl_expected f)).2.2.1,
         if (getResponse in_ (sys_write w F).2 f (ioctl_pack f d w.stack)
              (ioctl_expected f)).1 < 0
          then d
          else ioctl_update f (getResponse in_ (sys_write w F).2 f (ioctl_pack f d w.stack)
            (ioctl_expected f)).2.2.2 d) := by
  have hf256 : f < 256 := by
    simp only [ioctl_funct, List.mem_cons, List.mem_singleton, List.not_mem_nil, or_false] at hf
    omega
  have hds : request_dataSize f 0 ≤ 12 := by
    unfold request_dataSize
    split_ifs <;> omega
  have hfit : (request_pdu s f 0 0 (some (ioctl_pack f d w.stack))).length < 255 := by
    have h1 := request_pdu_length s f 0 0 (some (ioctl_pack f d w.stack))
    have h2 := request_fields_length_le f 0 0
    omega
  have hexp : ioctl_expected f ≤ 16 := by
    unfold ioctl_expected
    split_ifs <;> omega
  have hle := getResponse_rtu_le in_ (sys_write w F).2 f (ioctl_pack f d w.stack)
    (ioctl_expected f) hc
  have hno : ¬ ((getResponse in_ (sys_write w F).2 f (ioctl_pack f d w.stack)
      (ioctl_expected f)).1 > (ioctl_buffer_size : Int)) := by
    simp only [ioctl_buffer_size]
    omega
  have hmr := makeRequest_rtu in_ w s f 0 0 (some (ioctl_pack f d w.stack)) hm hc hs hf256
    (ioctl_pack_lt f d w.stack hf) (Or.inr rfl) (Or.inr hfit)
  unfold ioctl_request
  simp only [hmr]
  rw [← hF]
  by_cases hw : (sys_write w F).1 = (F.length : Int)
  · have hnn : ¬ ((F.length : Int) < 0) := by omega
    simp only [hw, hnn, ne_eq, not_true_eq_false, if_false]
    split_ifs <;> rfl
  · simp [hw, EBADF]

/-- The function `SeaMaxLinIoctl` on a serial session, for a selector that
sends one request. -/
theorem SeaMaxLinIoctl_rtu (in_ : seaMaxModule) (w : World) (s : Nat) (which : IOCTL_t)
    (d : ioctl_data) (f : Nat) (F : List Nat) (hm : in_.mutex = 0)
    (hc : in_.commMode = seaio_mode_t.MODBUS_RTU) (hs : s < 256)
    (hw : which ≠ IOCTL_t.IOCTL_GET_ADDA_EXT_CONFIG)
    (hf : f = ioctl_funct.getD (which.val - 1) 0)
    (hF : F = rtu_frame s f 0 0 (some (ioctl_pack f d w.stack))) :
    SeaMaxLinIoctl (some in_) w s which (some d) =
      if (sys_write w F).1 ≠ (F.length : Int)
      then some ⟨-EBADF, some in_, (sys_write w F).2, some d⟩
      else some
        ⟨if (getResponse in_ (sys_write w F).2 f (ioctl_pack f d w.stack)
              (ioctl_expected f)).1 < 0
          then (getResponse in_ (sys_write w F).2 f (ioctl_pack f d w.stack)
              (ioctl_expected f)).1 else 0,
         some (getResponse in_ (sys_write w F).2 f (ioctl_pack f d w.stack)
            (ioctl_expected f)).2.1,
         (getResponse in_ (sys_write w F).2 f (ioctl_pack f d w.stack)
            (ioctl_expected f)).2.2.1,
         some (if (getResponse in_ (sys_write w F).2 f (ioctl_pack f d w.stack)
              (ioctl_expected f)).1 < 0
          then d
          else ioctl_update f (getResponse in_ (sys_write w F).2 f (ioctl_pack f d w.stack)
            (ioctl_expected f)).2.2.2 d)⟩ := by
  have hmem : f ∈ ioctl_funct := hf ▸ ioctl_funct_cases which hw
  have hc2 : ¬ (in_.commMode = seaio_mode_t.NO_CONNECT) := by rw [hc]; decide
  have hreq := ioctl_request_rtu in_ w s f d F hm hc hs hmem hF
  unfold SeaMaxLinIoctl
  simp only [hc2, if_false, hw, ← hf, hreq]
  split_ifs <;> rfl

/-- The request and response of `SeaMaxLinIoctl` on a TCP session: a result
of `getResponse` above 32 is a store past the end of `buffer`. -/
theorem ioctl_request_tcp (in_ : seaMaxModule) (w : World) (s f : Nat) (d : ioctl_data)
    (F : List Nat) (w1 : World) (hm : in_.mutex = 0)
    (hc : in_.commMode = seaio_mode_t.MODBUS_TCP)
    (hF : F = tcp_frame w.tcp_transaction s f 0 0 (some (ioctl_pack f d w.stack)))
    (hw1 : w1 = { w with tcp_transaction := w.tcp_transaction + 1 }) :
    ioctl_request in_ w s f d =
      if (sys_write w1 F).1 ≠ (F.length : Int) then some (-EBADF, in_, (sys_write w1 F).2, d)
      else if (getResponse in_ (sys_write w1 F).2 f (ioctl_pack f d w.stack)
              (ioctl_expected f)).1 > (ioctl_buffer_size : Int) then none
      else some
        (if (getResponse in_ (sys_write w1 F).2 f (ioctl_pack f d w.stack)
              (ioctl_expected f)).1 < 0
          then (getResponse in_ (sys_write w1 F).2 f (ioctl_pack f d w.stack)
              (ioctl_expected f)).1 else 0,
         (getResponse in_ (sys_write w1 F).2 f (ioctl_pack f d w.stack) (ioctl_expected f)).2.1,
         (getResponse in_ (sys_write w1 F).2 f (ioctl_pack f d w.stack)
            (ioctl_expected f)).2.2.1,
         if (getResponse in_ (sys_write w1 F).2 f (ioctl_pack f d w.stack)
              (ioctl_expected f)).1 < 0
          then d
          else ioctl_update f (getResponse in_ (sys_write w1 F).2 f (ioctl_pack f d w.stack)
            (ioctl_expected f)).2.2.2 d) := by
  have hds : request_dataSize f 0 ≤ 12 := by
    unfold request_dataSize
    split_ifs <;> omega
  have hfit : 6 + (request_pdu s f 0 0 (some (ioctl_pack f d w.stack))).length < 255 := by
    have h1 := request_pdu_length s f 0 0 (some (ioctl_pack f d w.stack))
    have h2 := request_fields_length_le f 0 0
    omega
  have hmr := makeRequest_tcp in_ w s f 0 0 (some (ioctl_pack f d w.stack)) hm hc
    (Or.inr rfl) (Or.inr hfit)
  unfold ioctl_request
  simp only [hmr]
  rw [← hF, ← hw1]
  by_cases hw : (sys_write w1 F).1 = (F.length : Int)
  · have hnn : ¬ ((F.length : Int) < 0) := by omega
    simp only [hw, hnn, ne_eq, not_true_eq_false, if_false]
    split_ifs <;> rfl
  · simp [hw, EBADF]

/-- The value `decode_response` returns for an Ioctl function code found in
the response: 0 for the acknowledged `0x64`, otherwise the length after the
function code. -/
theorem decode_response_ioctl_eq (in_ : seaMaxModule) (f : Nat) (data buffer : Buf) (i : Nat)
    (length : Int) (h : f ∈ ioctl_funct) (hb : buffer i = f) :
    (decode_response in_ f data buffer i length).1 = if f = 0x64 then 0 else length - 1 := by
  rw [decode_response_eq]
  have hn : ¬ (buffer i ≠ f) := by simp [hb]
  rw [if_neg hn]
  simp only [ioctl_funct, List.mem_cons, List.mem_singleton, List.not_mem_nil, or_false] at h
  rcases h with rfl | rfl | rfl | rfl | rfl | rfl | rfl | rfl <;> simp [response_skip]

/-- While the payload length fits the one-byte count field, the number of
bytes `makeRequest` copies is the payload length. -/
theorem request_dataSize_eq (f q : Nat) (h : payload_len f q ≤ 255) :
    request_dataSize f q = payload_len f q := by
  unfold request_dataSize
  unfold payload_len at h ⊢
  split_ifs at h ⊢ <;> omega

/-! ## The claims -/

/-- C1: for every buffer whose first `n` bytes are `B` (`1 ≤ n ≤ 253`),
`calc_crc(n, data)` leaves `data[0..n)` equal to `B`, stores `c & 0xFF` in
`data[n]` and `c >> 8` in `data[n+1]`, `c` being the reference CRC-16 of `B`,
and touches nothing else; so dropping the last two bytes of the `n + 2` bytes
of the result gives `B` back. -/
theorem calc_crc_appends_reference_crc (B : List Nat) (data : Buf)
    (hB : ∀ b ∈ B, b < 256) (_hn1 : 1 ≤ B.length) (_hn2 : B.length ≤ 253)
    (hdata : data.toList B.length = B) :
    (calc_crc B.length data).toList B.length = B ∧
    calc_crc B.length data B.length = crc16 B &&& 0xFF ∧
    calc_crc B.length data (B.length + 1) = crc16 B >>> 8 ∧
    (∀ j, j ≠ B.length → j ≠ B.length + 1 → calc_crc B.length data j = data j) ∧
    ((calc_crc B.length data).toList (B.length + 2)).take B.length = B ∧
    (calc_crc B.length data).toList (B.length + 2) = B ++ [crc16 B &&& 0xFF, crc16 B >>> 8] := by
  have hd : ∀ j, j < B.length → data j < 256 := by
    intro j hj
    apply hB
    have hmem : data j ∈ data.toList B.length := by
      simp only [Buf.toList, List.mem_map, List.mem_range]
      exact ⟨j, hj, rfl⟩
    rw [hdata] at hmem
    exact hmem
  have hand : crc16 B &&& 0xFF = crc16 B % 256 := by
    have : (255 : Nat) = 2 ^ 8 - 1 := by norm_num
    rw [this, Nat.and_pow_two_sub_one_eq_mod]
  have hshr : crc16 B >>> 8 = crc16 B / 256 := by
    rw [Nat.shiftRight_eq_div_pow]
  have heq := calc_crc_eq B.length data hd
  rw [hdata] at heq
  rw [heq, hand, hshr]
  have h1 : (((data.set B.length (crc16 B % 256)).set (B.length + 1) (crc16 B / 256)).toList
      B.length) = B := by
    rw [Buf.toList_set_ge _ _ _ _ (by omega), Buf.toList_set_ge _ _ _ _ (le_refl _), hdata]
  have h2 : ((data.set B.length (crc16 B % 256)).set (B.length + 1) (crc16 B / 256)) B.length
      = crc16 B % 256 := by
    rw [Buf.set_other _ _ _ _ (by omega), Buf.set_same]
  have h3 : ((data.set B.length (crc16 B % 256)).set (B.length + 1) (crc16 B / 256))
      (B.length + 1) = crc16 B / 256 := Buf.set_same _ _ _
  have h6 : ((data.set B.length (crc16 B % 256)).set (B.length + 1) (crc16 B / 256)).toList
      (B.length + 2) = B ++ [crc16 B % 256, crc16 B / 256] := by
    rw [Buf.toList_succ, Buf.toList_succ, h1, h2, h3]
    simp
  refine ⟨h1, h2, h3, ?_, ?_, h6⟩
  · intro j hj1 hj2
    rw [Buf.set_other _ _ _ _ hj2, Buf.set_other _ _ _ _ hj1]
  · rw [h6]
    simp

set_option maxRecDepth 100000 in
/-- C1 at the request of scenario A: the six bytes `05 01 00 00 00 04`. -/
theorem calc_crc_appends_reference_crc_witness :
    (calc_crc 6 (Buf.ofList [5, 1, 0, 0, 0, 4])).toList 8 = [5, 1, 0, 0, 0, 4, 0x3C, 0x4D] := by
  have h := calc_crc_appends_reference_crc [5, 1, 0, 0, 0, 4] (Buf.ofList [5, 1, 0, 0, 0, 4])
    (by decide) (by decide) (by decide) (by decide)
  have hc : crc16 [5, 1, 0, 0, 0, 4] = 0x4D3C := by decide
  rw [hc] at h
  exact h.2.2.2.2.2

/-- C2: on a serial session, for every slave `s`, read type `t` in {1,2,3,4},
start `a ≥ 1` and range `q`, the bytes `SeaMaxLinRead` hands to the transport
are exactly the 8 bytes `[s, f, (a-1)>>8, (a-1)&0xFF, q>>8, q&0xFF, crc_lo,
crc_hi]`, where `f`, the function code of `t`, is the number of the type
(0x01..0x04) and the CRC is the reference CRC-16 of the first six bytes. -/
theorem read_rtu_wire_bytes (in_ : seaMaxModule) (w : World) (s : Nat) (t : seaio_type_t)
    (a q : Nat) (out : Buf) (hm : in_.mutex = 0)
    (hc : in_.commMode = seaio_mode_t.MODBUS_RTU) (hs : s < 256)
    (ht : t = .COILS ∨ t = .D_INPUTS ∨ t = .HOLDINGREG ∨ t = .INPUTREG)
    (ha1 : 1 ≤ a) (ha2 : a < 65536) (hq : q < 65536) :
    ∃ r, SeaMaxLinRead (some in_) w s t a q (some out) = some r ∧
      r.world.sent = w.sent ++
        [[s, t.val, (a - 1) >>> 8, (a - 1) &&& 0xFF, q >>> 8, q &&& 0xFF,
          crc16 [s, t.val, (a - 1) >>> 8, (a - 1) &&& 0xFF, q >>> 8, q &&& 0xFF] &&& 0xFF,
          crc16 [s, t.val, (a - 1) >>> 8, (a - 1) &&& 0xFF, q >>> 8, q &&& 0xFF] >>> 8]] := by
  obtain ⟨r, hr, hsent⟩ := SeaMaxLinRead_rtu_sent in_ w s t a q out hm hc hs
  refine ⟨r, hr, ?_⟩
  rw [hsent, start_minus_one a ha1 ha2]
  have e1 : ∀ x : Nat, x &&& 0xFF = x % 256 := by
    intro x
    have : (255 : Nat) = 2 ^ 8 - 1 := by norm_num
    rw [this, Nat.and_pow_two_sub_one_eq_mod]
  have e2 : ∀ x : Nat, x >>> 8 = x / 256 := by
    intro x
    rw [Nat.shiftRight_eq_div_pow]
  have e3 : (a - 1) / 256 % 256 = (a - 1) / 256 := by omega
  have e4 : q / 256 % 256 = q / 256 := by omega
  simp only [e1, e2]
  rcases ht with rfl | rfl | rfl | rfl <;>
    simp [rtu_frame, request_pdu, request_fields, request_dataSize, read_funct,
      seaio_type_t.val, Buf.toList, e3, e4]

set_option maxRecDepth 100000 in
/-- C2 at scenario A: slave 5, coils, start 1, range 4 puts
`05 01 00 00 00 04 3C 4D` on the wire. -/
theorem read_rtu_wire_bytes_witness :
    ∃ r, SeaMaxLinRead (some rtuSession) (deviceSays [] []) 5 .COILS 1 4 (some (fun _ => 0))
        = some r ∧
      r.world.sent = [[0x05, 0x01, 0x00, 0x00, 0x00, 0x04, 0x3C, 0x4D]] := by
  obtain ⟨r, hr, hsent⟩ := read_rtu_wire_bytes rtuSession (deviceSays [] []) 5 .COILS 1 4
    (fun _ => 0) rfl rfl (by decide) (Or.inl rfl) (by decide) (by decide) (by decide)
  refine ⟨r, hr, ?_⟩
  rw [hsent]
  decide

/-- C3: on a TCP session every frame `makeRequest` sends carries the 16-bit
transaction number big-endian in bytes 0..1, zero in bytes 2..3 and the
big-endian value `2 + body_len` in bytes 4..5, followed by slave, function
code and the body (fields and payload) with no CRC after it; a request that
is not sent is the one rejected with `-EINVAL`. And scenario B: writing
holding register 3 = 0x1234 on slave 1 as first request sends exactly
`00 00 00 00 00 06 01 06 00 02 12 34`, and when the response echoes it
`SeaMaxLinWrite` returns 2. -/
theorem tcp_frame_header (in_ : seaMaxModule) (w : World) (s f st q : Nat) (data : Option Buf)
    (hm : in_.mutex = 0) (hc : in_.commMode = seaio_mode_t.MODBUS_TCP)
    (hnull : request_dataSize f q = 0 ∨ data.isSome) :
    (∃ ret w', makeRequest in_ w s f st q data = some (ret, in_, w') ∧
      ((ret = -EINVAL ∧ w'.sent = w.sent) ∨
       ∃ body, body = request_fields f st q ++
            (data.getD (fun _ => 0)).toList (request_dataSize f q) ∧
          w'.sent = w.sent ++
            [[w.tcp_transaction % 65536 / 256, w.tcp_transaction % 65536 % 256, 0, 0,
              (2 + body.length) / 256, (2 + body.length) % 256, s, f] ++ body])) ∧
    (∃ r, SeaMaxLinWrite (some tcpSession)
        (deviceSays [0x00, 0x00, 0x00, 0x00, 0x00, 0x06, 0x01, 0x06, 0x00, 0x02, 0x12, 0x34] [12])
        1 .HOLDINGREG 3 1 (some (Buf.ofList [0x12, 0x34])) = some r ∧
      r.world.sent = [[0x00, 0x00, 0x00, 0x00, 0x00, 0x06, 0x01, 0x06, 0x00, 0x02, 0x12, 0x34]] ∧
      r.ret = 2) := by
  constructor
  · by_cases hfit : request_dataSize f q = 0 ∨ 6 + (request_pdu s f st q data).length < 255
    · rw [makeRequest_tcp in_ w s f st q data hm hc hnull hfit]
      refine ⟨_, _, rfl, Or.inr ⟨_, rfl, ?_⟩⟩
      rw [sys_write_sent]
      have hl := request_pdu_length s f st q data
      have hfl := request_fields_length_le f st q
      have hlt : (request_pdu s f st q data).length < 256 := by
        rcases hfit with h | h <;> omega
      have e1 : (request_pdu s f st q data).length / 256 % 256 =
          (request_pdu s f st q data).length / 256 := by omega
      have e2 : w.tcp_transaction % 65536 / 256 = w.tcp_transaction / 256 % 256 := by omega
      have e3 : w.tcp_transaction % 65536 % 256 = w.tcp_transaction % 256 := by omega
      have e4 : 2 + (request_fields f st q ++
          (data.getD (fun _ => 0)).toList (request_dataSize f q)).length =
          (request_pdu s f st q data).length := by
        simp [request_pdu]
        omega
      rw [e4, e2, e3]
      unfold tcp_frame
      rw [e1]
      simp [request_pdu]
    · have hpos : 0 < request_dataSize f q := by omega
      have hsome : data.isSome := by
        rcases hnull with h | h
        · omega
        · exact h
      rw [makeRequest_tcp_overflow in_ w s f st q data hm hc hsome hpos (by omega)]
      exact ⟨_, _, rfl, Or.inl ⟨rfl, rfl⟩⟩
  · refine ⟨_, rfl, ?_, ?_⟩ <;> decide


/-- C3 at scenario B: the first request of a TCP session. -/
theorem tcp_frame_header_witness :
    ∃ ret w', makeRequest tcpSession (deviceSays [] []) 1 0x06 2 1 (some (Buf.ofList [0x12, 0x34]))
        = some (ret, tcpSession, w') ∧
      ((ret = -EINVAL ∧ w'.sent = (deviceSays [] []).sent) ∨
       ∃ body, body = request_fields 0x06 2 1 ++
            ((some (Buf.ofList [0x12, 0x34])).getD (fun _ => 0)).toList (request_dataSize 0x06 1) ∧
          w'.sent = (deviceSays [] []).sent ++
            [[(deviceSays [] []).tcp_transaction % 65536 / 256,
              (deviceSays [] []).tcp_transaction % 65536 % 256, 0, 0,
              (2 + body.length) / 256, (2 + body.length) % 256, 1, 0x06] ++ body]) :=
  (tcp_frame_header tcpSession (deviceSays [] []) 1 0x06 2 1 (some (Buf.ofList [0x12, 0x34]))
    rfl rfl (Or.inr rfl)).1

/-- C4: on a serial (`off = 0`) or TCP (`off = 6`) session, for every type in
{1..6} the frame `SeaMaxLinRead` sends has the function code
`[0x01,0x02,0x03,0x04,0x45,0x41][type-1]`, and for every type in {1,3,6} the
frame `SeaMaxLinWrite` sends has the function code 0x0F, 0x06 or 0x42, with
0x10 in place of 0x06 when the type is 3 and the range exceeds 1. A write is
sent whenever header and payload stay below 255 bytes, and is otherwise
rejected with `-EINVAL` with nothing sent. -/
theorem function_code_dispatch (in_ : seaMaxModule) (w : World) (s a q off : Nat)
    (hm : in_.mutex = 0)
    (hmode : (in_.commMode = seaio_mode_t.MODBUS_RTU ∧ off = 0) ∨
      (in_.commMode = seaio_mode_t.MODBUS_TCP ∧ off = 6))
    (hs : s < 256) :
    (∀ (t : seaio_type_t) (out : Buf), ∃ r frame,
      SeaMaxLinRead (some in_) w s t a q (some out) = some r ∧
      r.world.sent = w.sent ++ [frame] ∧
      frame.getD (off + 1) 0 = [0x01, 0x02, 0x03, 0x04, 0x45, 0x41].getD (t.val - 1) 0) ∧
    (∀ (t : seaio_type_t) (d : Buf) (fcode : Nat),
      (t = .COILS ∧ fcode = 0x0F) ∨ (t = .HOLDINGREG ∧ q ≤ 1 ∧ fcode = 0x06) ∨
        (t = .HOLDINGREG ∧ q > 1 ∧ fcode = 0x10) ∨ (t = seaio_type_t.SEAMAXPIO ∧ fcode = 0x42) →
      (∀ j, d j < 256) →
      ∃ r, SeaMaxLinWrite (some in_) w s t a q (some d) = some r ∧
        (off + (request_pdu s fcode ((a + 65535) % 65536) q (some d)).length < 255 →
          ∃ frame, r.world.sent = w.sent ++ [frame] ∧ frame.getD (off + 1) 0 = fcode) ∧
        (255 ≤ off + (request_pdu s fcode ((a + 65535) % 65536) q (some d)).length →
          r.world.sent = w.sent ∧ r.ret = -EINVAL)) := by
  constructor
  · intro t out
    rcases hmode with ⟨hc, rfl⟩ | ⟨hc, rfl⟩
    · obtain ⟨r, hr, hsent⟩ := SeaMaxLinRead_rtu_sent in_ w s t a q out hm hc hs
      refine ⟨r, _, hr, hsent, ?_⟩
      rw [rtu_frame_fcode]
      rfl
    · obtain ⟨r, hr, hsent⟩ := SeaMaxLinRead_tcp_sent in_ w s t a q out hm hc
      refine ⟨r, _, hr, hsent, ?_⟩
      rw [tcp_frame_fcode]
      rfl
  · intro t d fcode ht hd
    have ht2 : t = .COILS ∨ t = .HOLDINGREG ∨ t = seaio_type_t.SEAMAXPIO := by
      rcases ht with ⟨h, _⟩ | ⟨h, _⟩ | ⟨h, _⟩ | ⟨h, _⟩ <;> simp [h]
    have hfc : fcode = if write_funct.getD (t.val - 1) 0 = 0x06 ∧ q > 1 then 0x10
        else write_funct.getD (t.val - 1) 0 := by
      rcases ht with ⟨h, h2⟩ | ⟨h, h1, h2⟩ | ⟨h, h1, h2⟩ | ⟨h, h2⟩
      · simp [h, h2, write_funct, seaio_type_t.val]
      · have h3 : ¬ (1 < q) := by omega
        simp [h, h2, write_funct, seaio_type_t.val, h3]
      · have h3 : 1 < q := h1
        simp [h, h2, write_funct, seaio_type_t.val, h3]
      · simp [h, h2, write_funct, seaio_type_t.val]
    rcases hmode with ⟨hc, rfl⟩ | ⟨hc, rfl⟩
    · obtain ⟨r, hr, hsent⟩ := SeaMaxLinWrite_rtu_sent in_ w s t a q d fcode hm hc hs ht2 hfc hd
      refine ⟨r, hr, ?_, ?_⟩
      · intro hfit
        simp only [Nat.zero_add] at hfit
        rw [if_pos hfit] at hsent
        exact ⟨_, hsent, rtu_frame_fcode _ _ _ _ _⟩
      · intro hbig
        simp only [Nat.zero_add] at hbig
        rw [if_neg (by omega)] at hsent
        exact hsent
    · obtain ⟨r, hr, hsent⟩ := SeaMaxLinWrite_tcp_sent in_ w s t a q d fcode hm hc ht2 hfc
      refine ⟨r, hr, ?_, ?_⟩
      · intro hfit
        rw [if_pos hfit] at hsent
        exact ⟨_, hsent, tcp_frame_fcode _ _ _ _ _ _⟩
      · intro hbig
        rw [if_neg (by omega)] at hsent
        exact hsent

/-- C4 on the serial session of scenario A. -/
theorem function_code_dispatch_witness :
    ∃ r frame,
      SeaMaxLinRead (some rtuSession) (deviceSays [] []) 5 seaio_type_t.SETUPREG 1 4
        (some (fun _ => 0)) = some r ∧
      r.world.sent = (deviceSays [] []).sent ++ [frame] ∧
      frame.getD (0 + 1) 0 =
        [0x01, 0x02, 0x03, 0x04, 0x45, 0x41].getD (seaio_type_t.SETUPREG.val - 1) 0 :=
  (function_code_dispatch rtuSession (deviceSays [] []) 5 1 4 0 rfl (Or.inl ⟨rfl, rfl⟩)
    (by decide)).1 seaio_type_t.SETUPREG (fun _ => 0)

/-- C5: on a serial (`off = 0`) or TCP (`off = 6`) session, for every read of
type 1..4 (function codes 0x01..0x04) and every write of type 1 or 3
(function codes 0x0F, 0x06, 0x10) with a start address `a` in 1..65535, the
two bytes right after the function code of the frame sent are the big-endian
encoding of `a - 1`. -/
theorem start_address_offset (in_ : seaMaxModule) (w : World) (s a q off : Nat)
    (hm : in_.mutex = 0)
    (hmode : (in_.commMode = seaio_mode_t.MODBUS_RTU ∧ off = 0) ∨
      (in_.commMode = seaio_mode_t.MODBUS_TCP ∧ off = 6))
    (hs : s < 256) (ha1 : 1 ≤ a) (ha2 : a ≤ 65535) :
    (∀ (t : seaio_type_t) (out : Buf),
      t = .COILS ∨ t = .D_INPUTS ∨ t = .HOLDINGREG ∨ t = .INPUTREG →
      ∃ r frame, SeaMaxLinRead (some in_) w s t a q (some out) = some r ∧
        r.world.sent = w.sent ++ [frame] ∧
        frame.getD (off + 2) 0 = (a - 1) / 256 ∧ frame.getD (off + 3) 0 = (a - 1) % 256) ∧
    (∀ (t : seaio_type_t) (d : Buf) (fcode : Nat),
      (t = .COILS ∧ fcode = 0x0F) ∨ (t = .HOLDINGREG ∧ q ≤ 1 ∧ fcode = 0x06) ∨
        (t = .HOLDINGREG ∧ q > 1 ∧ fcode = 0x10) →
      (∀ j, d j < 256) →
      ∃ r, SeaMaxLinWrite (some in_) w s t a q (some d) = some r ∧
        (off + (request_pdu s fcode (a - 1) q (some d)).length < 255 →
          ∃ frame, r.world.sent = w.sent ++ [frame] ∧
            frame.getD (off + 2) 0 = (a - 1) / 256 ∧ frame.getD (off + 3) 0 = (a - 1) % 256) ∧
        (255 ≤ off + (request_pdu s fcode (a - 1) q (some d)).length →
          r.world.sent = w.sent ∧ r.ret = -EINVAL)) := by
  have hst := start_minus_one a ha1 (by omega)
  have e3 : (a - 1) / 256 % 256 = (a - 1) / 256 := by omega
  constructor
  · intro t out ht
    have hf : 0 < read_funct.getD (t.val - 1) 0 ∧ read_funct.getD (t.val - 1) 0 < 0x40 := by
      rcases ht with rfl | rfl | rfl | rfl <;> simp [read_funct, seaio_type_t.val]
    rcases hmode with ⟨hc, rfl⟩ | ⟨hc, rfl⟩
    · obtain ⟨r, hr, hsent⟩ := SeaMaxLinRead_rtu_sent in_ w s t a q out hm hc hs
      rw [hst] at hsent
      have h := rtu_frame_start s _ (a - 1) q none hf
      rw [e3] at h
      exact ⟨r, _, hr, hsent, h⟩
    · obtain ⟨r, hr, hsent⟩ := SeaMaxLinRead_tcp_sent in_ w s t a q out hm hc
      rw [hst] at hsent
      have h := tcp_frame_start w.tcp_transaction s _ (a - 1) q none hf
      rw [e3] at h
      exact ⟨r, _, hr, hsent, h⟩
  · intro t d fcode ht hd
    have ht2 : t = .COILS ∨ t = .HOLDINGREG ∨ t = seaio_type_t.SEAMAXPIO := by
      rcases ht with ⟨h, _⟩ | ⟨h, _⟩ | ⟨h, _⟩ <;> simp [h]
    have hfc : fcode = if write_funct.getD (t.val - 1) 0 = 0x06 ∧ q > 1 then 0x10
        else write_funct.getD (t.val - 1) 0 := by
      rcases ht with ⟨h, h2⟩ | ⟨h, h1, h2⟩ | ⟨h, h1, h2⟩
      · simp [h, h2, write_funct, seaio_type_t.val]
      · have h3 : ¬ (1 < q) := by omega
        simp [h, h2, write_funct, seaio_type_t.val, h3]
      · have h3 : 1 < q := h1
        simp [h, h2, write_funct, seaio_type_t.val, h3]
    have hf : 0 < fcode ∧ fcode < 0x40 := by
      rcases ht with ⟨_, h2⟩ | ⟨_, _, h2⟩ | ⟨_, _, h2⟩ <;> omega
    rcases hmode with ⟨hc, rfl⟩ | ⟨hc, rfl⟩
    · obtain ⟨r, hr, hsent⟩ := SeaMaxLinWrite_rtu_sent in_ w s t a q d fcode hm hc hs ht2 hfc hd
      rw [hst] at hsent
      have h := rtu_frame_start s fcode (a - 1) q (some d) hf
      rw [e3] at h
      refine ⟨r, hr, ?_, ?_⟩
      · intro hfit
        simp only [Nat.zero_add] at hfit
        rw [if_pos hfit] at hsent
        exact ⟨_, hsent, h⟩
      · intro hbig
        simp only [Nat.zero_add] at hbig
        rw [if_neg (by omega)] at hsent
        exact hsent
    · obtain ⟨r, hr, hsent⟩ := SeaMaxLinWrite_tcp_sent in_ w s t a q d fcode hm hc ht2 hfc
      rw [hst] at hsent
      have h := tcp_frame_start w.tcp_transaction s fcode (a - 1) q (some d) hf
      rw [e3] at h
      refine ⟨r, hr, ?_, ?_⟩
      · intro hfit
        rw [if_pos hfit] at hsent
        exact ⟨_, hsent, h⟩
      · intro hbig
        rw [if_neg (by omega)] at hsent
        exact hsent

/-- C5 on the TCP session of scenario B. -/
theorem start_address_offset_witness :
    ∃ r frame, SeaMaxLinRead (some tcpSession) (deviceSays [] []) 1 seaio_type_t.HOLDINGREG 3 1
        (some (fun _ => 0)) = some r ∧
      r.world.sent = (deviceSays [] []).sent ++ [frame] ∧
      frame.getD (6 + 2) 0 = (3 - 1) / 256 ∧ frame.getD (6 + 3) 0 = (3 - 1) % 256 :=
  (start_address_offset tcpSession (deviceSays [] []) 1 3 1 6 rfl (Or.inr ⟨rfl, rfl⟩)
    (by decide) (by decide) (by decide)).1 seaio_type_t.HOLDINGREG (fun _ => 0)
    (Or.inr (Or.inr (Or.inl rfl)))

/-- C6: on a serial session, when the device answers a read with function
code `f` in {1,2,3,4} by a frame `[slave, f, bytecount, payload..., crc_lo,
crc_hi]` of fewer than 220 bytes, delivered in any number of non-empty chunks,
`SeaMaxLinRead` returns `n = ceil(range/8)` for `f` in {1,2} and `n = 2*range`
for `f` in {3,4}, `out[0..n)` holds the `n` payload bytes that follow the
byte count, and the rest of `out` is untouched: slave, function code, byte
count and CRC are stripped (the values of slave, byte count and CRC are not
looked at). -/
theorem read_returns_payload (in_ : seaMaxModule) (w : World) (s : Nat) (t : seaio_type_t)
    (a q : Nat) (out : Buf) (slave bc c1 c2 : Nat) (payload tail : List Nat)
    (hm : in_.mutex = 0) (hc : in_.commMode = seaio_mode_t.MODBUS_RTU) (hs : s < 256)
    (hw : w.wres = [])
    (ht : ((t = .COILS ∨ t = .D_INPUTS) ∧ payload.length = (q + 7) / 8) ∨
      ((t = .HOLDINGREG ∨ t = .INPUTREG) ∧ payload.length = 2 * q))
    (hrx : w.rx = [slave, t.val, bc] ++ payload ++ [c1, c2] ++ tail)
    (hlt : payload.length + 5 < 220)
    (hpos : ∀ c ∈ w.sched, 0 < c) (hsum : payload.length + 5 ≤ w.sched.sum) :
    ∃ r d, SeaMaxLinRead (some in_) w s t a q (some out) = some r ∧
      r.ret = payload.length ∧ r.data = some d ∧
      d.toList payload.length = payload ∧ (∀ j, payload.length ≤ j → d j = out j) ∧
      r.world.rx = tail := by
  have hf : read_funct.getD (t.val - 1) 0 = t.val ∧ 1 ≤ t.val ∧ t.val ≤ 4 := by
    rcases ht with ⟨h | h, _⟩ | ⟨h | h, _⟩ <;> subst h <;> simp [read_funct, seaio_type_t.val]
  have he : read_expected (read_funct.getD (t.val - 1) 0) q = payload.length + 1 := by
    rcases ht with ⟨h | h, h2⟩ | ⟨h | h, h2⟩ <;> subst h <;>
      simp [read_funct, seaio_type_t.val, read_expected] <;> (try split_ifs) <;> omega
  rw [SeaMaxLinRead_rtu in_ w s t a q out _ hm hc hs rfl]
  generalize rtu_frame s (read_funct.getD (t.val - 1) 0) ((a + 65535) % 65536) q none = F
  have hok := sys_write_ok w F hw
  obtain ⟨h1, h2, h3, _⟩ := sys_write_rx w F
  simp only [hok, ne_eq, not_true_eq_false, if_false, he]
  simp only [hf.1]
  obtain ⟨sched', hg⟩ := getResponse_rtu_ok in_ (sys_write w F).2 t.val out (payload.length + 1) hc
    (by rw [h2]; exact hpos) (by rw [h2]; omega) (by rw [h1, hrx]; simp) (by omega)
  have hbuf : ∀ j, j < payload.length + 5 →
      ((sys_write w F).2.stack.blit 0 ((sys_write w F).2.rx.take (payload.length + 1 + 4))) j =
        ([slave, t.val, bc] ++ payload ++ [c1, c2]).getD j 0 := by
    intro j hj
    have hl : ((sys_write w F).2.rx.take (payload.length + 1 + 4)) =
        [slave, t.val, bc] ++ payload ++ [c1, c2] := by
      rw [h1, hrx]
      have : payload.length + 1 + 4 = ([slave, t.val, bc] ++ payload ++ [c1, c2]).length := by
        simp
      rw [this, List.take_left']
      rfl
    rw [hl]
    have := Buf.blit_apply_mid (sys_write w F).2.stack 0 ([slave, t.val, bc] ++ payload ++ [c1, c2])
      j (by simp; omega)
    simpa using this
  have hb1 : ((sys_write w F).2.stack.blit 0 ((sys_write w F).2.rx.take (payload.length + 1 + 4)))
      1 = t.val := by
    rw [hbuf 1 (by omega)]
    simp
  have hdec := decode_response_read in_ t.val out _ 1 ((payload.length + 1 : Nat) + 1)
    ⟨hf.2.1, hf.2.2⟩ hb1
  rw [hg, hdec]
  refine ⟨_, _, rfl, ?_, rfl, ?_, ?_, ?_⟩
  · simp only [response_result]
    push_cast
    omega
  · have hn : ((((payload.length + 1 : Nat) : Int) + 1) - 2).toNat = payload.length := by
      push_cast
      omega
    simp only [hn]
    apply List.ext_getElem
    · simp [Buf.toList_length]
    · intro j hj1 hj2
      simp only [Buf.toList, List.getElem_map, List.getElem_range, hj2, if_true]
      rw [hbuf (1 + 2 + j) (by omega)]
      have e : 1 + 2 + j = j + 1 + 1 + 1 := by omega
      rw [e]
      simp only [List.cons_append, List.nil_append, List.getD_eq_getElem?_getD,
        List.getElem?_cons_succ]
      rw [List.getElem?_append_left hj2, List.getElem?_eq_getElem hj2]
      rfl
  · intro j hj
    have hn : ((((payload.length + 1 : Nat) : Int) + 1) - 2).toNat = payload.length := by
      push_cast
      omega
    simp only [response_result, hn]
    have : ¬ (j < payload.length) := by omega
    simp [this]
  · simp only [response_result]
    rw [h1, hrx]
    have : payload.length + 1 + 4 = ([slave, t.val, bc] ++ payload ++ [c1, c2]).length := by
      simp
    rw [this, List.drop_left']
    rfl


/-- C6 at scenario A: the response `05 01 01 0A D0 BF` to a read of 4 coils
returns 1 with `out[0] = 0x0A`. -/
theorem read_returns_payload_witness :
    ∃ r d, SeaMaxLinRead (some rtuSession) (deviceSays [0x05, 0x01, 0x01, 0x0A, 0xD0, 0xBF] [6])
        5 .COILS 1 4 (some (fun _ => 0)) = some r ∧
      r.ret = 1 ∧ r.data = some d ∧ d.toList 1 = [0x0A] ∧ (∀ j, 1 ≤ j → d j = 0) ∧
      r.world.rx = [] :=
  read_returns_payload rtuSession (deviceSays [0x05, 0x01, 0x01, 0x0A, 0xD0, 0xBF] [6])
    5 .COILS 1 4 (fun _ => 0) 0x05 0x01 0xD0 0xBF [0x0A] [] rfl rfl (by decide) rfl
    (Or.inl ⟨Or.inl rfl, rfl⟩) rfl (by decide) (by decide) (by decide)


set_option maxRecDepth 100000 in
/-- C7, at its failing input: on a serial session a read of 4 coils is
answered by the exception frame `05 81 02 80 50` and nothing more. The call
returns `-EFAULT`, but from the time-out of the read loop, which waits for the
6 bytes of a normal response: the exception code 2 never reaches `out[0]`. -/
theorem serial_exception_code_lost :
    ∃ r d, SeaMaxLinRead (some rtuSession) (deviceSays [0x05, 0x81, 0x02, 0x80, 0x50] [5, 5, 5])
        5 .COILS 1 4 (some (fun _ => 0x77)) = some r ∧
      crc16 [0x05, 0x81, 0x02] = 0x5080 ∧
      r.ret = -EFAULT ∧ r.data = some d ∧ d 0 = 0x77 ∧ d 0 ≠ 0x02 := by
  refine ⟨_, _, rfl, ?_, ?_, rfl, ?_, ?_⟩ <;> decide


set_option maxRecDepth 100000 in
/-- C9, at its failing input: on a TCP session two holding registers are
written from the bytes `12 34 56 78`; the frame sent carries the byte count 4
and these four payload bytes, the device acknowledges, and `SeaMaxLinWrite`
returns 2. -/
theorem write_two_registers_returns_two :
    ∃ r, SeaMaxLinWrite (some tcpSession)
        (deviceSays [0x00, 0x00, 0x00, 0x00, 0x00, 0x06, 0x01, 0x10, 0x00, 0x02, 0x00, 0x02] [12])
        1 .HOLDINGREG 3 2 (some (Buf.ofList [0x12, 0x34, 0x56, 0x78])) = some r ∧
      r.world.sent = [[0x00, 0x00, 0x00, 0x00, 0x00, 0x0B, 0x01, 0x10, 0x00, 0x02, 0x00, 0x02,
        0x04, 0x12, 0x34, 0x56, 0x78]] ∧
      r.ret = 2 := by
  refine ⟨_, rfl, ?_, ?_⟩ <;> decide


/-- C10: for every type in {2 (digital inputs), 4 (input registers), 5 (setup
registers)} `SeaMaxLinWrite` returns `-EINVAL` (-22) and leaves the session
record, the environment (nothing is sent, no transaction number is used) and
the caller's buffer as they were, whatever the other arguments are. -/
theorem write_rejects_read_only_types (SeaMaxPointer : Option seaMaxModule) (w : World)
    (s a q : Nat) (t : seaio_type_t) (data : Option Buf)
    (ht : t = .D_INPUTS ∨ t = .INPUTREG ∨ t = .SETUPREG) :
    SeaMaxLinWrite SeaMaxPointer w s t a q data =
      some { ret := -EINVAL, module := SeaMaxPointer, world := w, data := data } ∧
    EINVAL = 22 := by
  rcases ht with rfl | rfl | rfl <;> exact ⟨rfl, rfl⟩

/-- C10 for a write to the digital inputs of an open serial session. -/
theorem write_rejects_read_only_types_witness :
    SeaMaxLinWrite (some rtuSession) (deviceSays [] []) 5 .D_INPUTS 1 4 (some (fun _ => 0)) =
      some { ret := -EINVAL, module := some rtuSession, world := deviceSays [] [],
             data := some (fun _ => 0) } ∧
    EINVAL = 22 :=
  write_rejects_read_only_types (some rtuSession) (deviceSays [] []) 5 1 4 .D_INPUTS
    (some (fun _ => 0)) (Or.inl rfl)

set_option maxRecDepth 100000 in
/-- C12, at its failing input: on a serial session 128 holding registers are
to be written to slave 1 from address 0. `makeRequest` sends the 9 bytes
`01 10 00 00 00 80 00 68 90`: the byte-count field is 0, not 128 * 2, and no
data byte follows it; the request is not rejected as too long. -/
theorem write_multiple_byte_count_wraps :
    ∃ w', makeRequest rtuSession (deviceSays [] []) 1 0x10 0 128 (some (fun _ => 0xAB)) =
        some (9, rtuSession, w') ∧
      w'.sent = [[0x01, 0x10, 0x00, 0x00, 0x00, 0x80, 0x00, 0x68, 0x90]] ∧
      128 * 2 ≠ 0x00 := by
  refine ⟨_, rfl, ?_, ?_⟩ <;> decide

set_option maxRecDepth 100000 in
/-- C13 fails: on a serial session whose `write` call fails, the request to
read 4 coils, with a header of 6 bytes and no payload, is handed whole to the
transport, and `makeRequest` returns `-EBADF`, not the length 8. -/
theorem short_write_returns_ebadf :
    ∃ w', makeRequest rtuSession { deviceSays [] [] with wres := [-1] } 5 0x01 0 4 none =
        some (-EBADF, rtuSession, w') ∧
      w'.sent = [[0x05, 0x01, 0x00, 0x00, 0x00, 0x04, 0x3C, 0x4D]] ∧
      2 + (request_fields 0x01 0 4).length + request_dataSize 0x01 4 < 255 ∧
      -EBADF ≠ 8 := by
  refine ⟨_, rfl, ?_, ?_, ?_⟩ <;> decide

set_option maxRecDepth 100000 in
/-- C14 fails: on a fresh TCP session a write of 2000 coils is rejected with
`-EINVAL` before anything is sent, and yet takes the transaction number 0:
the read that follows is the first frame sent and carries the number 1. -/
theorem rejected_request_consumes_id :
    ∃ r1 r2, SeaMaxLinWrite (some tcpSession) (deviceSays [] []) 1 seaio_type_t.COILS 1 2000
        (some (fun _ => 0xAB)) = some r1 ∧
      r1.ret = -EINVAL ∧ r1.world.sent = [] ∧ r1.world.tcp_transaction = 1 ∧
      SeaMaxLinRead r1.module r1.world 1 seaio_type_t.COILS 1 4 (some (fun _ => 0)) = some r2 ∧
      r2.world.sent = [[0x00, 0x01, 0x00, 0x00, 0x00, 0x06, 0x01, 0x01, 0x00, 0x00, 0x00, 0x04]] := by
  refine ⟨_, _, rfl, ?_, ?_, ?_, rfl, ?_⟩ <;> decide

/-- C14 as amended: the transaction number is taken when `makeRequest` starts
to build a TCP frame, before the payload is checked. When a TCP session
issues a list of requests from the counter value `c` (0 when the program
starts), the `k`-th request takes the number `c + k`, whether it is sent or
rejected with `-EINVAL`; the frames sent carry their number modulo 2^16,
big-endian, in bytes 0..1, so the numbers of two frames sent one after the
other differ by one more than the number of requests rejected in between. -/
theorem tcp_transaction_ids (in_ : seaMaxModule) (w : World) (reqs : List Request)
    (hm : in_.mutex = 0) (hc : in_.commMode = seaio_mode_t.MODBUS_TCP)
    (hd : ∀ r ∈ reqs, request_dataSize r.funct r.quan = 0 ∨ r.data.isSome) :
    (∃ w', run_requests in_ w reqs = some w' ∧
      w'.tcp_transaction = w.tcp_transaction + reqs.length ∧
      w'.sent = w.sent ++ tcp_frames w.tcp_transaction reqs) ∧
    (∀ c s f st q d, (tcp_frame c s f st q d).take 2 = [c % 65536 / 256, c % 65536 % 256]) :=
  ⟨run_requests_tcp in_ w reqs hm hc hd, tcp_frame_id⟩

/-- C14 as amended, on a rejected write of 2000 coils followed by a read of 4
coils. -/
theorem tcp_transaction_ids_witness :
    (∃ w', run_requests tcpSession (deviceSays [] [])
        [⟨1, 0x0F, 0, 2000, some (fun _ => 0xAB)⟩, ⟨1, 0x01, 0, 4, none⟩] = some w' ∧
      w'.tcp_transaction = (deviceSays [] []).tcp_transaction +
        [(⟨1, 0x0F, 0, 2000, some (fun _ => 0xAB)⟩ : Request), ⟨1, 0x01, 0, 4, none⟩].length ∧
      w'.sent = (deviceSays [] []).sent ++ tcp_frames (deviceSays [] []).tcp_transaction
        [⟨1, 0x0F, 0, 2000, some (fun _ => 0xAB)⟩, ⟨1, 0x01, 0, 4, none⟩]) ∧
    (∀ c s f st q d, (tcp_frame c s f st q d).take 2 = [c % 65536 / 256, c % 65536 % 256]) :=
  tcp_transaction_ids tcpSession (deviceSays [] [])
    [⟨1, 0x0F, 0, 2000, some (fun _ => 0xAB)⟩, ⟨1, 0x01, 0, 4, none⟩] rfl rfl (by
      intro r hr
      simp only [List.mem_cons, List.mem_singleton, List.not_mem_nil, or_false] at hr
      rcases hr with rfl | rfl
      · exact Or.inr rfl
      · exact Or.inl (by decide))

set_option maxRecDepth 100000 in
/-- C16, at its failing input: on a TCP session a read of 4 coils is answered
by the 8 bytes `00 00 00 00 00 02 01 01`, the header, the slave and the
function code. `SeaMaxLinRead` returns -1, the byte count 8 - 7 - 2, which is
none of the documented error codes. -/
theorem short_tcp_response_negative_count :
    ∃ r, SeaMaxLinRead (some tcpSession)
        (deviceSays [0x00, 0x00, 0x00, 0x00, 0x00, 0x02, 0x01, 0x01] [8])
        1 seaio_type_t.COILS 1 4 (some (fun _ => 0)) = some r ∧
      r.ret = -1 ∧
      r.ret ≠ -EBADF ∧ r.ret ≠ -EINVAL ∧ r.ret ≠ -ENOMEM ∧ r.ret ≠ -ENODEV ∧ r.ret ≠ -EFAULT := by
  refine ⟨_, rfl, ?_, ?_, ?_, ?_, ?_, ?_⟩ <;> decide

set_option maxRecDepth 100000 in
/-- C17, at its failing input: the read of scenario A on a serial session
whose flag is clear. `makeRequest` returns the length 8 with the flag already
cleared (line 265), and `getResponse`, which never sets the flag, starts from
that session record: the flag is 0 at every `read` call of the response. -/
theorem flag_clear_during_receive :
    ∃ w1, makeRequest rtuSession (deviceSays [0x05, 0x01, 0x01, 0x0A, 0xD0, 0xBF] [6])
        5 0x01 0 4 none = some (8, rtuSession, w1) ∧
      rtuSession.mutex = 0 ∧
      SeaMaxLinRead (some rtuSession) (deviceSays [0x05, 0x01, 0x01, 0x0A, 0xD0, 0xBF] [6])
        5 seaio_type_t.COILS 1 4 (some (fun _ => 0)) =
        some (response_result (getResponse rtuSession w1 0x01 (fun _ => 0) 2)) := by
  refine ⟨_, rfl, rfl, ?_⟩
  rw [SeaMaxLinRead_rtu rtuSession _ 5 seaio_type_t.COILS 1 4 (fun _ => 0) _ rfl rfl (by decide)
    rfl]
  rfl

/-- C18: for every session pointer and every host, `SeaMaxLinClose` returns 0,
and applied to the session and host that `SeaMaxLinClose` has left it returns
0 again, leaves every field of the session as it is and the host as it is:
no call is added to the trace. The same holds for a session just created. -/
theorem close_is_idempotent (p : Option seaMaxModule) (m : Machine) :
    (SeaMaxLinClose p m).1 = 0 ∧
    SeaMaxLinClose (SeaMaxLinClose p m).2.1 (SeaMaxLinClose p m).2.2 =
      (0, (SeaMaxLinClose p m).2.1, (SeaMaxLinClose p m).2.2) ∧
    (∀ m0 k : Machine, SeaMaxLinClose (SeaMaxLinCreate m0) k = (0, SeaMaxLinCreate m0, k)) := by
  refine ⟨?_, ?_, ?_⟩
  · cases p with
    | none => rfl
    | some s =>
      unfold SeaMaxLinClose
      by_cases hd : s.hDevice > 0
      · simp only [hd, if_true]
      · simp only [hd, if_false]
  · cases p with
    | none => rfl
    | some s =>
      have h1 := SeaMaxLinClose_some s m
      have h2 := SeaMaxLinClose_hDevice s m _ h1
      rw [h1]
      exact SeaMaxLinClose_closed _ _ h2
  · intro m0 k
    unfold SeaMaxLinCreate
    split_ifs
    · rfl
    · exact SeaMaxLinClose_closed _ _ (by simp)

set_option maxRecDepth 100000 in
/-- C19 fails on the session of the example program: `SeaMaxLinCreate` and
`SeaMaxLinOpen` with `sealevel_d2x://8111` on a host where every call
succeeds return 0 and leave a USB session whose descriptor is still -1, and
`SeaMaxLinClose` on it returns 0 with the session still in mode `FTDI_DIRECT`
and without a single call to the bridge. With a positive descriptor in the
same record the four calls of `closeD2X` are made and the session is reset. -/
theorem usb_close_skips_bridge :
    SeaMaxLinOpen (SeaMaxLinCreate goodHost) goodHost (some (cstr "sealevel_d2x://8111")) =
      some (0, some usbSession, usbHost) ∧
    SeaMaxLinClose (some usbSession) usbHost = (0, some usbSession, usbHost) ∧
    (SeaMaxLinClose (some usbSession) usbHost).2.1.map (fun s => s.commMode) =
      some seaio_mode_t.FTDI_DIRECT ∧
    (SeaMaxLinClose (some { usbSession with hDevice := 3 }) usbHost).2.1 =
      some { usbSession with commMode := seaio_mode_t.NO_CONNECT } ∧
    (SeaMaxLinClose (some { usbSession with hDevice := 3 }) usbHost).2.2.trace =
      usbHost.trace ++
        [Call.ftdi ftdi_symbol.ftdi_disable_bitbang [], Call.ftdi ftdi_symbol.ftdi_usb_close [],
         Call.ftdi ftdi_symbol.ftdi_deinit [], Call.ftdi ftdi_symbol.ftdi_free [],
         Call.os_close 3, Call.os_free] := by
  refine ⟨?_, ?_, ?_, ?_, ?_⟩
  · rfl
  · rfl
  · rfl
  · rfl
  · rfl

set_option maxRecDepth 100000 in
/-- C20 fails on the session of the example program: on the USB session that
`SeaMaxLinCreate` and `SeaMaxLinOpen` with `sealevel_d2x://8111` leave,
`SeaMaxLinSetIMDelay` with 5 ms returns `-ENODEV` and the throttle stays 1;
on the serial session the same call returns 0 and stores 5. -/
theorem usb_delay_rejected :
    SeaMaxLinOpen (SeaMaxLinCreate goodHost) goodHost (some (cstr "sealevel_d2x://8111")) =
      some (0, some usbSession, usbHost) ∧
    SeaMaxLinSetIMDelay (some usbSession) 5 = (-ENODEV, some usbSession) ∧
    usbSession.throttle = 1 ∧
    SeaMaxLinSetIMDelay (some rtuSession) 5 = (0, some { rtuSession with throttle := 5 }) := by
  refine ⟨?_, ?_, ?_, ?_⟩
  · rfl
  · rfl
  · rfl
  · rfl

/-- C21: for every session and every connection string of at most 256
characters, `SeaMaxLinOpen` first closes a connected session (line 584) and
then returns what `openRTU`, `openTCP` or `openD2X` returns when the first 15
characters are `sealevel_rtu://`, `sealevel_tcp://` or `sealevel_d2x://`
(compared character code by character code); for every other string it
returns `-EINVAL` and leaves the session as line 584 left it. The calls made
before the open function runs are closing calls only, so the `-EINVAL` path
opens no transport. With a `NULL` session the result is `-EINVAL` too. -/
theorem open_path_follows_scheme (in_ : seaMaxModule) (m : Machine) (filename : List Nat)
    (hlen : filename.length ≤ 256) :
    (filename.take 15 = cstr "sealevel_rtu://" →
      SeaMaxLinOpen (some in_) m (some filename) =
        some ((openRTU (close_before_open in_ m).1 (close_before_open in_ m).2
                (filename.drop 14)).1,
          some (openRTU (close_before_open in_ m).1 (close_before_open in_ m).2
                (filename.drop 14)).2.1,
          (openRTU (close_before_open in_ m).1 (close_before_open in_ m).2
                (filename.drop 14)).2.2)) ∧
    (filename.take 15 = cstr "sealevel_tcp://" →
      SeaMaxLinOpen (some in_) m (some filename) =
        some ((openTCP (close_before_open in_ m).1 (close_before_open in_ m).2
                (filename.drop 15)).1,
          some (openTCP (close_before_open in_ m).1 (close_before_open in_ m).2
                (filename.drop 15)).2.1,
          (openTCP (close_before_open in_ m).1 (close_before_open in_ m).2
                (filename.drop 15)).2.2)) ∧
    (filename.take 15 = cstr "sealevel_d2x://" →
      SeaMaxLinOpen (some in_) m (some filename) =
        (openD2X (close_before_open in_ m).1 (close_before_open in_ m).2
          (filename.drop 15)).map (fun r => (r.1, some r.2.1, r.2.2))) ∧
    (filename.take 15 ≠ cstr "sealevel_rtu://" → filename.take 15 ≠ cstr "sealevel_tcp://" →
      filename.take 15 ≠ cstr "sealevel_d2x://" →
      SeaMaxLinOpen (some in_) m (some filename) =
        some (-EINVAL, some (close_before_open in_ m).1, (close_before_open in_ m).2)) ∧
    (∃ added, (close_before_open in_ m).2.trace = m.trace ++ added ∧
      ∀ c ∈ added, closing_call c = true) ∧
    SeaMaxLinOpen none m (some filename) = some (-EINVAL, none, m) := by
  obtain ⟨h12, h13, h23⟩ := prefixes_differ
  rw [SeaMaxLinOpen_eq in_ m filename hlen]
  refine ⟨?_, ?_, ?_, ?_, close_before_open_trace in_ m, ?_⟩
  · intro h
    rw [ open_by_prefix, if_pos h]
  · intro h
    have n1 : ¬ (filename.take 15 = cstr "sealevel_rtu://") := by
      rw [h]; exact fun e => h12 e.symm
    rw [ open_by_prefix, if_neg n1, if_pos h]
  · intro h
    have n1 : ¬ (filename.take 15 = cstr "sealevel_rtu://") := by
      rw [h]; exact fun e => h13 e.symm
    have n2 : ¬ (filename.take 15 = cstr "sealevel_tcp://") := by
      rw [h]; exact fun e => h23 e.symm
    rw [ open_by_prefix, if_neg n1, if_neg n2, if_pos h]
    cases openD2X (close_before_open in_ m).1 (close_before_open in_ m).2 (filename.drop 15)
      <;> rfl
  · intro n1 n2 n3
    rw [ open_by_prefix, if_neg n1, if_neg n2, if_neg n3]
  · have h : ¬ (filename.length > 256) := by omega
    simp [SeaMaxLinOpen, h]

set_option maxRecDepth 100000 in
/-- C21 on a fresh session and the string `Sealevel_rtu://dev/ttyS0`, which
differs from the serial prefix in the case of its first letter: `-EINVAL`,
the session and the host are as before, nothing is opened. -/
theorem open_path_follows_scheme_witness :
    (cstr "Sealevel_rtu://dev/ttyS0").length ≤ 256 ∧
    SeaMaxLinOpen (SeaMaxLinCreate goodHost) goodHost (some (cstr "Sealevel_rtu://dev/ttyS0")) =
      some (-EINVAL, SeaMaxLinCreate goodHost, goodHost) :=
  ⟨by decide,
   ((open_path_follows_scheme
      { throttle := 1, mutex := 0, deviceType := 0, commMode := seaio_mode_t.NO_CONNECT,
        hDevice := -1, initalConfig := false, libftdi := false, ftdic := false }
      goodHost (cstr "Sealevel_rtu://dev/ttyS0") (by decide)).2.2.2.1
      (by decide) (by decide) (by decide)).trans rfl⟩

set_option maxRecDepth 100000 in
/-- C22 fails: for the string `sealevel_rtu://dev/ttyS0` the path handed to
`open` is `/dev/ttyS0`, not the text `dev/ttyS0` that follows the 15
characters of the prefix. -/
theorem serial_path_keeps_slash :
    ∃ s m, SeaMaxLinOpen (SeaMaxLinCreate goodHost) goodHost
        (some (cstr "sealevel_rtu://" ++ cstr "dev/ttyS0")) = some (0, some s, m) ∧
      m.trace = [Call.os_open (cstr "/dev/ttyS0"), Call.os_tcflush 3,
        Call.os_tcsetattr 3 false] ∧
      cstr "/dev/ttyS0" ≠ cstr "dev/ttyS0" := by
  refine ⟨_, _, rfl, rfl, by decide⟩

/-- C22 as amended: `openRTU` is given the string from its 15th character
on. For every session, host and path `P` with a connection string
`sealevel_rtu://` ++ `P` of at most 256 characters, the path handed to `open`
is `/` followed by `P`: it is the first call after the closing calls of line
584 when the session then has no positive descriptor, and otherwise the
result is `-EBUSY` and no `open` is made. -/
theorem serial_path_is_slash_then_text (in_ : seaMaxModule) (m : Machine) (P : List Nat)
    (hlen : (cstr "sealevel_rtu://" ++ P).length ≤ 256) :
    ((close_before_open in_ m).1.hDevice ≤ 0 →
      ∃ ret s m1 rest, SeaMaxLinOpen (some in_) m (some (cstr "sealevel_rtu://" ++ P)) =
          some (ret, some s, m1) ∧
        m1.trace = (close_before_open in_ m).2.trace ++ Call.os_open (cstr "/" ++ P) :: rest) ∧
    (0 < (close_before_open in_ m).1.hDevice →
      SeaMaxLinOpen (some in_) m (some (cstr "sealevel_rtu://" ++ P)) =
        some (-EBUSY, some (close_before_open in_ m).1, (close_before_open in_ m).2)) := by
  have hp : (cstr "sealevel_rtu://" ++ P).take 15 = cstr "sealevel_rtu://" := by
    rw [List.take_append_of_le_length (by decide)]
    decide
  have hd : (cstr "sealevel_rtu://" ++ P).drop 14 = cstr "/" ++ P := by
    rw [List.drop_append_of_le_length (by decide)]
    have : (cstr "sealevel_rtu://").drop 14 = cstr "/" := by decide
    rw [this]
  rw [SeaMaxLinOpen_rtu in_ m _ hlen hp, hd]
  generalize (close_before_open in_ m).1 = a
  generalize (close_before_open in_ m).2 = k
  constructor
  · intro h0
    have h1 : ¬ (a.hDevice > 0) := by omega
    simp only [openRTU, h1, if_false, Machine.log]
    split_ifs <;>
    first
      | exact ⟨_, _, _, [], rfl, rfl⟩
      | exact ⟨_, _, _, _, rfl, by simp only [List.append_assoc]; rfl⟩
  · intro h0
    simp [openRTU, h0]

set_option maxRecDepth 100000 in
/-- C22 as amended, on a fresh session with `P` = `dev/ttyS0`. -/
theorem serial_path_is_slash_then_text_witness :
    (cstr "sealevel_rtu://" ++ cstr "dev/ttyS0").length ≤ 256 ∧
    (close_before_open
      { throttle := 1, mutex := 0, deviceType := 0, commMode := seaio_mode_t.NO_CONNECT,
        hDevice := -1, initalConfig := false, libftdi := false, ftdic := false }
      goodHost).1.hDevice ≤ 0 ∧
    ∃ ret s m1 rest, SeaMaxLinOpen
        (some { throttle := 1, mutex := 0, deviceType := 0,
                commMode := seaio_mode_t.NO_CONNECT, hDevice := -1, initalConfig := false,
                libftdi := false, ftdic := false })
        goodHost (some (cstr "sealevel_rtu://" ++ cstr "dev/ttyS0")) = some (ret, some s, m1) ∧
      m1.trace = (close_before_open
        { throttle := 1, mutex := 0, deviceType := 0, commMode := seaio_mode_t.NO_CONNECT,
          hDevice := -1, initalConfig := false, libftdi := false, ftdic := false }
        goodHost).2.trace ++ Call.os_open (cstr "/" ++ cstr "dev/ttyS0") :: rest :=
  ⟨by decide, by decide,
   (serial_path_is_slash_then_text _ goodHost (cstr "dev/ttyS0") (by decide)).1 (by decide)⟩

set_option maxRecDepth 100000 in
/-- C23, at its failing input: the product id `100008111` is the hexadecimal
number 0x100008111, which is none of the six supported ids, and `strtol`
parses it completely; the assignment to the `int` `pid` keeps its low 32
bits, 0x8111, so `SeaMaxLinOpen` with `sealevel_d2x://100008111` returns 0
and has opened the bridge with product id 0x8111, exactly as for the string
`8111`. The function `SDL_IsSupported` itself returns 1 for the six ids and 0
for every other `int`. -/
theorem truncated_product_id_accepted :
    strtol (cstr "100008111") 16 = (0x100008111, []) ∧
    to_int 0x100008111 = 0x8111 ∧
    SeaMaxLinOpen (SeaMaxLinCreate goodHost) goodHost
      (some (cstr "sealevel_d2x://100008111")) = some (0, some usbSession, usbHost) ∧
    Call.ftdi ftdi_symbol.ftdi_usb_open [0x0C52, 0x8111] ∈ usbHost.trace ∧
    (∀ pid : Int, SDL_IsSupported pid = 1 ↔
      pid = 0x8111 ∨ pid = 0x8112 ∨ pid = 0x8113 ∨ pid = 0x8114 ∨ pid = 0x8115 ∨
        pid = 0x8126) ∧
    (∀ pid : Int, SDL_IsSupported pid = 1 ∨ SDL_IsSupported pid = 0) := by
  refine ⟨by rfl, by decide, by rfl, by decide, ?_, ?_⟩
  · intro pid
    unfold SDL_IsSupported
    split_ifs with h
    · simp [h]
    · simp [h]
  · intro pid
    unfold SDL_IsSupported
    split_ifs <;> simp

set_option maxRecDepth 100000 in
/-- C24, at its failing input: `SeaDacLinWrite` with `numBytes = 2` on the USB
session of product 8111. The bridge is handed the two bytes `data[0]`,
`data[1]` and the call returns 2, but `memcpy` has stored 2 bytes in the
local array `buf`, which has room for 1. For every `numBytes` above 2 both
`SeaDacLinRead` and `SeaDacLinWrite` return `-ERANGE` and leave the host,
its trace included, as it was. -/
theorem lite_write_overruns_buf :
    (∃ m1, SeaDacLinWrite usbSession usbHost (Buf.ofList [0xA0, 0x50]) 2 = some ⟨2, m1, 2⟩ ∧
      m1.trace = usbHost.trace ++ [Call.ftdi ftdi_symbol.ftdi_write_data [0xA0, 0x50]]) ∧
    buf_size = 1 ∧ ¬ (2 ≤ buf_size) ∧
    (∀ (in_ : seaMaxModule) (m : Machine) (data : Buf) (k : Nat),
      SeaDacLinWrite in_ m data (3 + (k : Int)) = some ⟨-ERANGE, m, 0⟩ ∧
      SeaDacLinRead in_ m data (3 + (k : Int)) = (-ERANGE, m, data)) := by
  refine ⟨⟨_, rfl, rfl⟩, rfl, by decide, ?_⟩
  intro in_ m data k
  have h : (3 + (k : Int)) > 2 := by omega
  constructor
  · simp only [SeaDacLinWrite, h, if_true]
  · simp only [SeaDacLinRead, h, if_true]

set_option maxRecDepth 1000000 in
/-- C26 fails at the lower edge of the first band: on a serial session whose
device reports model 470 and reads back the value 0x171 on channel 2, the
extended A/D probe returns -1 (after sending the request that restores the
configuration `41 C2 00 00 01` it had read), although 0x171 lies in
`[0x171..0x1C1]`. -/
theorem band_edge_fails_probe :
    (∃ r, SeaMaxLinIoctl (some rtuSession) (probeDevice 0x171 [1, 0x64, 0, 0, 0] [5]) 1
        IOCTL_t.IOCTL_GET_ADDA_EXT_CONFIG (some default) = some r ∧
      r.ret = -1 ∧
      r.world.sent.getLast? = some [1, 0x64, 0x41, 0xC2, 0, 0, 1, 0xC3, 0x93]) ∧
    0x171 ≤ 0x171 ∧ 0x171 ≤ 0x1C1 := by
  refine ⟨⟨_, rfl, ?_, ?_⟩, by decide, by decide⟩ <;> decide

/-- C26 as amended: the bands are open at every edge except 0xFFF. In one
round of the probe loop for the channel `channel + 1`, when the three calls
that write the D/A register, patch the channel into the A/D and read the
value back return, and `v` is the value read back: for 0x171 < v < 0x1C1 the
round stores range 0-10 V with the multiplier off, for 0xB8 < v < 0xE0 range
0-5 V with the multiplier off, for 0xE66 < v <= 0xFFF range 0-10 V with the
multiplier on, for 0x737 < v < 0x8C7 range 0-5 V with the multiplier on, and
goes on with the next channel; for every other `v` it sends the request that
restores the original A/D configuration and the probe returns -1, the
caller's record unchanged. -/
theorem probe_bands_are_open (s : Nat) (original : adda_config) (channel : Nat)
    (dev : seaMaxModule) (w : World) (data : Buf) (config : adda_config)
    (ext : adda_ext_config) (r1 r3 : Result) (q2 : Int × seaMaxModule × World × ioctl_data)
    (a1 a3 : Int × seaMaxModule × World × Buf) (v : Nat)
    (h1 : SeaMaxLinWrite (some dev) w s seaio_type_t.HOLDINGREG (channel + 1) 1
      (some ((data.set 0 0x01).set 1 0x99)) = some r1)
    (ha1 : a1 = after_call r1 dev ((data.set 0 0x01).set 1 0x99))
    (h2 : ioctl_call a1.2.1 a1.2.2.1 s IOCTL_t.IOCTL_SET_ADDA_CONFIG
      { ioctl := default, adda := patch_config (channel + 1) config, ext := default } = some q2)
    (h3 : SeaMaxLinRead (some q2.2.1) q2.2.2.1 s seaio_type_t.INPUTREG (channel + 1) 1
      (some a1.2.2.2) = some r3)
    (ha3 : a3 = after_call r3 q2.2.1 a1.2.2.2)
    (hv : v = ((a3.2.2.2 0) <<< 8) + a3.2.2.2 1) :
    probe_loop s original (channel + 1) dev w data config ext =
      if 0x171 < v ∧ v < 0x1C1 then
        probe_loop s original channel a3.2.1 a3.2.2.1 a3.2.2.2 (patch_config (channel + 1) config)
          (store_range (channel + 1) { ext with ad_multiplier_enabled := 0 } ZERO_TO_TEN)
      else if 0xB8 < v ∧ v < 0xE0 then
        probe_loop s original channel a3.2.1 a3.2.2.1 a3.2.2.2 (patch_config (channel + 1) config)
          (store_range (channel + 1) { ext with ad_multiplier_enabled := 0 } ZERO_TO_FIVE)
      else if 0xE66 < v ∧ v ≤ 0xFFF then
        probe_loop s original channel a3.2.1 a3.2.2.1 a3.2.2.2 (patch_config (channel + 1) config)
          (store_range (channel + 1) { ext with ad_multiplier_enabled := 1 } ZERO_TO_TEN)
      else if 0x737 < v ∧ v < 0x8C7 then
        probe_loop s original channel a3.2.1 a3.2.2.1 a3.2.2.2 (patch_config (channel + 1) config)
          (store_range (channel + 1) { ext with ad_multiplier_enabled := 1 } ZERO_TO_FIVE)
      else
        (ioctl_call a3.2.1 a3.2.2.1 s IOCTL_t.IOCTL_SET_ADDA_CONFIG
          { ioctl := default, adda := original, ext := default }).map
          (fun q => (some (-1), q.2.1, q.2.2.1, a3.2.2.2, ext)) := by
  have hpc : patch_config (channel + 1) config =
      (if channel + 1 = 1 then
        { ({ config with channel_mode := 0, ch_1 := 2, ch_2 := 2 } : adda_config) with
          reference_offset := 4 }
      else if channel + 1 = 2 then
        { ({ config with channel_mode := 0, ch_1 := 2, ch_2 := 2 } : adda_config) with
          reference_offset := 8 }
      else { config with channel_mode := 0, ch_1 := 2, ch_2 := 2 }) := by
    unfold patch_config
    split_ifs <;> rfl
  rw [hpc] at h2
  rw [probe_loop]
  simp only [h1]
  rw [← ha1]
  simp only [h2]
  rw [← hpc]
  simp only [h3]
  rw [← ha3, ← hv, classify_readback_eq]
  split_ifs <;> first
    | rfl
    | (simp only [store_range]; split_ifs <;> rfl)
    | (cases ioctl_call a3.2.1 a3.2.2.1 s IOCTL_t.IOCTL_SET_ADDA_CONFIG
          { ioctl := default, adda := original, ext := default } <;> rfl)

set_option maxRecDepth 1000000 in
/-- C26 as amended, for one round on channel 1 of a serial device on slave 1
that reads back 0x172: the three calls return, the value is 0x172, and the
round is the one the theorem gives. -/
theorem probe_bands_are_open_witness :
    ∃ (r1 r3 : Result) (q2 : Int × seaMaxModule × World × ioctl_data)
      (a1 a3 : Int × seaMaxModule × World × Buf) (v : Nat),
      SeaMaxLinWrite (some rtuSession)
        (deviceSays ([1, 0x06, 0, 0, 1, 0x99, 0, 0] ++ [1, 0x64, 0, 0, 0] ++
          [1, 0x04, 2, 0x01, 0x72, 0, 0]) [8, 5, 7])
        1 seaio_type_t.HOLDINGREG (0 + 1) 1
        (some ((Buf.set (Buf.set (fun _ => 0) 0 0x01) 1 0x99))) = some r1 ∧
      a1 = after_call r1 rtuSession (Buf.set (Buf.set (fun _ => 0) 0 0x01) 1 0x99) ∧
      ioctl_call a1.2.1 a1.2.2.1 1 IOCTL_t.IOCTL_SET_ADDA_CONFIG
        { ioctl := default, adda := patch_config (0 + 1) default, ext := default } = some q2 ∧
      SeaMaxLinRead (some q2.2.1) q2.2.2.1 1 seaio_type_t.INPUTREG (0 + 1) 1
        (some a1.2.2.2) = some r3 ∧
      a3 = after_call r3 q2.2.1 a1.2.2.2 ∧
      v = ((a3.2.2.2 0) <<< 8) + a3.2.2.2 1 ∧
      v = 0x172 ∧
      probe_loop 1 default (0 + 1) rtuSession
        (deviceSays ([1, 0x06, 0, 0, 1, 0x99, 0, 0] ++ [1, 0x64, 0, 0, 0] ++
          [1, 0x04, 2, 0x01, 0x72, 0, 0]) [8, 5, 7])
        (fun _ => 0) default default =
      if 0x171 < v ∧ v < 0x1C1 then
        probe_loop 1 default 0 a3.2.1 a3.2.2.1 a3.2.2.2 (patch_config (0 + 1) default)
          (store_range (0 + 1) { (default : adda_ext_config) with ad_multiplier_enabled := 0 }
            ZERO_TO_TEN)
      else if 0xB8 < v ∧ v < 0xE0 then
        probe_loop 1 default 0 a3.2.1 a3.2.2.1 a3.2.2.2 (patch_config (0 + 1) default)
          (store_range (0 + 1) { (default : adda_ext_config) with ad_multiplier_enabled := 0 }
            ZERO_TO_FIVE)
      else if 0xE66 < v ∧ v ≤ 0xFFF then
        probe_loop 1 default 0 a3.2.1 a3.2.2.1 a3.2.2.2 (patch_config (0 + 1) default)
          (store_range (0 + 1) { (default : adda_ext_config) with ad_multiplier_enabled := 1 }
            ZERO_TO_TEN)
      else if 0x737 < v ∧ v < 0x8C7 then
        probe_loop 1 default 0 a3.2.1 a3.2.2.1 a3.2.2.2 (patch_config (0 + 1) default)
          (store_range (0 + 1) { (default : adda_ext_config) with ad_multiplier_enabled := 1 }
            ZERO_TO_FIVE)
      else
        (ioctl_call a3.2.1 a3.2.2.1 1 IOCTL_t.IOCTL_SET_ADDA_CONFIG
          { ioctl := default, adda := default, ext := default }).map
          (fun q => (some (-1), q.2.1, q.2.2.1, a3.2.2.2, default)) :=
  ⟨_, _, _, _, _, _, rfl, rfl, rfl, rfl, rfl, rfl, by decide,
    probe_bands_are_open 1 default 0 rtuSession
      (deviceSays ([1, 0x06, 0, 0, 1, 0x99, 0, 0] ++ [1, 0x64, 0, 0, 0] ++
        [1, 0x04, 2, 0x01, 0x72, 0, 0]) [8, 5, 7])
      (fun _ => 0) default default _ _ _ _ _ _ rfl rfl rfl rfl rfl rfl⟩

/-- C29: for every device address `d`, register `r`, destination `dest` and
host `m` whose queue has room for 83 more bytes and one more slot, the command
buffer after `I2C_ReadRegister(d, r, dest)` is the command buffer before it
followed by what `I2C_Start`, `I2C_WriteAddress(d, 0)`, `I2C_WriteByte(r)`,
`I2C_Start`, `I2C_WriteAddress(d, 1)`, `I2C_ReadByte` and `I2C_Stop` append in
this order, 83 bytes in all; the two address sequences start with `0x13, 7`
and the byte `(d & 0xFE) | 0`, respectively `(d & 0xFE) | 1`, the register is
shifted out as `0x13, 7, r`; the expected reply count grows by 4; one slot is
added, at the old slot count, holding the new expected count minus 1 and
`dest`; the bytes of the buffer below the old index and the slots below the
old count are as before. -/
theorem read_register_appends (m : Machine) (d r dest : Nat)
    (hroom : m.byteIndex + 83 ≤ 4096) (hslots : m.responseCount < 255) :
    let m1 := I2C_Start m
    let m2 := I2C_WriteAddress m1 d 0
    let m3 := I2C_WriteByte m2 r
    let m4 := I2C_Start m3
    let m5 := I2C_WriteAddress m4 d 1
    let m6 := I2C_ReadByte m5
    let m7 := I2C_Stop m6
    let m8 := I2C_ReadRegister m d r dest
    queue m8 = queue m ++ (appended m m1 ++ appended m1 m2 ++ appended m2 m3 ++
      appended m3 m4 ++ appended m4 m5 ++ appended m5 m6 ++ appended m6 m7) ∧
    (appended m1 m2).take 3 = [0x13, 7, (d &&& 0xFE) ||| 0] ∧
    (appended m4 m5).take 3 = [0x13, 7, (d &&& 0xFE) ||| 1] ∧
    ((appended m2 m3).drop 3).take 3 = [0x13, 7, r % 256] ∧
    m8.byteIndex = m.byteIndex + 83 ∧ m8.byteIndex ≤ 4096 ∧
    m8.bytesToRead = m.bytesToRead + 4 ∧
    m8.responseCount = m.responseCount + 1 ∧ m8.responseCount ≤ 255 ∧
    m8.responseOffsets m.responseCount = m8.bytesToRead - 1 ∧
    m8.variableCallbacks m.responseCount = some dest ∧
    (∀ j, j < m.byteIndex → m8.MPSSECommand j = m.MPSSECommand j) ∧
    (∀ j, j < m.responseCount →
      m8.responseOffsets j = m.responseOffsets j ∧
      m8.variableCallbacks j = m.variableCallbacks j) := by
  dsimp only
  obtain ⟨v, c, h⟩ := read_steps m d r
  obtain ⟨v2, c2, bs, h2, hl⟩ := read_steps_len m d r
  have F := slot_push m _ v c _ dest h
  have G := slot_push m _ v2 c2 bs dest h2
  rw [I2C_ReadRegister_eq]
  refine ⟨?_, ?_, ?_, ?_, ?_, ?_, ?_, ?_, ?_, ?_, ?_, ?_, ?_⟩
  · simpa only [List.nil_append, List.append_assoc] using F.1
  · rw [appended_WriteAddress, address_byte d 0 (by omega)]
    exact take3 _ _ _ _
  · rw [appended_WriteAddress, address_byte d 1 (by omega)]
    exact take3 _ _ _ _
  · rw [appended_WriteByte]
    exact drop3_take3 _ _ _ _ _ _ _
  · rw [G.2.1, hl]
  · rw [G.2.1, hl]
    exact hroom
  · exact G.2.2.1
  · exact G.2.2.2.1
  · rw [G.2.2.2.1]
    omega
  · rw [G.2.2.2.2.1, G.2.2.1]
    exact if_pos rfl
  · rw [G.2.2.2.2.2.1]
    exact if_pos rfl
  · exact G.2.2.2.2.2.2.1
  · intro j hj
    have hne : j ≠ m.responseCount := by omega
    rw [G.2.2.2.2.1, G.2.2.2.2.2.1]
    exact ⟨if_neg hne, if_neg hne⟩

/-- C29 on the host `goodHost`, whose queue is empty, for the call
`I2C_ReadRegister(0xE8, 6, &out[2])`: the address bytes are `0xE8` and `0xE9`,
the buffer holds 83 bytes afterwards, 4 reply bytes are expected, and slot 0
holds the offset 3 and the destination. -/
theorem read_register_appends_witness :
    (goodHost.byteIndex + 83 ≤ 4096 ∧ goodHost.responseCount < 255) ∧
    (appended (I2C_Start goodHost) (I2C_WriteAddress (I2C_Start goodHost) 0xE8 0)).take 3 =
      [0x13, 7, 0xE8] ∧
    (I2C_ReadRegister goodHost 0xE8 6 2).byteIndex = 83 ∧
    (I2C_ReadRegister goodHost 0xE8 6 2).bytesToRead = 4 ∧
    (I2C_ReadRegister goodHost 0xE8 6 2).responseCount = 1 ∧
    (I2C_ReadRegister goodHost 0xE8 6 2).variableCallbacks 0 = some 2 :=
  ⟨⟨by decide, by decide⟩,
   (read_register_appends goodHost 0xE8 6 2 (by decide) (by decide)).2.1,
   (read_register_appends goodHost 0xE8 6 2 (by decide) (by decide)).2.2.2.2.1,
   (read_register_appends goodHost 0xE8 6 2 (by decide) (by decide)).2.2.2.2.2.2.1,
   (read_register_appends goodHost 0xE8 6 2 (by decide) (by decide)).2.2.2.2.2.2.2.1,
   (read_register_appends goodHost 0xE8 6 2 (by decide) (by decide)).2.2.2.2.2.2.2.2.2.2.1⟩

/-- C30: for every batch `ops` of calls of `I2C_ReadRegister` and
`I2C_WriteRegister` queued after `I2C_InitializeQueue`, fitting in the 4096
bytes of the command buffer and the 255 slots, whose reads have pairwise
distinct destinations, and every reply `r` of the expected length (4 bytes for
each read, 3 for each write) that `ftdi_read_data` delivers,
the queue stays inside the command buffer and the slots, and
`I2C_ExecuteQueue` returns and leaves in the destination of each read the byte
`r[3 + e]`, where `e` is the number of reply bytes expected by the calls
queued before this read; memory that is no destination is as before. The same
holds for the calls in any other order `ops2`: each destination then holds the
byte at the offset that the position of its read in `ops2` gives. -/
theorem replies_reach_destinations (in_ : seaMaxModule) (m : Machine) (ops : List Op)
    (mem : Buf) (r : List Nat) (rest : List (List Nat))
    (hsym : m.dlsym in_.libftdi ftdi_symbol.ftdi_read_data = true)
    (hfit : (ops.map command_bytes).sum ≤ 4096)
    (hslots : (destinations ops).length ≤ 255)
    (hdistinct : (destinations ops).Nodup)
    (hreply : m.replies = r :: rest)
    (hlen : r.length = expected_replies ops) :
    (run_ops (I2C_InitializeQueue in_ m) ops).byteIndex ≤ 4096 ∧
    (run_ops (I2C_InitializeQueue in_ m) ops).responseCount ≤ 255 ∧
    (run_ops (I2C_InitializeQueue in_ m) ops).bytesToRead = r.length ∧
    (∃ m1 out,
      I2C_ExecuteQueue in_ (run_ops (I2C_InitializeQueue in_ m) ops) mem = some (m1, out) ∧
      (∀ pre a g dest post, ops = pre ++ Op.read a g dest :: post →
        3 + expected_replies pre < r.length ∧
        out dest = r.getD (3 + expected_replies pre) 0) ∧
      (∀ j, j ∉ destinations ops → out j = mem j)) ∧
    (∀ ops2, ops2.Perm ops →
      ∃ m2 out2,
        I2C_ExecuteQueue in_ (run_ops (I2C_InitializeQueue in_ m) ops2) mem = some (m2, out2) ∧
        (∀ pre a g dest post, ops2 = pre ++ Op.read a g dest :: post →
          3 + expected_replies pre < r.length ∧
          out2 dest = r.getD (3 + expected_replies pre) 0)) := by
  have key : ∀ ops2 : List Op, ops2.Perm ops →
      ∃ m2 out2,
        I2C_ExecuteQueue in_ (run_ops (I2C_InitializeQueue in_ m) ops2) mem = some (m2, out2) ∧
        (∀ pre a g dest post, ops2 = pre ++ Op.read a g dest :: post →
          3 + expected_replies pre < r.length ∧
          out2 dest = r.getD (3 + expected_replies pre) 0) ∧
        (∀ j, j ∉ destinations ops2 → out2 j = mem j) := by
    intro ops2 hp
    have hn : (destinations ops2).Nodup := (perm_destinations ops ops2 hp).nodup_iff.mpr hdistinct
    have hl : r.length = expected_replies ops2 := by rw [hlen, perm_expected ops ops2 hp]
    obtain ⟨out, h1, h2, h3⟩ := execute_batch in_ m ops2 mem hn
    refine ⟨_, out, h1, ?_, h3⟩
    intro pre a g dest post hops
    have hlt : 3 + expected_replies pre < expected_replies ops2 := by
      rw [hops, expected_append]
      show 3 + expected_replies pre < expected_replies pre + 4 + expected_replies post
      omega
    refine ⟨by rw [hl]; exact hlt, ?_⟩
    rw [h2 pre a g dest post hops, received_getD in_ m ops2 _ hlt, bridge_reply, if_pos hsym,
      hreply]
    rfl
  obtain ⟨z1, z2, z3⟩ := batch_sizes in_ m ops
  refine ⟨by rw [z1]; exact hfit, by rw [z2]; exact hslots, by rw [z3, hlen],
    key ops (List.Perm.refl ops), fun ops2 hp => ?_⟩
  obtain ⟨m2, out2, h1, h2, -⟩ := key ops2 hp
  exact ⟨m2, out2, h1, h2⟩

/-- C30 on a batch of a read, a write and a read, with the reply
`10, 11, ..., 20`: the first destination receives the byte at offset 3, the
second the byte at offset 3 + 4 + 3. -/
theorem replies_reach_destinations_witness :
    ((pioHost [[10, 11, 12, 13, 14, 15, 16, 17, 18, 19, 20]]).dlsym pioSession.libftdi
        ftdi_symbol.ftdi_read_data = true ∧
      ([Op.read 0xE8 6 0, Op.write 0xEA 2 0x55, Op.read 0xEA 7 1].map command_bytes).sum ≤ 4096 ∧
      (destinations [Op.read 0xE8 6 0, Op.write 0xEA 2 0x55, Op.read 0xEA 7 1]).length ≤ 255 ∧
      (destinations [Op.read 0xE8 6 0, Op.write 0xEA 2 0x55, Op.read 0xEA 7 1]).Nodup ∧
      [10, 11, 12, 13, 14, 15, 16, 17, 18, 19, 20].length =
        expected_replies [Op.read 0xE8 6 0, Op.write 0xEA 2 0x55, Op.read 0xEA 7 1]) ∧
    ∃ m1 out,
      I2C_ExecuteQueue pioSession
        (run_ops (I2C_InitializeQueue pioSession
          (pioHost [[10, 11, 12, 13, 14, 15, 16, 17, 18, 19, 20]]))
          [Op.read 0xE8 6 0, Op.write 0xEA 2 0x55, Op.read 0xEA 7 1]) (fun _ => 0) =
        some (m1, out) ∧
      out 0 = 13 ∧ out 1 = 20 := by
  refine ⟨⟨rfl, by decide, by decide, by decide, by decide⟩, ?_⟩
  obtain ⟨m1, out, h1, h2, -⟩ :=
    (replies_reach_destinations pioSession
      (pioHost [[10, 11, 12, 13, 14, 15, 16, 17, 18, 19, 20]])
      [Op.read 0xE8 6 0, Op.write 0xEA 2 0x55, Op.read 0xEA 7 1] (fun _ => 0)
      [10, 11, 12, 13, 14, 15, 16, 17, 18, 19, 20] [] rfl (by decide) (by decide) (by decide)
      rfl (by decide)).2.2.2.1
  exact ⟨m1, out, h1,
    (h2 [] 0xE8 6 0 [Op.write 0xEA 2 0x55, Op.read 0xEA 7 1] rfl).2,
    (h2 [Op.read 0xE8 6 0, Op.write 0xEA 2 0x55] 0xEA 7 1 [] rfl).2⟩

/-- C27 fails on the session of an open 8126 and the reply `pioReply`:
`SeaDacGetPIO` returns 4, the command buffer it writes holds 12 times 83
bytes, not the 4 times 83 bytes of four read sequences, 12 slots are recorded
and 48 reply bytes are asked for, and `out[0]` is `0x5A`, a byte that occurs
nowhere in the reply. -/
theorem get_pio_queues_twelve_reads :
    ∃ m1 out,
      SeaDacGetPIO pioSession (pioHost [pioReply]) (fun _ => 0) = some (4, m1, out) ∧
      m1.trace =
        [Call.ftdi ftdi_symbol.ftdi_usb_purge_buffers [],
         Call.ftdi ftdi_symbol.ftdi_write_data
           (queue (run_ops (I2C_InitializeQueue pioSession (pioHost [pioReply])) getpio_ops)),
         Call.ftdi ftdi_symbol.ftdi_read_data [48]] ∧
      (queue (run_ops (I2C_InitializeQueue pioSession (pioHost [pioReply])) getpio_ops)).length =
        12 * 83 ∧
      (queue (run_ops (I2C_InitializeQueue pioSession (pioHost [pioReply])) getdir_ops)).length =
        4 * 83 ∧
      (run_ops (I2C_InitializeQueue pioSession (pioHost [pioReply])) getpio_ops).responseCount =
        12 ∧
      out 0 = 0x5A ∧ 0x5A ∉ pioReply := by
  obtain ⟨out, h1, h2, -⟩ := getPIO_eq pioSession (pioHost [pioReply]) (fun _ => 0) rfl rfl
  refine ⟨_, out, h1, ?_, ?_, ?_, ?_, (h2 0 (by decide)).trans (by decide), by decide⟩
  · rw [trace_batch]
    rfl
  · rw [queue_batch_length]
    rfl
  · rw [queue_batch_length]
    rfl
  · rw [(batch_sizes pioSession (pioHost [pioReply]) getpio_ops).2.1]
    rfl

/-- C27 as amended: on every session in USB mode with device type `0x8126`
and every host with the three symbols present and a reply `r` waiting,
`SeaDacGetPIO` returns 4 and hands to `ftdi_write_data` the command buffer
that the twelve calls `I2C_ReadRegister` of `getpio_ops` build on an
initialised queue (devices `0xE8` and `0xEA`, registers 6, 7, then 0, 1, then
2, 3), 12 times 83 bytes, asks for 48 reply bytes, and sets `out[k]`,
`k < 4`, to `(r[19 + 4k] & r[3 + 4k]) | (r[35 + 4k] & ~r[3 + 4k])`, leaving
the other bytes of `out` alone. The buffer of four read sequences against
`0xE8` (registers 6, 7) and `0xEA` (registers 6, 7), with `out[k] = r[3 + 4k]`
and 16 reply bytes asked for, is that of `SeaDacGetPIODirection`, which
returns 0. -/
theorem get_pio_merges_three_banks (in_ : seaMaxModule) (m : Machine) (data : Buf)
    (r : List Nat) (rest : List (List Nat))
    (hmode : in_.commMode = seaio_mode_t.FTDI_DIRECT) (htype : in_.deviceType = 0x8126)
    (hpurge : m.dlsym in_.libftdi ftdi_symbol.ftdi_usb_purge_buffers = true)
    (hwrite : m.dlsym in_.libftdi ftdi_symbol.ftdi_write_data = true)
    (hread : m.dlsym in_.libftdi ftdi_symbol.ftdi_read_data = true)
    (hreply : m.replies = r :: rest) :
    (∃ m1 out,
      SeaDacGetPIO in_ m data = some (4, m1, out) ∧
      m1.trace = m.trace ++
        [Call.ftdi ftdi_symbol.ftdi_usb_purge_buffers [],
         Call.ftdi ftdi_symbol.ftdi_write_data
           (queue (run_ops (I2C_InitializeQueue in_ m) getpio_ops)),
         Call.ftdi ftdi_symbol.ftdi_read_data [48]] ∧
      (queue (run_ops (I2C_InitializeQueue in_ m) getpio_ops)).length = 12 * 83 ∧
      (∀ k, k < 4 → out k =
        (r.getD (19 + 4 * k) 0 &&& r.getD (3 + 4 * k) 0) |||
        (r.getD (35 + 4 * k) 0 &&& (0xFF - r.getD (3 + 4 * k) 0))) ∧
      (∀ j, 4 ≤ j → out j = data j)) ∧
    (∃ m2 out2,
      SeaDacGetPIODirection in_ m data = some (0, m2, out2) ∧
      m2.trace = m.trace ++
        [Call.ftdi ftdi_symbol.ftdi_usb_purge_buffers [],
         Call.ftdi ftdi_symbol.ftdi_write_data
           (queue (run_ops (I2C_InitializeQueue in_ m) getdir_ops)),
         Call.ftdi ftdi_symbol.ftdi_read_data [16]] ∧
      (queue (run_ops (I2C_InitializeQueue in_ m) getdir_ops)).length = 4 * 83 ∧
      (∀ k, k < 4 → out2 k = r.getD (3 + 4 * k) 0) ∧
      (∀ j, 4 ≤ j → out2 j = data j)) := by
  have hb : bridge_reply in_ m = r := by
    rw [bridge_reply, if_pos hread, hreply]
    rfl
  obtain ⟨out, h1, h2, h3⟩ := getPIO_eq in_ m data hmode htype
  obtain ⟨out2, k1, k2, k3⟩ := getPIODirection_eq in_ m data hmode htype
  rw [hb] at h2 k2
  refine ⟨⟨_, out, h1, ?_, ?_, h2, h3⟩, ⟨_, out2, k1, ?_, ?_, k2, k3⟩⟩
  · rw [trace_batch, if_pos hpurge, if_pos hwrite, if_pos hread, List.append_assoc,
      List.append_assoc]
    rfl
  · rw [queue_batch_length]
    rfl
  · rw [trace_batch, if_pos hpurge, if_pos hwrite, if_pos hread, List.append_assoc,
      List.append_assoc]
    rfl
  · rw [queue_batch_length]
    rfl

/-- C27 as amended, on the session of an open 8126 and the reply
`1, 2, ..., 48`: `SeaDacGetPIO` returns 4 with `out = 36, 40, 44, 32`, and
`SeaDacGetPIODirection` returns 0 with `out = 4, 8, 12, 16`. -/
theorem get_pio_merges_three_banks_witness :
    (pioSession.commMode = seaio_mode_t.FTDI_DIRECT ∧ pioSession.deviceType = 0x8126 ∧
      (pioHost [List.range' 1 48]).dlsym pioSession.libftdi
        ftdi_symbol.ftdi_usb_purge_buffers = true ∧
      (pioHost [List.range' 1 48]).dlsym pioSession.libftdi ftdi_symbol.ftdi_write_data = true ∧
      (pioHost [List.range' 1 48]).dlsym pioSession.libftdi ftdi_symbol.ftdi_read_data = true ∧
      (pioHost [List.range' 1 48]).replies = [List.range' 1 48]) ∧
    (∃ m1 out,
      SeaDacGetPIO pioSession (pioHost [List.range' 1 48]) (fun _ => 0) = some (4, m1, out) ∧
      out 0 = 36 ∧ out 1 = 40 ∧ out 2 = 44 ∧ out 3 = 32) ∧
    (∃ m2 out2,
      SeaDacGetPIODirection pioSession (pioHost [List.range' 1 48]) (fun _ => 0) =
        some (0, m2, out2) ∧
      out2 0 = 4 ∧ out2 1 = 8 ∧ out2 2 = 12 ∧ out2 3 = 16) := by
  refine ⟨⟨rfl, rfl, rfl, rfl, rfl, rfl⟩, ?_, ?_⟩
  · obtain ⟨m1, out, h1, -, -, h4, -⟩ :=
      (get_pio_merges_three_banks pioSession (pioHost [List.range' 1 48]) (fun _ => 0)
        (List.range' 1 48) [] rfl rfl rfl rfl rfl rfl).1
    exact ⟨m1, out, h1, (h4 0 (by decide)).trans (by decide),
      (h4 1 (by decide)).trans (by decide), (h4 2 (by decide)).trans (by decide),
      (h4 3 (by decide)).trans (by decide)⟩
  · obtain ⟨m2, out2, h1, -, -, h4, -⟩ :=
      (get_pio_merges_three_banks pioSession (pioHost [List.range' 1 48]) (fun _ => 0)
        (List.range' 1 48) [] rfl rfl rfl rfl rfl rfl).2
    exact ⟨m2, out2, h1, (h4 0 (by decide)).trans (by decide),
      (h4 1 (by decide)).trans (by decide), (h4 2 (by decide)).trans (by decide),
      (h4 3 (by decide)).trans (by decide)⟩

/-- C28 fails when the bridge delivers 5 of the 16 reply bytes asked for:
`SeaDacGetPIODirection` returns 0, not an error, and stores `out[0] = 4` from
the short reply and zeros from the cleared buffer in `out[1..3]`. -/
theorem short_reply_returns_zero :
    [1, 2, 3, 4, 5].length < 16 ∧
    ∃ m1 out,
      SeaDacGetPIODirection pioSession (pioHost [[1, 2, 3, 4, 5]]) (fun _ => 0xEE) =
        some (0, m1, out) ∧
      m1.trace =
        [Call.ftdi ftdi_symbol.ftdi_usb_purge_buffers [],
         Call.ftdi ftdi_symbol.ftdi_write_data
           (queue (run_ops (I2C_InitializeQueue pioSession (pioHost [[1, 2, 3, 4, 5]]))
             getdir_ops)),
         Call.ftdi ftdi_symbol.ftdi_read_data [16]] ∧
      out 0 = 4 ∧ out 1 = 0 ∧ out 2 = 0 ∧ out 3 = 0 := by
  obtain ⟨out, h1, h2, -⟩ :=
    getPIODirection_eq pioSession (pioHost [[1, 2, 3, 4, 5]]) (fun _ => 0xEE) rfl rfl
  refine ⟨by decide, _, out, h1, ?_, (h2 0 (by decide)).trans (by decide),
    (h2 1 (by decide)).trans (by decide), (h2 2 (by decide)).trans (by decide),
    (h2 3 (by decide)).trans (by decide)⟩
  rw [trace_batch]
  rfl

/-- C28 as amended: on every session in USB mode with device type `0x8126`,
for every host, whatever the bridge delivers, the four operations return and
report success: `SeaDacSetPIO`, `SeaDacSetPIODirection` and
`SeaDacGetPIODirection` return 0 and `SeaDacGetPIO` returns 4. The bytes
stored are taken from the reply `bridge_reply` as far as it goes and are 0
where it ends: `out[k] = r[3 + 4k]` for the directions, and
`(r[19 + 4k] & r[3 + 4k]) | (r[35 + 4k] & ~r[3 + 4k])` for `SeaDacGetPIO`. -/
theorem usb_operations_ignore_reply_length (in_ : seaMaxModule) (m : Machine) (data : Buf)
    (hmode : in_.commMode = seaio_mode_t.FTDI_DIRECT) (htype : in_.deviceType = 0x8126) :
    (∃ m1, SeaDacSetPIO in_ m data = some (0, m1)) ∧
    (∃ m1, SeaDacSetPIODirection in_ m data = some (0, m1)) ∧
    (∃ m1 out,
      SeaDacGetPIODirection in_ m data = some (0, m1, out) ∧
      ∀ k, k < 4 → out k = (bridge_reply in_ m).getD (3 + 4 * k) 0) ∧
    (∃ m1 out,
      SeaDacGetPIO in_ m data = some (4, m1, out) ∧
      ∀ k, k < 4 → out k =
        ((bridge_reply in_ m).getD (19 + 4 * k) 0 &&& (bridge_reply in_ m).getD (3 + 4 * k) 0) |||
        ((bridge_reply in_ m).getD (35 + 4 * k) 0 &&&
          (0xFF - (bridge_reply in_ m).getD (3 + 4 * k) 0))) := by
  obtain ⟨out, h1, h2, -⟩ := getPIO_eq in_ m data hmode htype
  obtain ⟨out2, k1, k2, -⟩ := getPIODirection_eq in_ m data hmode htype
  exact ⟨setPIO_eq in_ m data hmode htype, setPIODirection_eq in_ m data hmode htype,
    ⟨_, out2, k1, k2⟩, ⟨_, out, h1, h2⟩⟩

/-- C28 as amended, on the session of an open 8126 with nothing at all
delivered by the bridge: the four operations report success, and both reads
store zeros. -/
theorem usb_operations_ignore_reply_length_witness :
    (pioSession.commMode = seaio_mode_t.FTDI_DIRECT ∧ pioSession.deviceType = 0x8126) ∧
    (∃ m1, SeaDacSetPIO pioSession (pioHost []) (fun _ => 0xEE) = some (0, m1)) ∧
    (∃ m1, SeaDacSetPIODirection pioSession (pioHost []) (fun _ => 0xEE) = some (0, m1)) ∧
    (∃ m1 out,
      SeaDacGetPIODirection pioSession (pioHost []) (fun _ => 0xEE) = some (0, m1, out) ∧
      out 0 = 0 ∧ out 3 = 0) ∧
    (∃ m1 out,
      SeaDacGetPIO pioSession (pioHost []) (fun _ => 0xEE) = some (4, m1, out) ∧
      out 0 = 0 ∧ out 3 = 0) := by
  obtain ⟨s1, s2, ⟨m1, out, h1, h2⟩, ⟨m2, out2, k1, k2⟩⟩ :=
    usb_operations_ignore_reply_length pioSession (pioHost []) (fun _ => 0xEE) rfl rfl
  exact ⟨⟨rfl, rfl⟩, s1, s2,
    ⟨m1, out, h1, (h2 0 (by decide)).trans (by decide), (h2 3 (by decide)).trans (by decide)⟩,
    ⟨m2, out2, k1, (k2 0 (by decide)).trans (by decide), (k2 3 (by decide)).trans (by decide)⟩⟩

/-- C31: for every host `m` whose queue has room for six more bytes and all
masks `d`, `s` below 256, `I2C_SetGPIO(d, s)` appends to the command buffer
exactly `0x80, V, D, 0x82, s >> 4, d >> 4` with
`V = (value & 0x0F) | ((s << 4) & 0xF0)` and
`D = (direction & 0x0F) | ((d << 4) & 0xF0)`, leaves the chip state `(V, D)`,
whose low nibbles are those of the chip state before, and changes neither the
bytes queued before nor the reply count and the slots. -/
theorem set_gpio_appends_two_pairs (m : Machine) (d s : Nat)
    (hroom : m.byteIndex + 6 ≤ 4096) (hd : d < 256) (hs : s < 256) :
    queue ( I2C_SetGPIO m d s) = queue m ++
      [0x80, (m.i2cMPSSEValue &&& 0x0F) ||| ((s <<< 4) &&& 0xF0),
       (m.i2cMPSSEDirection &&& 0x0F) ||| ((d <<< 4) &&& 0xF0), 0x82, s >>> 4, d >>> 4] ∧
    ( I2C_SetGPIO m d s).i2cMPSSEValue = (m.i2cMPSSEValue &&& 0x0F) ||| ((s <<< 4) &&& 0xF0) ∧
    ( I2C_SetGPIO m d s).i2cMPSSEDirection =
      (m.i2cMPSSEDirection &&& 0x0F) ||| ((d <<< 4) &&& 0xF0) ∧
    ( I2C_SetGPIO m d s).i2cMPSSEValue &&& 0x0F = m.i2cMPSSEValue &&& 0x0F ∧
    ( I2C_SetGPIO m d s).i2cMPSSEDirection &&& 0x0F = m.i2cMPSSEDirection &&& 0x0F ∧
    ( I2C_SetGPIO m d s).byteIndex = m.byteIndex + 6 ∧
    ( I2C_SetGPIO m d s).byteIndex ≤ 4096 ∧
    (∀ j, j < m.byteIndex → ( I2C_SetGPIO m d s).MPSSECommand j = m.MPSSECommand j) ∧
    ( I2C_SetGPIO m d s).bytesToRead = m.bytesToRead ∧
    ( I2C_SetGPIO m d s).responseCount = m.responseCount := by
  have hle : ∀ x : Nat, x >>> 4 ≤ x := fun x => by
    rw [Nat.shiftRight_eq_div_pow]; exact Nat.div_le_self _ _
  have hs4 : (s >>> 4) % 256 = s >>> 4 := Nat.mod_eq_of_lt (lt_of_le_of_lt (hle s) hs)
  have hd4 : (d >>> 4) % 256 = d >>> 4 := Nat.mod_eq_of_lt (lt_of_le_of_lt (hle d) hd)
  rw [ I2C_SetGPIO_eq, nibble_merge, nibble_merge, hs4, hd4]
  refine ⟨?_, rfl, rfl, nibble_low _ _, nibble_low _ _, rfl, hroom, ?_, rfl, rfl⟩
  · rw [queue_push, pins, Nat.mod_eq_of_lt (nibble_lt _ _), Nat.mod_eq_of_lt (nibble_lt _ _)]
    rfl
  · intro j hj
    exact push_MPSSECommand_lt (chip m _ _) _ j hj

/-- C31 on the chip state `(0x03, 0xF3)` that `I2C_InitializeI2C` leaves, with
the masks of `SeaDacSetPIODirection` for four input banks: the six bytes are
`0x80, 0xF3, 0xF3, 0x82, 0x0F, 0x0F`. -/
theorem set_gpio_appends_two_pairs_witness :
    ((pioHost []).byteIndex + 6 ≤ 4096 ∧ 0xFF < 256) ∧
    queue ( I2C_SetGPIO (pioHost []) 0xFF 0xFF) =
      queue (pioHost []) ++ [0x80, 0xF3, 0xF3, 0x82, 0x0F, 0x0F] ∧
    ( I2C_SetGPIO (pioHost []) 0xFF 0xFF).i2cMPSSEValue = 0xF3 :=
  ⟨⟨by decide, by decide⟩,
   (set_gpio_appends_two_pairs (pioHost []) 0xFF 0xFF (by decide) (by decide) (by decide)).1,
   (set_gpio_appends_two_pairs (pioHost []) 0xFF 0xFF (by decide) (by decide) (by decide)).2.1⟩

/-- C37: for every host whose chip state bytes are below 256 and all
arguments, each of `I2C_Start`, `I2C_Stop`, `I2C_WriteAddress`,
`I2C_WriteByte` and `I2C_ReadByte` leaves the bits 2..7 of `i2cMPSSEValue` and
of `i2cMPSSEDirection` as they were (the bytes masked with `0xFC` are equal)
and keeps both below 256; after `I2C_Stop` the bits 0 and 1 of the direction
are clear and those of the value are set. -/
theorem primitives_touch_two_lines (m : Machine) (a rw b : Nat)
    (hv : m.i2cMPSSEValue < 256) (hd : m.i2cMPSSEDirection < 256) :
    ((I2C_Start m).i2cMPSSEValue &&& 0xFC = m.i2cMPSSEValue &&& 0xFC ∧
      (I2C_Start m).i2cMPSSEDirection &&& 0xFC = m.i2cMPSSEDirection &&& 0xFC ∧
      (I2C_Start m).i2cMPSSEValue < 256 ∧ (I2C_Start m).i2cMPSSEDirection < 256) ∧
    ((I2C_Stop m).i2cMPSSEValue &&& 0xFC = m.i2cMPSSEValue &&& 0xFC ∧
      (I2C_Stop m).i2cMPSSEDirection &&& 0xFC = m.i2cMPSSEDirection &&& 0xFC ∧
      (I2C_Stop m).i2cMPSSEValue < 256 ∧ (I2C_Stop m).i2cMPSSEDirection < 256 ∧
      (I2C_Stop m).i2cMPSSEDirection &&& 0x03 = 0 ∧
      (I2C_Stop m).i2cMPSSEValue &&& 0x03 = 0x03) ∧
    ((I2C_WriteAddress m a rw).i2cMPSSEValue &&& 0xFC = m.i2cMPSSEValue &&& 0xFC ∧
      (I2C_WriteAddress m a rw).i2cMPSSEDirection &&& 0xFC = m.i2cMPSSEDirection &&& 0xFC ∧
      (I2C_WriteAddress m a rw).i2cMPSSEValue < 256 ∧
      (I2C_WriteAddress m a rw).i2cMPSSEDirection < 256) ∧
    ((I2C_WriteByte m b).i2cMPSSEValue &&& 0xFC = m.i2cMPSSEValue &&& 0xFC ∧
      (I2C_WriteByte m b).i2cMPSSEDirection &&& 0xFC = m.i2cMPSSEDirection &&& 0xFC ∧
      (I2C_WriteByte m b).i2cMPSSEValue < 256 ∧ (I2C_WriteByte m b).i2cMPSSEDirection < 256) ∧
    ((I2C_ReadByte m).i2cMPSSEValue &&& 0xFC = m.i2cMPSSEValue &&& 0xFC ∧
      (I2C_ReadByte m).i2cMPSSEDirection &&& 0xFC = m.i2cMPSSEDirection &&& 0xFC ∧
      (I2C_ReadByte m).i2cMPSSEValue < 256 ∧ (I2C_ReadByte m).i2cMPSSEDirection < 256) := by
  obtain ⟨s1, s2⟩ := start_value_bits _ hv
  obtain ⟨s3, s4⟩ := start_direction_bits _ hd
  obtain ⟨p1, p2, p3⟩ := stop_value_bits _ hv
  obtain ⟨p4, p5, p6⟩ := stop_direction_bits _ hd
  obtain ⟨k1, k2⟩ := ack_value_bits _ hv
  obtain ⟨⟨k3, k4⟩, ⟨k5, k6⟩⟩ := ack_direction_bits _ hd
  rw [I2C_Start_eq, I2C_Stop_eq, I2C_WriteAddress_eq, I2C_WriteByte_eq, I2C_ReadByte_eq]
  exact ⟨⟨s1, s3, s2, s4⟩, ⟨p1, p4, p2, p5, p6, p3⟩, ⟨k1, k3, k2, k4⟩,
    ⟨k1, k5, k2, k6⟩, ⟨k1, k3, k2, k4⟩⟩

/-- C37 on the chip state `(0xA7, 0x5B)`: `I2C_Stop` leaves `(0xA7, 0x58)`,
the bits 2..7 of both bytes as before. -/
theorem primitives_touch_two_lines_witness :
    ((chip goodHost 0xA7 0x5B).i2cMPSSEValue < 256 ∧
      (chip goodHost 0xA7 0x5B).i2cMPSSEDirection < 256) ∧
    (I2C_Stop (chip goodHost 0xA7 0x5B)).i2cMPSSEValue &&& 0xFC = 0xA4 ∧
    (I2C_Stop (chip goodHost 0xA7 0x5B)).i2cMPSSEDirection &&& 0xFC = 0x58 ∧
    (I2C_Stop (chip goodHost 0xA7 0x5B)).i2cMPSSEDirection &&& 0x03 = 0 ∧
    (I2C_Stop (chip goodHost 0xA7 0x5B)).i2cMPSSEValue &&& 0x03 = 0x03 :=
  ⟨⟨by decide, by decide⟩,
   (primitives_touch_two_lines (chip goodHost 0xA7 0x5B) 0 0 0 (by decide) (by decide)).2.1.1,
   (primitives_touch_two_lines (chip goodHost 0xA7 0x5B) 0 0 0 (by decide) (by decide)).2.1.2.1,
   (primitives_touch_two_lines (chip goodHost 0xA7 0x5B) 0 0 0 (by decide)
     (by decide)).2.1.2.2.2.2.1,
   (primitives_touch_two_lines (chip goodHost 0xA7 0x5B) 0 0 0 (by decide)
     (by decide)).2.1.2.2.2.2.2⟩

/-- C33: for every byte sequence `B`, empty or not, held in `data[0..n)`, the
loop of `calc_crc` run over the `n + 2` bytes that `calc_crc(n, data)` leaves,
`B` followed by the two CRC bytes with the low byte first, ends with the
value 0: a second `calc_crc` over these `n + 2` bytes appends two zero bytes.
The same holds for the reference CRC-16. -/
theorem crc_over_frame_and_crc_is_zero (B : List Nat) (data : Buf)
    (hB : ∀ b ∈ B, b < 256) (hdata : data.toList B.length = B) :
    (calc_crc B.length data).toList (B.length + 2) =
      B ++ [crc_bytes data B.length 0 0xFFFF % 256, crc_bytes data B.length 0 0xFFFF / 256] ∧
    crc_bytes (calc_crc B.length data) (B.length + 2) 0 0xFFFF = 0 ∧
    calc_crc (B.length + 2) (calc_crc B.length data) (B.length + 2) = 0 ∧
    calc_crc (B.length + 2) (calc_crc B.length data) (B.length + 2 + 1) = 0 ∧
    crc16 (B ++ [crc16 B % 256, crc16 B / 256]) = 0 := by
  have hd : ∀ j, j < B.length → data j < 256 := by
    intro j hj
    apply hB
    rw [← hdata]
    simp only [Buf.toList, List.mem_map, List.mem_range]
    exact ⟨j, hj, rfl⟩
  have hl : (calc_crc B.length data).toList (B.length + 2) =
      B ++ [crc16 B % 256, crc16 B / 256] := by
    rw [calc_crc_toList data B.length (by rw [hdata]; exact hB), hdata]
  have hlt : crc16 B < 65536 := crc16_lt B hB
  have hd1 : ∀ j, j < B.length + 2 → calc_crc B.length data j < 256 := by
    intro j hj
    have hmem : calc_crc B.length data j ∈ (calc_crc B.length data).toList (B.length + 2) := by
      simp only [Buf.toList, List.mem_map, List.mem_range]
      exact ⟨j, hj, rfl⟩
    rw [hl] at hmem
    simp only [List.mem_append, List.mem_cons, List.mem_singleton, List.not_mem_nil,
      or_false] at hmem
    rcases hmem with h | h | h
    · exact hB _ h
    · rw [h]; omega
    · rw [h]; omega
  have hz : crc_bytes (calc_crc B.length data) (B.length + 2) 0 0xFFFF = 0 := by
    rw [crc_bytes_reference _ _ hd1, hl]
    exact crc16_residue B
  have hr : crc16 ((calc_crc B.length data).toList (B.length + 2)) = 0 := by
    rw [hl]
    exact crc16_residue B
  refine ⟨?_, hz, ?_, ?_, crc16_residue B⟩
  · rw [hl, crc_bytes_reference data B.length hd, hdata]
  · rw [calc_crc_eq _ _ hd1, hr, Buf.set_other _ _ _ _ (by omega), Buf.set_same]
  · rw [calc_crc_eq _ _ hd1, hr, Buf.set_same]

/-- C33 on the six bytes `05 01 00 00 00 04`, whose CRC bytes are `3C 4D`:
the loop of `calc_crc` over the eight bytes ends with 0. -/
theorem crc_over_frame_and_crc_is_zero_witness :
    ((∀ b ∈ [5, 1, 0, 0, 0, 4], b < 256) ∧
      (Buf.ofList [5, 1, 0, 0, 0, 4]).toList [5, 1, 0, 0, 0, 4].length = [5, 1, 0, 0, 0, 4]) ∧
    crc_bytes (calc_crc 6 (Buf.ofList [5, 1, 0, 0, 0, 4])) 8 0 0xFFFF = 0 ∧
    calc_crc 8 (calc_crc 6 (Buf.ofList [5, 1, 0, 0, 0, 4])) 8 = 0 ∧
    calc_crc 8 (calc_crc 6 (Buf.ofList [5, 1, 0, 0, 0, 4])) 9 = 0 :=
  ⟨⟨by decide, by decide⟩,
   (crc_over_frame_and_crc_is_zero [5, 1, 0, 0, 0, 4] (Buf.ofList [5, 1, 0, 0, 0, 4])
     (by decide) (by decide)).2.1,
   (crc_over_frame_and_crc_is_zero [5, 1, 0, 0, 0, 4] (Buf.ofList [5, 1, 0, 0, 0, 4])
     (by decide) (by decide)).2.2.1,
   (crc_over_frame_and_crc_is_zero [5, 1, 0, 0, 0, 4] (Buf.ofList [5, 1, 0, 0, 0, 4])
     (by decide) (by decide)).2.2.2.1⟩

/-- C34: packing (lines 861-878) and unpacking (lines 933-950) of the A/D
configuration are inverse to each other. For every configuration `c` with
reference offset and mode at most 15 and every channel code at most 3,
unpacking the buffer that `adda_pack` has filled returns `c`; for every buffer
`b` whose bytes 0..4 are bytes, packing the configuration unpacked from `b`
stores `b[0..5)` again; packing touches no byte from index 5 on. Byte 0 is
`16 * reference_offset + channel_mode`, and byte `1 + k` is
`64 * ch(4k+1) + 16 * ch(4k+2) + 4 * ch(4k+3) + ch(4k+4)`. -/
theorem adda_pack_unpack_inverse (c : adda_config) (buffer b : Buf)
    (hc : adda_in_range c) (hb : ∀ j, j < 5 → b j < 256) :
    adda_unpack (adda_pack c buffer) = c ∧
    (∀ j, j < 5 → adda_pack (adda_unpack b) buffer j = b j) ∧
    (∀ j, 5 ≤ j → adda_pack c buffer j = buffer j) ∧
    adda_pack c buffer 0 = c.reference_offset * 16 + c.channel_mode ∧
    adda_pack c buffer 1 = c.ch_1 * 64 + c.ch_2 * 16 + c.ch_3 * 4 + c.ch_4 ∧
    adda_pack c buffer 2 = c.ch_5 * 64 + c.ch_6 * 16 + c.ch_7 * 4 + c.ch_8 ∧
    adda_pack c buffer 3 = c.ch_9 * 64 + c.ch_10 * 16 + c.ch_11 * 4 + c.ch_12 ∧
    adda_pack c buffer 4 = c.ch_13 * 64 + c.ch_14 * 16 + c.ch_15 * 4 + c.ch_16 := by
  obtain ⟨r0, r1, c1, c2, c3, c4, c5, c6, c7, c8, c9, c10, c11, c12, c13, c14, c15, c16⟩ := hc
  obtain ⟨p0, p1, p2, p3, p4, p5⟩ := adda_pack_bytes c buffer
  obtain ⟨h1, h2, h3⟩ :=
    pack_head_unpack c.reference_offset (by omega) c.channel_mode (by omega)
  obtain ⟨a1, a2, a3, a4, a5⟩ :=
    pack_quad_unpack c.ch_1 c.ch_2 c.ch_3 c.ch_4 (by omega) (by omega) (by omega) (by omega)
  obtain ⟨b1, b2, b3, b4, b5⟩ :=
    pack_quad_unpack c.ch_5 c.ch_6 c.ch_7 c.ch_8 (by omega) (by omega) (by omega) (by omega)
  obtain ⟨d1, d2, d3, d4, d5⟩ :=
    pack_quad_unpack c.ch_9 c.ch_10 c.ch_11 c.ch_12 (by omega) (by omega) (by omega) (by omega)
  obtain ⟨e1, e2, e3, e4, e5⟩ :=
    pack_quad_unpack c.ch_13 c.ch_14 c.ch_15 c.ch_16 (by omega) (by omega) (by omega) (by omega)
  refine ⟨?_, ?_, p5, p0.trans h3, p1.trans a5, p2.trans b5, p3.trans d5, p4.trans e5⟩
  · unfold adda_unpack
    rw [p0, p1, p2, p3, p4, h1, h2, a1, a2, a3, a4, b1, b2, b3, b4, d1, d2, d3, d4,
      e1, e2, e3, e4]
  · intro j hj
    obtain ⟨q0, q1, q2, q3, q4, -⟩ := adda_pack_bytes (adda_unpack b) buffer
    have g0 := unpack_pack_head (b 0) (hb 0 (by omega))
    have g1 := unpack_pack_quad (b 1) (hb 1 (by omega))
    have g2 := unpack_pack_quad (b 2) (hb 2 (by omega))
    have g3 := unpack_pack_quad (b 3) (hb 3 (by omega))
    have g4 := unpack_pack_quad (b 4) (hb 4 (by omega))
    interval_cases j
    · exact q0.trans g0
    · exact q1.trans g1
    · exact q2.trans g2
    · exact q3.trans g3
    · exact q4.trans g4

/-- C34 at a concrete input: the configuration with reference offset 4,
mode 1, channel codes 3, 0, 0, 2 for the first four channels and 1 for the
last, and the five bytes `41 C2 00 00 01`, found above a buffer of `EE`. -/
theorem adda_pack_unpack_inverse_witness :
    adda_unpack (adda_pack
      { reference_offset := 4, channel_mode := 1, ch_1 := 3, ch_2 := 0, ch_3 := 0, ch_4 := 2,
        ch_5 := 0, ch_6 := 0, ch_7 := 0, ch_8 := 0, ch_9 := 0, ch_10 := 0, ch_11 := 0,
        ch_12 := 0, ch_13 := 0, ch_14 := 0, ch_15 := 0, ch_16 := 1 } (fun _ => 0xEE)) =
      { reference_offset := 4, channel_mode := 1, ch_1 := 3, ch_2 := 0, ch_3 := 0, ch_4 := 2,
        ch_5 := 0, ch_6 := 0, ch_7 := 0, ch_8 := 0, ch_9 := 0, ch_10 := 0, ch_11 := 0,
        ch_12 := 0, ch_13 := 0, ch_14 := 0, ch_15 := 0, ch_16 := 1 } ∧
    (adda_pack (adda_unpack (Buf.ofList [0x41, 0xC2, 0, 0, 1])) (fun _ => 0xEE)).toList 6 =
      [0x41, 0xC2, 0, 0, 1, 0xEE] ∧
    (adda_pack
      { reference_offset := 4, channel_mode := 1, ch_1 := 3, ch_2 := 0, ch_3 := 0, ch_4 := 2,
        ch_5 := 0, ch_6 := 0, ch_7 := 0, ch_8 := 0, ch_9 := 0, ch_10 := 0, ch_11 := 0,
        ch_12 := 0, ch_13 := 0, ch_14 := 0, ch_15 := 0, ch_16 := 1 } (fun _ => 0xEE)).toList 6 =
      [0x41, 0xC2, 0, 0, 1, 0xEE] :=
  ⟨(adda_pack_unpack_inverse _ (fun _ => 0xEE) (Buf.ofList [0x41, 0xC2, 0, 0, 1])
      (by unfold adda_in_range; decide) (by decide)).1, by decide, by decide⟩

set_option maxRecDepth 100000 in
/-- C35: for every session, environment, slave, function code, start,
quantity and payload, every index at which `makeRequest` stores into its
array `buff[256]` is below 256: the header, slave, function code, start,
quantity and byte count lie below 13, the payload loop stores at indices below
255 (it returns `-EINVAL` once `length` is 255), and `calc_crc` stores at
`length` and `length + 1` with `length` below 255. The list of indices is
complete: `build_frame`, `data_loop` and `calc_crc` change the buffer at no
other index. A write of 123 registers on a serial session stores at the
indices 0..254 exactly. -/
theorem makeRequest_stores_below_256 (in_ : seaMaxModule) (w : World)
    (slaveId funct start quan : Nat) (data : Option Buf) :
    (∀ idx ∈ makeRequest_writes in_ w slaveId funct start quan data, idx < 256) ∧
    (∀ tcp temp stack j, j ∉ build_frame_writes tcp funct quan →
      (build_frame tcp temp stack slaveId funct start quan).buff j = stack j) ∧
    (∀ d k i buff length b L, data_loop d k i buff length = some (b, L) →
      ∀ j, j ∉ data_loop_writes k length → b j = buff j) ∧
    (∀ n buf j, j ≠ n → j ≠ n + 1 → calc_crc n buf j = buf j) ∧
    makeRequest_writes rtuSession (deviceSays [] []) 1 0x10 0 123 (some (fun _ => 0xAB)) =
      List.range 255 := by
  refine ⟨?_, fun tcp temp stack j hj => build_frame_frame tcp temp stack _ _ _ _ j hj,
    fun d k i buff length b L h j hj => data_loop_frame d k i buff length b L h j hj,
    fun n buf j h1 h2 => calc_crc_frame n buf j h1 h2, by decide⟩
  intro idx h
  unfold makeRequest_writes at h
  simp only [List.mem_append] at h
  have hlen := build_frame_length_le (decide (in_.commMode = seaio_mode_t.MODBUS_TCP))
    w.tcp_transaction w.stack slaveId funct start quan
  rcases h with (h | h) | h
  · have := build_frame_writes_lt _ _ _ idx h
    omega
  · have := data_loop_writes_lt _ _ (by omega) idx h
    omega
  · split at h
    · simp at h
    · rename_i b L heq
      have hL := data_loop_length_lt _ _ _ _ _ b L (by omega) heq
      split_ifs at h <;> simp at h <;> omega

set_option maxRecDepth 1000000 in
/-- C36, at its failing input: `SeaMaxLinRead` of 126 holding registers on a
serial session waits for `expected = 253` bytes, which passes the parameter
check `expected > 256` of `getResponse`; the first `read` is issued at offset
0 for 257 bytes, one more than `buffer[256]` holds, and when the device
delivers them the byte at index 256 is stored and the call returns `-ENOMEM`.
For every expected length, schedule and device, each `read` of the loop asks
for the bytes up to `expected + 4`: offset plus count is `expected + 4`, which
is at most 256 exactly when `expected` is at most 252. -/
theorem read_asks_past_buffer :
    read_expected 0x03 126 = 253 ∧ ¬ (253 > 256) ∧
    read_requests 253 [257] longReply 0 = [(0, 257)] ∧ ¬ (0 + 257 ≤ 256) ∧
    (read_loop 253 [257] longReply (fun _ => 0) 0).2.1 256 = 0xAB ∧
    (getResponse rtuSession (deviceSays longReply [257]) 0x03 (fun _ => 0) 253).1 = -ENOMEM ∧
    (∃ r, SeaMaxLinRead (some rtuSession) (deviceSays longReply [257]) 1
        seaio_type_t.HOLDINGREG 1 126 (some (fun _ => 0)) = some r ∧ r.ret = -ENOMEM ∧
      r.world.rx = []) ∧
    (∀ expected sched rx, ∀ q ∈ read_requests expected sched rx 0,
      q.1 + q.2 = expected + 4) ∧
    (∀ expected sched rx, (read_requests expected (257 :: sched) (longReply ++ rx) 0).head? =
      some (0, expected + 4)) := by
  refine ⟨by decide, by decide, by decide, by decide, by decide, by decide,
    ⟨_, rfl, by decide, by decide⟩, ?_, ?_⟩
  · intro expected sched rx q h
    exact (read_requests_sum expected sched rx 0 q h).1
  · intro expected sched rx
    simp [read_requests]

set_option maxRecDepth 1000000 in
/-- C39, at its failing input: a session opened with `sealevel_d2x://8126`
and opened again with the same string. On the fresh session the claim holds:
the session is unconnected while `openD2X` runs, both calls return -2 (as they
do on every unconnected session, for every host and array), only the bytes of
`I2C_InitializeI2C` are written, nothing is queued and the chip state is
`(0x03, 0xF3)`. The record left has `commMode = FTDI_DIRECT` and
`hDevice = -1`, so the second `SeaMaxLinOpen` closes nothing and `openD2X`
runs on a session in USB mode: both calls return 0 (as they do on this record
for every host), `SeaDacGetPIODirection` writes a command buffer of 332 bytes
and asks for 16 reply bytes, `SeaDacSetPIODirection` writes 258 bytes and asks
for 12, and the chip state ends as `(0x33, 0xF0)`. -/
theorem reopen_runs_direction_calls :
    (∀ (in_ : seaMaxModule) (m : Machine) (data : Buf),
      SeaDacGetPIODirection { in_ with commMode := seaio_mode_t.NO_CONNECT } m data =
        some (-2, m, data) ∧
      SeaDacSetPIODirection { in_ with commMode := seaio_mode_t.NO_CONNECT } m data =
        some (-2, m)) ∧
    SeaMaxLinOpen (SeaMaxLinCreate reopenHost) reopenHost (some (cstr "sealevel_d2x://8126")) =
      some (0, some pioSession, pioOpened) ∧
    written_lengths pioOpened.trace = [1, 3, 3, 1] ∧ reads_asked pioOpened.trace = [1] ∧
    pioOpened.byteIndex = 0 ∧
    pioSession.commMode = seaio_mode_t.FTDI_DIRECT ∧ pioSession.hDevice = -1 ∧
    (SeaMaxLinOpen (some pioSession) pioOpened (some (cstr "sealevel_d2x://8126"))).map
      (fun r => (r.1, r.2.1.map (fun s => s.commMode))) =
      some (0, some seaio_mode_t.FTDI_DIRECT) ∧
    (SeaMaxLinOpen (some pioSession) pioOpened (some (cstr "sealevel_d2x://8126"))).map
      (fun r => (written_lengths r.2.2.trace, reads_asked r.2.2.trace)) =
      some ([1, 3, 3, 1, 1, 3, 3, 1, 332, 258], [1, 1, 16, 12]) ∧
    (SeaMaxLinOpen (some pioSession) pioOpened (some (cstr "sealevel_d2x://8126"))).map
      (fun r => (r.2.2.i2cMPSSEValue, r.2.2.i2cMPSSEDirection, r.2.2.byteIndex)) =
      some (0x33, 0xF0, 258) ∧
    (∀ (m : Machine) (data : Buf),
      (∃ m1 out, SeaDacGetPIODirection pioSession m data = some (0, m1, out)) ∧
      (∃ m1, SeaDacSetPIODirection pioSession m data = some (0, m1))) := by
  refine ⟨fun in_ m data => ⟨rfl, rfl⟩, rfl, by decide, by decide, rfl, rfl, rfl, by decide,
    by decide, by decide, ?_⟩
  intro m data
  obtain ⟨out, h, -, -⟩ := getPIODirection_eq pioSession m data rfl rfl
  exact ⟨⟨_, out, h⟩, setPIODirection_eq pioSession m data rfl rfl⟩

/-- C40: on every session and every host with `ftdi_read_data` present and a
reply `r` of 48 bytes waiting. In USB mode with device type `0x8126`
`SeaDacGetPIO` queues the twelve reads `getpio_ops` (registers 6, 7 of the
devices `0xE8` and `0xEA`, then their registers 0, 1, then 2, 3), 12 slots and
48 expected reply bytes, returns 4 and sets, for `k < 4`,
`out[k] = (r[19+4k] & r[3+4k]) | (r[35+4k] & ~r[3+4k])`: bit `i` of `out[k]`
is bit `i` of the input byte `r[19+4k]` where bit `i` of the direction byte
`r[3+4k]` is 1 and bit `i` of the output byte `r[35+4k]` where it is 0; the
bytes of `out` from index 4 on are untouched. In USB mode with another device
type the result is -1, outside USB mode -2, and in both cases host and `out`
are untouched. -/
theorem get_pio_selects_by_direction (in_ : seaMaxModule) (m : Machine) (data : Buf)
    (r : List Nat) (rest : List (List Nat))
    (hread : m.dlsym in_.libftdi ftdi_symbol.ftdi_read_data = true)
    (hreply : m.replies = r :: rest) (hlen : r.length = 48) (hbytes : ∀ b ∈ r, b < 256) :
    (in_.commMode = seaio_mode_t.FTDI_DIRECT → in_.deviceType = 0x8126 →
      ∃ m1 out,
        SeaDacGetPIO in_ m data = some (4, m1, out) ∧
        (∀ k, k < 4 → out k =
          (r.getD (19 + 4 * k) 0 &&& r.getD (3 + 4 * k) 0) |||
          (r.getD (35 + 4 * k) 0 &&& (0xFF - r.getD (3 + 4 * k) 0))) ∧
        (∀ k i, k < 4 → i < 8 → (out k).testBit i =
          if (r.getD (3 + 4 * k) 0).testBit i then (r.getD (19 + 4 * k) 0).testBit i
          else (r.getD (35 + 4 * k) 0).testBit i) ∧
        (∀ j, 4 ≤ j → out j = data j) ∧
        (run_ops (I2C_InitializeQueue in_ m) getpio_ops).responseCount = 12 ∧
        (run_ops (I2C_InitializeQueue in_ m) getpio_ops).bytesToRead = r.length ∧
        Call.ftdi ftdi_symbol.ftdi_read_data [48] ∈ m1.trace) ∧
    getpio_ops =
      [Op.read 0xE8 6 0, Op.read 0xE8 7 1, Op.read 0xEA 6 2, Op.read 0xEA 7 3,
       Op.read 0xE8 0 4, Op.read 0xE8 1 5, Op.read 0xEA 0 6, Op.read 0xEA 1 7,
       Op.read 0xE8 2 8, Op.read 0xE8 3 9, Op.read 0xEA 2 10, Op.read 0xEA 3 11] ∧
    (in_.commMode = seaio_mode_t.FTDI_DIRECT → in_.deviceType ≠ 0x8126 →
      SeaDacGetPIO in_ m data = some (-1, m, data)) ∧
    (in_.commMode ≠ seaio_mode_t.FTDI_DIRECT →
      SeaDacGetPIO in_ m data = some (-2, m, data)) := by
  have hb : bridge_reply in_ m = r := by
    rw [bridge_reply, if_pos hread, hreply]
    rfl
  have hlt : ∀ j, r.getD j 0 < 256 := by
    intro j
    by_cases hj : j < r.length
    · rw [List.getD_eq_getElem _ _ hj]
      exact hbytes _ (List.getElem_mem _)
    · rw [List.getD_eq_default _ _ (by omega)]
      omega
  refine ⟨?_, rfl, ?_, ?_⟩
  · intro hmode htype
    obtain ⟨out, h1, h2, h3⟩ := getPIO_eq in_ m data hmode htype
    rw [hb] at h2
    obtain ⟨-, z2, z3⟩ := batch_sizes in_ m getpio_ops
    refine ⟨_, out, h1, h2, ?_, h3, z2, by rw [z3, hlen]; rfl, ?_⟩
    · intro k i hk hi
      rw [h2 k hk]
      exact select_bits _ _ _ i (hlt _) hi
    · rw [trace_batch, if_pos hread]
      simp [expected_replies, getpio_ops, reply_bytes]
  · intro hmode htype
    unfold SeaDacGetPIO
    rw [if_pos hmode, if_neg htype]
  · intro hmode
    unfold SeaDacGetPIO
    rw [if_neg hmode]

/-- C40 on the session of an open 8126 and the reply `pioReply`, whose
direction bytes are `0x0F`, input bytes `0xAA` and output bytes `0x55`: each
of the four bytes of `out` is `0x5A`, the low nibble of the input and the high
nibble of the output. -/
theorem get_pio_selects_by_direction_witness :
    ((pioHost [pioReply]).dlsym pioSession.libftdi ftdi_symbol.ftdi_read_data = true ∧
      (pioHost [pioReply]).replies = [pioReply] ∧ pioReply.length = 48 ∧
      ∀ b ∈ pioReply, b < 256) ∧
    ∃ m1 out,
      SeaDacGetPIO pioSession (pioHost [pioReply]) (fun _ => 0xEE) = some (4, m1, out) ∧
      out 0 = 0x5A ∧ out 1 = 0x5A ∧ out 2 = 0x5A ∧ out 3 = 0x5A ∧ out 4 = 0xEE := by
  refine ⟨⟨rfl, rfl, rfl, by decide⟩, ?_⟩
  obtain ⟨m1, out, h1, h2, -, h3, -⟩ :=
    (get_pio_selects_by_direction pioSession (pioHost [pioReply]) (fun _ => 0xEE) pioReply []
      rfl rfl rfl (by decide)).1 rfl rfl
  exact ⟨m1, out, h1, (h2 0 (by decide)).trans (by decide), (h2 1 (by decide)).trans (by decide),
    (h2 2 (by decide)).trans (by decide), (h2 3 (by decide)).trans (by decide),
    h3 4 (le_refl 4)⟩

/-- C38: on every session and host, for every list `cs` of calls of
`I2C_ReadRegister`, `I2C_WriteRegister` and `I2C_SetGPIO` made after
`I2C_InitializeQueue` whose bytes (83, 63 and 6 a call) fit the 4096 bytes of
`MPSSECommand`. The command buffer decodes from its first byte as a stream of
opcodes `0x80`, `0x82`, `0x13` with two operand bytes and `0x26` with one,
ending exactly at its last byte, and the opcodes `0x26` found are as many as
`bytesToRead`, which is 4 for each read and 3 for each write. The buffer has
the summed length, no byte from index 4096 on is stored, and the slots
recorded stay within the 255 entries of the tables. -/
theorem queue_decodes_to_reply_count (in_ : seaMaxModule) (m : Machine) (cs : List Queued)
    (hfit : (cs.map queued_bytes).sum ≤ MAXIMUM_COMMAND_BYTES) :
    decode_opcodes (queue (run_queued (I2C_InitializeQueue in_ m) cs)) =
      some (run_queued (I2C_InitializeQueue in_ m) cs).bytesToRead ∧
    (run_queued (I2C_InitializeQueue in_ m) cs).bytesToRead = (cs.map queued_replies).sum ∧
    (queue (run_queued (I2C_InitializeQueue in_ m) cs)).length = (cs.map queued_bytes).sum ∧
    (queue (run_queued (I2C_InitializeQueue in_ m) cs)).length ≤ MAXIMUM_COMMAND_BYTES ∧
    (∀ j, MAXIMUM_COMMAND_BYTES ≤ j →
      (run_queued (I2C_InitializeQueue in_ m) cs).MPSSECommand j = m.MPSSECommand j) ∧
    (run_queued (I2C_InitializeQueue in_ m) cs).responseCount ≤ MAXIMUM_COMMANDS := by
  obtain ⟨q1, q2, q3, q4, q5, -, -⟩ := queue_run_queued in_ m cs
  have hs := slots_le_bytes cs
  refine ⟨by rw [q1, q3], q3, by rw [queue_length, q2], by rw [queue_length, q2]; exact hfit,
    ?_, ?_⟩
  · intro j hj
    rw [q5 j (le_trans hfit hj), InitializeQueue_MPSSECommand]
  · rw [q4]
    have h : (cs.map queued_bytes).sum ≤ 4096 := hfit
    show (cs.map queued_slots).sum ≤ 255
    omega

/-- C38 at a concrete input: a read, a change of the second bank and a write
queued on an open 8126 session make a command buffer of 152 bytes that
decodes to 7 opcodes `0x26`; the decoder accepts no cut operand and no other
opcode. -/
theorem queue_decodes_to_reply_count_witness :
    decode_opcodes (queue (run_queued (I2C_InitializeQueue pioSession (pioHost []))
      [Queued.read 0xE8 6 0, Queued.gpio 0xFF 0xF0, Queued.write 0xEA 2 0x5A])) = some 7 ∧
    (queue (run_queued (I2C_InitializeQueue pioSession (pioHost []))
      [Queued.read 0xE8 6 0, Queued.gpio 0xFF 0xF0, Queued.write 0xEA 2 0x5A])).length = 152 ∧
    decode_opcodes [0x80, 0x03] = none ∧ decode_opcodes [0x81, 0, 0] = none ∧
    decode_opcodes [0x26] = none ∧ decode_opcodes [0x26, 0, 0x13, 1, 0x26] = some 1 :=
  ⟨(queue_decodes_to_reply_count pioSession (pioHost [])
      [Queued.read 0xE8 6 0, Queued.gpio 0xFF 0xF0, Queued.write 0xEA 2 0x5A]
      (by decide)).1.trans (congrArg some (queue_decodes_to_reply_count pioSession (pioHost [])
      [Queued.read 0xE8 6 0, Queued.gpio 0xFF 0xF0, Queued.write 0xEA 2 0x5A]
      (by decide)).2.1),
    (queue_decodes_to_reply_count pioSession (pioHost [])
      [Queued.read 0xE8 6 0, Queued.gpio 0xFF 0xF0, Queued.write 0xEA 2 0x5A]
      (by decide)).2.2.1, by decide, by decide, by decide, by decide⟩

/-- C32: on every USB session of an 8126, every host and every array `data`.
Each of `SeaDacGetPIO`, `SeaDacGetPIODirection`, `SeaDacSetPIO` and
`SeaDacSetPIODirection` is `I2C_InitializeQueue`, which resets byte index,
slot count and reply count to 0, then its list of queueing calls, then
`I2C_ExecuteQueue`. After every number `k` of these calls the command buffer
holds at most 4096 bytes, the slot tables at most 255 entries, the reply to
read into `MPSSECommand` has at most 4096 bytes and every recorded offset lies
inside it; the call made next changes `MPSSECommand` only at indices from the
old byte index up to the new one, below 4096, and the slot tables only at the
old slot count, below 255. The four queues end with 996, 332, 252 and 258
bytes, 12, 4, 0 and 0 slots, and 48, 16, 12 and 12 reply bytes. -/
theorem pio_queues_stay_in_range (in_ : seaMaxModule) (m : Machine) (data : Buf)
    (hmode : in_.commMode = seaio_mode_t.FTDI_DIRECT) (htype : in_.deviceType = 0x8126) :
    SeaDacGetPIO in_ m data =
      (I2C_ExecuteQueue in_ (run_queued (I2C_InitializeQueue in_ m) getpio_calls)
        (fun _ => 0)).map (fun r => (4, r.1, merge_loop r.2 4 0 data)) ∧
    SeaDacGetPIODirection in_ m data =
      (I2C_ExecuteQueue in_ (run_queued (I2C_InitializeQueue in_ m) getdir_calls) data).map
        (fun r => (0, r.1, r.2)) ∧
    SeaDacSetPIO in_ m data =
      (I2C_ExecuteQueue in_ (run_queued (I2C_InitializeQueue in_ m) (setpio_calls data))
        data).map (fun r => (0, r.1)) ∧
    SeaDacSetPIODirection in_ m data =
      (I2C_ExecuteQueue in_ (run_queued (I2C_InitializeQueue in_ m) (setdir_calls data))
        data).map (fun r => (0, r.1)) ∧
    ((I2C_InitializeQueue in_ m).byteIndex = 0 ∧ (I2C_InitializeQueue in_ m).responseCount = 0 ∧
      (I2C_InitializeQueue in_ m).bytesToRead = 0) ∧
    (∀ cs, cs ∈ [getpio_calls, getdir_calls, setpio_calls data, setdir_calls data] → ∀ k,
      queue_in_range (run_queued (I2C_InitializeQueue in_ m) (cs.take k)) ∧
      ∀ c, cs[k]? = some c →
        (∀ j,
          (apply_queued (run_queued (I2C_InitializeQueue in_ m) (cs.take k)) c).MPSSECommand j ≠
            (run_queued (I2C_InitializeQueue in_ m) (cs.take k)).MPSSECommand j →
          (run_queued (I2C_InitializeQueue in_ m) (cs.take k)).byteIndex ≤ j ∧
          j < (apply_queued (run_queued (I2C_InitializeQueue in_ m) (cs.take k)) c).byteIndex ∧
          j < MAXIMUM_COMMAND_BYTES) ∧
        (∀ j,
          (apply_queued (run_queued (I2C_InitializeQueue in_ m) (cs.take k)) c).responseOffsets j ≠
              (run_queued (I2C_InitializeQueue in_ m) (cs.take k)).responseOffsets j ∨
            (apply_queued (run_queued (I2C_InitializeQueue in_ m)
                (cs.take k)) c).variableCallbacks j ≠
              (run_queued (I2C_InitializeQueue in_ m) (cs.take k)).variableCallbacks j →
          j = (run_queued (I2C_InitializeQueue in_ m) (cs.take k)).responseCount ∧
          j < MAXIMUM_COMMANDS)) ∧
    [getpio_calls, getdir_calls, setpio_calls data, setdir_calls data].map
        (fun cs => ((run_queued (I2C_InitializeQueue in_ m) cs).byteIndex,
          (run_queued (I2C_InitializeQueue in_ m) cs).responseCount,
          (run_queued (I2C_InitializeQueue in_ m) cs).bytesToRead)) =
      [(996, 12, 48), (332, 4, 16), (252, 0, 12), (258, 0, 12)] := by
  obtain ⟨i1, i2, i3, -, -, -⟩ := InitializeQueue_fields in_ m
  refine ⟨getPIO_queued in_ m data hmode htype, getPIODirection_queued in_ m data hmode htype,
    setPIO_queued in_ m data hmode htype, setPIODirection_queued in_ m data hmode htype,
    ⟨i3, i2, i1⟩, ?_, ?_⟩
  · intro cs hcs k
    have hsz : (cs.map queued_bytes).sum ≤ 4096 ∧ (cs.map queued_slots).sum ≤ 255 ∧
        (cs.map queued_replies).sum ≤ 4096 := by
      simp only [List.mem_cons, List.mem_singleton, List.not_mem_nil, or_false] at hcs
      rcases hcs with rfl | rfl | rfl | rfl <;>
        exact ⟨Nat.le_of_ble_eq_true rfl, Nat.le_of_ble_eq_true rfl, Nat.le_of_ble_eq_true rfl⟩
    exact ⟨prefix_in_range in_ m cs k hsz.1 hsz.2.1 hsz.2.2,
      fun c hc => call_in_range in_ m cs k c hsz.1 hsz.2.1 hsz.2.2 hc⟩
  · obtain ⟨-, a2, a3, a4, -, -, -⟩ := queue_run_queued in_ m getpio_calls
    obtain ⟨-, b2, b3, b4, -, -, -⟩ := queue_run_queued in_ m getdir_calls
    obtain ⟨-, c2, c3, c4, -, -, -⟩ := queue_run_queued in_ m (setpio_calls data)
    obtain ⟨-, d2, d3, d4, -, -, -⟩ := queue_run_queued in_ m (setdir_calls data)
    simp only [List.map_cons, List.map_nil]
    rw [a2, a3, a4, b2, b3, b4, c2, c3, c4, d2, d3, d4]
    rfl

set_option maxRecDepth 1000000 in
/-- C32 at a concrete input: an open 8126 session, a host with nothing
waiting in the bridge, and the array `00 01 00 01`. After seven of the twelve
reads of `SeaDacGetPIO` the queue is in range, and so is the queue of
`SeaDacSetPIODirection` after all five of its calls: 258 bytes, no slot. -/
theorem pio_queues_stay_in_range_witness :
    queue_in_range (run_queued (I2C_InitializeQueue pioSession (pioHost []))
      (getpio_calls.take 7)) ∧
    queue_in_range (run_queued (I2C_InitializeQueue pioSession (pioHost []))
      ((setdir_calls (Buf.ofList [0, 1, 0, 1])).take 5)) ∧
    (run_queued (I2C_InitializeQueue pioSession (pioHost []))
      (setdir_calls (Buf.ofList [0, 1, 0, 1]))).byteIndex = 258 ∧
    (run_queued (I2C_InitializeQueue pioSession (pioHost [])) (getpio_calls.take 7)).byteIndex =
      581 :=
  ⟨((pio_queues_stay_in_range pioSession (pioHost []) (Buf.ofList [0, 1, 0, 1])
      rfl rfl).2.2.2.2.2.1 getpio_calls (by simp) 7).1,
    ((pio_queues_stay_in_range pioSession (pioHost []) (Buf.ofList [0, 1, 0, 1])
      rfl rfl).2.2.2.2.2.1 (setdir_calls (Buf.ofList [0, 1, 0, 1])) (by simp) 5).1,
    by decide, by decide⟩

set_option maxRecDepth 1000000 in
/-- C25, with its failing input. For every selector `which` in 1..8, every
session with the lock free and every environment, `SeaMaxLinIoctl` hands the
transport one frame with the function code
`f = [0x45,0x46,0x47,0x43,0x44,0x65,0x64,0x66][which-1]` right after the
slave, no start and quantity fields and a payload of 3 bytes for
`0x46`/`0x47`, 2 for `0x44`, 5 for `0x64` and none otherwise (then the CRC on
a serial session; the header with length `2 +` payload before it on TCP),
whatever the response is. On a serial session the call always returns, and
returns 0 on the response of the awaited length carrying `f`. On TCP, for a
response of `n >= 8` bytes carrying `f`: the call returns 0 when `f = 0x64`
or `n <= 40`; for every other `f` and `n > 40`, `getResponse` stores `n - 8`
bytes in the 32 bytes of `buffer` and the call has no result. The failing
input is `IOCTL_READ_COMM_PARAM` on a TCP session answered by 255 bytes with
the function code `0x45`: 247 bytes are stored in `buffer[32]`. -/
theorem long_reply_overruns_ioctl_buffer :
    (∀ (in_ : seaMaxModule) (w : World) (s : Nat) (which : IOCTL_t) (d : ioctl_data) (f : Nat)
        (payload : List Nat),
      in_.mutex = 0 → s < 256 → which ≠ IOCTL_t.IOCTL_GET_ADDA_EXT_CONFIG →
      f = [0x45, 0x46, 0x47, 0x43, 0x44, 0x65, 0x64, 0x66].getD (which.val - 1) 0 →
      payload = (ioctl_pack f d w.stack).toList (ioctl_payload_len f) →
      payload.length = ioctl_payload_len f ∧
      (in_.commMode = seaio_mode_t.MODBUS_RTU →
        (∃ r, SeaMaxLinIoctl (some in_) w s which (some d) = some r ∧
          r.world.sent = w.sent ++
            [[s, f] ++ payload ++
              [crc16 ([s, f] ++ payload) % 256, crc16 ([s, f] ++ payload) / 256]]) ∧
        (w.wres = [] → (∀ c ∈ w.sched, 0 < c) → ioctl_expected f + 4 ≤ w.sched.sum →
          ioctl_expected f + 4 ≤ w.rx.length → w.rx.getD 1 0 = f →
          ∃ r, SeaMaxLinIoctl (some in_) w s which (some d) = some r ∧ r.ret = 0)) ∧
      (in_.commMode = seaio_mode_t.MODBUS_TCP →
        (∃ ret in1 w1, makeRequest in_ w s f 0 0 (some (ioctl_pack f d w.stack)) =
            some (ret, in1, w1) ∧
          w1.sent = w.sent ++
            [[w.tcp_transaction / 256 % 256, w.tcp_transaction % 256, 0, 0, 0,
              2 + ioctl_payload_len f, s, f] ++ payload]) ∧
        (∀ r, SeaMaxLinIoctl (some in_) w s which (some d) = some r →
          r.world.sent = w.sent ++
            [[w.tcp_transaction / 256 % 256, w.tcp_transaction % 256, 0, 0, 0,
              2 + ioctl_payload_len f, s, f] ++ payload]) ∧
        (∀ c rest, w.wres = [] → w.sched = c :: rest → 8 ≤ min (min 255 c) w.rx.length →
          w.rx.getD 7 0 = f →
          (f = 0x64 ∨ min (min 255 c) w.rx.length ≤ 40 →
            ∃ r, SeaMaxLinIoctl (some in_) w s which (some d) = some r ∧ r.ret = 0) ∧
          (f ≠ 0x64 → 40 < min (min 255 c) w.rx.length →
            SeaMaxLinIoctl (some in_) w s which (some d) = none)))) ∧
    longIoctlReply.length = 255 ∧ longIoctlReply.getD 7 0 = 0x45 ∧
    (getResponse tcpSession (deviceSays longIoctlReply [255]) 0x45 (fun _ => 0) 5).1 = 247 ∧
    ¬ ((247 : Int) ≤ (ioctl_buffer_size : Int)) ∧
    SeaMaxLinIoctl (some tcpSession) (deviceSays longIoctlReply [255]) 1
      IOCTL_t.IOCTL_READ_COMM_PARAM (some default) = none ∧
    (SeaMaxLinIoctl (some tcpSession)
        (deviceSays [0, 0, 0, 0, 0, 7, 1, 0x45, 0x10, 0x4D, 3, 0, 0x5A] [13]) 1
        IOCTL_t.IOCTL_READ_COMM_PARAM (some default)).map (fun r => (r.ret, r.world.sent)) =
      some (0, [[0, 0, 0, 0, 0, 2, 1, 0x45]]) ∧
    (SeaMaxLinIoctl (some rtuSession)
        (deviceSays [0x05, 0x46, 0x09, 0x00, 0x5A, 0x00, 0x00] [7]) 5
        IOCTL_t.IOCTL_SET_ADDRESS
        (some { (default : ioctl_data) with
          ioctl := { (default : seaio_ioctl_s) with new_address := 9, magic_cookie := 0x5A } })).map
      (fun r => (r.ret, r.world.sent)) =
      some (0, [[0x05, 0x46, 0x09, 0x00, 0x5A, 0xAD, 0x71]]) := by
  refine ⟨?_, by decide, by decide, by decide, by decide, by rfl, by decide, by decide⟩
  intro in_ w s which d f payload hm hs hw hf hp
  have hf' : f = ioctl_funct.getD (which.val - 1) 0 := hf
  have hmem : f ∈ ioctl_funct := hf' ▸ ioctl_funct_cases which hw
  obtain ⟨hds, hfields⟩ := ioctl_frame_shape f hmem
  have hpl : payload.length = ioctl_payload_len f := by rw [hp, Buf.toList_length]
  have hpdu : request_pdu s f 0 0 (some (ioctl_pack f d w.stack)) = [s, f] ++ payload := by
    simp [request_pdu, hfields, hds, hp]
  have hexp : ioctl_expected f ≤ 16 := by
    unfold ioctl_expected
    split_ifs <;> omega
  have hlen7 : ioctl_payload_len f ≤ 5 := by
    unfold ioctl_payload_len
    split_ifs <;> omega
  refine ⟨hpl, ?_, ?_⟩
  · intro hc
    have hrtu := SeaMaxLinIoctl_rtu in_ w s which d f _ hm hc hs hw hf' rfl
    generalize hFdef : rtu_frame s f 0 0 (some (ioctl_pack f d w.stack)) = F at hrtu
    have hFeq : F = [s, f] ++ payload ++
        [crc16 ([s, f] ++ payload) % 256, crc16 ([s, f] ++ payload) / 256] := by
      rw [← hFdef]
      simp only [rtu_frame, hpdu]
    constructor
    · rw [hrtu]
      by_cases hwr : (sys_write w F).1 ≠ (F.length : Int)
      · rw [if_pos hwr]
        refine ⟨_, rfl, ?_⟩
        simp only
        rw [sys_write_sent, hFeq]
      · rw [if_neg hwr]
        refine ⟨_, rfl, ?_⟩
        simp only
        rw [(getResponse_sent _ _ _ _ _).1, sys_write_sent, hFeq]
    · intro hwres hpos hsum hrx hcode
      rw [hrtu]
      have hok := sys_write_ok w F hwres
      obtain ⟨h1, h2, h3, _⟩ := sys_write_rx w F
      have hno : ¬ ((sys_write w F).1 ≠ (F.length : Int)) := by simp [hok]
      rw [if_neg hno]
      obtain ⟨sched', hg⟩ := getResponse_rtu_ok in_ (sys_write w F).2 f (ioctl_pack f d w.stack)
        (ioctl_expected f) hc (by rw [h2]; exact hpos) (by rw [h2]; exact hsum)
        (by rw [h1]; exact hrx) (by omega)
      have hb : ((sys_write w F).2.stack.blit 0
          ((sys_write w F).2.rx.take (ioctl_expected f + 4))) 1 = f := by
        have := Buf.blit_apply_mid (sys_write w F).2.stack 0
          ((sys_write w F).2.rx.take (ioctl_expected f + 4)) 1
          (by rw [h1, List.length_take]; omega)
        simp only [Nat.zero_add] at this
        rw [this, h1, take_getD _ _ _ (by omega)]
        exact hcode
      have hnn := decode_response_ioctl in_ f (ioctl_pack f d w.stack) _ 1
        ((ioctl_expected f : Int) + 1) hmem hb (by omega)
      have hret : ¬ ((getResponse in_ (sys_write w F).2 f (ioctl_pack f d w.stack)
          (ioctl_expected f)).1 < 0) := by
        rw [hg]; simp only; omega
      refine ⟨_, rfl, ?_⟩
      simp only [hret, if_false]
  · intro hc
    have hc2 : in_.commMode ≠ seaio_mode_t.NO_CONNECT := by rw [hc]; decide
    have htcp := ioctl_request_tcp in_ w s f d _ _ hm hc rfl rfl
    have hreq := SeaMaxLinIoctl_request in_ w s which d hc2 hw
    rw [← hf'] at hreq
    have hds12 : request_dataSize f 0 ≤ 12 := by rw [hds]; omega
    have hfit : 6 + (request_pdu s f 0 0 (some (ioctl_pack f d w.stack))).length < 255 := by
      rw [hpdu]
      simp only [List.length_append, List.length_cons, List.length_nil, hpl]
      omega
    have hmr := makeRequest_tcp in_ w s f 0 0 (some (ioctl_pack f d w.stack)) hm hc
      (Or.inr rfl) (Or.inr hfit)
    generalize hFdef : tcp_frame w.tcp_transaction s f 0 0 (some (ioctl_pack f d w.stack)) = F
      at htcp hmr
    generalize hw1 : ({ w with tcp_transaction := w.tcp_transaction + 1 } : World) = w1
      at htcp hmr
    have hFeq : F = [w.tcp_transaction / 256 % 256, w.tcp_transaction % 256, 0, 0, 0,
        2 + ioctl_payload_len f, s, f] ++ payload := by
      rw [← hFdef]
      have e1 : (2 + ioctl_payload_len f) / 256 % 256 = 0 := by omega
      have e2 : (2 + ioctl_payload_len f) % 256 = 2 + ioctl_payload_len f := by omega
      simp only [tcp_frame, hpdu, List.length_append, List.length_cons, List.length_nil, hpl]
      have e3 : 0 + 1 + 1 + ioctl_payload_len f = 2 + ioctl_payload_len f := by omega
      rw [e3, e1, e2]
      simp
    have hsent1 : w1.sent = w.sent := by rw [← hw1]
    have hrx1 : w1.rx = w.rx := by rw [← hw1]
    have hsc1 : w1.sched = w.sched := by rw [← hw1]
    have hwres1 : w1.wres = w.wres := by rw [← hw1]
    refine ⟨⟨_, _, _, hmr, ?_⟩, ?_, ?_⟩
    · rw [sys_write_sent, hsent1, hFeq]
    · intro r hr
      rw [hreq, htcp] at hr
      by_cases hwr : (sys_write w1 F).1 ≠ (F.length : Int)
      · rw [if_pos hwr] at hr
        simp only [Option.map_some', Option.some.injEq] at hr
        rw [← hr]
        simp only
        rw [sys_write_sent, hsent1, hFeq]
      · rw [if_neg hwr] at hr
        by_cases hbig : (getResponse in_ (sys_write w1 F).2 f (ioctl_pack f d w.stack)
            (ioctl_expected f)).1 > (ioctl_buffer_size : Int)
        · rw [if_pos hbig] at hr
          simp at hr
        · rw [if_neg hbig] at hr
          simp only [Option.map_some', Option.some.injEq] at hr
          rw [← hr]
          simp only
          rw [(getResponse_sent _ _ _ _ _).1, sys_write_sent, hsent1, hFeq]
    · intro c rest hwres hsched hn hcode
      have hok := sys_write_ok w1 F (by rw [hwres1]; exact hwres)
      obtain ⟨h1, h2, h3, _⟩ := sys_write_rx w1 F
      have hno : ¬ ((sys_write w1 F).1 ≠ (F.length : Int)) := by simp [hok]
      have hg := getResponse_tcp_ok in_ (sys_write w1 F).2 f (ioctl_pack f d w.stack)
        (ioctl_expected f) c rest hc (by omega) (by rw [h2, hsc1]; exact hsched)
        (by rw [h1, hrx1]; omega)
      rw [h1, hrx1] at hg
      have hb : ((sys_write w1 F).2.stack.blit 0
          (w.rx.take (min (min 255 c) w.rx.length))) 7 = f := by
        have := Buf.blit_apply_mid (sys_write w1 F).2.stack 0
          (w.rx.take (min (min 255 c) w.rx.length)) 7
          (by rw [List.length_take]; omega)
        simp only [Nat.zero_add] at this
        rw [this, take_getD _ _ _ (by omega)]
        exact hcode
      have hval := decode_response_ioctl_eq in_ f (ioctl_pack f d w.stack) _ 7
        (((min (min 255 c) w.rx.length : Nat) : Int) - 7) hmem hb
      have hret : (getResponse in_ (sys_write w1 F).2 f (ioctl_pack f d w.stack)
          (ioctl_expected f)).1 =
          if f = 0x64 then 0 else ((min (min 255 c) w.rx.length : Nat) : Int) - 7 - 1 := by
        rw [hg]
        exact hval
      rw [hreq, htcp, if_neg hno]
      constructor
      · intro hfit2
        have hle : ¬ ((getResponse in_ (sys_write w1 F).2 f (ioctl_pack f d w.stack)
            (ioctl_expected f)).1 > (ioctl_buffer_size : Int)) := by
          rw [hret]
          simp only [ioctl_buffer_size]
          split_ifs with h64
          · omega
          · rcases hfit2 with h | h
            · exact absurd h h64
            · omega
        have hnn : ¬ ((getResponse in_ (sys_write w1 F).2 f (ioctl_pack f d w.stack)
            (ioctl_expected f)).1 < 0) := by
          rw [hret]
          split_ifs <;> omega
        rw [if_neg hle]
        refine ⟨_, rfl, ?_⟩
        simp only [hnn, if_false]
      · intro h64 hbig
        have hgt : (getResponse in_ (sys_write w1 F).2 f (ioctl_pack f d w.stack)
            (ioctl_expected f)).1 > (ioctl_buffer_size : Int) := by
          rw [hret, if_neg h64]
          simp only [ioctl_buffer_size]
          omega
        rw [if_pos hgt]
        rfl

/-- C13 as amended: for a request whose payload length `payload_len f q` fits
the one-byte count field (at most 255), on a serial (`off = 0`) or TCP
(`off = 6`) session, `makeRequest` returns `-EINVAL` and hands no bytes to the
transport exactly when header plus payload reach 255 bytes
(`off + 2 +` fields `+ payload_len f q ≥ 255`); in every other case the whole
frame, header, fields, that many payload bytes of the caller and on a serial
session the CRC, is handed to the transport, and the value returned is its
length when the transport reports it written whole and `-EBADF` otherwise.
The flag is clear after every one of these returns. -/
theorem makeRequest_overflow_rule (in_ : seaMaxModule) (w : World) (s f st q off : Nat)
    (data : Option Buf) (hm : in_.mutex = 0)
    (hmode : (in_.commMode = seaio_mode_t.MODBUS_RTU ∧ off = 0) ∨
      (in_.commMode = seaio_mode_t.MODBUS_TCP ∧ off = 6))
    (hs : s < 256) (hf : f < 256) (hcount : payload_len f q ≤ 255)
    (hd : ∀ j, j < payload_len f q → (data.getD (fun _ => 0)) j < 256)
    (hnull : payload_len f q = 0 ∨ data.isSome) :
    ∃ ret m w' frame, makeRequest in_ w s f st q data = some (ret, m, w') ∧
      m = in_ ∧ m.mutex = 0 ∧
      frame = (if off = 0 then rtu_frame s f st q data
        else tcp_frame w.tcp_transaction s f st q data) ∧
      request_pdu s f st q data =
        [s, f] ++ request_fields f st q ++ (data.getD (fun _ => 0)).toList (payload_len f q) ∧
      frame.length =
        off + 2 + (request_fields f st q).length + payload_len f q + (if off = 0 then 2 else 0) ∧
      ((ret = -EINVAL ∧ w'.sent = w.sent) ↔
        255 ≤ off + 2 + (request_fields f st q).length + payload_len f q) ∧
      (off + 2 + (request_fields f st q).length + payload_len f q < 255 →
        w'.sent = w.sent ++ [frame] ∧
        ret = if w.wres.headD (frame.length : Int) = (frame.length : Int)
          then (frame.length : Int) else -EBADF) := by
  have hds := request_dataSize_eq f q hcount
  rw [← hds] at hd hnull ⊢
  have hl := request_pdu_length s f st q data
  have hfl := request_fields_length_le f st q
  have hpdu : request_pdu s f st q data =
      [s, f] ++ request_fields f st q ++
        (data.getD (fun _ => 0)).toList (request_dataSize f q) := rfl
  by_cases hbig : 255 ≤ off + 2 + (request_fields f st q).length + request_dataSize f q
  · have hpos : 0 < request_dataSize f q := by rcases hmode with ⟨_, rfl⟩ | ⟨_, rfl⟩ <;> omega
    have hsome : data.isSome := by
      rcases hnull with h | h
      · omega
      · exact h
    rcases hmode with ⟨hc, rfl⟩ | ⟨hc, rfl⟩
    · rw [makeRequest_rtu_overflow in_ w s f st q data hm hc hsome hpos (by omega)]
      refine ⟨_, _, _, _, rfl, rfl, hm, rfl, hpdu, ?_, ?_, ?_⟩
      · simp only [if_true, rtu_frame_length, hl]
      · exact ⟨fun _ => hbig, fun _ => ⟨rfl, rfl⟩⟩
      · intro h; omega
    · rw [makeRequest_tcp_overflow in_ w s f st q data hm hc hsome hpos (by omega)]
      refine ⟨_, _, _, _, rfl, rfl, hm, rfl, hpdu, ?_, ?_, ?_⟩
      · have e : ¬ (6 = 0) := by omega
        simp only [e, if_false, tcp_frame_length, hl]
        omega
      · exact ⟨fun _ => hbig, fun _ => ⟨rfl, rfl⟩⟩
      · intro h; omega
  · rcases hmode with ⟨hc, rfl⟩ | ⟨hc, rfl⟩
    · rw [makeRequest_rtu in_ w s f st q data hm hc hs hf hd hnull (Or.inr (by omega))]
      refine ⟨_, _, _, _, rfl, rfl, hm, rfl, hpdu, ?_, ?_, ?_⟩
      · simp only [if_true, rtu_frame_length, hl]
      · constructor
        · rintro ⟨_, h2⟩
          rw [sys_write_sent] at h2
          simp at h2
        · intro h; omega
      · intro _
        refine ⟨by simp [sys_write_sent], ?_⟩
        simp only [if_true, sys_write_fst, ne_eq, ite_not]
    · rw [makeRequest_tcp in_ w s f st q data hm hc hnull (Or.inr (by omega))]
      refine ⟨_, _, _, _, rfl, rfl, hm, rfl, hpdu, ?_, ?_, ?_⟩
      · have e : ¬ (6 = 0) := by omega
        simp only [e, if_false, tcp_frame_length, hl]
        omega
      · constructor
        · rintro ⟨_, h2⟩
          rw [sys_write_sent] at h2
          simp at h2
        · intro h; omega
      · intro _
        refine ⟨by simp [sys_write_sent], ?_⟩
        simp only [sys_write_fst, ne_eq, ite_not]
        simp

set_option maxRecDepth 100000 in
/-- C13 as amended, at the edge of the rule, on a serial session: a write of
124 registers has a header of 7 bytes and 248 payload bytes, 255 in all, and
is rejected with `-EINVAL`, nothing sent; a write of 123 registers, 253 bytes
in all, is sent as one frame of 255 bytes and 255 is returned. -/
theorem makeRequest_overflow_rule_witness :
    (payload_len 0x10 124 ≤ 255 ∧ 255 ≤ 0 + 2 + (request_fields 0x10 0 124).length +
      payload_len 0x10 124) ∧
    (∃ m w', makeRequest rtuSession (deviceSays [] []) 1 0x10 0 124 (some (fun _ => 0xAB)) =
        some (-EINVAL, m, w') ∧ w'.sent = []) ∧
    (payload_len 0x10 123 ≤ 255 ∧
      0 + 2 + (request_fields 0x10 0 123).length + payload_len 0x10 123 < 255) ∧
    (∃ m w' F, makeRequest rtuSession (deviceSays [] []) 1 0x10 0 123 (some (fun _ => 0xAB)) =
        some (255, m, w') ∧ w'.sent = [F] ∧ F.length = 255 ∧
      F.take 8 = [1, 0x10, 0, 0, 0, 123, 246, 0xAB]) := by
  refine ⟨⟨by decide, by decide⟩, ?_, ⟨by decide, by decide⟩, ?_⟩
  · obtain ⟨ret, m, w', frame, h1, _, _, _, _, _, h7, _⟩ :=
      makeRequest_overflow_rule rtuSession (deviceSays [] []) 1 0x10 0 124 0
        (some (fun _ => 0xAB)) rfl (Or.inl ⟨rfl, rfl⟩) (by decide) (by decide) (by decide)
        (fun j _ => by show (0xAB : Nat) < 256; decide) (Or.inr rfl)
    obtain ⟨hret, hsent⟩ := h7.2 (by decide)
    exact ⟨m, w', by rw [h1, hret], hsent⟩
  · obtain ⟨ret, m, w', frame, h1, _, _, h4, h5, h6, _, h8⟩ :=
      makeRequest_overflow_rule rtuSession (deviceSays [] []) 1 0x10 0 123 0
        (some (fun _ => 0xAB)) rfl (Or.inl ⟨rfl, rfl⟩) (by decide) (by decide) (by decide)
        (fun j _ => by show (0xAB : Nat) < 256; decide) (Or.inr rfl)
    obtain ⟨hsent, hret⟩ := h8 (by decide)
    have hlen : frame.length = 255 := by
      rw [h6]
      decide
    have hhead : frame.take 8 = [1, 0x10, 0, 0, 0, 123, 246, 0xAB] := by
      rw [h4, if_pos rfl, rtu_frame, h5]
      decide
    refine ⟨m, w', frame, ?_, hsent, hlen, hhead⟩
    rw [h1, hret, hlen]
    rfl

end SeaMax
